import Mathlib

/-!
# csi-volume-group-operator: membership reconciliation

A shallow embedding of the reconciliation helpers of the CSI volume group
operator (`controllers/utils/*.go`, the PersistentVolumeClaim reconciler and
the VolumeGroup reconciler) together with theorems about claim admission,
the in-memory revert of `pvcList`, finalizer handling, the PVC gate, the
driver-filtered group list and the lifecycle of a group (dynamic creation,
static binding, deletion) with the RPCs each step may issue.

Go pointers to objects become explicit state passing: a function that
mutates `*vg` or `*pvc` returns the updated value next to its error. The
object store and the driver are an explicit `World`; every call that can fail
for reasons outside the program consumes one entry of `World.faults`.
-/

set_option autoImplicit false

namespace CSIVolumeGroup

/-! ## Errors -/

/-- Go `error` values that the embedded code produces or receives. -/
inductive Err where
  | NotFound (what : String)
  | Conflict
  | Unavailable (msg : String)
  /-- A Go panic on dereferencing a nil pointer. It unwinds the whole reconcile, so nothing that
  the code does on an ordinary error (status write, event) happens after it; the embedding
  propagates it as an error value that the error handlers pass through untouched. -/
  | NilPointerDereference
  | Wrapped (context : String) (cause : Err)
  | PersistentVolumeClaimIsAlreadyBelongToGroup (pvcNamespace pvcName : String)
      (newVGsForPVC vgsWithPVC : List String)
  | PersistentVolumeClaimMatchedWithMultipleNewGroups (pvcNamespace pvcName : String)
      (newVGsForPVC : List String)
  | StorageClassHasVGParameter (storageClassName pvcNamespace pvcName : String)
  | FailedToGetStorageClassName (pvcName : String)
  | InvalidLabelSelector (operator : String)
  | CorruptedVolumeGroup
  | InvalidParameter (key : String)
  deriving DecidableEq, Repr

/-- Whether an error is, or wraps, a resource-version conflict. -/
def Err.isConflict : Err → Bool
  | Err.Conflict => true
  | Err.Wrapped _ cause => cause.isConflict
  | _ => false

/-- Whether an error is, or wraps, a not-found error. -/
def Err.isNotFound : Err → Bool
  | Err.NotFound _ => true
  | Err.Wrapped _ cause => cause.isNotFound
  | _ => false

/-- Counterpart of `apierrors.IsConflict`; it is false on a nil error. -/
def IsConflict : Option Err → Bool
  | some err => err.isConflict
  | none => false

/-- Counterpart of `apierrors.IsNotFound`; it is false on a nil error. -/
def IsNotFound : Option Err → Bool
  | some err => err.isNotFound
  | none => false

/-- Text of an error, as `err.Error()` or the gRPC status message. The message formats of
`pkg/messages` are outside the listed sources; the texts here only stand for them. -/
def Err.Error : Err → String
  | Err.NotFound what => what ++ " not found"
  | Err.Conflict => "the object has been modified"
  | Err.Unavailable msg => msg
  | Err.NilPointerDereference => "nil pointer dereference"
  | Err.Wrapped context cause => context ++ " " ++ cause.Error
  | Err.PersistentVolumeClaimIsAlreadyBelongToGroup ns name newVGs vgs =>
      ns ++ "/" ++ name ++ " matches " ++ toString newVGs ++ " but already belongs to " ++ toString vgs
  | Err.PersistentVolumeClaimMatchedWithMultipleNewGroups ns name newVGs =>
      ns ++ "/" ++ name ++ " matched multiple groups " ++ toString newVGs
  | Err.StorageClassHasVGParameter sc ns name =>
      "storage class " ++ sc ++ " of " ++ ns ++ "/" ++ name ++ " has the volume group parameter"
  | Err.FailedToGetStorageClassName name => "no storage class name for " ++ name
  | Err.InvalidLabelSelector op => "invalid label selector operator " ++ op
  | Err.CorruptedVolumeGroup => "Corrupted volumeGroup object, it is missing UID"
  | Err.InvalidParameter key => "invalid parameter " ++ key

/-- Counterpart of `GetMessageFromError` (controller_utils.go). -/
def GetMessageFromError (err : Err) : String := err.Error

/-! ## Data model -/

/-- One `matchExpressions` entry of a label selector. -/
structure LabelSelectorRequirement where
  Key : String := ""
  Operator : String := ""
  Values : List String := []
  deriving DecidableEq, Repr

/-- Counterpart of `metav1.LabelSelector`. -/
structure LabelSelector where
  MatchLabels : List (String × String) := []
  MatchExpressions : List LabelSelectorRequirement := []
  deriving DecidableEq, Repr

/-- Counterpart of `corev1.PersistentVolumeClaimSpec`, the fields the controller reads. -/
structure PersistentVolumeClaimSpec where
  StorageClassName : Option String := none
  VolumeName : String := ""
  deriving DecidableEq, Repr

/-- Counterpart of `corev1.PersistentVolumeClaimStatus`. -/
structure PersistentVolumeClaimStatus where
  Phase : String := ""
  deriving DecidableEq, Repr

/-- Counterpart of `corev1.PersistentVolumeClaim`; the `ObjectMeta` fields are inlined. -/
structure PersistentVolumeClaim where
  Name : String := ""
  Namespace : String := ""
  Labels : List (String × String) := []
  Annotations : List (String × String) := []
  Finalizers : List String := []
  Spec : PersistentVolumeClaimSpec := {}
  Status : PersistentVolumeClaimStatus := {}
  deriving DecidableEq, Repr

/-- Counterpart of `corev1.PersistentVolume`: name and `Spec.CSI.VolumeHandle`. -/
structure PersistentVolume where
  Name : String := ""
  VolumeHandle : String := ""
  deriving DecidableEq, Repr

/-- Counterpart of `storagev1.StorageClass`. -/
structure StorageClass where
  Name : String := ""
  Provisioner : String := ""
  Parameters : List (String × String) := []
  deriving DecidableEq, Repr

/-- Counterpart of `volumegroupv1.VolumeGroupClass`. -/
structure VolumeGroupClass where
  Name : String := ""
  Driver : String := ""
  Parameters : List (String × String) := []
  deriving DecidableEq, Repr

/-- Counterpart of `volumegroupv1.VolumeGroupSource`. The selector is a pointer in the source
that `IsPVCMatchesVG` dereferences unconditionally; it is kept as the pointed-to value. -/
structure VolumeGroupSource where
  Selector : LabelSelector := {}
  VolumeGroupContentName : Option String := none
  deriving DecidableEq, Repr

/-- Counterpart of `volumegroupv1.VolumeGroupSpec`. -/
structure VolumeGroupSpec where
  VolumeGroupClassName : String := ""
  Source : VolumeGroupSource := {}
  deriving DecidableEq, Repr

/-- Counterpart of `volumegroupv1.VolumeGroupStatus`. -/
structure VolumeGroupStatus where
  BoundVolumeGroupContentName : Option String := none
  GroupCreationTime : Option Nat := none
  Ready : Option Bool := none
  Error : Option String := none
  PVCList : List PersistentVolumeClaim := []
  deriving DecidableEq, Repr

/-- Counterpart of `volumegroupv1.VolumeGroup`; the `ObjectMeta` fields are inlined. -/
structure VolumeGroup where
  Name : String := ""
  Namespace : String := ""
  UID : String := ""
  Finalizers : List String := []
  DeletionTimestamp : Option Nat := none
  Spec : VolumeGroupSpec := {}
  Status : VolumeGroupStatus := {}
  deriving DecidableEq, Repr

/-- Counterpart of `volumegroupv1.VolumeGroupContent`, with the `Spec` and `Status` fields the
controller touches inlined: the back-reference to the group, the class name, the driver, the
handle, the secret reference and the volume list (spec 3), then the status. -/
structure VolumeGroupContent where
  Name : String := ""
  Finalizers : List String := []
  VolumeGroupClassName : String := ""
  VolumeGroupHandle : String := ""
  VolumeGroupRefName : String := ""
  VolumeGroupRefNamespace : String := ""
  VolumeGroupRefUID : String := ""
  Driver : String := ""
  SecretName : String := ""
  SecretNamespace : String := ""
  PVList : List PersistentVolume := []
  Ready : Option Bool := none
  GroupCreationTime : Option Nat := none
  Error : Option String := none
  deriving DecidableEq, Repr

/-- Counterpart of `corev1.Secret`: its key and its data. -/
structure Secret where
  Name : String := ""
  Namespace : String := ""
  Data : List (String × String) := []
  deriving DecidableEq, Repr

/-- Counterpart of `config.DriverConfig`. -/
structure DriverConfig where
  DriverName : String := ""
  MultipleVGsToPVC : String := ""
  deriving DecidableEq, Repr

/-! ## Constants -/

/-- Modelled from the spec: the finalizer token placed on VolumeGroup objects (spec, section 6);
its declaration is outside the listed sources. -/
def VolumeGroupFinalizer : String := "volumegroup.storage.ibm.io/vg-protection"

/-- Modelled from the spec: the finalizer token placed on VolumeGroupContent objects (spec,
section 6); its declaration is outside the listed sources. -/
def volumeGroupContentFinalizer : String := "volumegroup.storage.ibm.io/vg-protection"

/-- Modelled from the spec: the finalizer token placed on claims (spec, section 6); its
declaration is outside the listed sources. -/
def pvcVolumeGroupFinalizer : String := "volumegroup.storage.ibm.io/pvc-protection"

/-- Modelled from the spec: the reserved storage-class parameter name (spec, section 6); its
declaration is outside the listed sources. -/
def storageClassVGParameter : String := "volume_group"

/-- Counterpart of `corev1.ClaimBound`. -/
def ClaimBound : String := "Bound"

/-- Event reason used while adding a claim; the text is declared outside the listed sources. -/
def addingPVC : String := "addingPVC"

/-- Event reason used while removing a claim; the text is declared outside the listed sources. -/
def removingPVC : String := "removingPVC"

/-! ## Pure list helpers (`controllers/utils/volumegroup.go`) -/

/-- The loop test shared by `IsPVCPartOfVG`, `appendPVC` and `removeFromPVCList`:
`pvcFromList.Name == pvc.Name && pvcFromList.Namespace == pvc.Namespace`. -/
def sameClaim (pvc pvcFromList : PersistentVolumeClaim) : Bool :=
  pvcFromList.Name == pvc.Name && pvcFromList.Namespace == pvc.Namespace

/-- Embedding of `IsPVCPartOfVG`. -/
def IsPVCPartOfVG (pvc : PersistentVolumeClaim) : List PersistentVolumeClaim → Bool
  | [] => false
  | pvcFromList :: rest =>
    if pvcFromList.Name == pvc.Name && pvcFromList.Namespace == pvc.Namespace then true
    else IsPVCPartOfVG pvc rest

/-- Embedding of `IsPVCPartAnyVG`. -/
def IsPVCPartAnyVG (pvc : PersistentVolumeClaim) : List VolumeGroup → Bool
  | [] => false
  | vg :: rest => if IsPVCPartOfVG pvc vg.Status.PVCList then true else IsPVCPartAnyVG pvc rest

/-- Embedding of `appendPVC`: the list is returned as is when an entry with the claim's name and
namespace is found, otherwise the claim is appended. -/
def appendPVC (pvcListInVG : List PersistentVolumeClaim) (pvc : PersistentVolumeClaim) :
    List PersistentVolumeClaim :=
  if pvcListInVG.any (sameClaim pvc) then pvcListInVG else pvcListInVG ++ [pvc]

/-- Embedding of `appendMultiplePVCs`. -/
def appendMultiplePVCs (pvcListInVG pvcs : List PersistentVolumeClaim) :
    List PersistentVolumeClaim :=
  pvcs.foldl appendPVC pvcListInVG

/-- Type of `removeByIndexFromPVCList`, which is declared outside the listed sources and is
therefore a parameter of everything that removes a claim. -/
abbrev RemoveByIndex := List PersistentVolumeClaim → Nat → List PersistentVolumeClaim

/-- What is assumed of `removeByIndexFromPVCList` where it matters: removing the entry at an
index leaves the entries before it in place and keeps exactly the entries after it, in some
order. Both an order-preserving removal and a swap-with-last removal satisfy this. -/
def RemovesIndex (rm : RemoveByIndex) : Prop :=
  ∀ (before : List PersistentVolumeClaim) (x : PersistentVolumeClaim)
    (after : List PersistentVolumeClaim),
    ∃ rest, rm (before ++ x :: after) before.length = before ++ rest ∧ rest.Perm after

/-- Order-preserving removal at an index. -/
def removeKeepingOrder : RemoveByIndex := fun l i => l.eraseIdx i

/-- Removal at an index that moves the last entry into the freed slot. -/
def removeSwappingLast : RemoveByIndex := fun l i =>
  match l.getLast? with
  | some last => (l.set i last).dropLast
  | none => l

/-- Embedding of `removeFromPVCList`: the first entry with the claim's name and namespace is
removed through `removeByIndexFromPVCList`. -/
def removeFromPVCList (removeByIndexFromPVCList : RemoveByIndex) (pvc : PersistentVolumeClaim)
    (pvcList : List PersistentVolumeClaim) : List PersistentVolumeClaim :=
  match pvcList.findIdx? (sameClaim pvc) with
  | some index => removeByIndexFromPVCList pvcList index
  | none => pvcList

/-- Embedding of `removeMultiplePVCs`. -/
def removeMultiplePVCs (removeByIndexFromPVCList : RemoveByIndex)
    (pvcList pvcs : List PersistentVolumeClaim) : List PersistentVolumeClaim :=
  pvcs.foldl (fun pvcList pvc => removeFromPVCList removeByIndexFromPVCList pvc pvcList) pvcList

/-- Modelled from the spec: `Contains` (declared outside the listed sources) tests whether a
finalizer token is in the finalizer sequence (spec 4.2, finalizers are set operations). -/
def Contains (list : List String) (s : String) : Bool := list.contains s

/-- Modelled from the spec: `remove` (declared outside the listed sources) removes a finalizer
token from the finalizer sequence, as an idempotent set operation (spec 4.2). -/
def remove (list : List String) (s : String) : List String := list.filter (fun v => v != s)

/-! ## Label selectors -/

/-- Value of a label key in a label map. -/
def labelValue (labels : List (String × String)) (key : String) : Option String :=
  (labels.find? (fun kv => kv.1 == key)).map (fun kv => kv.2)

/-- Modelled from the spec: one `matchExpressions` requirement with the operators In, NotIn,
Exists and DoesNotExist (spec 4.3); any other operator is an error. -/
def requirementMatches (labels : List (String × String)) (r : LabelSelectorRequirement) :
    Except Err Bool :=
  if r.Operator == "In" then
    .ok (match labelValue labels r.Key with
      | some v => r.Values.contains v
      | none => false)
  else if r.Operator == "NotIn" then
    .ok (match labelValue labels r.Key with
      | some v => !r.Values.contains v
      | none => true)
  else if r.Operator == "Exists" then .ok (labelValue labels r.Key).isSome
  else if r.Operator == "DoesNotExist" then .ok (labelValue labels r.Key).isNone
  else .error (Err.InvalidLabelSelector r.Operator)

/-- Modelled from the spec: `areLabelsMatchLabelSelector` is declared outside the listed sources.
Per spec 4.3 and section 8 the labels satisfy the selector when every `matchLabels` pair is
present and every `matchExpressions` requirement holds; an empty selector matches no claim. -/
def areLabelsMatchLabelSelector (labelsToCheck : List (String × String))
    (labelSelector : LabelSelector) : Bool × Option Err :=
  match labelSelector.MatchExpressions.mapM (requirementMatches labelsToCheck) with
  | .error err => (false, some err)
  | .ok results =>
    if labelSelector.MatchLabels.isEmpty && labelSelector.MatchExpressions.isEmpty then
      (false, none)
    else
      (labelSelector.MatchLabels.all (fun kv => labelValue labelsToCheck kv.1 == some kv.2)
        && results.all id, none)

/-- Embedding of `IsPVCMatchesVG`. -/
def IsPVCMatchesVG (pvc : PersistentVolumeClaim) (vg : VolumeGroup) : Bool × Option Err :=
  match areLabelsMatchLabelSelector pvc.Labels vg.Spec.Source.Selector with
  | (areLabelsMatchLabelSelector, err) =>
    if areLabelsMatchLabelSelector then (true, err) else (false, err)

/-! ## Claim admission (`controllers/utils/persistentvolumeclaim.go`) -/

/-- Embedding of `checkIfPVCCanBeAddedToVG`. -/
def checkIfPVCCanBeAddedToVG (pvc : PersistentVolumeClaim)
    (vgsWithPVC newVGsForPVC : List String) : Option Err :=
  if vgsWithPVC.length > 0 && newVGsForPVC.length > 0 then
    some (Err.PersistentVolumeClaimIsAlreadyBelongToGroup pvc.Namespace pvc.Name
      newVGsForPVC vgsWithPVC)
  else if newVGsForPVC.length > 1 then
    some (Err.PersistentVolumeClaimMatchedWithMultipleNewGroups pvc.Namespace pvc.Name
      newVGsForPVC)
  else none

/-- The loop of `IsPVCCanBeAddedToVG`, collecting the names of the groups that record the claim
and of the groups that do not record it and match it. -/
def collectVGsForPVC (pvc : PersistentVolumeClaim) :
    List VolumeGroup → List String → List String → List String × List String
  | [], vgsWithPVC, newVGsForPVC => (vgsWithPVC, newVGsForPVC)
  | vg :: rest, vgsWithPVC, newVGsForPVC =>
    if IsPVCPartOfVG pvc vg.Status.PVCList then
      collectVGsForPVC pvc rest (vgsWithPVC ++ [vg.Name]) newVGsForPVC
    else if (IsPVCMatchesVG pvc vg).1 then
      collectVGsForPVC pvc rest vgsWithPVC (newVGsForPVC ++ [vg.Name])
    else collectVGsForPVC pvc rest vgsWithPVC newVGsForPVC

/-- Embedding of `IsPVCCanBeAddedToVG`. -/
def IsPVCCanBeAddedToVG (pvc : PersistentVolumeClaim) (vgs : List VolumeGroup) : Option Err :=
  match collectVGsForPVC pvc vgs [] [] with
  | (vgsWithPVC, newVGsForPVC) => checkIfPVCCanBeAddedToVG pvc vgsWithPVC newVGsForPVC

/-! ## The object store, the driver and injected failures -/

/-- Outcome that the environment imposes on the next external call. -/
inductive Fault where
  | none
  | conflict
  | unavailable (msg : String)
  deriving DecidableEq, Repr

/-- The error a fault surfaces as. -/
def Fault.toErr : Fault → Option Err
  | Fault.none => Option.none
  | Fault.conflict => some Err.Conflict
  | Fault.unavailable msg => some (Err.Unavailable msg)

/-- The driver RPCs of the CSI volume group service (spec 4.1). -/
inductive RPC where
  | CreateVolumeGroup (name : String)
  | ModifyVolumeGroup (volumeGroupID : String) (volumeIds : List String)
  | DeleteVolumeGroup (volumeGroupID : String)
  deriving DecidableEq, Repr

/-- One issued RPC with its outcome. -/
structure RPCRecord where
  call : RPC
  error : Option Err := none
  deriving DecidableEq, Repr

/-- An event recorded on an object. -/
structure Event where
  kind : String := ""
  objectNamespace : String := ""
  objectName : String := ""
  eventType : String := ""
  reason : String := ""
  message : String := ""
  deriving DecidableEq, Repr

/-- Everything outside the reconciler: the objects in the store, the log of driver RPCs, the
recorded events, and the outcomes of the upcoming external calls (`faults`; once exhausted every
call succeeds). -/
structure World where
  VolumeGroups : List VolumeGroup := []
  PersistentVolumeClaims : List PersistentVolumeClaim := []
  PersistentVolumes : List PersistentVolume := []
  StorageClasses : List StorageClass := []
  VolumeGroupClasses : List VolumeGroupClass := []
  VolumeGroupContents : List VolumeGroupContent := []
  Secrets : List Secret := []
  rpcs : List RPCRecord := []
  events : List Event := []
  faults : List Fault := []
  deriving DecidableEq, Repr

/-- Consume the outcome of the next external call. -/
def nextFault (w : World) : World × Option Err :=
  match w.faults with
  | [] => (w, none)
  | fault :: rest => ({ w with faults := rest }, fault.toErr)

/-- Counterpart of `client.Object` for the kinds the controller reads and writes by key.
`write` is the effect of a successful `client.Update` (everything but the status) and
`writeStatus` that of a successful `client.Status().Update` (the status only), as in spec 4.2. -/
class Object (α : Type) where
  GetKind : String
  GetName : α → String
  GetNamespace : α → String
  SetFinalizers : α → List String → α
  stored : World → String → String → Option α
  write : World → α → World
  writeStatus : World → α → World

instance : Object VolumeGroup where
  GetKind := "VolumeGroup"
  GetName vg := vg.Name
  GetNamespace vg := vg.Namespace
  SetFinalizers vg finalizers := { vg with Finalizers := finalizers }
  stored w ns name := w.VolumeGroups.find? (fun g => g.Namespace == ns && g.Name == name)
  write w vg := { w with VolumeGroups := w.VolumeGroups.map (fun g =>
    if g.Namespace == vg.Namespace && g.Name == vg.Name then { vg with Status := g.Status }
    else g) }
  writeStatus w vg := { w with VolumeGroups := w.VolumeGroups.map (fun g =>
    if g.Namespace == vg.Namespace && g.Name == vg.Name then { g with Status := vg.Status }
    else g) }

instance : Object PersistentVolumeClaim where
  GetKind := "PersistentVolumeClaim"
  GetName pvc := pvc.Name
  GetNamespace pvc := pvc.Namespace
  SetFinalizers pvc finalizers := { pvc with Finalizers := finalizers }
  stored w ns name := w.PersistentVolumeClaims.find? (fun p => p.Namespace == ns && p.Name == name)
  write w pvc := { w with PersistentVolumeClaims := w.PersistentVolumeClaims.map (fun p =>
    if p.Namespace == pvc.Namespace && p.Name == pvc.Name then { pvc with Status := p.Status }
    else p) }
  writeStatus w pvc := { w with PersistentVolumeClaims := w.PersistentVolumeClaims.map (fun p =>
    if p.Namespace == pvc.Namespace && p.Name == pvc.Name then { p with Status := pvc.Status }
    else p) }

instance : Object VolumeGroupContent where
  GetKind := "VolumeGroupContent"
  GetName vgc := vgc.Name
  GetNamespace _ := ""
  SetFinalizers vgc finalizers := { vgc with Finalizers := finalizers }
  stored w _ name := w.VolumeGroupContents.find? (fun c => c.Name == name)
  write w vgc := { w with VolumeGroupContents := w.VolumeGroupContents.map (fun c =>
    if c.Name == vgc.Name then
      { vgc with Ready := c.Ready, GroupCreationTime := c.GroupCreationTime, Error := c.Error }
    else c) }
  writeStatus w vgc := { w with VolumeGroupContents := w.VolumeGroupContents.map (fun c =>
    if c.Name == vgc.Name then
      { c with Ready := vgc.Ready, GroupCreationTime := vgc.GroupCreationTime, Error := vgc.Error }
    else c) }

/-- Modelled from the spec: `client.Get` of the object store (spec 4.2, `Get(key)` yields the
object, NotFound or an error). -/
def clientGet {α : Type} [Object α] (w : World) (ns name : String) : World × Except Err α :=
  match nextFault w with
  | (w, some err) => (w, .error err)
  | (w, none) =>
    match (Object.stored w ns name : Option α) with
    | some obj => (w, .ok obj)
    | none => (w, .error (Err.NotFound name))

/-- Modelled from the spec: `client.Update` of the object store (spec 4.2); it fails with a
conflict or another error when the environment says so, and with NotFound when the object is not
stored. -/
def clientUpdate {α : Type} [Object α] (w : World) (obj : α) : World × Option Err :=
  match nextFault w with
  | (w, some err) => (w, some err)
  | (w, none) =>
    match (Object.stored w (Object.GetNamespace obj) (Object.GetName obj) : Option α) with
    | some _ => (Object.write w obj, none)
    | none => (w, some (Err.NotFound (Object.GetName obj)))

/-- Modelled from the spec: `client.Status().Update` of the object store (spec 4.2). -/
def clientStatusUpdate {α : Type} [Object α] (w : World) (obj : α) : World × Option Err :=
  match nextFault w with
  | (w, some err) => (w, some err)
  | (w, none) =>
    match (Object.stored w (Object.GetNamespace obj) (Object.GetName obj) : Option α) with
    | some _ => (Object.writeStatus w obj, none)
    | none => (w, some (Err.NotFound (Object.GetName obj)))

/-- Modelled from the spec: `retry.RetryOnConflict` of the client library (spec 4.2, bounded
refetch and retry): the body runs again while it reports a conflict, at most `steps` times in
all, and the last error is returned. -/
def RetryOnConflict {σ : Type} (fn : σ → σ × Option Err) : Nat → σ → σ × Option Err
  | 0, s => (s, none)
  | steps + 1, s =>
    match fn s with
    | (s, none) => (s, none)
    | (s, some err) =>
      if IsConflict (some err) then
        (if steps = 0 then (s, some err) else RetryOnConflict fn steps s)
      else (s, some err)

/-- The number of attempts of `retry.DefaultRetry`. -/
def DefaultRetry : Nat := 5

/-! ## `controllers/utils/controller_utils.go`: object updates -/

/-- Embedding of `UpdateObject`. -/
def UpdateObject {α : Type} [Object α] (w : World) (updateObject : α) : World × Option Err :=
  match clientUpdate w updateObject with
  | (w, some err) => (w, some (Err.Wrapped "failed to update" err))
  | (w, none) => (w, none)

/-- Embedding of `UpdateObjectStatus`. -/
def UpdateObjectStatus {α : Type} [Object α] (w : World) (updateObject : α) :
    World × Option Err :=
  match clientStatusUpdate w updateObject with
  | (w, some err) =>
    if IsConflict (some err) then (w, some err)
    else (w, some (Err.Wrapped "failed to update status" err))
  | (w, none) => (w, none)

/-- Embedding of `getNamespacedObject`: on success the in-memory object is overwritten with the
stored one. -/
def getNamespacedObject {α : Type} [Object α] (w : World) (obj : α) : World × α × Option Err :=
  match (clientGet w (Object.GetNamespace obj) (Object.GetName obj) : World × Except Err α) with
  | (w, .ok fetched) => (w, fetched, none)
  | (w, .error err) => (w, obj, some err)

/-! ## Events -/

/-- Record an event on an object. -/
def recordEvent (w : World) (event : Event) : World :=
  { w with events := w.events ++ [event] }

/-- Modelled from the spec: `HandlePVCErrorMessage` is declared outside the listed sources. Per
spec 7 and 9 an admission error is recorded as an event on the claim and returned; a nil error
is passed through. -/
def HandlePVCErrorMessage (w : World) (pvc : PersistentVolumeClaim) (err : Option Err)
    (reason : String) : World × Option Err :=
  match err with
  | none => (w, none)
  | some err =>
    if err = Err.NilPointerDereference then (w, some err)
    else
      (recordEvent w
        { kind := "PersistentVolumeClaim", objectNamespace := pvc.Namespace,
          objectName := pvc.Name, eventType := "Warning", reason := reason,
          message := GetMessageFromError err }, some err)

/-- Modelled from the spec: `HandleSuccessMessage` is declared outside the listed sources. Per
spec 4.4 (step 10) and 7 a success is recorded as an event on the group. -/
def HandleSuccessMessage (w : World) (vg : VolumeGroup) (message reason : String) :
    World × Option Err :=
  (recordEvent w
    { kind := "VolumeGroup", objectNamespace := vg.Namespace, objectName := vg.Name,
      eventType := "Normal", reason := reason, message := message }, none)

/-! ## `controllers/utils/volumegroup.go`: status updates and listing -/

/-- Embedding of `updateVolumeGroupStatus`. -/
def updateVolumeGroupStatus (w : World) (inst : VolumeGroup) : World × Option Err :=
  match UpdateObjectStatus w inst with
  | (w, some err) => (w, some err)
  | (w, none) => (w, none)

/-- Embedding of `vgRetryOnConflictFunc`: on a conflict the group is fetched again and the
conflict is returned, so that the caller retries. -/
def vgRetryOnConflictFunc (w : World) (vg : VolumeGroup) : World × VolumeGroup × Option Err :=
  match updateVolumeGroupStatus w vg with
  | (w, err) =>
    if IsConflict err then
      match getNamespacedObject w vg with
      | (w, vg, some uErr) => (w, vg, some uErr)
      | (w, vg, none) => (w, vg, err)
    else (w, vg, err)

/-- Embedding of `updateVolumeGroupStatusPVCList`. -/
def updateVolumeGroupStatusPVCList (w : World) (vg : VolumeGroup)
    (pvcList : List PersistentVolumeClaim) : World × VolumeGroup × Option Err :=
  match RetryOnConflict (fun (s : World × VolumeGroup) =>
      match vgRetryOnConflictFunc s.1 { s.2 with Status := { s.2.Status with PVCList := pvcList } } with
      | (w, vg, err) => ((w, vg), err)) DefaultRetry (w, vg) with
  | ((w, vg), err) => (w, vg, err)

/-- Embedding of `UpdateVolumeGroupStatusError`. -/
def UpdateVolumeGroupStatusError (w : World) (vg : VolumeGroup) (message : String) :
    World × VolumeGroup × Option Err :=
  match RetryOnConflict (fun (s : World × VolumeGroup) =>
      match vgRetryOnConflictFunc s.1 { s.2 with Status := { s.2.Status with Error := some message } } with
      | (w, vg, err) => ((w, vg), err)) DefaultRetry (w, vg) with
  | ((w, vg), err) => (w, vg, err)

/-- Modelled from the spec: `HandleErrorMessage` is declared outside the listed sources. Per
spec 7 an error is written to the group's `status.error`, recorded as an event on the group and
returned; a nil error is passed through. -/
def HandleErrorMessage (w : World) (vg : VolumeGroup) (err : Option Err) (reason : String) :
    World × VolumeGroup × Option Err :=
  match err with
  | none => (w, vg, none)
  | some err =>
    if err = Err.NilPointerDereference then (w, vg, some err)
    else
      match UpdateVolumeGroupStatusError w vg (GetMessageFromError err) with
      | (w, vg, some uErr) => (w, vg, some uErr)
      | (w, vg, none) =>
        (recordEvent w
          { kind := "VolumeGroup", objectNamespace := vg.Namespace, objectName := vg.Name,
            eventType := "Warning", reason := reason,
            message := GetMessageFromError err }, vg, some err)

/-- Modelled from the spec: `getVGClassDriver` is declared outside the listed sources. It looks
the VolumeGroupClass up by name and returns its driver (spec 4.2, listers filter by the class's
driver); a missing class is NotFound. -/
def getVGClassDriver (w : World) (vgClassName : String) : World × String × Option Err :=
  match nextFault w with
  | (w, some err) => (w, "", some err)
  | (w, none) =>
    match w.VolumeGroupClasses.find? (fun c => c.Name == vgClassName) with
    | some vgClass => (w, vgClass.Driver, none)
    | none => (w, "", some (Err.NotFound vgClassName))

/-- Embedding of `isVGHasMatchingDriver`. -/
def isVGHasMatchingDriver (w : World) (vg : VolumeGroup) (driver : String) :
    World × Bool × Option Err :=
  match getVGClassDriver w vg.Spec.VolumeGroupClassName with
  | (w, _, some err) => if IsNotFound (some err) then (w, false, none) else (w, false, some err)
  | (w, vgClassDriver, none) => (w, vgClassDriver == driver, none)

/-- Embedding of `getProvisionedVGs`; `newVgList` is the list built so far. -/
def getProvisionedVGs (driver : String) :
    World → List VolumeGroup → List VolumeGroup → World × List VolumeGroup × Option Err
  | w, [], newVgList => (w, newVgList, none)
  | w, vg :: rest, newVgList =>
    match isVGHasMatchingDriver w vg driver with
    | (w, _, some err) => (w, [], some err)
    | (w, isVGHasMatchingDriver, none) =>
      if isVGHasMatchingDriver then getProvisionedVGs driver w rest (newVgList ++ [vg])
      else getProvisionedVGs driver w rest newVgList

/-- Embedding of `GetVGList`. -/
def GetVGList (w : World) (driver : String) : World × List VolumeGroup × Option Err :=
  match nextFault w with
  | (w, some err) => (w, [], some err)
  | (w, none) =>
    match getProvisionedVGs driver w w.VolumeGroups [] with
    | (w, _, some err) => (w, [], some err)
    | (w, vgList, none) => (w, vgList, none)

/-- Modelled from the spec: `GetVolumeGroupContent` is declared outside the listed sources. It
fetches the VolumeGroupContent by name (spec 4.2). -/
def GetVolumeGroupContent (w : World) (vgcName : String) :
    World × Except Err VolumeGroupContent :=
  clientGet w "" vgcName

/-- Embedding of `getVgId`; the content name is dereferenced without a nil check. -/
def getVgId (w : World) (vg : VolumeGroup) : World × String × Option Err :=
  match vg.Spec.Source.VolumeGroupContentName with
  | none => (w, "", some Err.NilPointerDereference)
  | some vgcName =>
    match GetVolumeGroupContent w vgcName with
    | (w, .error err) => (w, "", some err)
    | (w, .ok vgc) => (w, vgc.VolumeGroupHandle, none)

/-- Embedding of `RemovePVCFromVG`. -/
def RemovePVCFromVG (removeByIndexFromPVCList : RemoveByIndex) (w : World)
    (pvc : PersistentVolumeClaim) (vg : VolumeGroup) : World × VolumeGroup × Option Err :=
  match updateVolumeGroupStatusPVCList w
      { vg with Status := { vg.Status with
          PVCList := removeFromPVCList removeByIndexFromPVCList pvc vg.Status.PVCList } }
      (removeFromPVCList removeByIndexFromPVCList pvc vg.Status.PVCList) with
  | (w, vg, some err) =>
    (w, { vg with Status := { vg.Status with PVCList := appendPVC vg.Status.PVCList pvc } },
      some err)
  | (w, vg, none) => (w, vg, none)

/-- Embedding of `AddPVCToVG`. -/
def AddPVCToVG (removeByIndexFromPVCList : RemoveByIndex) (w : World)
    (pvc : PersistentVolumeClaim) (vg : VolumeGroup) : World × VolumeGroup × Option Err :=
  match updateVolumeGroupStatusPVCList w
      { vg with Status := { vg.Status with PVCList := appendPVC vg.Status.PVCList pvc } }
      (appendPVC vg.Status.PVCList pvc) with
  | (w, vg, some err) =>
    (w, { vg with Status := { vg.Status with
        PVCList := removeFromPVCList removeByIndexFromPVCList pvc vg.Status.PVCList } },
      some err)
  | (w, vg, none) => (w, vg, none)

/-! ## `controllers/utils/storageclass.go` and the claim helpers -/

/-- Embedding of `getStorageClass`. -/
def getStorageClass (w : World) (scName : String) : World × Except Err StorageClass :=
  match nextFault w with
  | (w, some err) => (w, .error err)
  | (w, none) =>
    match w.StorageClasses.find? (fun sc => sc.Name == scName) with
    | some sc => (w, .ok sc)
    | none => (w, .error (Err.NotFound scName))

/-- Embedding of `getStorageClassProvisioner`. -/
def getStorageClassProvisioner (w : World) (scName : String) : World × String × Option Err :=
  match getStorageClass w scName with
  | (w, .error err) => (w, "", some err)
  | (w, .ok sc) => (w, sc.Provisioner, none)

/-- Embedding of `isSCHasParam`: whether the parameter map has the key. -/
def isSCHasParam (sc : StorageClass) (param : String) : Bool :=
  sc.Parameters.any (fun kv => kv.1 == param)

/-- Embedding of `IsPVCInStaticVG`; the storage class name is dereferenced without a nil
check. -/
def IsPVCInStaticVG (w : World) (pvc : PersistentVolumeClaim) : World × Bool × Option Err :=
  match pvc.Spec.StorageClassName with
  | none => (w, false, some Err.NilPointerDereference)
  | some scName =>
    match getStorageClass w scName with
    | (w, .error err) => (w, false, some err)
    | (w, .ok sc) => (w, isSCHasParam sc storageClassVGParameter, none)

/-- Embedding of `IsPVCHasMatchingDriver`; the storage class name is dereferenced without a nil
check. -/
def IsPVCHasMatchingDriver (w : World) (pvc : PersistentVolumeClaim) (driver : String) :
    World × Bool × Option Err :=
  match pvc.Spec.StorageClassName with
  | none => (w, false, some Err.NilPointerDereference)
  | some scName =>
    match getStorageClassProvisioner w scName with
    | (w, _, some err) => (w, false, some err)
    | (w, scProvisioner, none) => (w, scProvisioner == driver, none)

/-- Counterpart of `corev1.BetaStorageClassAnnotation`. -/
def BetaStorageClassAnnotation : String := "volume.beta.kubernetes.io/storage-class"

/-- Embedding of `GetPersistentVolumeClaimClass`. -/
def GetPersistentVolumeClaimClass (claim : PersistentVolumeClaim) : String × Option Err :=
  match labelValue claim.Annotations BetaStorageClassAnnotation with
  | some cls => (cls, none)
  | none =>
    match claim.Spec.StorageClassName with
    | some scName => (scName, none)
    | none => ("", some (Err.FailedToGetStorageClassName claim.Name))

/-- Modelled from the spec: `GetPVFromPVC` is declared outside the listed sources. Per spec 4.6
the bound volume of a claim is looked up; a claim with no volume yet yields no volume and no
error. -/
def GetPVFromPVC (w : World) (pvc : PersistentVolumeClaim) :
    World × Except Err (Option PersistentVolume) :=
  if pvc.Spec.VolumeName == "" then (w, .ok none)
  else
    match nextFault w with
    | (w, some err) => (w, .error err)
    | (w, none) =>
      match w.PersistentVolumes.find? (fun pv => pv.Name == pvc.Spec.VolumeName) with
      | some pv => (w, .ok (some pv))
      | none => (w, .error (Err.NotFound pvc.Spec.VolumeName))

/-- Embedding of `getPVCListVolumeIds`; `volumeIds` is the vector built so far. -/
def getPVCListVolumeIds :
    World → List PersistentVolumeClaim → List String → World × List String × Option Err
  | w, [], volumeIds => (w, volumeIds, none)
  | w, pvc :: rest, volumeIds =>
    match GetPVFromPVC w pvc with
    | (w, .error err) => (w, [], some err)
    | (w, .ok (some pv)) => getPVCListVolumeIds w rest (volumeIds ++ [pv.VolumeHandle])
    | (w, .ok none) => getPVCListVolumeIds w rest volumeIds

/-! ## `controllers/utils/finalizers.go` -/

/-- Embedding of `finalizerRetryOnConflictFunc`: the finalizer list computed by the caller is
set on the object and written; on a conflict the object is fetched again. -/
def finalizerRetryOnConflictFunc {α : Type} [Object α] (w : World) (finalizers : List String)
    (obj : α) : World × α × Option Err :=
  match UpdateObject w (Object.SetFinalizers obj finalizers) with
  | (w, err) =>
    if IsConflict err then
      match getNamespacedObject w (Object.SetFinalizers obj finalizers) with
      | (w, obj, some uErr) => (w, obj, some uErr)
      | (w, obj, none) => (w, obj, err)
    else (w, Object.SetFinalizers obj finalizers, err)

/-- Embedding of `updateFinalizer`. -/
def updateFinalizer {α : Type} [Object α] (w : World) (finalizers : List String) (obj : α) :
    World × α × Option Err :=
  match RetryOnConflict (fun (s : World × α) =>
      match finalizerRetryOnConflictFunc s.1 finalizers s.2 with
      | (w, obj, err) => ((w, obj), err)) DefaultRetry (w, obj) with
  | ((w, obj), err) => (w, obj, err)

/-- Embedding of `AddFinalizerToPVC`. -/
def AddFinalizerToPVC (w : World) (pvc : PersistentVolumeClaim) :
    World × PersistentVolumeClaim × Option Err :=
  if !Contains pvc.Finalizers pvcVolumeGroupFinalizer then
    match updateFinalizer w (pvc.Finalizers ++ [pvcVolumeGroupFinalizer])
        { pvc with Finalizers := pvc.Finalizers ++ [pvcVolumeGroupFinalizer] } with
    | (w, pvc, some err) => (w, pvc, some err)
    | (w, pvc, none) => (w, pvc, none)
  else (w, pvc, none)

/-- Embedding of `isFinalizerShouldBeREmovedFromPVC`. -/
def isFinalizerShouldBeREmovedFromPVC (w : World) (driver : String)
    (pvc : PersistentVolumeClaim) : World × Bool × Option Err :=
  match GetVGList w driver with
  | (w, _, some err) => (w, false, some err)
  | (w, vgList, none) =>
    (w, !IsPVCPartAnyVG pvc vgList && Contains pvc.Finalizers pvcVolumeGroupFinalizer, none)

/-- Embedding of `RemoveFinalizerFromPVC`. -/
def RemoveFinalizerFromPVC (w : World) (driver : String) (pvc : PersistentVolumeClaim) :
    World × PersistentVolumeClaim × Option Err :=
  match isFinalizerShouldBeREmovedFromPVC w driver pvc with
  | (w, _, some err) => (w, pvc, some err)
  | (w, removeFinalizer, none) =>
    if removeFinalizer then
      match getNamespacedObject w pvc with
      | (w, pvc, some uErr) => (w, pvc, some uErr)
      | (w, pvc, none) =>
        match updateFinalizer w (remove pvc.Finalizers pvcVolumeGroupFinalizer)
            { pvc with Finalizers := remove pvc.Finalizers pvcVolumeGroupFinalizer } with
        | (w, pvc, some err) => (w, pvc, some err)
        | (w, pvc, none) => (w, pvc, none)
    else (w, pvc, none)

/-! ## `controllers/utils/controller_utils.go`: membership primitives -/

/-- Modelled from the spec: `ModifyVolumeGroup` is declared outside the listed sources. Per spec
4.6 the group handle and the volume-id vector of the group's current in-memory `pvcList` are
computed (`getVgId`, `getPVCListVolumeIds`) and the ModifyGroup RPC is issued with them; the
group object is neither changed nor written. -/
def ModifyVolumeGroup (w : World) (vg : VolumeGroup) : World × Option Err :=
  match getVgId w vg with
  | (w, _, some err) => (w, some err)
  | (w, volumeGroupID, none) =>
    match getPVCListVolumeIds w vg.Status.PVCList [] with
    | (w, _, some err) => (w, some err)
    | (w, volumeIds, none) =>
      match nextFault w with
      | (w, err) =>
        ({ w with rpcs := w.rpcs ++ [{ call := RPC.ModifyVolumeGroup volumeGroupID volumeIds,
                                       error := err }] }, err)

/-- Embedding of `AddVolumesToVolumeGroup`. -/
def AddVolumesToVolumeGroup (removeByIndexFromPVCList : RemoveByIndex) (w : World)
    (pvcs : List PersistentVolumeClaim) (vg : VolumeGroup) : World × VolumeGroup × Option Err :=
  match ModifyVolumeGroup w
      { vg with Status := { vg.Status with PVCList := appendMultiplePVCs vg.Status.PVCList pvcs } } with
  | (w, some err) =>
    (w, { vg with Status := { vg.Status with
        PVCList := removeMultiplePVCs removeByIndexFromPVCList
          (appendMultiplePVCs vg.Status.PVCList pvcs) pvcs } }, some err)
  | (w, none) =>
    (w, { vg with Status := { vg.Status with PVCList := appendMultiplePVCs vg.Status.PVCList pvcs } },
      none)

/-- Embedding of `RemoveVolumeFromVolumeGroup`. -/
def RemoveVolumeFromVolumeGroup (removeByIndexFromPVCList : RemoveByIndex) (w : World)
    (pvcs : List PersistentVolumeClaim) (vg : VolumeGroup) : World × VolumeGroup × Option Err :=
  match ModifyVolumeGroup w
      { vg with Status := { vg.Status with
          PVCList := removeMultiplePVCs removeByIndexFromPVCList vg.Status.PVCList pvcs } } with
  | (w, some err) =>
    (w, { vg with Status := { vg.Status with
        PVCList := appendMultiplePVCs
          (removeMultiplePVCs removeByIndexFromPVCList vg.Status.PVCList pvcs) pvcs } }, some err)
  | (w, none) =>
    (w, { vg with Status := { vg.Status with
        PVCList := removeMultiplePVCs removeByIndexFromPVCList vg.Status.PVCList pvcs } }, none)

/-- Modelled from the spec: `AddMatchingPVToMatchingVGC` is declared outside the listed
sources. Per spec 4.5 (step 4) the claim's bound volume, when it has one, is appended to the
`pvList` of the group's VolumeGroupContent. -/
def AddMatchingPVToMatchingVGC (w : World) (pvc : PersistentVolumeClaim) (vg : VolumeGroup) :
    World × Option Err :=
  match GetPVFromPVC w pvc with
  | (w, .error err) => (w, some err)
  | (w, .ok none) => (w, none)
  | (w, .ok (some pv)) =>
    match vg.Spec.Source.VolumeGroupContentName with
    | none => (w, some Err.NilPointerDereference)
    | some vgcName =>
      match GetVolumeGroupContent w vgcName with
      | (w, .error err) => (w, some err)
      | (w, .ok vgc) =>
        if vgc.PVList.any (fun v => v.Name == pv.Name) then (w, none)
        else UpdateObject w { vgc with PVList := vgc.PVList ++ [pv] }

/-- Modelled from the spec: `RemovePVFromVGC` is declared outside the listed sources. Per spec
4.5 (step 3) the volume is removed from the `pvList` of the VolumeGroupContent. -/
def RemovePVFromVGC (w : World) (pv : PersistentVolume) (vgc : VolumeGroupContent) :
    World × Option Err :=
  UpdateObject w { vgc with PVList := vgc.PVList.filter (fun v => v.Name != pv.Name) }

/-- Embedding of `AddVolumeToPvcListAndPvList`. -/
def AddVolumeToPvcListAndPvList (removeByIndexFromPVCList : RemoveByIndex) (w : World)
    (pvc : PersistentVolumeClaim) (vg : VolumeGroup) :
    World × PersistentVolumeClaim × VolumeGroup × Option Err :=
  match AddPVCToVG removeByIndexFromPVCList w pvc vg with
  | (w, vg, some err) => (w, pvc, vg, some err)
  | (w, vg, none) =>
    match AddMatchingPVToMatchingVGC w pvc vg with
    | (w, some err) => (w, pvc, vg, some err)
    | (w, none) =>
      match AddFinalizerToPVC w pvc with
      | (w, pvc, some err) => (w, pvc, vg, some err)
      | (w, pvc, none) =>
        match HandleSuccessMessage w vg
            ("added " ++ pvc.Namespace ++ "/" ++ pvc.Name ++ " to " ++ vg.Namespace ++ "/" ++ vg.Name)
            addingPVC with
        | (w, err) => (w, pvc, vg, err)

/-- Embedding of `RemoveVolumeFromPvcListAndPvList`; the group is passed by value, and its
content name is dereferenced without a nil check. -/
def RemoveVolumeFromPvcListAndPvList (removeByIndexFromPVCList : RemoveByIndex) (w : World)
    (driver : String) (pvc : PersistentVolumeClaim) (vg : VolumeGroup) :
    World × PersistentVolumeClaim × Option Err :=
  match RemovePVCFromVG removeByIndexFromPVCList w pvc vg with
  | (w, _, some err) => (w, pvc, some err)
  | (w, vg, none) =>
    match GetPVFromPVC w pvc with
    | (w, .error err) => (w, pvc, some err)
    | (w, .ok pv) =>
      match vg.Spec.Source.VolumeGroupContentName with
      | none => (w, pvc, some Err.NilPointerDereference)
      | some vgcName =>
        match GetVolumeGroupContent w vgcName with
        | (w, .error err) => (w, pvc, some err)
        | (w, .ok vgc) =>
          match (match pv with
              | some pv => RemovePVFromVGC w pv vgc
              | none => (w, none)) with
          | (w, some err) => (w, pvc, some err)
          | (w, none) =>
            match RemoveFinalizerFromPVC w driver pvc with
            | (w, pvc, some err) => (w, pvc, some err)
            | (w, pvc, none) =>
              match HandleSuccessMessage w vg
                  ("removed " ++ pvc.Namespace ++ "/" ++ pvc.Name ++ " from " ++ vg.Namespace ++ "/" ++ vg.Name)
                  removingPVC with
              | (w, err) => (w, pvc, err)

/-! ## The PersistentVolumeClaim reconciler -/

/-- Counterpart of `PersistentVolumeClaimReconciler`: the configuration it reads. -/
structure PersistentVolumeClaimReconciler where
  DriverConfig : DriverConfig := {}
  deriving DecidableEq, Repr

/-- Embedding of `PersistentVolumeClaimReconciler.isPVCNeedToBeHandled`. -/
def PersistentVolumeClaimReconciler.isPVCNeedToBeHandled (r : PersistentVolumeClaimReconciler)
    (w : World) (pvc : PersistentVolumeClaim) : World × Bool × Option Err :=
  match IsPVCHasMatchingDriver w pvc r.DriverConfig.DriverName with
  | (w, _, some err) => (w, false, some err)
  | (w, isPVCHasMatchingDriver, none) =>
    if !isPVCHasMatchingDriver then (w, false, none)
    else if pvc.Status.Phase != ClaimBound then (w, false, none)
    else
      match IsPVCInStaticVG w pvc with
      | (w, _, some err) => (w, false, some err)
      | (w, isSCHasVGParam, none) =>
        if isSCHasVGParam then
          match GetPersistentVolumeClaimClass pvc with
          | (_, some sErr) => (w, false, some sErr)
          | (storageClassName, none) =>
            match HandlePVCErrorMessage w pvc
                (some (Err.StorageClassHasVGParameter storageClassName pvc.Namespace pvc.Name))
                addingPVC with
            | (w, some err) => (w, false, some err)
            | (w, none) => (w, false, none)
        else (w, true, none)

/-- Embedding of `PersistentVolumeClaimReconciler.isPVCCanBeAddedToVG`. -/
def PersistentVolumeClaimReconciler.isPVCCanBeAddedToVG (r : PersistentVolumeClaimReconciler)
    (w : World) (pvc : PersistentVolumeClaim) (vgList : List VolumeGroup) : World × Option Err :=
  if r.DriverConfig.MultipleVGsToPVC == "true" then (w, none)
  else
    match HandlePVCErrorMessage w pvc (IsPVCCanBeAddedToVG pvc vgList) addingPVC with
    | (w, some hErr) => (w, some hErr)
    | (w, none) => (w, IsPVCCanBeAddedToVG pvc vgList)

/-- The loop of `removePersistentVolumeClaimFromVolumeGroupObjects` over the listed groups. -/
def removeFromVolumeGroupObjectsLoop (removeByIndexFromPVCList : RemoveByIndex)
    (r : PersistentVolumeClaimReconciler) (pvc : PersistentVolumeClaim) :
    World → List VolumeGroup → World × PersistentVolumeClaim × Option Err
  | w, [] => (w, pvc, none)
  | w, vg :: rest =>
    if !IsPVCPartOfVG pvc vg.Status.PVCList then
      removeFromVolumeGroupObjectsLoop removeByIndexFromPVCList r pvc w rest
    else
      match IsPVCMatchesVG pvc vg with
      | (_, some err) =>
        match HandleErrorMessage w vg (some err) removingPVC with
        | (w, _, err) => (w, pvc, err)
      | (isPVCMatchesVG, none) =>
        if !isPVCMatchesVG then
          match RemoveVolumeFromVolumeGroup removeByIndexFromPVCList w [pvc] vg with
          | (w, vg, some err) =>
            match HandleErrorMessage w vg (some err) removingPVC with
            | (w, _, err) => (w, pvc, err)
          | (w, vg, none) =>
            match RemoveVolumeFromPvcListAndPvList removeByIndexFromPVCList w
                r.DriverConfig.DriverName pvc vg with
            | (w, pvc, err) =>
              match HandleErrorMessage w vg err removingPVC with
              | (w, _, err) => (w, pvc, err)
        else removeFromVolumeGroupObjectsLoop removeByIndexFromPVCList r pvc w rest

/-- Embedding of `removePersistentVolumeClaimFromVolumeGroupObjects`. -/
def PersistentVolumeClaimReconciler.removePersistentVolumeClaimFromVolumeGroupObjects
    (removeByIndexFromPVCList : RemoveByIndex) (r : PersistentVolumeClaimReconciler) (w : World)
    (pvc : PersistentVolumeClaim) : World × PersistentVolumeClaim × Option Err :=
  match GetVGList w r.DriverConfig.DriverName with
  | (w, _, some err) => (w, pvc, some err)
  | (w, vgList, none) => removeFromVolumeGroupObjectsLoop removeByIndexFromPVCList r pvc w vgList

/-- The loop of `addPersistentVolumeClaimToVolumeGroupObjects` over the listed groups. -/
def addToVolumeGroupObjectsLoop (removeByIndexFromPVCList : RemoveByIndex)
    (pvc : PersistentVolumeClaim) :
    World → List VolumeGroup → World × PersistentVolumeClaim × Option Err
  | w, [] => (w, pvc, none)
  | w, vg :: rest =>
    if !IsPVCPartOfVG pvc vg.Status.PVCList then
      match IsPVCMatchesVG pvc vg with
      | (_, some err) =>
        match HandleErrorMessage w vg (some err) addingPVC with
        | (w, _, err) => (w, pvc, err)
      | (isPVCMatchesVG, none) =>
        if isPVCMatchesVG then
          match AddVolumesToVolumeGroup removeByIndexFromPVCList w [pvc] vg with
          | (w, vg, some err) =>
            match HandleErrorMessage w vg (some err) addingPVC with
            | (w, _, err) => (w, pvc, err)
          | (w, vg, none) =>
            match AddVolumeToPvcListAndPvList removeByIndexFromPVCList w pvc vg with
            | (w, pvc, vg, err) =>
              match HandleErrorMessage w vg err addingPVC with
              | (w, _, err) => (w, pvc, err)
        else addToVolumeGroupObjectsLoop removeByIndexFromPVCList pvc w rest
    else addToVolumeGroupObjectsLoop removeByIndexFromPVCList pvc w rest

/-- Embedding of `addPersistentVolumeClaimToVolumeGroupObjects`. -/
def PersistentVolumeClaimReconciler.addPersistentVolumeClaimToVolumeGroupObjects
    (removeByIndexFromPVCList : RemoveByIndex) (r : PersistentVolumeClaimReconciler) (w : World)
    (pvc : PersistentVolumeClaim) : World × PersistentVolumeClaim × Option Err :=
  match GetVGList w r.DriverConfig.DriverName with
  | (w, _, some err) => (w, pvc, some err)
  | (w, vgList, none) =>
    match r.isPVCCanBeAddedToVG w pvc vgList with
    | (w, some err) => (w, pvc, some err)
    | (w, none) => addToVolumeGroupObjectsLoop removeByIndexFromPVCList pvc w vgList

/-! ## The VolumeGroup reconciler: adding matched volumes -/

/-- Counterpart of `VolumeGroupReconciler`: the configuration it reads. -/
structure VolumeGroupReconciler where
  DriverConfig : DriverConfig := {}
  deriving DecidableEq, Repr

/-- The `for` loop of `addMatchedVolumes`, whose body ends in `return err`. -/
def addMatchedVolumesLoop (removeByIndexFromPVCList : RemoveByIndex) :
    World → List PersistentVolumeClaim → VolumeGroup → World × VolumeGroup × Option Err
  | w, [], vg => (w, vg, none)
  | w, pvc :: _, vg =>
    match AddVolumeToPvcListAndPvList removeByIndexFromPVCList w pvc vg with
    | (w, _, vg, err) => (w, vg, err)

/-- Embedding of `VolumeGroupReconciler.addMatchedVolumes`. -/
def VolumeGroupReconciler.addMatchedVolumes (removeByIndexFromPVCList : RemoveByIndex)
    (_r : VolumeGroupReconciler) (w : World) (pvcs : List PersistentVolumeClaim)
    (vg : VolumeGroup) : World × VolumeGroup × Option Err :=
  match AddVolumesToVolumeGroup removeByIndexFromPVCList w pvcs vg with
  | (w, vg, some err) => (w, vg, some err)
  | (w, vg, none) => addMatchedVolumesLoop removeByIndexFromPVCList w pvcs vg

/-! ## `controllers/utils/finalizers.go`: groups and contents -/

/-- Embedding of `AddFinalizerToVG`. -/
def AddFinalizerToVG (w : World) (vg : VolumeGroup) : World × VolumeGroup × Option Err :=
  if !Contains vg.Finalizers VolumeGroupFinalizer then
    match updateFinalizer w (vg.Finalizers ++ [VolumeGroupFinalizer])
        { vg with Finalizers := vg.Finalizers ++ [VolumeGroupFinalizer] } with
    | (w, vg, some err) => (w, vg, some err)
    | (w, vg, none) => (w, vg, none)
  else (w, vg, none)

/-- Embedding of `AddFinalizerToVGC`. -/
def AddFinalizerToVGC (w : World) (vgc : VolumeGroupContent) :
    World × VolumeGroupContent × Option Err :=
  if !Contains vgc.Finalizers volumeGroupContentFinalizer then
    match updateFinalizer w (vgc.Finalizers ++ [volumeGroupContentFinalizer])
        { vgc with Finalizers := vgc.Finalizers ++ [volumeGroupContentFinalizer] } with
    | (w, vgc, some err) => (w, vgc, some err)
    | (w, vgc, none) => (w, vgc, none)
  else (w, vgc, none)

/-- Embedding of `RemoveFinalizerFromVG`. -/
def RemoveFinalizerFromVG (w : World) (vg : VolumeGroup) : World × VolumeGroup × Option Err :=
  if Contains vg.Finalizers VolumeGroupFinalizer then
    match updateFinalizer w (remove vg.Finalizers VolumeGroupFinalizer)
        { vg with Finalizers := remove vg.Finalizers VolumeGroupFinalizer } with
    | (w, vg, some err) => (w, vg, some err)
    | (w, vg, none) => (w, vg, none)
  else (w, vg, none)

/-- Embedding of `RemoveFinalizerFromVGC`. -/
def RemoveFinalizerFromVGC (w : World) (vgc : VolumeGroupContent) :
    World × VolumeGroupContent × Option Err :=
  if Contains vgc.Finalizers volumeGroupContentFinalizer then
    match updateFinalizer w (remove vgc.Finalizers volumeGroupContentFinalizer)
        { vgc with Finalizers := remove vgc.Finalizers volumeGroupContentFinalizer } with
    | (w, vgc, some err) => (w, vgc, some err)
    | (w, vgc, none) => (w, vgc, none)
  else (w, vgc, none)

/-! ## `controllers/utils/persistentvolumeclaim.go`: listing claims -/

/-- Embedding of `GetPersistentVolumeClaim`. -/
def GetPersistentVolumeClaim (w : World) (name ns : String) :
    World × Except Err PersistentVolumeClaim :=
  clientGet w ns name

/-- Embedding of `getPVCList`: `client.List` of all claims. -/
def getPVCList (w : World) : World × List PersistentVolumeClaim × Option Err :=
  match nextFault w with
  | (w, some err) => (w, [], some err)
  | (w, none) => (w, w.PersistentVolumeClaims, none)

/-- Embedding of `getBoundPVCList`. -/
def getBoundPVCList (pvcList : List PersistentVolumeClaim) :
    List PersistentVolumeClaim × Option Err :=
  (pvcList.filter (fun pvc => pvc.Status.Phase == ClaimBound), none)

/-- Embedding of `getProvisionedPVCList`; `newPVCList` is the list built so far. -/
def getProvisionedPVCList (driver : String) :
    World → List PersistentVolumeClaim → List PersistentVolumeClaim →
      World × List PersistentVolumeClaim × Option Err
  | w, [], newPVCList => (w, newPVCList, none)
  | w, pvc :: rest, newPVCList =>
    match IsPVCHasMatchingDriver w pvc driver with
    | (w, _, some err) => (w, [], some err)
    | (w, isPVCHasMatchingDriver, none) =>
      if isPVCHasMatchingDriver then getProvisionedPVCList driver w rest (newPVCList ++ [pvc])
      else getProvisionedPVCList driver w rest newPVCList

/-- Embedding of `GetPVCList`. -/
def GetPVCList (w : World) (driver : String) :
    World × List PersistentVolumeClaim × Option Err :=
  match getPVCList w with
  | (w, _, some err) => (w, [], some err)
  | (w, pvcList, none) =>
    match getBoundPVCList pvcList with
    | (_, some err) => (w, [], some err)
    | (boundPVCList, none) => getProvisionedPVCList driver w boundPVCList []

/-! ## The VolumeGroup reconciler: membership -/

/-- Embedding of `VolumeGroupReconciler.isPVCCanBeAddedToVG`. -/
def VolumeGroupReconciler.isPVCCanBeAddedToVG (r : VolumeGroupReconciler) (w : World)
    (pvc : PersistentVolumeClaim) : World × Option Err :=
  if r.DriverConfig.MultipleVGsToPVC == "true" then (w, none)
  else
    match GetVGList w r.DriverConfig.DriverName with
    | (w, _, some err) => (w, some err)
    | (w, vgList, none) => (w, IsPVCCanBeAddedToVG pvc vgList)

/-- Embedding of `VolumeGroupReconciler.isPVCShouldBeAddedToVg`. -/
def VolumeGroupReconciler.isPVCShouldBeAddedToVg (r : VolumeGroupReconciler) (w : World)
    (vg : VolumeGroup) (pvc : PersistentVolumeClaim) : World × Bool × Option Err :=
  if IsPVCPartOfVG pvc vg.Status.PVCList then (w, false, none)
  else
    match IsPVCMatchesVG pvc vg with
    | (_, some err) => (w, false, some err)
    | (isPVCMatchesVG, none) =>
      if !isPVCMatchesVG then (w, false, none)
      else
        match r.isPVCCanBeAddedToVG w pvc with
        | (w, some err) => (w, false, some err)
        | (w, none) => (w, true, none)

/-- The `for` loop of `addMatchingVolumesToVG`; `pvcsToAdd` is the list built so far. -/
def addMatchingVolumesToVGLoop (r : VolumeGroupReconciler) (vg : VolumeGroup) :
    World → List PersistentVolumeClaim → List PersistentVolumeClaim →
      World × List PersistentVolumeClaim × Option Err
  | w, [], pvcsToAdd => (w, pvcsToAdd, none)
  | w, pvc :: rest, pvcsToAdd =>
    match r.isPVCShouldBeAddedToVg w vg pvc with
    | (w, _, some err) => (w, pvcsToAdd, some err)
    | (w, isPVCShouldBeAddedToVg, none) =>
      if isPVCShouldBeAddedToVg then addMatchingVolumesToVGLoop r vg w rest (pvcsToAdd ++ [pvc])
      else addMatchingVolumesToVGLoop r vg w rest pvcsToAdd

/-- Embedding of `VolumeGroupReconciler.addMatchingVolumesToVG`. -/
def VolumeGroupReconciler.addMatchingVolumesToVG (removeByIndexFromPVCList : RemoveByIndex)
    (r : VolumeGroupReconciler) (w : World) (vg : VolumeGroup) :
    World × VolumeGroup × Option Err :=
  match GetPVCList w r.DriverConfig.DriverName with
  | (w, _, some err) => (w, vg, some err)
  | (w, pvcList, none) =>
    match addMatchingVolumesToVGLoop r vg w pvcList [] with
    | (w, _, some err) => (w, vg, some err)
    | (w, pvcsToAdd, none) => r.addMatchedVolumes removeByIndexFromPVCList w pvcsToAdd vg

/-- Embedding of `VolumeGroupReconciler.isPVCShouldBeRemovedFromVg`. -/
def VolumeGroupReconciler.isPVCShouldBeRemovedFromVg (_r : VolumeGroupReconciler)
    (vg : VolumeGroup) (pvc : PersistentVolumeClaim) : Bool × Option Err :=
  if !IsPVCPartOfVG pvc vg.Status.PVCList then (false, none)
  else
    match IsPVCMatchesVG pvc vg with
    | (_, some err) => (false, some err)
    | (isPVCMatchesVG, none) => (!isPVCMatchesVG, none)

/-- The `for` loop of `removeUnMatchedVolumes`, whose body ends in `return err`; the group is
passed by value to `RemoveVolumeFromPvcListAndPvList`. -/
def removeUnMatchedVolumesLoop (removeByIndexFromPVCList : RemoveByIndex)
    (r : VolumeGroupReconciler) :
    World → List PersistentVolumeClaim → VolumeGroup → World × Option Err
  | w, [], _ => (w, none)
  | w, pvc :: _, vg =>
    match RemoveVolumeFromPvcListAndPvList removeByIndexFromPVCList w
        r.DriverConfig.DriverName pvc vg with
    | (w, _, err) => (w, err)

/-- Embedding of `VolumeGroupReconciler.removeUnMatchedVolumes`. -/
def VolumeGroupReconciler.removeUnMatchedVolumes (removeByIndexFromPVCList : RemoveByIndex)
    (r : VolumeGroupReconciler) (w : World) (pvcs : List PersistentVolumeClaim)
    (vg : VolumeGroup) : World × VolumeGroup × Option Err :=
  match RemoveVolumeFromVolumeGroup removeByIndexFromPVCList w pvcs vg with
  | (w, vg, some err) => (w, vg, some err)
  | (w, vg, none) =>
    match removeUnMatchedVolumesLoop removeByIndexFromPVCList r w pvcs vg with
    | (w, err) => (w, vg, err)

/-- The `for` loop of `removeVolumesFromVG`; `pvcsToRemove` is the list built so far. -/
def removeVolumesFromVGLoop (r : VolumeGroupReconciler) (vg : VolumeGroup) :
    World → List PersistentVolumeClaim → List PersistentVolumeClaim →
      World × List PersistentVolumeClaim × Option Err
  | w, [], pvcsToRemove => (w, pvcsToRemove, none)
  | w, pvcInList :: rest, pvcsToRemove =>
    match GetPersistentVolumeClaim w pvcInList.Name pvcInList.Namespace with
    | (w, .error err) => (w, pvcsToRemove, some err)
    | (w, .ok pvc) =>
      match r.isPVCShouldBeRemovedFromVg vg pvc with
      | (_, some err) => (w, pvcsToRemove, some err)
      | (isPVCShouldBeRemovedFromVg, none) =>
        if isPVCShouldBeRemovedFromVg then
          removeVolumesFromVGLoop r vg w rest (pvcsToRemove ++ [pvc])
        else removeVolumesFromVGLoop r vg w rest pvcsToRemove

/-- Embedding of `VolumeGroupReconciler.removeVolumesFromVG`. -/
def VolumeGroupReconciler.removeVolumesFromVG (removeByIndexFromPVCList : RemoveByIndex)
    (r : VolumeGroupReconciler) (w : World) (vg : VolumeGroup) :
    World × VolumeGroup × Option Err :=
  if vg.Status.PVCList.length == 0 then (w, vg, none)
  else
    match removeVolumesFromVGLoop r vg w vg.Status.PVCList [] with
    | (w, _, some err) => (w, vg, some err)
    | (w, pvcsToRemove, none) =>
      r.removeUnMatchedVolumes removeByIndexFromPVCList w pvcsToRemove vg

/-! ## Helpers of the VolumeGroup reconciler declared outside the listed sources -/

/-- Event reason of the reconcile as a whole; the text is declared outside the listed sources. -/
def vgReconcile : String := "vgReconcile"

/-- Event reason used while creating a group; the text is declared outside the listed sources. -/
def createVG : String := "createVG"

/-- Event reason used while deleting a group; the text is declared outside the listed sources. -/
def deleteVG : String := "deleteVG"

/-- Event reason used while creating a content; the text is declared outside the listed
sources. -/
def createVGC : String := "createVGC"

/-- Event reason used while updating a content; the text is declared outside the listed
sources. -/
def updateVGC : String := "updateVGC"

/-- Event reason used while updating a group status; the text is declared outside the listed
sources. -/
def updateStatusVG : String := "updateStatusVG"

/-- Event reason used while updating a content status; the text is declared outside the listed
sources. -/
def updateStatusVGC : String := "updateStatusVGC"

/-- Modelled from the spec: the group name prefix of the configuration (spec 6); scenario S1 of
the spec shows the value. -/
def VolumeGroupNamePrefix : String := "vg"

/-- Modelled from the spec: the reserved prefix of class parameters (spec 3 and 6). -/
def VolumeGroupAsPrefix : String := "volumegroup.storage/"

/-- Modelled from the spec: the reserved parameter naming the class's secret (spec 4.4, step 3);
the key text is declared outside the listed sources. -/
def PrefixedVolumeGroupSecretNameKey : String := VolumeGroupAsPrefix ++ "secret-name"

/-- Modelled from the spec: the reserved parameter naming the namespace of the class's secret
(spec 4.4, step 3); the key text is declared outside the listed sources. -/
def PrefixedVolumeGroupSecretNamespaceKey : String := VolumeGroupAsPrefix ++ "secret-namespace"

/-- Modelled from the spec: `GetVolumeGroupClass` is declared outside the listed sources. It
fetches the VolumeGroupClass by name (spec 4.2 and 4.4, step 2). -/
def GetVolumeGroupClass (w : World) (vgClassName : String) :
    World × Except Err VolumeGroupClass :=
  match nextFault w with
  | (w, some err) => (w, .error err)
  | (w, none) =>
    match w.VolumeGroupClasses.find? (fun c => c.Name == vgClassName) with
    | some vgClass => (w, .ok vgClass)
    | none => (w, .error (Err.NotFound vgClassName))

/-- Modelled from the spec: `ValidatePrefixedParameters` is declared outside the listed sources.
Per spec 4.4 (step 2) a parameter with the reserved prefix must be a known one, here the secret
reference, and must have a value. -/
def ValidatePrefixedParameters (param : List (String × String)) : Option Err :=
  match param.find? (fun kv => VolumeGroupAsPrefix.isPrefixOf kv.1 &&
      !((kv.1 == PrefixedVolumeGroupSecretNameKey ||
          kv.1 == PrefixedVolumeGroupSecretNamespaceKey) && kv.2 != "")) with
  | some kv => some (Err.InvalidParameter kv.1)
  | none => none

/-- Modelled from the spec: `FilterPrefixedParameters` is declared outside the listed sources.
Per spec 3 the parameters with the reserved prefix are not forwarded to the driver. -/
def FilterPrefixedParameters (reserved : String) (param : List (String × String)) :
    List (String × String) :=
  param.filter (fun kv => !reserved.isPrefixOf kv.1)

/-- Modelled from the spec: `GetSecretCred` is declared outside the listed sources. It reads the
name and namespace of the class's secret (spec 4.4, step 3); both are empty when the class has
no secret. -/
def GetSecretCred (vgClass : VolumeGroupClass) : String × String :=
  ((labelValue vgClass.Parameters PrefixedVolumeGroupSecretNameKey).getD "",
    (labelValue vgClass.Parameters PrefixedVolumeGroupSecretNamespaceKey).getD "")

/-- Modelled from the spec: `GetSecretDataFromClass` is declared outside the listed sources. Per
spec 4.4 (step 3) the class's secret, if it names one, is fetched and its data returned. -/
def GetSecretDataFromClass (w : World) (vgClass : VolumeGroupClass) :
    World × Except Err (List (String × String)) :=
  match GetSecretCred vgClass with
  | (secretName, secretNamespace) =>
    if secretName == "" then (w, .ok [])
    else
      match nextFault w with
      | (w, some err) => (w, .error err)
      | (w, none) =>
        match w.Secrets.find? (fun s => s.Namespace == secretNamespace && s.Name == secretName) with
        | some secret => (w, .ok secret.Data)
        | none => (w, .error (Err.NotFound secretName))

/-- Modelled from the spec: `volumegroup.Response` is declared outside the listed sources. Per
spec 4.1 CreateGroup yields a handle or an error. -/
structure Response where
  VolumeGroupID : String := ""
  Error : Option Err := none
  deriving DecidableEq, Repr

/-- Modelled from the spec: the handle that the driver gives to the group it creates under a
name (spec 4.1); the driver is outside the program and its handles are opaque. -/
def driverGroupID (volumeGroupName : String) : String := "id-of-" ++ volumeGroupName

/-- Modelled from the spec: `GenerateVolumeGroupContent` is declared outside the listed sources.
Per spec 4.4 (step 7) the content is named after the group name and carries the returned handle,
the back-reference to the group, the class name, the driver and the secret reference. -/
def GenerateVolumeGroupContent (vgname : String) (inst : VolumeGroup)
    (vgClass : VolumeGroupClass) (resp : Response) (secretName secretNamespace : String) :
    VolumeGroupContent :=
  { Name := vgname, VolumeGroupClassName := inst.Spec.VolumeGroupClassName,
    VolumeGroupHandle := resp.VolumeGroupID, VolumeGroupRefName := inst.Name,
    VolumeGroupRefNamespace := inst.Namespace, VolumeGroupRefUID := inst.UID,
    Driver := vgClass.Driver, SecretName := secretName, SecretNamespace := secretNamespace }

/-- Modelled from the spec: `CreateVolumeGroupContent` is declared outside the listed sources.
Per spec 4.4 (step 7) the content is created in the store; a content that already exists under
the name is left as it is. -/
def CreateVolumeGroupContent (w : World) (vgc : VolumeGroupContent) : World × Option Err :=
  match nextFault w with
  | (w, some err) => (w, some err)
  | (w, none) =>
    match w.VolumeGroupContents.find? (fun c => c.Name == vgc.Name) with
    | some _ => (w, none)
    | none => ({ w with VolumeGroupContents := w.VolumeGroupContents ++ [vgc] }, none)

/-- Modelled from the spec: `client.Delete` of a VolumeGroupContent (spec 4.4, step 4): the
object leaves the store; it fails when the environment says so, and with NotFound when the
object is not stored. -/
def clientDeleteVolumeGroupContent (w : World) (vgc : VolumeGroupContent) : World × Option Err :=
  match nextFault w with
  | (w, some err) => (w, some err)
  | (w, none) =>
    match w.VolumeGroupContents.find? (fun c => c.Name == vgc.Name) with
    | some _ =>
      ({ w with VolumeGroupContents := w.VolumeGroupContents.filter (fun c => c.Name != vgc.Name) },
        none)
    | none => (w, some (Err.NotFound vgc.Name))

/-- Modelled from the spec: the retry body of the content status writes, declared outside the
listed sources; it mirrors `vgRetryOnConflictFunc` (spec 4.4, every status mutation refetches on
a conflict). -/
def vgcRetryOnConflictFunc (w : World) (vgc : VolumeGroupContent) :
    World × VolumeGroupContent × Option Err :=
  match UpdateObjectStatus w vgc with
  | (w, err) =>
    if IsConflict err then
      match getNamespacedObject w vgc with
      | (w, vgc, some uErr) => (w, vgc, some uErr)
      | (w, vgc, none) => (w, vgc, err)
    else (w, vgc, err)

/-- Modelled from the spec: `UpdateVolumeGroupContentStatus` is declared outside the listed
sources. Per spec 4.4 (step 8) the content status gets the creation time and the ready flag. -/
def UpdateVolumeGroupContentStatus (w : World) (vgc : VolumeGroupContent)
    (groupCreationTime : Option Nat) (ready : Bool) : World × VolumeGroupContent × Option Err :=
  match RetryOnConflict (fun (s : World × VolumeGroupContent) =>
      match vgcRetryOnConflictFunc s.1
          { s.2 with GroupCreationTime := groupCreationTime, Ready := some ready } with
      | (w, vgc, err) => ((w, vgc), err)) DefaultRetry (w, vgc) with
  | ((w, vgc), err) => (w, vgc, err)

/-- Modelled from the spec: the write of an error message to the content status, declared
outside the listed sources (spec 7, user-visible surfaces). -/
def UpdateVolumeGroupContentStatusError (w : World) (vgc : VolumeGroupContent)
    (message : String) : World × VolumeGroupContent × Option Err :=
  match RetryOnConflict (fun (s : World × VolumeGroupContent) =>
      match vgcRetryOnConflictFunc s.1 { s.2 with Error := some message } with
      | (w, vgc, err) => ((w, vgc), err)) DefaultRetry (w, vgc) with
  | ((w, vgc), err) => (w, vgc, err)

/-- Modelled from the spec: `HandleVGCErrorMessage` is declared outside the listed sources. Per
spec 7 an error is written to the content's `status.error`, recorded as an event and returned; a
nil error is passed through. -/
def HandleVGCErrorMessage (w : World) (vgc : VolumeGroupContent) (err : Option Err)
    (reason : String) : World × VolumeGroupContent × Option Err :=
  match err with
  | none => (w, vgc, none)
  | some err =>
    if err = Err.NilPointerDereference then (w, vgc, some err)
    else
      match UpdateVolumeGroupContentStatusError w vgc (GetMessageFromError err) with
      | (w, vgc, some uErr) => (w, vgc, some uErr)
      | (w, vgc, none) =>
        (recordEvent w
          { kind := "VolumeGroupContent", objectNamespace := "", objectName := vgc.Name,
            eventType := "Warning", reason := reason,
            message := GetMessageFromError err }, vgc, some err)

/-- Modelled from the spec: `UpdateStaticVGC` is declared outside the listed sources. Per spec
4.4 (step 6) the existing content of a static group gets the class, driver and secret fields of
the class and the back-reference to the group. -/
def UpdateStaticVGC (w : World) (inst : VolumeGroup) (vgClass : VolumeGroupClass) :
    World × Option Err :=
  match inst.Spec.Source.VolumeGroupContentName with
  | none => (w, some Err.NilPointerDereference)
  | some vgcName =>
    match GetVolumeGroupContent w vgcName with
    | (w, .error err) => (w, some err)
    | (w, .ok vgc) =>
      UpdateObject w
        { vgc with
            VolumeGroupClassName := inst.Spec.VolumeGroupClassName,
            VolumeGroupRefName := inst.Name, VolumeGroupRefNamespace := inst.Namespace,
            VolumeGroupRefUID := inst.UID, Driver := vgClass.Driver,
            SecretName := (GetSecretCred vgClass).1, SecretNamespace := (GetSecretCred vgClass).2 }

/-! ## `controllers/utils/volumegroup.go`: binding a group to its content -/

/-- Embedding of `UpdateVolumeGroupSourceContent`. -/
def UpdateVolumeGroupSourceContent (w : World) (inst : VolumeGroup) (vgcName : String) :
    World × VolumeGroup × Option Err :=
  match UpdateObject w
      { inst with Spec := { inst.Spec with
          Source := { inst.Spec.Source with VolumeGroupContentName := some vgcName } } } with
  | (w, some err) =>
    (w, { inst with Spec := { inst.Spec with
        Source := { inst.Spec.Source with VolumeGroupContentName := some vgcName } } }, some err)
  | (w, none) =>
    (w, { inst with Spec := { inst.Spec with
        Source := { inst.Spec.Source with VolumeGroupContentName := some vgcName } } }, none)

/-- Embedding of `UpdateVolumeGroupStatus`. -/
def UpdateVolumeGroupStatus (w : World) (vg : VolumeGroup) (vgc : VolumeGroupContent)
    (groupCreationTime : Option Nat) (ready : Bool) : World × VolumeGroup × Option Err :=
  match RetryOnConflict (fun (s : World × VolumeGroup) =>
      match vgRetryOnConflictFunc s.1
          { s.2 with Status := { s.2.Status with
              BoundVolumeGroupContentName := some vgc.Name,
              GroupCreationTime := groupCreationTime,
              Ready := some ready,
              Error := none } } with
      | (w, vg, err) => ((w, vg), err)) DefaultRetry (w, vg) with
  | ((w, vg), some err) => (w, vg, some err)
  | ((w, vg), none) =>
    match updateVolumeGroupStatus w vg with
    | (w, err) => (w, vg, err)

/-! ## The VolumeGroup reconciler: lifecycle -/

/-- Embedding of `makeVolumeGroupName`: `fmt.Sprintf("%s-%s", prefix, volumeGroupUID)`. -/
def makeVolumeGroupName (pre volumeGroupUID : String) : String × Option Err :=
  if volumeGroupUID.length == 0 then ("", some Err.CorruptedVolumeGroup)
  else (pre ++ "-" ++ volumeGroupUID, none)

/-- Embedding of `VolumeGroupReconciler.createVolumeGroup`. The request type of `pkg/volumegroup`
is outside the listed sources; per spec 4.1 its `Create` issues the CreateGroup RPC, which
yields the driver's handle or an error. -/
def VolumeGroupReconciler.createVolumeGroup (_r : VolumeGroupReconciler) (w : World)
    (volumeGroupName : String) (_parameters _secrets : List (String × String)) :
    World × Response :=
  match nextFault w with
  | (w, err) =>
    ({ w with rpcs := w.rpcs ++ [{ call := RPC.CreateVolumeGroup volumeGroupName, error := err }] },
      { VolumeGroupID := (match err with
          | none => driverGroupID volumeGroupName
          | some _ => ""),
        Error := err })

/-- Embedding of `VolumeGroupReconciler.deleteVolumeGroup`. The request type of `pkg/volumegroup`
is outside the listed sources; per spec 4.1 its `Delete` issues the DeleteGroup RPC. -/
def VolumeGroupReconciler.deleteVolumeGroup (_r : VolumeGroupReconciler) (w : World)
    (volumeGroupId : String) (_secrets : List (String × String)) : World × Option Err :=
  match nextFault w with
  | (w, err) =>
    ({ w with rpcs := w.rpcs ++ [{ call := RPC.DeleteVolumeGroup volumeGroupId, error := err }] },
      err)

/-- Embedding of `VolumeGroupReconciler.updateItems`. -/
def VolumeGroupReconciler.updateItems (_r : VolumeGroupReconciler) (w : World)
    (inst : VolumeGroup) (groupCreationTime : Option Nat) (vgcName : String) :
    World × VolumeGroup × Option Err :=
  match GetVolumeGroupContent w vgcName with
  | (w, .error err) => HandleErrorMessage w inst (some err) vgReconcile
  | (w, .ok vgc) =>
    match UpdateVolumeGroupSourceContent w inst vgcName with
    | (w, inst, some err) =>
      match HandleVGCErrorMessage w vgc (some err) updateVGC with
      | (w, _, err) => (w, inst, err)
    | (w, inst, none) =>
      match UpdateVolumeGroupStatus w inst vgc groupCreationTime true with
      | (w, inst, some err) => HandleErrorMessage w inst (some err) updateStatusVG
      | (w, inst, none) =>
        match AddFinalizerToVGC w vgc with
        | (w, vgc, some err) =>
          match HandleVGCErrorMessage w vgc (some err) updateVGC with
          | (w, _, err) => (w, inst, err)
        | (w, vgc, none) =>
          match UpdateVolumeGroupContentStatus w vgc groupCreationTime true with
          | (w, vgc, some err) =>
            match HandleVGCErrorMessage w vgc (some err) updateStatusVGC with
            | (w, _, err) => (w, inst, err)
          | (w, _, none) => (w, inst, none)

/-- Embedding of `VolumeGroupReconciler.handleStaticProvisionedVG`; the boolean is
`isStaticProvisioned`. -/
def VolumeGroupReconciler.handleStaticProvisionedVG (r : VolumeGroupReconciler) (w : World)
    (inst : VolumeGroup) (groupCreationTime : Option Nat) (vgClass : VolumeGroupClass) :
    World × VolumeGroup × Option Err × Bool :=
  match inst.Spec.Source.VolumeGroupContentName with
  | some vgcName =>
    match r.updateItems w inst groupCreationTime vgcName with
    | (w, inst, some err) => (w, inst, some err, true)
    | (w, inst, none) =>
      match UpdateStaticVGC w inst vgClass with
      | (w, some err) => (w, inst, some err, true)
      | (w, none) => (w, inst, none, true)
  | none => (w, inst, none, false)

/-- Embedding of `VolumeGroupReconciler.RemoveVGCObject`. -/
def VolumeGroupReconciler.RemoveVGCObject (_r : VolumeGroupReconciler) (w : World)
    (volumeGroupContent : VolumeGroupContent) : World × Option Err :=
  match RemoveFinalizerFromVGC w volumeGroupContent with
  | (w, _, some err) => (w, some err)
  | (w, volumeGroupContent, none) =>
    match clientDeleteVolumeGroupContent w volumeGroupContent with
    | (w, some err) => (w, some err)
    | (w, none) => (w, none)

/-- Embedding of `VolumeGroupReconciler.removeVolumeGroupContent`. -/
def VolumeGroupReconciler.removeVolumeGroupContent (r : VolumeGroupReconciler) (w : World)
    (volumeGroupContent : VolumeGroupContent) (secret : List (String × String)) :
    World × Option Err :=
  match r.deleteVolumeGroup w volumeGroupContent.VolumeGroupHandle secret with
  | (w, some err) => (w, some err)
  | (w, none) =>
    match r.RemoveVGCObject w volumeGroupContent with
    | (w, some err) => (w, some err)
    | (w, none) => (w, none)

/-- Embedding of `VolumeGroupReconciler.removeInstance`; the content name is dereferenced
without a nil check. -/
def VolumeGroupReconciler.removeInstance (r : VolumeGroupReconciler) (w : World)
    (inst : VolumeGroup) (secret : List (String × String)) :
    World × VolumeGroup × Option Err :=
  match inst.Spec.Source.VolumeGroupContentName with
  | none => (w, inst, some Err.NilPointerDereference)
  | some vgcName =>
    match GetVolumeGroupContent w vgcName with
    | (w, .error err) =>
      if !IsNotFound (some err) then (w, inst, some err)
      else
        match RemoveFinalizerFromVG w inst with
        | (w, inst, some err) => (w, inst, some err)
        | (w, inst, none) => (w, inst, none)
    | (w, .ok volumeGroupContent) =>
      match r.removeVolumeGroupContent w volumeGroupContent secret with
      | (w, some err) => (w, inst, some err)
      | (w, none) =>
        match RemoveFinalizerFromVG w inst with
        | (w, inst, some err) => (w, inst, some err)
        | (w, inst, none) => (w, inst, none)

/-- Embedding of `VolumeGroupReconciler.createSuccessVolumeGroupEvent`, which returns nil
whatever `HandleSuccessMessage` returns. -/
def VolumeGroupReconciler.createSuccessVolumeGroupEvent (_r : VolumeGroupReconciler) (w : World)
    (vg : VolumeGroup) : World × Option Err :=
  match HandleSuccessMessage w vg
      ("created " ++ vg.Namespace ++ "/" ++ vg.Name) vgReconcile with
  | (w, _) => (w, none)

/-- Counterpart of `metav1.Time.IsZero` on the optional deletion timestamp. -/
def IsZero : Option Nat → Bool
  | none => true
  | some t => t == 0

/-- The part of `VolumeGroupReconciler.Reconcile` after a successful CreateGroup RPC (from
`GetSecretCred` on): the content object, the binding and the membership reconciliation. -/
def VolumeGroupReconciler.reconcileCreated (removeByIndexFromPVCList : RemoveByIndex)
    (r : VolumeGroupReconciler) (w : World) (inst : VolumeGroup)
    (vgClass : VolumeGroupClass) (volumeGroupName : String)
    (createVolumeGroupResponse : Response) (groupCreationTime : Option Nat) :
    World × Option Err :=
  match CreateVolumeGroupContent w
      (GenerateVolumeGroupContent volumeGroupName inst vgClass
        createVolumeGroupResponse (GetSecretCred vgClass).1 (GetSecretCred vgClass).2) with
  | (w, some err) =>
    match HandleErrorMessage w inst (some err) createVGC with
    | (w, _, err) => (w, err)
  | (w, none) =>
    match r.updateItems w inst groupCreationTime volumeGroupName with
    | (w, _, some err) => (w, some err)
    | (w, inst, none) =>
      match r.removeVolumesFromVG removeByIndexFromPVCList w inst with
      | (w, inst, some err) =>
        match HandleErrorMessage w inst (some err) removingPVC with
        | (w, _, err) => (w, err)
      | (w, inst, none) =>
        match r.addMatchingVolumesToVG removeByIndexFromPVCList w inst with
        | (w, inst, some err) =>
          match HandleErrorMessage w inst (some err) addingPVC with
          | (w, _, err) => (w, err)
        | (w, inst, none) =>
          match r.createSuccessVolumeGroupEvent w inst with
          | (w, _) =>
            match HandleErrorMessage w inst none vgReconcile with
            | (w, _, err) => (w, err)

/-- The part of `VolumeGroupReconciler.Reconcile` after the static branch (from
`makeVolumeGroupName` on): the group name and the CreateGroup RPC. -/
def VolumeGroupReconciler.reconcileDynamic (removeByIndexFromPVCList : RemoveByIndex)
    (r : VolumeGroupReconciler) (w : World) (inst : VolumeGroup)
    (vgClass : VolumeGroupClass) (parameters secret : List (String × String))
    (groupCreationTime : Option Nat) : World × Option Err :=
  match makeVolumeGroupName VolumeGroupNamePrefix inst.UID with
  | (_, some err) =>
    match HandleErrorMessage w inst (some err) createVG with
    | (w, _, err) => (w, err)
  | (volumeGroupName, none) =>
    match r.createVolumeGroup w volumeGroupName parameters secret with
    | (w, createVolumeGroupResponse) =>
      match createVolumeGroupResponse.Error with
      | some rpcErr =>
        match HandleErrorMessage w inst (some rpcErr) createVG with
        | (w, _, err) => (w, err)
      | none =>
        r.reconcileCreated removeByIndexFromPVCList w inst vgClass volumeGroupName
          createVolumeGroupResponse groupCreationTime

/-- The part of `VolumeGroupReconciler.Reconcile` after the class and its secret are resolved:
the finalizer, the deletion branch and the static branch. -/
def VolumeGroupReconciler.reconcileInstance (removeByIndexFromPVCList : RemoveByIndex)
    (r : VolumeGroupReconciler) (w : World) (inst : VolumeGroup)
    (vgClass : VolumeGroupClass) (parameters secret : List (String × String))
    (now : Nat) : World × Option Err :=
  if IsZero inst.DeletionTimestamp then
    match AddFinalizerToVG w inst with
    | (w, inst, some err) =>
      match HandleErrorMessage w inst (some err) createVG with
      | (w, _, err) => (w, err)
    | (w, inst, none) =>
      match r.handleStaticProvisionedVG w inst (some now) vgClass with
      | (w, inst, err, isStaticProvisioned) =>
        if isStaticProvisioned then (w, err)
        else
          r.reconcileDynamic removeByIndexFromPVCList w inst vgClass parameters secret
            (some now)
  else
    if Contains inst.Finalizers VolumeGroupFinalizer then
      match r.removeInstance w inst secret with
      | (w, inst, some err) =>
        match HandleErrorMessage w inst (some err) deleteVG with
        | (w, _, err) => (w, err)
      | (w, _, none) => (w, none)
    else (w, none)

/-- Embedding of `VolumeGroupReconciler.Reconcile` for the request key `(namespace, name)`;
`now` is the reading of `getCurrentTime`. -/
def VolumeGroupReconciler.Reconcile (removeByIndexFromPVCList : RemoveByIndex)
    (r : VolumeGroupReconciler) (w : World) (req : String × String) (now : Nat) :
    World × Option Err :=
  match (clientGet w req.1 req.2 : World × Except Err VolumeGroup) with
  | (w, .error err) =>
    if IsNotFound (some err) then (w, none)
    else
      match HandleErrorMessage w {} (some err) vgReconcile with
      | (w, _, err) => (w, err)
  | (w, .ok inst) =>
    match GetVolumeGroupClass w inst.Spec.VolumeGroupClassName with
    | (w, .error err) =>
      match HandleErrorMessage w inst (some err) vgReconcile with
      | (w, _, err) => (w, err)
    | (w, .ok vgClass) =>
      if r.DriverConfig.DriverName != vgClass.Driver then (w, none)
      else
        match ValidatePrefixedParameters vgClass.Parameters with
        | some err =>
          match UpdateVolumeGroupStatusError w inst err.Error with
          | (w, _, some uErr) => (w, some uErr)
          | (w, _, none) => (w, some err)
        | none =>
          match GetSecretDataFromClass w vgClass with
          | (w, .error err) =>
            match HandleErrorMessage w inst (some err) vgReconcile with
            | (w, _, err) => (w, err)
          | (w, .ok secret) =>
            r.reconcileInstance removeByIndexFromPVCList w inst vgClass
              (FilterPrefixedParameters VolumeGroupAsPrefix vgClass.Parameters) secret now

/-! ## Specification vocabulary -/

/-- The second world holds the same objects, RPC log and events as the first: only pending
failures were consumed, nothing was written. -/
def ReadOnly (w w' : World) : Prop := ∃ faults, w' = { w with faults := faults }

/-- Whether the group's class is stored and names the driver (spec 4.2). -/
def hasMatchingDriver (w : World) (driver : String) (vg : VolumeGroup) : Bool :=
  match w.VolumeGroupClasses.find? (fun c => c.Name == vg.Spec.VolumeGroupClassName) with
  | some vgClass => vgClass.Driver == driver
  | none => false

/-- The driver-filtered group list in the words of spec 4.2: the stored groups, in the store's
order, whose class exists and has the configured driver. It is what `GetVGList` returns when it
returns without error (`GetVGList_eq_driverFilteredVGs`). -/
def driverFilteredVGs (w : World) (driver : String) : List VolumeGroup :=
  w.VolumeGroups.filter (hasMatchingDriver w driver)

/-- A claim is stored under the given namespace and name, and every stored claim under that key
has exactly the finalizer list `fins`. -/
def StoredFinalizers (w : World) (ns name : String) (fins : List String) : Prop :=
  (∃ p ∈ w.PersistentVolumeClaims, p.Namespace = ns ∧ p.Name = name) ∧
  ∀ p ∈ w.PersistentVolumeClaims, p.Namespace = ns → p.Name = name → p.Finalizers = fins

/-! ## Concrete scenarios -/

/-- A claim named `a`. -/
def claimA : PersistentVolumeClaim := { Name := "a", Namespace := "ns" }

/-- A claim named `b`. -/
def claimB : PersistentVolumeClaim := { Name := "b", Namespace := "ns" }

/-- A reconciled group that records `claimA`. -/
def groupWithA : VolumeGroup :=
  { Name := "g1", Namespace := "ns",
    Spec := { VolumeGroupClassName := "gold", Source := { VolumeGroupContentName := some "vgc1" } },
    Status := { PVCList := [claimA] } }

/-- A reconciled group that records `claimA` and then `claimB`. -/
def groupWithAB : VolumeGroup :=
  { Name := "g1", Namespace := "ns",
    Spec := { VolumeGroupClassName := "gold", Source := { VolumeGroupContentName := some "vgc1" } },
    Status := { PVCList := [claimA, claimB] } }

/-- A store holding `groupWithA` and its content object, no failures. -/
def calmWorld : World :=
  { VolumeGroups := [groupWithA],
    PersistentVolumeClaims := [claimA, claimB],
    VolumeGroupClasses := [{ Name := "gold", Driver := "csi.example.com" }],
    VolumeGroupContents := [{ Name := "vgc1", VolumeGroupHandle := "handle-1" }] }

/-- The same store when the content lookup succeeds and the ModifyGroup RPC then fails. -/
def rpcFailsWorld : World :=
  { calmWorld with faults := [Fault.none, Fault.unavailable "driver unavailable"] }

/-- A bound claim of storage class `fast`. -/
def boundClaim : PersistentVolumeClaim :=
  { Name := "p1", Namespace := "ns", Labels := [("app", "db")],
    Spec := { StorageClassName := some "fast", VolumeName := "pv1" },
    Status := { Phase := "Bound" } }

/-- A store with the storage class `fast` of the configured driver, without parameters. -/
def storageWorld : World :=
  { PersistentVolumeClaims := [boundClaim],
    StorageClasses := [{ Name := "fast", Provisioner := "csi.example.com" }] }

/-- A PVC reconciler configured for `csi.example.com` in single-group mode. -/
def exampleReconciler : PersistentVolumeClaimReconciler :=
  { DriverConfig := { DriverName := "csi.example.com", MultipleVGsToPVC := "false" } }

/-- A claim that carries the PVC finalizer and is recorded in no group. -/
def protectedClaim : PersistentVolumeClaim :=
  { Name := "p1", Namespace := "ns",
    Finalizers := ["keep.example.com/other", pvcVolumeGroupFinalizer] }

/-- A store with `protectedClaim` and a group of the driver that records nothing. -/
def staleFinalizerWorld : World :=
  { VolumeGroups :=
      [{ Name := "g1", Namespace := "ns", Spec := { VolumeGroupClassName := "gold" } }],
    PersistentVolumeClaims := [protectedClaim],
    VolumeGroupClasses := [{ Name := "gold", Driver := "csi.example.com" }] }

/-- A bound claim `p1` labelled `app: db` with volume `pv1`. -/
def dbClaim1 : PersistentVolumeClaim :=
  { Name := "p1", Namespace := "ns", Labels := [("app", "db")],
    Spec := { StorageClassName := some "fast", VolumeName := "pv1" },
    Status := { Phase := "Bound" } }

/-- A bound claim `p2` labelled `app: db` with volume `pv2`. -/
def dbClaim2 : PersistentVolumeClaim :=
  { Name := "p2", Namespace := "ns", Labels := [("app", "db")],
    Spec := { StorageClassName := some "fast", VolumeName := "pv2" },
    Status := { Phase := "Bound" } }

/-- A reconciled dynamic group selecting `app: db`, with no member yet. -/
def dbGroup : VolumeGroup :=
  { Name := "g1", Namespace := "ns", UID := "uid-1",
    Spec := { VolumeGroupClassName := "gold",
              Source := { Selector := { MatchLabels := [("app", "db")] },
                          VolumeGroupContentName := some "vgc1" } } }

/-- A store with `dbGroup`, the two claims matching it and their volumes; nothing fails. -/
def twoClaimsWorld : World :=
  { VolumeGroups := [dbGroup],
    PersistentVolumeClaims := [dbClaim1, dbClaim2],
    PersistentVolumes := [{ Name := "pv1", VolumeHandle := "vol-1" },
                          { Name := "pv2", VolumeHandle := "vol-2" }],
    StorageClasses := [{ Name := "fast", Provisioner := "csi.example.com" }],
    VolumeGroupClasses := [{ Name := "gold", Driver := "csi.example.com" }],
    VolumeGroupContents := [{ Name := "vgc1", VolumeGroupHandle := "handle-1" }] }

/-- A claim relabelled to `app: other` that still carries the PVC finalizer. -/
def driftedClaim : PersistentVolumeClaim :=
  { Name := "p1", Namespace := "ns", Labels := [("app", "other")],
    Finalizers := [pvcVolumeGroupFinalizer],
    Spec := { StorageClassName := some "fast", VolumeName := "pv1" },
    Status := { Phase := "Bound" } }

/-- A group selecting `app: db` that still records `driftedClaim`. -/
def staleGroupOne : VolumeGroup :=
  { Name := "g1", Namespace := "ns", UID := "uid-1",
    Spec := { VolumeGroupClassName := "gold",
              Source := { Selector := { MatchLabels := [("app", "db")] },
                          VolumeGroupContentName := some "vgc1" } },
    Status := { PVCList := [driftedClaim] } }

/-- A second group selecting `app: db` that still records `driftedClaim`. -/
def staleGroupTwo : VolumeGroup :=
  { Name := "g2", Namespace := "ns", UID := "uid-2",
    Spec := { VolumeGroupClassName := "gold",
              Source := { Selector := { MatchLabels := [("app", "db")] },
                          VolumeGroupContentName := some "vgc2" } },
    Status := { PVCList := [driftedClaim] } }

/-- A store, as multi-group mode produces it, in which `driftedClaim` is recorded in two groups
that no longer match it. -/
def twoStaleGroupsWorld : World :=
  { VolumeGroups := [staleGroupOne, staleGroupTwo],
    PersistentVolumeClaims := [driftedClaim],
    PersistentVolumes := [{ Name := "pv1", VolumeHandle := "vol-1" }],
    StorageClasses := [{ Name := "fast", Provisioner := "csi.example.com" }],
    VolumeGroupClasses := [{ Name := "gold", Driver := "csi.example.com" }],
    VolumeGroupContents :=
      [{ Name := "vgc1", VolumeGroupHandle := "handle-1",
         PVList := [{ Name := "pv1", VolumeHandle := "vol-1" }] },
       { Name := "vgc2", VolumeGroupHandle := "handle-2",
         PVList := [{ Name := "pv1", VolumeHandle := "vol-1" }] }] }

/-- A PVC reconciler configured for `csi.example.com` in multi-group mode. -/
def multiGroupReconciler : PersistentVolumeClaimReconciler :=
  { DriverConfig := { DriverName := "csi.example.com", MultipleVGsToPVC := "true" } }

/-- Scenario S3: group `g1` selects `tier: a`. -/
def tierGroup : VolumeGroup :=
  { Name := "g1", Namespace := "ns", UID := "uid-1",
    Spec := { VolumeGroupClassName := "gold",
              Source := { Selector := { MatchLabels := [("tier", "a")] },
                          VolumeGroupContentName := some "vgc1" } } }

/-- Scenario S3: group `g2` selects `tier: a, zone: x`. -/
def tierZoneGroup : VolumeGroup :=
  { Name := "g2", Namespace := "ns", UID := "uid-2",
    Spec := { VolumeGroupClassName := "gold",
              Source := { Selector := { MatchLabels := [("tier", "a"), ("zone", "x")] },
                          VolumeGroupContentName := some "vgc2" } } }

/-- Scenario S3: claim `p2` labelled `tier: a, zone: x`. -/
def tierZoneClaim : PersistentVolumeClaim :=
  { Name := "p2", Namespace := "ns", Labels := [("tier", "a"), ("zone", "x")],
    Spec := { StorageClassName := some "fast", VolumeName := "pv2" },
    Status := { Phase := "Bound" } }

/-- Scenario S3: the store with both groups and the claim. -/
def exclusivityWorld : World :=
  { VolumeGroups := [tierGroup, tierZoneGroup],
    PersistentVolumeClaims := [tierZoneClaim],
    PersistentVolumes := [{ Name := "pv2", VolumeHandle := "vol-2" }],
    StorageClasses := [{ Name := "fast", Provisioner := "csi.example.com" }],
    VolumeGroupClasses := [{ Name := "gold", Driver := "csi.example.com" }],
    VolumeGroupContents := [{ Name := "vgc1", VolumeGroupHandle := "handle-1" },
                            { Name := "vgc2", VolumeGroupHandle := "handle-2" }] }

/-- The key of a group in the store. -/
def vgKey (g : VolumeGroup) : String × String := (g.Namespace, g.Name)

/-- The groups of a list that record the claim in `status.pvcList`. -/
def recordingGroups (pvc : PersistentVolumeClaim) (vgs : List VolumeGroup) : List VolumeGroup :=
  vgs.filter (fun vg => IsPVCPartOfVG pvc vg.Status.PVCList)

/-- The stored groups and classes are the same in both worlds. -/
def SameGroups (w w' : World) : Prop :=
  w'.VolumeGroups = w.VolumeGroups ∧ w'.VolumeGroupClasses = w.VolumeGroupClasses

/-- The second world stores the same groups as the first, in the same order and with the same
names and specs; only the status of groups with key `k` may differ, and a status whose `pvcList`
satisfied `P` still satisfies it. -/
def Touches (P : List PersistentVolumeClaim → Prop) (k : String × String) (w w' : World) :
    Prop :=
  w'.VolumeGroupClasses = w.VolumeGroupClasses ∧
  ∃ f : VolumeGroup → VolumeGroup, w'.VolumeGroups = w.VolumeGroups.map f ∧
    ∀ g, (f g).Name = g.Name ∧ (f g).Namespace = g.Namespace ∧ (f g).Spec = g.Spec ∧
      (vgKey g ≠ k → f g = g) ∧ (P g.Status.PVCList → P (f g).Status.PVCList)

/-- Every stored group with key `k` has a `pvcList` satisfying `P`. -/
def StoredP (P : List PersistentVolumeClaim → Prop) (k : String × String) (w : World) : Prop :=
  ∀ g ∈ w.VolumeGroups, vgKey g = k → P g.Status.PVCList

/-- A VolumeGroup reconciler configured for `csi.example.com` in single-group mode. -/
def exampleVGReconciler : VolumeGroupReconciler :=
  { DriverConfig := { DriverName := "csi.example.com", MultipleVGsToPVC := "false" } }

/-- A VolumeGroup reconciler configured for `csi.example.com` in multi-group mode. -/
def multiGroupVGReconciler : VolumeGroupReconciler :=
  { DriverConfig := { DriverName := "csi.example.com", MultipleVGsToPVC := "true" } }

/-- Group `g1` of scenario S3 once it records claim `p2`. -/
def tierGroupWithClaim : VolumeGroup :=
  { tierGroup with Status := { PVCList := [tierZoneClaim] } }

/-- A group as the reconciler read it, before another writer added a finalizer to it. -/
def staleReadGroup : VolumeGroup :=
  { Name := "g1", Namespace := "ns", UID := "uid-1",
    Spec := { VolumeGroupClassName := "gold",
              Source := { Selector := { MatchLabels := [("app", "db")] } } } }

/-- The store after another writer added its finalizer to the group: the reconciler's next
update is answered with a conflict. -/
def otherWriterWorld : World :=
  { VolumeGroups := [{ staleReadGroup with Finalizers := ["other.example.com/hold"] }],
    VolumeGroupClasses := [{ Name := "gold", Driver := "csi.example.com" }],
    faults := [Fault.conflict] }

/-- A storage class of the driver that carries the `volume_group` parameter. -/
def staticStorageClass : StorageClass :=
  { Name := "static", Provisioner := "csi.example.com",
    Parameters := [("volume_group", "vg-static")] }

/-- A bound claim labelled `app: db` whose storage class is `staticStorageClass`. -/
def staticClassClaim : PersistentVolumeClaim :=
  { Name := "p9", Namespace := "ns", Labels := [("app", "db")],
    Spec := { StorageClassName := some "static", VolumeName := "pv9" },
    Status := { Phase := "Bound" } }

/-- A store with `dbGroup` and `staticClassClaim`; nothing fails. -/
def staticClassWorld : World :=
  { VolumeGroups := [dbGroup],
    PersistentVolumeClaims := [staticClassClaim],
    PersistentVolumes := [{ Name := "pv9", VolumeHandle := "vol-9" }],
    StorageClasses := [staticStorageClass],
    VolumeGroupClasses := [{ Name := "gold", Driver := "csi.example.com" }],
    VolumeGroupContents := [{ Name := "vgc1", VolumeGroupHandle := "handle-1" }] }

/-- The stores that an operation may write. -/
structure Footprint where
  groups : Bool := false
  claims : Bool := false
  contents : Bool := false
  events : Bool := false
  deriving DecidableEq, Repr

/-- The second world differs from the first at most in the stores named by the footprint, in the
pending failures, and in RPC records appended to the log, each of which satisfies `p`. Volumes,
storage classes, group classes and secrets are never written. -/
structure Within (S : Footprint) (p : RPCRecord → Prop) (w w' : World) : Prop where
  volumes : w'.PersistentVolumes = w.PersistentVolumes
  storageClasses : w'.StorageClasses = w.StorageClasses
  classes : w'.VolumeGroupClasses = w.VolumeGroupClasses
  secrets : w'.Secrets = w.Secrets
  groups : S.groups = false → w'.VolumeGroups = w.VolumeGroups
  claims : S.claims = false → w'.PersistentVolumeClaims = w.PersistentVolumeClaims
  contents : S.contents = false → w'.VolumeGroupContents = w.VolumeGroupContents
  events : S.events = false → w'.events = w.events
  rpcs : ∃ new, w'.rpcs = w.rpcs ++ new ∧ ∀ rec ∈ new, p rec

/-- No RPC record at all. -/
def noRPC : RPCRecord → Prop := fun _ => False

/-- The record of a ModifyGroup RPC. -/
def isModify (rec : RPCRecord) : Prop :=
  ∃ volumeGroupID volumeIds, rec.call = RPC.ModifyVolumeGroup volumeGroupID volumeIds

/-- An invariant `J` of the world and of the in-memory copy of an object that the store
operations keep: consuming a pending failure, writing the copy, writing its status, replacing
the copy by the stored object of the same key, and setting the copy's finalizers. -/
structure Stable {α : Type} [Object α] (J : World → α → Prop) : Prop where
  faults : ∀ w a faults, J w a → J { w with faults := faults } a
  write : ∀ w a, J w a → J (Object.write w a) a
  writeStatus : ∀ w a, J w a → J (Object.writeStatus w a) a
  fetch : ∀ w a b, J w a →
    Object.stored w (Object.GetNamespace a) (Object.GetName a) = some b → J w b
  setFinalizers : ∀ w a finalizers, J w a → J w (Object.SetFinalizers a finalizers)

/-- The footprint of an operation that may write every store. -/
def allStores : Footprint := { groups := true, claims := true, contents := true, events := true }

/-- The footprint of an operation that writes groups and events only. -/
def groupStores : Footprint := { groups := true, events := true }

/-- The first group of a list that does not record the claim and whose selector matches it. -/
def firstNewMatch (pvc : PersistentVolumeClaim) (vgs : List VolumeGroup) : Option VolumeGroup :=
  vgs.find? (fun vg => !IsPVCPartOfVG pvc vg.Status.PVCList && (IsPVCMatchesVG pvc vg).1)

/-- The record of a DeleteGroup RPC. -/
def isDelete (rec : RPCRecord) : Prop :=
  ∃ volumeGroupID, rec.call = RPC.DeleteVolumeGroup volumeGroupID

/-- The record of an RPC other than CreateGroup. -/
def notCreate (rec : RPCRecord) : Prop := ∀ name, rec.call ≠ RPC.CreateVolumeGroup name

/-- A property of groups that survives what the store operations do to a group: taking the
status of another group that has the property, a change of the finalizers, and a change of the
status error. -/
structure Mixes (P : VolumeGroup → Prop) : Prop where
  status : ∀ a b, P a → P b → P { a with Status := b.Status }
  finalizers : ∀ a finalizers, P a → P { a with Finalizers := finalizers }
  error : ∀ a m, P a → P { a with Status := { a.Status with Error := some m } }

/-- The second world stores the groups of the first in the same order and under the same keys,
and only groups with key `k` may differ. -/
def Keyed (k : String × String) (w0 w : World) : Prop :=
  ∃ f : VolumeGroup → VolumeGroup, w.VolumeGroups = w0.VolumeGroups.map f ∧
    ∀ g, vgKey (f g) = vgKey g ∧ (vgKey g ≠ k → f g = g)

/-- The invariant of a reconcile of the group with key `k` that started in world `w0`: the
world stays within the footprint, the groups stay keyed, and the in-memory group as well as
every stored group with key `k` has the property `P`. -/
def Tracks (P : VolumeGroup → Prop) (k : String × String) (S : Footprint)
    (p : RPCRecord → Prop) (w0 w : World) (a : VolumeGroup) : Prop :=
  Within S p w0 w ∧ Keyed k w0 w ∧ vgKey a = k ∧ P a ∧
    ∀ g ∈ w.VolumeGroups, vgKey g = k → P g

/-- Scenario S6: a static group bound to the pre-existing content `vgc-static`. -/
def staticBoundGroup : VolumeGroup :=
  { Name := "g3", Namespace := "ns", UID := "uid-3",
    Spec := { VolumeGroupClassName := "gold",
              Source := { VolumeGroupContentName := some "vgc-static" } } }

/-- Scenario S6: the store with the static group, its class and the pre-existing content. -/
def staticGroupWorld : World :=
  { VolumeGroups := [staticBoundGroup],
    VolumeGroupClasses := [{ Name := "gold", Driver := "csi.example.com" }],
    VolumeGroupContents := [{ Name := "vgc-static", VolumeGroupHandle := "handle-static" }] }

/-- Scenario S6 at deletion: the static group carries the finalizer and a deletion
timestamp, and its content carries the content finalizer. -/
def deletedStaticGroup : VolumeGroup :=
  { staticBoundGroup with Finalizers := [VolumeGroupFinalizer], DeletionTimestamp := some 5 }

/-- Scenario S6 at deletion: the store with the deleted static group. -/
def deletedStaticGroupWorld : World :=
  { VolumeGroups := [deletedStaticGroup],
    VolumeGroupClasses := [{ Name := "gold", Driver := "csi.example.com" }],
    VolumeGroupContents :=
      [{ Name := "vgc-static", VolumeGroupHandle := "handle-static",
         Finalizers := [volumeGroupContentFinalizer] }] }

/-- Scenario S5: a new dynamic group selecting `app: db`. -/
def newDynamicGroup : VolumeGroup :=
  { Name := "g1", Namespace := "ns", UID := "uid-1",
    Spec := { VolumeGroupClassName := "gold",
              Source := { Selector := { MatchLabels := [("app", "db")] } } } }

/-- Scenario S5: the store with the new group; the class lookup and the finalizer update
succeed and the CreateGroup RPC is then answered with Unavailable. -/
def createFailsWorld : World :=
  { VolumeGroups := [newDynamicGroup],
    PersistentVolumeClaims := [dbClaim1],
    PersistentVolumes := [{ Name := "pv1", VolumeHandle := "vol-1" }],
    StorageClasses := [{ Name := "fast", Provisioner := "csi.example.com" }],
    VolumeGroupClasses := [{ Name := "gold", Driver := "csi.example.com" }],
    faults := [Fault.none, Fault.none, Fault.none, Fault.unavailable "driver unavailable"] }

/-- Scenario S4: the content of group `g1`, carrying the content finalizer. -/
def deletedGroupContent : VolumeGroupContent :=
  { Name := "vgc1", VolumeGroupHandle := "handle-1", Finalizers := [volumeGroupContentFinalizer],
    PVList := [{ Name := "pv1", VolumeHandle := "vol-1" }] }

/-- Scenario S4: group `g1` with one member, after the user deleted it. -/
def deletedGroup : VolumeGroup :=
  { Name := "g1", Namespace := "ns", UID := "uid-1",
    Finalizers := [VolumeGroupFinalizer], DeletionTimestamp := some 5,
    Spec := { VolumeGroupClassName := "gold",
              Source := { Selector := { MatchLabels := [("app", "db")] },
                          VolumeGroupContentName := some "vgc1" } },
    Status := { PVCList := [dbClaim1], Ready := some true } }

/-- Scenario S4: the store at the deletion of `g1`; nothing fails. -/
def deletedGroupWorld : World :=
  { VolumeGroups := [deletedGroup],
    PersistentVolumeClaims := [dbClaim1],
    VolumeGroupClasses := [{ Name := "gold", Driver := "csi.example.com" }],
    VolumeGroupContents := [deletedGroupContent] }

/-- Scenario S4 when the content lookup succeeds and the DeleteGroup RPC is then answered with
Unavailable. -/
def deleteFailsWorld : World :=
  { deletedGroupWorld with faults := [Fault.none, Fault.unavailable "driver unavailable"] }

/-- Whether the claim names a stored storage class whose provisioner is the driver. -/
def hasMatchingProvisioner (w : World) (driver : String) (pvc : PersistentVolumeClaim) : Bool :=
  match pvc.Spec.StorageClassName with
  | none => false
  | some scName =>
    match w.StorageClasses.find? (fun sc => sc.Name == scName) with
    | some sc => sc.Provisioner == driver
    | none => false

/-- The driver-filtered claim list: the stored claims, in the store's order, whose phase is
Bound and whose storage class is stored and has the driver as its provisioner. It is what
`GetPVCList` returns when it returns without error. -/
def driverFilteredPVCs (w : World) (driver : String) : List PersistentVolumeClaim :=
  w.PersistentVolumeClaims.filter
    (fun pvc => pvc.Status.Phase == ClaimBound && hasMatchingProvisioner w driver pvc)

/-- Two bound claims of the driver around a pending claim and a bound claim of another
provisioner. -/
def mixedClaimsWorld : World :=
  { StorageClasses := [{ Name := "fast", Provisioner := "csi.example.com" },
                       { Name := "other", Provisioner := "other.example.com" }],
    PersistentVolumeClaims :=
      [{ Name := "p1", Namespace := "ns", Spec := { StorageClassName := some "fast" },
         Status := { Phase := ClaimBound } },
       { Name := "p2", Namespace := "ns", Spec := { StorageClassName := some "fast" },
         Status := { Phase := "Pending" } },
       { Name := "p3", Namespace := "ns", Spec := { StorageClassName := some "other" },
         Status := { Phase := ClaimBound } },
       { Name := "p4", Namespace := "ns", Spec := { StorageClassName := some "fast" },
         Status := { Phase := ClaimBound } }] }

/-- Scenario S5 continued: the group as the failed reconcile left it (finalizer added, error
recorded, no content bound), after the user deleted it. -/
def deletedUnboundGroup : VolumeGroup :=
  { newDynamicGroup with
    Finalizers := [VolumeGroupFinalizer], DeletionTimestamp := some 9,
    Status := { Error := some "driver unavailable" } }

/-- Scenario S5 continued: the store at the deletion of the unbound group; nothing fails. -/
def deletedUnboundWorld : World :=
  { VolumeGroups := [deletedUnboundGroup],
    PersistentVolumeClaims := [dbClaim1],
    PersistentVolumes := [{ Name := "pv1", VolumeHandle := "vol-1" }],
    StorageClasses := [{ Name := "fast", Provisioner := "csi.example.com" }],
    VolumeGroupClasses := [{ Name := "gold", Driver := "csi.example.com" }] }

/-- The footprint of an operation that writes contents and events only. -/
def contentStores : Footprint := { contents := true, events := true }

/-- A group without a deletion timestamp that is bound to a content and whose `status.pvcList`
is `l`. -/
def BoundRecording (l : List PersistentVolumeClaim) (g : VolumeGroup) : Prop :=
  g.DeletionTimestamp = none ∧ g.Spec.Source.VolumeGroupContentName ≠ none ∧
    g.Status.PVCList = l

/-- A second claim relabelled to `app: other` that still carries the PVC finalizer. -/
def driftedClaim2 : PersistentVolumeClaim :=
  { Name := "p2", Namespace := "ns", Labels := [("app", "other")],
    Finalizers := [pvcVolumeGroupFinalizer],
    Spec := { StorageClassName := some "fast", VolumeName := "pv2" },
    Status := { Phase := "Bound" } }

/-- A Ready group selecting `app: db`, bound to content `vgc1` by an earlier reconcile, that
still records the two relabelled claims. -/
def twoDriftedGroup : VolumeGroup :=
  { Name := "g1", Namespace := "ns", UID := "uid-1", Finalizers := [VolumeGroupFinalizer],
    Spec := { VolumeGroupClassName := "gold",
              Source := { Selector := { MatchLabels := [("app", "db")] },
                          VolumeGroupContentName := some "vgc1" } },
    Status := { BoundVolumeGroupContentName := some "vgc1", GroupCreationTime := some 3,
                Ready := some true, PVCList := [driftedClaim, driftedClaim2] } }

/-- The store with the Ready group, the two relabelled claims, their volumes, and the content
that lists both volumes; nothing fails. -/
def twoDriftedWorld : World :=
  { VolumeGroups := [twoDriftedGroup],
    PersistentVolumeClaims := [driftedClaim, driftedClaim2],
    PersistentVolumes := [{ Name := "pv1", VolumeHandle := "vol-1" },
                          { Name := "pv2", VolumeHandle := "vol-2" }],
    StorageClasses := [{ Name := "fast", Provisioner := "csi.example.com" }],
    VolumeGroupClasses := [{ Name := "gold", Driver := "csi.example.com" }],
    VolumeGroupContents :=
      [{ Name := "vgc1", VolumeGroupHandle := "handle-1",
         Finalizers := [volumeGroupContentFinalizer], Ready := some true,
         PVList := [{ Name := "pv1", VolumeHandle := "vol-1" },
                    { Name := "pv2", VolumeHandle := "vol-2" }] }] }

/-! ## Theorems: claim admission (C1) -/

theorem sameClaim_iff (a b : PersistentVolumeClaim) :
    sameClaim a b = true ↔ b.Name = a.Name ∧ b.Namespace = a.Namespace := by
  simp [sameClaim]

theorem IsPVCPartOfVG_eq_any (pvc : PersistentVolumeClaim) (l : List PersistentVolumeClaim) :
    IsPVCPartOfVG pvc l = l.any (sameClaim pvc) := by
  induction l with
  | nil => rfl
  | cons x xs ih =>
    simp only [IsPVCPartOfVG, List.any_cons, sameClaim, ih]
    by_cases h : (x.Name == pvc.Name && x.Namespace == pvc.Namespace) = true
    · simp [h]
    · simp only [h, if_false]; simp

theorem IsPVCPartOfVG_iff (pvc : PersistentVolumeClaim) (l : List PersistentVolumeClaim) :
    IsPVCPartOfVG pvc l = true ↔ ∃ x ∈ l, sameClaim pvc x = true := by
  rw [IsPVCPartOfVG_eq_any, List.any_eq_true]

theorem collectVGsForPVC_length (pvc : PersistentVolumeClaim) (vgs : List VolumeGroup)
    (a b : List String) :
    (collectVGsForPVC pvc vgs a b).1.length
        = a.length + (vgs.filter (fun vg => IsPVCPartOfVG pvc vg.Status.PVCList)).length ∧
    (collectVGsForPVC pvc vgs a b).2.length
        = b.length + (vgs.filter (fun vg =>
            !IsPVCPartOfVG pvc vg.Status.PVCList && (IsPVCMatchesVG pvc vg).1)).length := by
  induction vgs generalizing a b with
  | nil => simp [collectVGsForPVC]
  | cons vg rest ih =>
    simp only [collectVGsForPVC]
    by_cases h1 : IsPVCPartOfVG pvc vg.Status.PVCList = true
    · simp only [h1, if_true]
      have := ih (a ++ [vg.Name]) b
      simp [List.filter_cons, h1, this]; omega
    · simp only [h1, if_false]
      by_cases h2 : (IsPVCMatchesVG pvc vg).1 = true
      · simp only [h2, if_true]
        have := ih a (b ++ [vg.Name])
        simp at h1
        simp [List.filter_cons, h1, h2, this]; omega
      · simp only [h2, if_false]
        have := ih a b
        simp at h1 h2
        simp [List.filter_cons, h1, h2, this]

theorem checkIfPVCCanBeAddedToVG_isSome (pvc : PersistentVolumeClaim) (a b : List String) :
    (checkIfPVCCanBeAddedToVG pvc a b).isSome = true ↔
      (0 < a.length ∧ 0 < b.length) ∨ 2 ≤ b.length := by
  unfold checkIfPVCCanBeAddedToVG
  by_cases c1 : a.length > 0 ∧ b.length > 0
  · simp [c1.1, c1.2]
  · have c3 : ¬ (decide (a.length > 0) && decide (b.length > 0)) = true := by simpa using c1
    simp only [c3]
    by_cases c2 : b.length > 1
    · simp [c2]; right; omega
    · have c4 : ¬ (2 ≤ b.length) := by omega
      simp [c2, c1, c4]

theorem IsPVCCanBeAddedToVG_isSome_iff (pvc : PersistentVolumeClaim) (vgs : List VolumeGroup) :
    (IsPVCCanBeAddedToVG pvc vgs).isSome = true ↔
      ((∃ vg ∈ vgs, IsPVCPartOfVG pvc vg.Status.PVCList = true) ∧
        (∃ vg ∈ vgs, IsPVCPartOfVG pvc vg.Status.PVCList = false ∧
          (IsPVCMatchesVG pvc vg).1 = true)) ∨
      2 ≤ (vgs.filter (fun vg =>
        !IsPVCPartOfVG pvc vg.Status.PVCList && (IsPVCMatchesVG pvc vg).1)).length := by
  have e1 : (∃ vg ∈ vgs, IsPVCPartOfVG pvc vg.Status.PVCList = true) ↔
      0 < (vgs.filter (fun vg => IsPVCPartOfVG pvc vg.Status.PVCList)).length := by
    rw [List.length_pos_iff_exists_mem]
    simp [List.mem_filter]
  have e2 : (∃ vg ∈ vgs, IsPVCPartOfVG pvc vg.Status.PVCList = false ∧
        (IsPVCMatchesVG pvc vg).1 = true) ↔
      0 < (vgs.filter (fun vg =>
        !IsPVCPartOfVG pvc vg.Status.PVCList && (IsPVCMatchesVG pvc vg).1)).length := by
    rw [List.length_pos_iff_exists_mem]
    simp [List.mem_filter]
  obtain ⟨h1, h2⟩ := collectVGsForPVC_length pvc vgs [] []
  simp only [List.length_nil, Nat.zero_add] at h1 h2
  rw [e1, e2, ← h1, ← h2]
  unfold IsPVCCanBeAddedToVG
  exact checkIfPVCCanBeAddedToVG_isSome pvc _ _

/-- C1: `IsPVCCanBeAddedToVG` returns an error exactly when (a) some group already records the
claim and some group that does not record it matches it, or (b) two or more groups that do not
record it match it; in every other case it returns nil. -/
theorem IsPVCCanBeAddedToVG_error_iff (pvc : PersistentVolumeClaim) (vgs : List VolumeGroup) :
    ((IsPVCCanBeAddedToVG pvc vgs).isSome = true ↔
      ((∃ vg ∈ vgs, IsPVCPartOfVG pvc vg.Status.PVCList = true) ∧
        (∃ vg ∈ vgs, IsPVCPartOfVG pvc vg.Status.PVCList = false ∧
          (IsPVCMatchesVG pvc vg).1 = true)) ∨
      2 ≤ (vgs.filter (fun vg =>
        !IsPVCPartOfVG pvc vg.Status.PVCList && (IsPVCMatchesVG pvc vg).1)).length) ∧
    (¬ (((∃ vg ∈ vgs, IsPVCPartOfVG pvc vg.Status.PVCList = true) ∧
        (∃ vg ∈ vgs, IsPVCPartOfVG pvc vg.Status.PVCList = false ∧
          (IsPVCMatchesVG pvc vg).1 = true)) ∨
      2 ≤ (vgs.filter (fun vg =>
        !IsPVCPartOfVG pvc vg.Status.PVCList && (IsPVCMatchesVG pvc vg).1)).length) →
      IsPVCCanBeAddedToVG pvc vgs = none) := by
  refine ⟨IsPVCCanBeAddedToVG_isSome_iff pvc vgs, fun h => ?_⟩
  rw [← IsPVCCanBeAddedToVG_isSome_iff] at h
  simpa using h

/-! ## Theorems: list helpers -/

theorem removeKeepingOrder_removesIndex : RemovesIndex removeKeepingOrder := by
  intro before x after
  refine ⟨after, ?_, List.Perm.refl _⟩
  simp [removeKeepingOrder, List.eraseIdx_append_of_length_le]

theorem removeSwappingLast_removesIndex : RemovesIndex removeSwappingLast := by
  intro before x after
  rcases List.eq_nil_or_concat after with h | ⟨init, z, h⟩
  · subst h
    refine ⟨[], ?_, List.Perm.refl _⟩
    simp [removeSwappingLast, List.getLast?_append, List.dropLast_append_cons]
  · subst h
    refine ⟨z :: init, ?_, ?_⟩
    · simp [removeSwappingLast, List.getLast?_append, List.set_append]
      have h1 : (x :: (init ++ [z])).getLast? = some z := by
        rw [show x :: (init ++ [z]) = (x :: init) ++ [z] by simp]
        exact List.getLast?_concat _
      have h2 : (z :: (init ++ [z])).dropLast = z :: init := by
        rw [show z :: (init ++ [z]) = (z :: init) ++ [z] by simp]
        exact List.dropLast_concat
      simp [h1, h2]
    · simpa using (List.perm_append_singleton z init).symm

theorem sameClaim_trans {a b c : PersistentVolumeClaim} (h1 : sameClaim a b = true) :
    sameClaim b c = sameClaim a c := by
  simp only [sameClaim, Bool.and_eq_true, beq_iff_eq] at h1
  simp [sameClaim, h1.1, h1.2]

theorem sameClaim_comm (a b : PersistentVolumeClaim) : sameClaim a b = sameClaim b a := by
  simp only [sameClaim]
  rw [Bool.eq_iff_iff]
  simp only [Bool.and_eq_true, beq_iff_eq]
  constructor <;> rintro ⟨h1, h2⟩ <;> exact ⟨h1.symm, h2.symm⟩

theorem findIdx?_split {α : Type} (q : α → Bool) (l : List α) :
    (l.findIdx? q = none ∧ ∀ x ∈ l, q x = false) ∨
    (∃ before x after, l = before ++ x :: after ∧ q x = true ∧ (∀ y ∈ before, q y = false) ∧
      l.findIdx? q = some before.length) := by
  induction l with
  | nil => left; simp
  | cons a l ih =>
    by_cases h : q a = true
    · right; exact ⟨[], a, l, rfl, h, by simp, by simp [List.findIdx?_cons, h]⟩
    · simp only [Bool.not_eq_true] at h
      rcases ih with ⟨h1, h2⟩ | ⟨before, x, after, h1, h2, h3, h4⟩
      · left; refine ⟨by simp [List.findIdx?_cons, h, h1], ?_⟩
        intro y hy; rcases List.mem_cons.1 hy with rfl | hy
        · exact h
        · exact h2 y hy
      · right; refine ⟨a :: before, x, after, by simp [h1], h2, ?_, ?_⟩
        · intro y hy; rcases List.mem_cons.1 hy with rfl | hy
          · exact h
          · exact h3 y hy
        · simp [List.findIdx?_cons, h, h4]

theorem removeFromPVCList_of_not_part (rm : RemoveByIndex) (pvc : PersistentVolumeClaim)
    (l : List PersistentVolumeClaim) (h : IsPVCPartOfVG pvc l = false) :
    removeFromPVCList rm pvc l = l := by
  have : l.findIdx? (sameClaim pvc) = none := by
    rw [List.findIdx?_eq_none_iff]
    intro x hx
    rw [IsPVCPartOfVG_eq_any] at h
    have := List.any_eq_false.1 h x hx
    simpa using this
  simp [removeFromPVCList, this]

theorem removeFromPVCList_cases (rm : RemoveByIndex) (hrm : RemovesIndex rm)
    (pvc : PersistentVolumeClaim) (l : List PersistentVolumeClaim) :
    (IsPVCPartOfVG pvc l = false ∧ removeFromPVCList rm pvc l = l) ∨
    (∃ before x after rest, l = before ++ x :: after ∧ sameClaim pvc x = true ∧
      (∀ y ∈ before, sameClaim pvc y = false) ∧
      removeFromPVCList rm pvc l = before ++ rest ∧ rest.Perm after) := by
  rcases findIdx?_split (sameClaim pvc) l with ⟨h1, h2⟩ | ⟨before, x, after, h1, h2, h3, h4⟩
  · left
    have : IsPVCPartOfVG pvc l = false := by
      rw [IsPVCPartOfVG_eq_any, List.any_eq_false]
      intro x hx; simp [h2 x hx]
    exact ⟨this, removeFromPVCList_of_not_part rm pvc l this⟩
  · right
    obtain ⟨rest, hr1, hr2⟩ := hrm before x after
    refine ⟨before, x, after, rest, h1, h2, h3, ?_, hr2⟩
    simp only [removeFromPVCList, h4]
    rw [h1]; exact hr1

theorem IsPVCPartOfVG_append (c : PersistentVolumeClaim) (l₁ l₂ : List PersistentVolumeClaim) :
    IsPVCPartOfVG c (l₁ ++ l₂) = (IsPVCPartOfVG c l₁ || IsPVCPartOfVG c l₂) := by
  simp [IsPVCPartOfVG_eq_any]

theorem IsPVCPartOfVG_perm (c : PersistentVolumeClaim) {l₁ l₂ : List PersistentVolumeClaim}
    (h : l₁.Perm l₂) : IsPVCPartOfVG c l₁ = IsPVCPartOfVG c l₂ := by
  rw [Bool.eq_iff_iff, IsPVCPartOfVG_iff, IsPVCPartOfVG_iff]
  constructor <;> rintro ⟨x, hx, hs⟩
  · exact ⟨x, h.mem_iff.1 hx, hs⟩
  · exact ⟨x, h.mem_iff.2 hx, hs⟩

theorem IsPVCPartOfVG_appendPVC (c p : PersistentVolumeClaim) (l : List PersistentVolumeClaim) :
    IsPVCPartOfVG c (appendPVC l p) = (IsPVCPartOfVG c l || sameClaim c p) := by
  unfold appendPVC
  by_cases h : l.any (sameClaim p) = true
  · simp only [h, if_true]
    by_cases hc : sameClaim c p = true
    · obtain ⟨x, hx, hs⟩ := List.any_eq_true.1 h
      have : IsPVCPartOfVG c l = true := by
        rw [IsPVCPartOfVG_iff]
        refine ⟨x, hx, ?_⟩
        rw [← sameClaim_trans hc]; exact hs
      simp [this]
    · simp only [Bool.not_eq_true] at hc; simp [hc]
  · simp only [h, Bool.false_eq_true, if_false]
    rw [IsPVCPartOfVG_append]
    simp only [IsPVCPartOfVG, sameClaim]
    by_cases hc : (p.Name == c.Name && p.Namespace == c.Namespace) = true
    · simp [hc]
    · simp only [Bool.not_eq_true] at hc; simp [hc]

theorem IsPVCPartOfVG_appendMultiplePVCs (c : PersistentVolumeClaim)
    (l pvcs : List PersistentVolumeClaim) :
    IsPVCPartOfVG c (appendMultiplePVCs l pvcs) = (IsPVCPartOfVG c l || IsPVCPartOfVG c pvcs) := by
  induction pvcs generalizing l with
  | nil => simp [appendMultiplePVCs, IsPVCPartOfVG]
  | cons p ps ih =>
    have : appendMultiplePVCs l (p :: ps) = appendMultiplePVCs (appendPVC l p) ps := rfl
    rw [this, ih, IsPVCPartOfVG_appendPVC]
    simp only [IsPVCPartOfVG, sameClaim]
    by_cases h : (p.Name == c.Name && p.Namespace == c.Namespace) = true
    · simp [h]
    · simp only [Bool.not_eq_true] at h; simp [h]

theorem IsPVCPartOfVG_removeFromPVCList (rm : RemoveByIndex) (hrm : RemovesIndex rm)
    (c p : PersistentVolumeClaim) (l : List PersistentVolumeClaim) :
    (IsPVCPartOfVG c (removeFromPVCList rm p l) = true → IsPVCPartOfVG c l = true) ∧
    (IsPVCPartOfVG c l = true →
      IsPVCPartOfVG c (removeFromPVCList rm p l) = true ∨ sameClaim c p = true) := by
  rcases removeFromPVCList_cases rm hrm p l with ⟨_, h⟩ | ⟨before, x, after, rest, h1, h2, _, h4, h5⟩
  · rw [h]; exact ⟨id, Or.inl⟩
  · rw [h4, h1]
    simp only [IsPVCPartOfVG_append, IsPVCPartOfVG_perm c h5, Bool.or_eq_true]
    constructor
    · rintro (h | h)
      · exact Or.inl h
      · right; show IsPVCPartOfVG c (x :: after) = true
        simp [IsPVCPartOfVG, h]
    · rintro (h | h)
      · exact Or.inl (Or.inl h)
      · have hx : IsPVCPartOfVG c (x :: after) = true := h
        simp only [IsPVCPartOfVG] at hx
        by_cases hcx : (x.Name == c.Name && x.Namespace == c.Namespace) = true
        · right
          have e1 : sameClaim c x = true := hcx
          rw [sameClaim_comm] at e1
          rw [sameClaim_comm, ← sameClaim_trans h2, sameClaim_comm]
          rw [sameClaim_comm]; exact e1
        · simp only [hcx, if_false] at hx
          exact Or.inl (Or.inr hx)

theorem IsPVCPartOfVG_removeMultiplePVCs (rm : RemoveByIndex) (hrm : RemovesIndex rm)
    (c : PersistentVolumeClaim) (l pvcs : List PersistentVolumeClaim) :
    (IsPVCPartOfVG c (removeMultiplePVCs rm l pvcs) = true → IsPVCPartOfVG c l = true) ∧
    (IsPVCPartOfVG c l = true →
      IsPVCPartOfVG c (removeMultiplePVCs rm l pvcs) = true ∨ IsPVCPartOfVG c pvcs = true) := by
  induction pvcs generalizing l with
  | nil => exact ⟨id, Or.inl⟩
  | cons p ps ih =>
    have e : removeMultiplePVCs rm l (p :: ps)
        = removeMultiplePVCs rm (removeFromPVCList rm p l) ps := rfl
    rw [e]
    obtain ⟨a1, a2⟩ := ih (removeFromPVCList rm p l)
    obtain ⟨b1, b2⟩ := IsPVCPartOfVG_removeFromPVCList rm hrm c p l
    refine ⟨fun h => b1 (a1 h), fun h => ?_⟩
    rcases b2 h with h' | h'
    · rcases a2 h' with h'' | h''
      · exact Or.inl h''
      · right; simp [IsPVCPartOfVG, h'']
    · right
      have : (p.Name == c.Name && p.Namespace == c.Namespace) = true := h'
      simp [IsPVCPartOfVG, this]

theorem appendMultiplePVCs_eq_append (l pvcs t0 : List PersistentVolumeClaim)
    (hd : t0.Pairwise (fun a b => sameClaim a b = false)) :
    ∃ t, appendMultiplePVCs (l ++ t0) pvcs = l ++ t ∧ (∀ x ∈ t, x ∈ t0 ∨ x ∈ pvcs) ∧
      t.Pairwise (fun a b => sameClaim a b = false) := by
  induction pvcs generalizing t0 with
  | nil => exact ⟨t0, rfl, fun x hx => Or.inl hx, hd⟩
  | cons p ps ih =>
    have e : appendMultiplePVCs (l ++ t0) (p :: ps)
        = appendMultiplePVCs (appendPVC (l ++ t0) p) ps := rfl
    rw [e]
    unfold appendPVC
    by_cases h : (l ++ t0).any (sameClaim p) = true
    · simp only [h, if_true]
      obtain ⟨t, h1, h2, h3⟩ := ih t0 hd
      refine ⟨t, h1, fun x hx => ?_, h3⟩
      rcases h2 x hx with h | h
      · exact Or.inl h
      · exact Or.inr (List.mem_cons_of_mem _ h)
    · simp only [h, Bool.false_eq_true, if_false]
      have hd' : (t0 ++ [p]).Pairwise (fun a b => sameClaim a b = false) := by
        rw [List.pairwise_append]
        refine ⟨hd, List.pairwise_singleton _ _, ?_⟩
        intro a ha b hb
        rw [List.mem_singleton] at hb; subst hb
        simp only [Bool.not_eq_true] at h
        have := List.any_eq_false.1 h a (List.mem_append_right _ ha)
        rw [sameClaim_comm]; simpa using this
      obtain ⟨t, h1, h2, h3⟩ := ih (t0 ++ [p]) hd'
      rw [List.append_assoc]
      refine ⟨t, h1, fun x hx => ?_, h3⟩
      rcases h2 x hx with h | h
      · rcases List.mem_append.1 h with h | h
        · exact Or.inl h
        · right; rw [List.mem_singleton] at h; subst h; exact List.mem_cons_self _ _
      · exact Or.inr (List.mem_cons_of_mem _ h)

theorem sameClaim_self (a : PersistentVolumeClaim) : sameClaim a a = true := by
  simp [sameClaim]

theorem removeMultiplePVCs_append (rm : RemoveByIndex) (hrm : RemovesIndex rm)
    (l pvcs t : List PersistentVolumeClaim)
    (hl : ∀ p ∈ pvcs, IsPVCPartOfVG p l = false)
    (ht : ∀ x ∈ t, ∃ p ∈ pvcs, sameClaim p x = true)
    (hd : t.Pairwise (fun a b => sameClaim a b = false)) :
    removeMultiplePVCs rm (l ++ t) pvcs = l := by
  induction pvcs generalizing t with
  | nil =>
    have : t = [] := by
      apply List.eq_nil_iff_forall_not_mem.2
      intro x hx; obtain ⟨p, hp, _⟩ := ht x hx; simp at hp
    subst this; simp [removeMultiplePVCs]
  | cons p ps ih =>
    have e : removeMultiplePVCs rm (l ++ t) (p :: ps)
        = removeMultiplePVCs rm (removeFromPVCList rm p (l ++ t)) ps := rfl
    rw [e]
    have hl' : ∀ q ∈ ps, IsPVCPartOfVG q l = false := fun q hq => hl q (List.mem_cons_of_mem _ hq)
    have hpl : ∀ y ∈ l, sameClaim p y = false := by
      have := hl p (List.mem_cons_self _ _)
      rw [IsPVCPartOfVG_eq_any] at this
      intro y hy
      simpa using List.any_eq_false.1 this y hy
    rcases removeFromPVCList_cases rm hrm p (l ++ t) with
      ⟨h1, h2⟩ | ⟨before, x, after, rest, h1, h2, h3, h4, h5⟩
    · rw [h2]
      apply ih t hl' _ hd
      intro y hy
      obtain ⟨q, hq, hs⟩ := ht y hy
      rcases List.mem_cons.1 hq with rfl | hq
      · exfalso
        have : IsPVCPartOfVG q (l ++ t) = true := by
          rw [IsPVCPartOfVG_iff]; exact ⟨y, List.mem_append_right _ hy, hs⟩
        rw [h1] at this; exact Bool.false_ne_true this
      · exact ⟨q, hq, hs⟩
    · rw [h4]
      -- locate the removed entry inside `t`
      obtain ⟨a', rfl, rfl⟩ : ∃ a', before = l ++ a' ∧ t = a' ++ x :: after := by
        rcases List.append_eq_append_iff.1 h1 with ⟨a', ha, hb⟩ | ⟨c', ha, hb⟩
        · exact ⟨a', ha, hb⟩
        · cases c' with
          | nil => simp at ha hb; exact ⟨[], by simp [ha], by simp [hb]⟩
          | cons z c'' =>
            exfalso
            simp only [List.cons_append, List.cons.injEq] at hb
            have hz : x ∈ l := by rw [ha, hb.1]; simp
            have := hpl x hz
            rw [h2] at this; exact Bool.noConfusion this
      rw [List.append_assoc]
      have hsub : (a' ++ after).Pairwise (fun a b => sameClaim a b = false) := by
        refine hd.sublist ?_
        exact List.Sublist.append_left (List.sublist_cons_self _ _) _
      have hperm : (a' ++ rest).Perm (a' ++ after) := List.Perm.append_left a' h5
      have hd' : (a' ++ rest).Pairwise (fun a b => sameClaim a b = false) := by
        refine (List.Perm.pairwise_iff ?_ hperm).2 hsub
        intro a b hab; rw [sameClaim_comm]; exact hab
      apply ih (a' ++ rest) hl' _ hd'
      intro y hy
      have hy' : y ∈ a' ++ after := hperm.mem_iff.1 hy
      have hyt : y ∈ a' ++ x :: after := by
        rcases List.mem_append.1 hy' with h | h
        · exact List.mem_append_left _ h
        · exact List.mem_append_right _ (List.mem_cons_of_mem _ h)
      have hxy : sameClaim x y = false := by
        rw [List.pairwise_append] at hd
        obtain ⟨_, hd2, hd3⟩ := hd
        rcases List.mem_append.1 hy' with h | h
        · have := hd3 y h x (List.mem_cons_self _ _)
          rw [sameClaim_comm]; exact this
        · exact (List.pairwise_cons.1 hd2).1 y h
      obtain ⟨q, hq, hs⟩ := ht y hyt
      rcases List.mem_cons.1 hq with rfl | hq
      · exfalso
        rw [sameClaim_trans h2] at hxy
        rw [hs] at hxy; exact Bool.noConfusion hxy
      · exact ⟨q, hq, hs⟩

theorem removeMultiplePVCs_appendMultiplePVCs (rm : RemoveByIndex) (hrm : RemovesIndex rm)
    (l pvcs : List PersistentVolumeClaim)
    (hnew : ∀ p ∈ pvcs, IsPVCPartOfVG p l = false) :
    removeMultiplePVCs rm (appendMultiplePVCs l pvcs) pvcs = l := by
  obtain ⟨t, h1, h2, h3⟩ := appendMultiplePVCs_eq_append l pvcs [] List.Pairwise.nil
  rw [List.append_nil] at h1
  rw [h1]
  apply removeMultiplePVCs_append rm hrm l pvcs t hnew _ h3
  intro x hx
  rcases h2 x hx with h | h
  · simp at h
  · exact ⟨x, h, sameClaim_self x⟩

theorem removesIndex_singleton (rm : RemoveByIndex) (hrm : RemovesIndex rm)
    (x : PersistentVolumeClaim) : rm [x] 0 = [] := by
  obtain ⟨rest, h1, h2⟩ := hrm [] x []
  simp only [List.nil_append, List.length_nil] at h1
  rw [h1, List.perm_nil.1 h2]

theorem removesIndex_head_of_pair (rm : RemoveByIndex) (hrm : RemovesIndex rm)
    (x y : PersistentVolumeClaim) : rm [x, y] 0 = [y] := by
  obtain ⟨rest, h1, h2⟩ := hrm [] x [y]
  simp only [List.nil_append, List.length_nil] at h1
  rw [h1, List.perm_singleton.1 h2]

/-! ## Theorems: in-memory revert of the claim list (C4, C5, C6) -/

/-- C4 (amended): when none of the claims `pvcs` is already recorded in `vg.Status.PVCList`
and the ModifyGroup step inside `AddVolumesToVolumeGroup` fails, the error is returned and the
group on return, in particular `vg.Status.PVCList`, equals its value before the call. -/
theorem AddVolumesToVolumeGroup_reverts_on_failure (rm : RemoveByIndex) (hrm : RemovesIndex rm)
    (w : World) (pvcs : List PersistentVolumeClaim) (vg : VolumeGroup) (err : Err)
    (hnew : ∀ p ∈ pvcs, IsPVCPartOfVG p vg.Status.PVCList = false)
    (hfail : (ModifyVolumeGroup w { vg with Status := { vg.Status with
        PVCList := appendMultiplePVCs vg.Status.PVCList pvcs } }).2 = some err) :
    (AddVolumesToVolumeGroup rm w pvcs vg).2.2 = some err ∧
    (AddVolumesToVolumeGroup rm w pvcs vg).2.1.Status.PVCList = vg.Status.PVCList ∧
    (AddVolumesToVolumeGroup rm w pvcs vg).2.1 = vg := by
  unfold AddVolumesToVolumeGroup
  rcases hM : ModifyVolumeGroup w { vg with Status := { vg.Status with
        PVCList := appendMultiplePVCs vg.Status.PVCList pvcs } } with ⟨w1, e⟩
  rw [hM] at hfail
  simp only at hfail
  subst hfail
  simp only [removeMultiplePVCs_appendMultiplePVCs rm hrm _ _ hnew, and_self, true_and]

/-- C4 witness: adding the unrecorded `claimB` to `groupWithA` while the RPC fails. -/
theorem AddVolumesToVolumeGroup_reverts_on_failure_witness :
    RemovesIndex removeKeepingOrder ∧
    (∀ p ∈ [claimB], IsPVCPartOfVG p groupWithA.Status.PVCList = false) ∧
    (AddVolumesToVolumeGroup removeKeepingOrder rpcFailsWorld [claimB] groupWithA).2.2
      = some (Err.Unavailable "driver unavailable") ∧
    (AddVolumesToVolumeGroup removeKeepingOrder rpcFailsWorld [claimB] groupWithA).2.1.Status.PVCList
      = groupWithA.Status.PVCList :=
  ⟨removeKeepingOrder_removesIndex, by decide,
    (AddVolumesToVolumeGroup_reverts_on_failure removeKeepingOrder removeKeepingOrder_removesIndex
      rpcFailsWorld [claimB] groupWithA (Err.Unavailable "driver unavailable") (by decide)
      (by decide)).1,
    (AddVolumesToVolumeGroup_reverts_on_failure removeKeepingOrder removeKeepingOrder_removesIndex
      rpcFailsWorld [claimB] groupWithA (Err.Unavailable "driver unavailable") (by decide)
      (by decide)).2.1⟩

/-- C4 counterexample: `groupWithA` already records `claimA`; adding `claimA` again while the
RPC fails "reverts" by removing it, so the list that was `[claimA]` comes back empty, whatever
`removeByIndexFromPVCList` is. -/
theorem AddVolumesToVolumeGroup_revert_counterexample :
    (ModifyVolumeGroup rpcFailsWorld { groupWithA with Status := { groupWithA.Status with
        PVCList := appendMultiplePVCs groupWithA.Status.PVCList [claimA] } }).2
      = some (Err.Unavailable "driver unavailable") ∧
    groupWithA.Status.PVCList = [claimA] ∧
    ∀ rm : RemoveByIndex, RemovesIndex rm →
      (AddVolumesToVolumeGroup rm rpcFailsWorld [claimA] groupWithA).2.2
        = some (Err.Unavailable "driver unavailable") ∧
      (AddVolumesToVolumeGroup rm rpcFailsWorld [claimA] groupWithA).2.1.Status.PVCList = [] := by
  refine ⟨by decide, rfl, fun rm hrm => ?_⟩
  have h : (ModifyVolumeGroup rpcFailsWorld { groupWithA with Status := { groupWithA.Status with
        PVCList := appendMultiplePVCs groupWithA.Status.PVCList [claimA] } }).2
      = some (Err.Unavailable "driver unavailable") := by decide
  unfold AddVolumesToVolumeGroup
  rcases hM : ModifyVolumeGroup rpcFailsWorld { groupWithA with Status := { groupWithA.Status with
        PVCList := appendMultiplePVCs groupWithA.Status.PVCList [claimA] } } with ⟨w1, e⟩
  rw [hM] at h
  simp only at h
  subst h
  refine ⟨rfl, ?_⟩
  show removeMultiplePVCs rm (appendMultiplePVCs [claimA] [claimA]) [claimA] = []
  have e : appendMultiplePVCs [claimA] [claimA] = [claimA] := by decide
  rw [e]
  show removeFromPVCList rm claimA [claimA] = []
  have e2 : [claimA].findIdx? (sameClaim claimA) = some 0 := by decide
  simp only [removeFromPVCList, e2]
  exact removesIndex_singleton rm hrm claimA

/-- C5 (amended): when every claim of `pvcs` is recorded in `vg.Status.PVCList` and the
ModifyGroup step inside `RemoveVolumeFromVolumeGroup` fails, the error is returned and on return
`vg.Status.PVCList` records exactly the same claims (by namespace and name) as before the call;
the order is not part of the guarantee, because reverted claims are appended at the end. -/
theorem RemoveVolumeFromVolumeGroup_revert_keeps_membership (rm : RemoveByIndex)
    (hrm : RemovesIndex rm) (w : World) (pvcs : List PersistentVolumeClaim) (vg : VolumeGroup)
    (err : Err)
    (hold : ∀ p ∈ pvcs, IsPVCPartOfVG p vg.Status.PVCList = true)
    (hfail : (ModifyVolumeGroup w { vg with Status := { vg.Status with
        PVCList := removeMultiplePVCs rm vg.Status.PVCList pvcs } }).2 = some err) :
    (RemoveVolumeFromVolumeGroup rm w pvcs vg).2.2 = some err ∧
    ∀ c : PersistentVolumeClaim,
      IsPVCPartOfVG c (RemoveVolumeFromVolumeGroup rm w pvcs vg).2.1.Status.PVCList
        = IsPVCPartOfVG c vg.Status.PVCList := by
  unfold RemoveVolumeFromVolumeGroup
  rcases hM : ModifyVolumeGroup w { vg with Status := { vg.Status with
        PVCList := removeMultiplePVCs rm vg.Status.PVCList pvcs } } with ⟨w1, e⟩
  rw [hM] at hfail
  simp only at hfail
  subst hfail
  refine ⟨rfl, fun c => ?_⟩
  show IsPVCPartOfVG c (appendMultiplePVCs (removeMultiplePVCs rm vg.Status.PVCList pvcs) pvcs)
    = IsPVCPartOfVG c vg.Status.PVCList
  rw [IsPVCPartOfVG_appendMultiplePVCs]
  obtain ⟨h1, h2⟩ := IsPVCPartOfVG_removeMultiplePVCs rm hrm c vg.Status.PVCList pvcs
  have h3 : IsPVCPartOfVG c pvcs = true → IsPVCPartOfVG c vg.Status.PVCList = true := by
    intro h
    obtain ⟨p, hp, hs⟩ := (IsPVCPartOfVG_iff c pvcs).1 h
    obtain ⟨x, hx, hs'⟩ := (IsPVCPartOfVG_iff p _).1 (hold p hp)
    rw [IsPVCPartOfVG_iff]
    exact ⟨x, hx, by rw [← sameClaim_trans hs]; exact hs'⟩
  rw [Bool.eq_iff_iff, Bool.or_eq_true]
  constructor
  · rintro (h | h)
    · exact h1 h
    · exact h3 h
  · exact h2

/-- C5 witness: removing the recorded `claimA` from `groupWithAB` while the RPC fails. -/
theorem RemoveVolumeFromVolumeGroup_revert_keeps_membership_witness :
    RemovesIndex removeKeepingOrder ∧
    (∀ p ∈ [claimA], IsPVCPartOfVG p groupWithAB.Status.PVCList = true) ∧
    (RemoveVolumeFromVolumeGroup removeKeepingOrder rpcFailsWorld [claimA] groupWithAB).2.2
      = some (Err.Unavailable "driver unavailable") ∧
    ∀ c : PersistentVolumeClaim,
      IsPVCPartOfVG c
          (RemoveVolumeFromVolumeGroup removeKeepingOrder rpcFailsWorld [claimA]
            groupWithAB).2.1.Status.PVCList
        = IsPVCPartOfVG c groupWithAB.Status.PVCList :=
  ⟨removeKeepingOrder_removesIndex, by decide,
    RemoveVolumeFromVolumeGroup_revert_keeps_membership removeKeepingOrder
      removeKeepingOrder_removesIndex rpcFailsWorld [claimA] groupWithAB
      (Err.Unavailable "driver unavailable") (by decide) (by decide)⟩

/-- C5 counterexample: removing `claimA` from the list `[claimA, claimB]` while the RPC fails
returns the list `[claimB, claimA]`, which is not the sequence before the call, whatever
`removeByIndexFromPVCList` is. -/
theorem RemoveVolumeFromVolumeGroup_revert_counterexample :
    groupWithAB.Status.PVCList = [claimA, claimB] ∧
    ∀ rm : RemoveByIndex, RemovesIndex rm →
      (ModifyVolumeGroup rpcFailsWorld { groupWithAB with Status := { groupWithAB.Status with
        PVCList := removeMultiplePVCs rm groupWithAB.Status.PVCList [claimA] } }).2
        = some (Err.Unavailable "driver unavailable") ∧
      (RemoveVolumeFromVolumeGroup rm rpcFailsWorld [claimA] groupWithAB).2.2
        = some (Err.Unavailable "driver unavailable") ∧
      (RemoveVolumeFromVolumeGroup rm rpcFailsWorld [claimA] groupWithAB).2.1.Status.PVCList
        = [claimB, claimA] ∧
      (RemoveVolumeFromVolumeGroup rm rpcFailsWorld [claimA] groupWithAB).2.1.Status.PVCList
        ≠ groupWithAB.Status.PVCList := by
  refine ⟨rfl, fun rm hrm => ?_⟩
  have e : removeMultiplePVCs rm groupWithAB.Status.PVCList [claimA] = [claimB] := by
    show removeFromPVCList rm claimA [claimA, claimB] = [claimB]
    have e2 : [claimA, claimB].findIdx? (sameClaim claimA) = some 0 := by decide
    simp only [removeFromPVCList, e2]
    exact removesIndex_head_of_pair rm hrm claimA claimB
  have h : (ModifyVolumeGroup rpcFailsWorld { groupWithAB with Status := { groupWithAB.Status with
        PVCList := removeMultiplePVCs rm groupWithAB.Status.PVCList [claimA] } }).2
      = some (Err.Unavailable "driver unavailable") := by
    rw [e]; decide
  refine ⟨h, ?_⟩
  unfold RemoveVolumeFromVolumeGroup
  rcases hM : ModifyVolumeGroup rpcFailsWorld { groupWithAB with Status := { groupWithAB.Status with
        PVCList := removeMultiplePVCs rm groupWithAB.Status.PVCList [claimA] } } with ⟨w1, e1⟩
  rw [hM] at h
  simp only at h
  subst h
  have e3 : appendMultiplePVCs (removeMultiplePVCs rm groupWithAB.Status.PVCList [claimA]) [claimA]
      = [claimB, claimA] := by rw [e]; decide
  refine ⟨rfl, e3, ?_⟩
  show appendMultiplePVCs (removeMultiplePVCs rm groupWithAB.Status.PVCList [claimA]) [claimA]
      ≠ [claimA, claimB]
  rw [e3]; decide

/-- C6 (amended): when none of the claims `pvcs` is already recorded in `pvcList`,
`removeMultiplePVCs (appendMultiplePVCs pvcList pvcs) pvcs = pvcList`, so a successful
`AddVolumesToVolumeGroup` followed by a successful `RemoveVolumeFromVolumeGroup` with the same
claims leaves `vg.Status.PVCList` as it was. -/
theorem add_then_remove_restores_pvcList (rm : RemoveByIndex) (hrm : RemovesIndex rm)
    (w w' : World) (pvcs : List PersistentVolumeClaim) (vg : VolumeGroup)
    (hnew : ∀ p ∈ pvcs, IsPVCPartOfVG p vg.Status.PVCList = false)
    (hadd : (AddVolumesToVolumeGroup rm w pvcs vg).2.2 = none)
    (hrem : (RemoveVolumeFromVolumeGroup rm w' pvcs
      (AddVolumesToVolumeGroup rm w pvcs vg).2.1).2.2 = none) :
    removeMultiplePVCs rm (appendMultiplePVCs vg.Status.PVCList pvcs) pvcs = vg.Status.PVCList ∧
    (AddVolumesToVolumeGroup rm w pvcs vg).2.1.Status.PVCList
      = appendMultiplePVCs vg.Status.PVCList pvcs ∧
    (RemoveVolumeFromVolumeGroup rm w' pvcs
      (AddVolumesToVolumeGroup rm w pvcs vg).2.1).2.1.Status.PVCList = vg.Status.PVCList := by
  have key := removeMultiplePVCs_appendMultiplePVCs rm hrm vg.Status.PVCList pvcs hnew
  have hadd' : (AddVolumesToVolumeGroup rm w pvcs vg).2.1.Status.PVCList
      = appendMultiplePVCs vg.Status.PVCList pvcs := by
    unfold AddVolumesToVolumeGroup at hadd ⊢
    rcases hM : ModifyVolumeGroup w { vg with Status := { vg.Status with
        PVCList := appendMultiplePVCs vg.Status.PVCList pvcs } } with ⟨w1, e⟩
    rw [hM] at hadd
    cases e with
    | some err => simp at hadd
    | none => rfl
  refine ⟨key, hadd', ?_⟩
  generalize (AddVolumesToVolumeGroup rm w pvcs vg).2.1 = vg1 at hadd' hrem ⊢
  unfold RemoveVolumeFromVolumeGroup at hrem ⊢
  rcases hM : ModifyVolumeGroup w' { vg1 with Status := { vg1.Status with
        PVCList := removeMultiplePVCs rm vg1.Status.PVCList pvcs } } with ⟨w2, e⟩
  rw [hM] at hrem
  cases e with
  | some err => simp at hrem
  | none =>
    show removeMultiplePVCs rm vg1.Status.PVCList pvcs = vg.Status.PVCList
    rw [hadd', key]

/-- C6 witness: adding and then removing the unrecorded `claimB` on `groupWithA`. -/
theorem add_then_remove_restores_pvcList_witness :
    RemovesIndex removeKeepingOrder ∧
    (∀ p ∈ [claimB], IsPVCPartOfVG p groupWithA.Status.PVCList = false) ∧
    (AddVolumesToVolumeGroup removeKeepingOrder calmWorld [claimB] groupWithA).2.2 = none ∧
    (RemoveVolumeFromVolumeGroup removeKeepingOrder calmWorld [claimB]
      (AddVolumesToVolumeGroup removeKeepingOrder calmWorld [claimB] groupWithA).2.1).2.2 = none ∧
    (RemoveVolumeFromVolumeGroup removeKeepingOrder calmWorld [claimB]
      (AddVolumesToVolumeGroup removeKeepingOrder calmWorld [claimB]
        groupWithA).2.1).2.1.Status.PVCList = groupWithA.Status.PVCList :=
  ⟨removeKeepingOrder_removesIndex, by decide, by decide, by decide,
    (add_then_remove_restores_pvcList removeKeepingOrder removeKeepingOrder_removesIndex
      calmWorld calmWorld [claimB] groupWithA (by decide) (by decide) (by decide)).2.2⟩

/-- C6 counterexample: with `pvcList = [claimA]` and `pvcs = [claimA]` the append changes
nothing and the removal empties the list, whatever `removeByIndexFromPVCList` is. -/
theorem removeMultiplePVCs_appendMultiplePVCs_counterexample :
    appendMultiplePVCs [claimA] [claimA] = [claimA] ∧
    ∀ rm : RemoveByIndex, RemovesIndex rm →
      removeMultiplePVCs rm (appendMultiplePVCs [claimA] [claimA]) [claimA] = [] ∧
      removeMultiplePVCs rm (appendMultiplePVCs [claimA] [claimA]) [claimA] ≠ [claimA] := by
  have e : appendMultiplePVCs [claimA] [claimA] = [claimA] := by decide
  refine ⟨e, fun rm hrm => ?_⟩
  have e2 : [claimA].findIdx? (sameClaim claimA) = some 0 := by decide
  have e3 : removeMultiplePVCs rm (appendMultiplePVCs [claimA] [claimA]) [claimA] = [] := by
    rw [e]
    show removeFromPVCList rm claimA [claimA] = []
    simp only [removeFromPVCList, e2]
    exact removesIndex_singleton rm hrm claimA
  exact ⟨e3, by rw [e3]; decide⟩

/-! ## Theorems: the PVC gate (C10) -/

theorem isSCHasParam_iff (sc : StorageClass) (param : String) :
    isSCHasParam sc param = true ↔ param ∈ sc.Parameters.map Prod.fst := by
  simp [isSCHasParam, List.any_eq_true]

/-- C10: provided the two storage-class lookups succeed (yielding the stored class `sc`),
`isPVCNeedToBeHandled` returns true exactly when the class's provisioner is the configured
driver, the claim's phase is Bound, and `volume_group` is not among the keys of the class's
parameters; only the keys of the parameter map enter the decision, never a value. -/
theorem isPVCNeedToBeHandled_true_iff (r : PersistentVolumeClaimReconciler) (w w1 : World)
    (pvc : PersistentVolumeClaim) (scName : String) (sc : StorageClass)
    (hname : pvc.Spec.StorageClassName = some scName)
    (hfirst : getStorageClass w scName = (w1, Except.ok sc))
    (hsecond : (getStorageClass w1 scName).2 = Except.ok sc) :
    (r.isPVCNeedToBeHandled w pvc).2.1 = true ↔
      sc.Provisioner = r.DriverConfig.DriverName ∧ pvc.Status.Phase = ClaimBound ∧
        storageClassVGParameter ∉ sc.Parameters.map Prod.fst := by
  rcases h2 : getStorageClass w1 scName with ⟨w2, res⟩
  rw [h2] at hsecond
  simp only at hsecond
  subst hsecond
  rw [← isSCHasParam_iff]
  unfold PersistentVolumeClaimReconciler.isPVCNeedToBeHandled IsPVCHasMatchingDriver
    getStorageClassProvisioner IsPVCInStaticVG
  simp only [hname, hfirst, h2]
  by_cases hd : sc.Provisioner = r.DriverConfig.DriverName
  · by_cases hp : pvc.Status.Phase = ClaimBound
    · by_cases hs : isSCHasParam sc storageClassVGParameter = true
      · simp only [hd, hp, hs, beq_self_eq_true, Bool.not_true, bne_self_eq_false,
          Bool.false_eq_true, if_false, if_true, not_true_eq_false, and_false, iff_false]
        rcases GetPersistentVolumeClaimClass pvc with ⟨n, _ | e⟩
        · simp only
          rcases HandlePVCErrorMessage w2 pvc
            (some (Err.StorageClassHasVGParameter n pvc.Namespace pvc.Name)) addingPVC with ⟨w3, _ | e⟩
            <;> simp
        · simp
      · simp [hd, hp, hs]
    · simp [hd, hp]
  · simp [hd]

/-- C10 witness: the bound claim of class `fast` in `storageWorld` is handled. -/
theorem isPVCNeedToBeHandled_true_iff_witness :
    boundClaim.Spec.StorageClassName = some "fast" ∧
    getStorageClass storageWorld "fast"
      = (storageWorld, Except.ok { Name := "fast", Provisioner := "csi.example.com" }) ∧
    (getStorageClass storageWorld "fast").2
      = Except.ok { Name := "fast", Provisioner := "csi.example.com" } ∧
    ((exampleReconciler.isPVCNeedToBeHandled storageWorld boundClaim).2.1 = true ↔
      ("csi.example.com" = exampleReconciler.DriverConfig.DriverName ∧
        boundClaim.Status.Phase = ClaimBound ∧
        storageClassVGParameter ∉ ([] : List (String × String)).map Prod.fst)) :=
  ⟨rfl, rfl, rfl,
    isPVCNeedToBeHandled_true_iff exampleReconciler storageWorld storageWorld boundClaim "fast"
      { Name := "fast", Provisioner := "csi.example.com" } rfl rfl rfl⟩

/-! ## Theorems: listing the groups of the driver -/

theorem ReadOnly.same (w : World) : ReadOnly w w := ⟨w.faults, rfl⟩

theorem ReadOnly.andThen {w1 w2 w3 : World} (h1 : ReadOnly w1 w2) (h2 : ReadOnly w2 w3) :
    ReadOnly w1 w3 := by
  obtain ⟨f1, rfl⟩ := h1
  obtain ⟨f2, rfl⟩ := h2
  exact ⟨f2, rfl⟩

theorem nextFault_readOnly (w : World) : ReadOnly w (nextFault w).1 := by
  unfold nextFault
  cases h : w.faults with
  | nil => exact ReadOnly.same w
  | cons f rest => exact ⟨rest, rfl⟩

theorem nextFault_not_notFound (w : World) : IsNotFound (nextFault w).2 = false := by
  unfold nextFault
  cases h : w.faults with
  | nil => rfl
  | cons f rest => cases f <;> rfl

theorem getVGClassDriver_spec (w : World) (name : String) :
    ReadOnly w (getVGClassDriver w name).1 ∧
    (((getVGClassDriver w name).2.2 = none ∧
        ∃ c, w.VolumeGroupClasses.find? (fun c => c.Name == name) = some c ∧
          (getVGClassDriver w name).2.1 = c.Driver) ∨
      ((getVGClassDriver w name).2.2 ≠ none ∧ IsNotFound (getVGClassDriver w name).2.2 = true ∧
        w.VolumeGroupClasses.find? (fun c => c.Name == name) = none) ∨
      ((getVGClassDriver w name).2.2 ≠ none ∧
        IsNotFound (getVGClassDriver w name).2.2 = false)) := by
  unfold getVGClassDriver
  have hro := nextFault_readOnly w
  have hnf := nextFault_not_notFound w
  rcases hN : nextFault w with ⟨w1, e⟩
  rw [hN] at hro hnf
  obtain ⟨f, rfl⟩ := hro
  cases e with
  | some err => exact ⟨⟨f, rfl⟩, Or.inr (Or.inr ⟨by simp, hnf⟩)⟩
  | none =>
    simp only
    cases hc : w.VolumeGroupClasses.find? (fun c => c.Name == name) with
    | some c => exact ⟨⟨f, rfl⟩, Or.inl ⟨rfl, c, rfl, rfl⟩⟩
    | none => exact ⟨⟨f, rfl⟩, Or.inr (Or.inl ⟨by simp, rfl, rfl⟩)⟩

theorem isVGHasMatchingDriver_spec (w : World) (vg : VolumeGroup) (driver : String) :
    ReadOnly w (isVGHasMatchingDriver w vg driver).1 ∧
    ((isVGHasMatchingDriver w vg driver).2.2 = none →
      (isVGHasMatchingDriver w vg driver).2.1 = hasMatchingDriver w driver vg) := by
  unfold isVGHasMatchingDriver hasMatchingDriver
  obtain ⟨hro, h⟩ := getVGClassDriver_spec w vg.Spec.VolumeGroupClassName
  rcases hG : getVGClassDriver w vg.Spec.VolumeGroupClassName with ⟨w1, d, e⟩
  rw [hG] at hro h
  simp only at h
  rcases h with ⟨he, c, hc, hd⟩ | ⟨he, hnf, hc⟩ | ⟨he, hnf⟩
  · subst he; simp only [hc, hd]; exact ⟨hro, fun _ => trivial⟩
  · cases e with
    | none => exact absurd rfl he
    | some err => simp only [hnf, if_true, hc]; exact ⟨hro, fun _ => trivial⟩
  · cases e with
    | none => exact absurd rfl he
    | some err => simp only [hnf, Bool.false_eq_true, if_false]; exact ⟨hro, fun h => by simp at h⟩

theorem hasMatchingDriver_readOnly {w w' : World} (h : ReadOnly w w') (driver : String) :
    hasMatchingDriver w' driver = hasMatchingDriver w driver := by
  obtain ⟨f, rfl⟩ := h; rfl

theorem getProvisionedVGs_spec (w : World) (driver : String) (vgs : List VolumeGroup) :
    ∀ (w0 : World) (acc : List VolumeGroup), ReadOnly w w0 →
      ReadOnly w (getProvisionedVGs driver w0 vgs acc).1 ∧
      ((getProvisionedVGs driver w0 vgs acc).2.2 = none →
        (getProvisionedVGs driver w0 vgs acc).2.1
          = acc ++ vgs.filter (hasMatchingDriver w driver)) := by
  induction vgs with
  | nil => intro w0 acc h; simp [getProvisionedVGs, h]
  | cons vg rest ih =>
    intro w0 acc h
    unfold getProvisionedVGs
    obtain ⟨hro, hm⟩ := isVGHasMatchingDriver_spec w0 vg driver
    rcases hI : isVGHasMatchingDriver w0 vg driver with ⟨w1, b, e⟩
    rw [hI] at hro hm
    simp only at hro hm
    cases e with
    | some err => exact ⟨h.andThen hro, fun h => by simp at h⟩
    | none =>
      have hb := hm rfl
      rw [hasMatchingDriver_readOnly h] at hb
      simp only
      by_cases hbt : b = true
      · simp only [hbt, if_true]
        obtain ⟨i1, i2⟩ := ih w1 (acc ++ [vg]) (h.andThen hro)
        refine ⟨i1, fun hn => ?_⟩
        rw [i2 hn, List.filter_cons]
        rw [hbt] at hb
        simp [← hb]
      · simp only [hbt, Bool.false_eq_true, if_false]
        obtain ⟨i1, i2⟩ := ih w1 acc (h.andThen hro)
        refine ⟨i1, fun hn => ?_⟩
        rw [i2 hn, List.filter_cons]
        simp only [Bool.not_eq_true] at hbt
        rw [hbt] at hb
        simp [← hb]

theorem GetVGList_eq_driverFilteredVGs (w : World) (driver : String) :
    ReadOnly w (GetVGList w driver).1 ∧
    ((GetVGList w driver).2.2 = none → (GetVGList w driver).2.1 = driverFilteredVGs w driver) ∧
    ((GetVGList w driver).2.2 ≠ none → (GetVGList w driver).2.1 = []) := by
  unfold GetVGList
  have hro := nextFault_readOnly w
  rcases hN : nextFault w with ⟨w1, e⟩
  rw [hN] at hro
  cases e with
  | some err => exact ⟨hro, fun h => by simp at h, fun _ => rfl⟩
  | none =>
    simp only
    obtain ⟨h1, h2⟩ := getProvisionedVGs_spec w driver w1.VolumeGroups w1 [] hro
    rcases hP : getProvisionedVGs driver w1 w1.VolumeGroups [] with ⟨w2, l, e2⟩
    rw [hP] at h1 h2
    cases e2 with
    | some err => exact ⟨h1, fun h => by simp at h, fun _ => rfl⟩
    | none =>
      refine ⟨h1, fun _ => ?_, fun h => absurd rfl h⟩
      have := h2 rfl
      simp only [List.nil_append] at this
      obtain ⟨f, rfl⟩ := hro
      exact this

/-! ## Theorems: conflict retry and finalizer updates -/

theorem RetryOnConflict_invariant {σ : Type} (fn : σ → σ × Option Err) (I : σ → Prop)
    (hI : ∀ s, I s → I (fn s).1) :
    ∀ (n : Nat) (s : σ), I s → I (RetryOnConflict fn n s).1 := by
  intro n
  induction n with
  | zero => intro s hs; exact hs
  | succ n ih =>
    intro s hs
    unfold RetryOnConflict
    have h1 := hI s hs
    rcases hf : fn s with ⟨s1, e⟩
    rw [hf] at h1
    cases e with
    | none => exact h1
    | some err =>
      simp only
      split
      · split
        · exact h1
        · exact ih s1 h1
      · exact h1

theorem RetryOnConflict_ok {σ : Type} (fn : σ → σ × Option Err) (I Q : σ → Prop)
    (hI : ∀ s, I s → I (fn s).1) (hQ : ∀ s, I s → (fn s).2 = none → Q (fn s).1) :
    ∀ (n : Nat) (s : σ), 0 < n → I s → (RetryOnConflict fn n s).2 = none →
      Q (RetryOnConflict fn n s).1 := by
  intro n
  induction n with
  | zero => intro s h; exact absurd h (by decide)
  | succ n ih =>
    intro s _ hs
    unfold RetryOnConflict
    have h1 := hI s hs
    have h2 := hQ s hs
    rcases hf : fn s with ⟨s1, e⟩
    rw [hf] at h1 h2
    cases e with
    | none => intro _; exact h2 rfl
    | some err =>
      simp only
      split
      · split
        · intro h; simp at h
        · rename_i hn
          exact ih s1 (Nat.pos_of_ne_zero hn) h1
      · intro h; simp at h

theorem stored_pvc_key (w : World) (ns name : String) (p : PersistentVolumeClaim)
    (h : (Object.stored w ns name : Option PersistentVolumeClaim) = some p) :
    p.Namespace = ns ∧ p.Name = name ∧ p ∈ w.PersistentVolumeClaims := by
  have h1 := List.find?_some h
  have h2 := List.mem_of_find?_eq_some h
  simp only [Bool.and_eq_true, beq_iff_eq] at h1
  exact ⟨h1.1, h1.2, h2⟩

theorem getNamespacedObject_pvc_spec (w : World) (pvc : PersistentVolumeClaim) :
    ReadOnly w (getNamespacedObject w pvc).1 ∧
    (getNamespacedObject w pvc).2.1.Namespace = pvc.Namespace ∧
    (getNamespacedObject w pvc).2.1.Name = pvc.Name ∧
    ((getNamespacedObject w pvc).2.2 ≠ none → (getNamespacedObject w pvc).2.1 = pvc) := by
  unfold getNamespacedObject clientGet
  have hro := nextFault_readOnly w
  rcases hN : nextFault w with ⟨w1, e⟩
  rw [hN] at hro
  cases e with
  | some err => exact ⟨hro, rfl, rfl, fun _ => rfl⟩
  | none =>
    simp only
    cases hs : (Object.stored w1 (Object.GetNamespace pvc) (Object.GetName pvc) :
        Option PersistentVolumeClaim) with
    | none => exact ⟨hro, rfl, rfl, fun _ => rfl⟩
    | some p =>
      obtain ⟨k1, k2, _⟩ := stored_pvc_key w1 _ _ p hs
      exact ⟨hro, k1, k2, fun h => absurd rfl h⟩

theorem UpdateObject_pvc_ok (w : World) (pvc : PersistentVolumeClaim)
    (h : (UpdateObject w pvc).2 = none) :
    StoredFinalizers (UpdateObject w pvc).1 pvc.Namespace pvc.Name pvc.Finalizers := by
  unfold UpdateObject clientUpdate at h ⊢
  generalize nextFault w = r at h ⊢
  obtain ⟨w1, e⟩ := r
  cases e with
  | some err => simp at h
  | none =>
    simp only at h ⊢
    cases hs : (Object.stored w1 (Object.GetNamespace pvc) (Object.GetName pvc) :
        Option PersistentVolumeClaim) with
    | none => rw [hs] at h; simp at h
    | some p =>
      simp only
      obtain ⟨k1, k2, k3⟩ := stored_pvc_key w1 _ _ p hs
      constructor
      · refine ⟨{ pvc with Status := p.Status }, ?_, rfl, rfl⟩
        show _ ∈ List.map _ w1.PersistentVolumeClaims
        rw [List.mem_map]
        refine ⟨p, k3, ?_⟩
        have : (p.Namespace == pvc.Namespace && p.Name == pvc.Name) = true := by
          simp [k1, k2, Object.GetNamespace, Object.GetName]
        simp only [this, if_true]
      · intro q hq hns hname
        have hq' : q ∈ List.map _ w1.PersistentVolumeClaims := hq
        rw [List.mem_map] at hq'
        obtain ⟨q0, _, rfl⟩ := hq'
        by_cases hk : (q0.Namespace == pvc.Namespace && q0.Name == pvc.Name) = true
        · simp only [hk, if_true]
        · simp only [hk, Bool.false_eq_true, if_false] at hns hname
          exfalso; apply hk; simp [hns, hname]

theorem updateFinalizer_pvc_ok (w : World) (fins : List String) (pvc : PersistentVolumeClaim)
    (h : (updateFinalizer w fins pvc).2.2 = none) :
    (updateFinalizer w fins pvc).2.1.Finalizers = fins ∧
    StoredFinalizers (updateFinalizer w fins pvc).1 pvc.Namespace pvc.Name fins := by
  unfold updateFinalizer at h ⊢
  have key := RetryOnConflict_ok
    (fun (s : World × PersistentVolumeClaim) =>
      match finalizerRetryOnConflictFunc s.1 fins s.2 with
      | (w, obj, err) => ((w, obj), err))
    (fun s => s.2.Namespace = pvc.Namespace ∧ s.2.Name = pvc.Name)
    (fun s => s.2.Finalizers = fins ∧ StoredFinalizers s.1 pvc.Namespace pvc.Name fins)
    (by
      rintro ⟨w0, p0⟩ ⟨h1, h2⟩
      simp only [finalizerRetryOnConflictFunc]
      rcases UpdateObject w0 (Object.SetFinalizers p0 fins) with ⟨w1, e⟩
      simp only
      split
      · obtain ⟨_, g1, g2, _⟩ := getNamespacedObject_pvc_spec w1 (Object.SetFinalizers p0 fins)
        generalize getNamespacedObject w1 (Object.SetFinalizers p0 fins) = r at g1 g2 ⊢
        obtain ⟨w2, p2, e2⟩ := r
        cases e2 <;> exact ⟨g1.trans h1, g2.trans h2⟩
      · exact ⟨h1, h2⟩)
    (by
      rintro ⟨w0, p0⟩ ⟨h1, h2⟩
      simp only [finalizerRetryOnConflictFunc]
      have hu := UpdateObject_pvc_ok w0 (Object.SetFinalizers p0 fins)
      generalize UpdateObject w0 (Object.SetFinalizers p0 fins) = r at hu ⊢
      obtain ⟨w1, e⟩ := r
      simp only at hu ⊢
      split
      · rcases getNamespacedObject w1 (Object.SetFinalizers p0 fins) with ⟨w2, p2, e2⟩
        rename_i hc
        cases e2 with
        | some e2 => intro h; simp at h
        | none =>
          intro h
          simp only at h
          subst h
          simp [IsConflict] at hc
      · intro h
        simp only at h
        subst h
        have := hu rfl
        simp only [Object.SetFinalizers] at this ⊢
        rw [← h1, ← h2]
        exact ⟨trivial, this⟩)
    DefaultRetry (w, pvc) (by decide) ⟨rfl, rfl⟩
  rcases hR : RetryOnConflict (fun (s : World × PersistentVolumeClaim) =>
      match finalizerRetryOnConflictFunc s.1 fins s.2 with
      | (w, obj, err) => ((w, obj), err)) DefaultRetry (w, pvc) with ⟨⟨w', p'⟩, e⟩
  rw [hR] at key h
  simp only at key h ⊢
  exact key h

/-! ## Theorems: removing the claim finalizer (C9) -/

theorem Contains_remove (l : List String) (s : String) : Contains (remove l s) s = false := by
  simp [Contains, remove]

theorem StoredFinalizers_readOnly {w w' : World} (h : ReadOnly w w') (ns name : String)
    (fins : List String) : StoredFinalizers w' ns name fins ↔ StoredFinalizers w ns name fins := by
  obtain ⟨f, rfl⟩ := h; rfl

/-- C9: `RemoveFinalizerFromPVC` removes the PVC finalizer exactly when the claim is recorded
in no driver-filtered group's `status.pvcList` and carries the finalizer. If the claim is still
recorded in some group, or does not carry the finalizer, the claim is returned unchanged and
nothing is written to the store; otherwise, when the call returns without error, the returned
claim and the stored claim no longer carry the finalizer. -/
theorem RemoveFinalizerFromPVC_exactly_when (w : World) (driver : String)
    (pvc : PersistentVolumeClaim) :
    ((IsPVCPartAnyVG pvc (driverFilteredVGs w driver) = true ∨
        Contains pvc.Finalizers pvcVolumeGroupFinalizer = false) →
      (RemoveFinalizerFromPVC w driver pvc).2.1 = pvc ∧
      ReadOnly w (RemoveFinalizerFromPVC w driver pvc).1) ∧
    ((IsPVCPartAnyVG pvc (driverFilteredVGs w driver) = false ∧
        Contains pvc.Finalizers pvcVolumeGroupFinalizer = true) →
      (RemoveFinalizerFromPVC w driver pvc).2.2 = none →
      Contains (RemoveFinalizerFromPVC w driver pvc).2.1.Finalizers pvcVolumeGroupFinalizer
        = false ∧
      ∃ fins, Contains fins pvcVolumeGroupFinalizer = false ∧
        StoredFinalizers (RemoveFinalizerFromPVC w driver pvc).1 pvc.Namespace pvc.Name fins) := by
  unfold RemoveFinalizerFromPVC isFinalizerShouldBeREmovedFromPVC
  obtain ⟨hro, hl, _⟩ := GetVGList_eq_driverFilteredVGs w driver
  generalize GetVGList w driver = r at hro hl ⊢
  obtain ⟨w1, l, e⟩ := r
  simp only at hro hl
  cases e with
  | some err =>
    refine ⟨fun _ => ⟨rfl, hro⟩, fun _ h => ?_⟩
    simp at h
  | none =>
    have hl' := hl rfl
    subst hl'
    simp only
    constructor
    · intro hc
      have : (!IsPVCPartAnyVG pvc (driverFilteredVGs w driver) &&
          Contains pvc.Finalizers pvcVolumeGroupFinalizer) = false := by
        rcases hc with h | h <;> simp [h]
      simp only [this, Bool.false_eq_true, if_false]
      exact ⟨trivial, hro⟩
    · rintro ⟨h1, h2⟩
      simp only [h1, h2, Bool.not_false, Bool.and_self, if_true]
      obtain ⟨g0, g1, g2, _⟩ := getNamespacedObject_pvc_spec w1 pvc
      generalize getNamespacedObject w1 pvc = r at g0 g1 g2 ⊢
      obtain ⟨w2, p2, e2⟩ := r
      simp only at g0 g1 g2
      cases e2 with
      | some err => intro h; simp at h
      | none =>
        simp only
        have hu := updateFinalizer_pvc_ok w2 (remove p2.Finalizers pvcVolumeGroupFinalizer)
          { p2 with Finalizers := remove p2.Finalizers pvcVolumeGroupFinalizer }
        generalize updateFinalizer w2 (remove p2.Finalizers pvcVolumeGroupFinalizer)
          { p2 with Finalizers := remove p2.Finalizers pvcVolumeGroupFinalizer } = r at hu ⊢
        obtain ⟨w3, p3, e3⟩ := r
        simp only at hu
        cases e3 with
        | some err => intro h; simp at h
        | none =>
          intro _
          obtain ⟨u1, u2⟩ := hu rfl
          simp only
          refine ⟨by rw [u1]; exact Contains_remove _ _,
            remove p2.Finalizers pvcVolumeGroupFinalizer, Contains_remove _ _, ?_⟩
          rw [← g1, ← g2]
          exact u2

/-- C9 witness: `protectedClaim` is recorded in no group and carries the finalizer, which the
call removes. -/
theorem RemoveFinalizerFromPVC_exactly_when_witness :
    (IsPVCPartAnyVG protectedClaim (driverFilteredVGs staleFinalizerWorld "csi.example.com") = false ∧
      Contains protectedClaim.Finalizers pvcVolumeGroupFinalizer = true) ∧
    (RemoveFinalizerFromPVC staleFinalizerWorld "csi.example.com" protectedClaim).2.2 = none ∧
    Contains (RemoveFinalizerFromPVC staleFinalizerWorld "csi.example.com"
      protectedClaim).2.1.Finalizers pvcVolumeGroupFinalizer = false ∧
    (RemoveFinalizerFromPVC staleFinalizerWorld "csi.example.com"
        protectedClaim).1.PersistentVolumeClaims
      = [{ protectedClaim with Finalizers := ["keep.example.com/other"] }] :=
  ⟨by decide, by decide,
    ((RemoveFinalizerFromPVC_exactly_when staleFinalizerWorld "csi.example.com"
      protectedClaim).2 (by decide) (by decide)).1, by decide⟩

/-! ## Theorems: rejected admission (C3) -/

theorem HandlePVCErrorMessage_some (w : World) (pvc : PersistentVolumeClaim) (err : Err)
    (reason : String) :
    (HandlePVCErrorMessage w pvc (some err) reason).2 = some err ∧
    (HandlePVCErrorMessage w pvc (some err) reason).1.rpcs = w.rpcs ∧
    (HandlePVCErrorMessage w pvc (some err) reason).1.VolumeGroups = w.VolumeGroups ∧
    (HandlePVCErrorMessage w pvc (some err) reason).1.VolumeGroupClasses = w.VolumeGroupClasses := by
  unfold HandlePVCErrorMessage
  simp only
  split <;> exact ⟨rfl, rfl, rfl, rfl⟩

/-- C3: when single-group mode rejects the claim (the group list is obtained and
`IsPVCCanBeAddedToVG` returns an error on it), `addPersistentVolumeClaimToVolumeGroupObjects`
returns that error, issues no RPC and leaves every stored group, hence every `status.pvcList`,
unchanged. -/
theorem add_rejected_changes_no_group (rm : RemoveByIndex) (r : PersistentVolumeClaimReconciler)
    (w : World) (pvc : PersistentVolumeClaim) (err : Err)
    (hmode : r.DriverConfig.MultipleVGsToPVC ≠ "true")
    (hlist : (GetVGList w r.DriverConfig.DriverName).2.2 = none)
    (hrej : IsPVCCanBeAddedToVG pvc (driverFilteredVGs w r.DriverConfig.DriverName) = some err) :
    (r.addPersistentVolumeClaimToVolumeGroupObjects rm w pvc).2.2 = some err ∧
    (r.addPersistentVolumeClaimToVolumeGroupObjects rm w pvc).1.rpcs = w.rpcs ∧
    (r.addPersistentVolumeClaimToVolumeGroupObjects rm w pvc).1.VolumeGroups = w.VolumeGroups := by
  unfold PersistentVolumeClaimReconciler.addPersistentVolumeClaimToVolumeGroupObjects
    PersistentVolumeClaimReconciler.isPVCCanBeAddedToVG
  obtain ⟨hro, hl, _⟩ := GetVGList_eq_driverFilteredVGs w r.DriverConfig.DriverName
  generalize GetVGList w r.DriverConfig.DriverName = res at hro hl hlist ⊢
  obtain ⟨w1, l, e⟩ := res
  simp only at hro hl hlist
  subst hlist
  have hl' := hl rfl
  subst hl'
  have hm : (r.DriverConfig.MultipleVGsToPVC == "true") = false := by simpa using hmode
  simp only [hm, Bool.false_eq_true, if_false, hrej]
  obtain ⟨h1, h2, h3, _⟩ := HandlePVCErrorMessage_some w1 pvc err addingPVC
  generalize HandlePVCErrorMessage w1 pvc (some err) addingPVC = res at h1 h2 h3 ⊢
  obtain ⟨w2, e2⟩ := res
  simp only at h1 h2 h3
  subst h1
  obtain ⟨f, rfl⟩ := hro
  exact ⟨rfl, h2, h3⟩

/-- C3 witness, scenario S3: `p2` matches `g1` and `g2`, is rejected, no ModifyGroup is issued
and `p2` is in neither `pvcList`. -/
theorem add_rejected_changes_no_group_witness :
    exampleReconciler.DriverConfig.MultipleVGsToPVC ≠ "true" ∧
    IsPVCCanBeAddedToVG tierZoneClaim
        (driverFilteredVGs exclusivityWorld exampleReconciler.DriverConfig.DriverName)
      = some (Err.PersistentVolumeClaimMatchedWithMultipleNewGroups "ns" "p2" ["g1", "g2"]) ∧
    (exampleReconciler.addPersistentVolumeClaimToVolumeGroupObjects removeKeepingOrder
        exclusivityWorld tierZoneClaim).2.2
      = some (Err.PersistentVolumeClaimMatchedWithMultipleNewGroups "ns" "p2" ["g1", "g2"]) ∧
    (exampleReconciler.addPersistentVolumeClaimToVolumeGroupObjects removeKeepingOrder
        exclusivityWorld tierZoneClaim).1.rpcs = [] ∧
    (exampleReconciler.addPersistentVolumeClaimToVolumeGroupObjects removeKeepingOrder
        exclusivityWorld tierZoneClaim).1.VolumeGroups = [tierGroup, tierZoneGroup] ∧
    IsPVCPartOfVG tierZoneClaim tierGroup.Status.PVCList = false ∧
    IsPVCPartOfVG tierZoneClaim tierZoneGroup.Status.PVCList = false :=
  ⟨by decide, by decide,
    (add_rejected_changes_no_group removeKeepingOrder exampleReconciler exclusivityWorld
      tierZoneClaim _ (by decide) (by decide) (by decide)).1,
    (add_rejected_changes_no_group removeKeepingOrder exampleReconciler exclusivityWorld
      tierZoneClaim (Err.PersistentVolumeClaimMatchedWithMultipleNewGroups "ns" "p2" ["g1", "g2"])
      (by decide) (by decide) (by decide)).2.1,
    (add_rejected_changes_no_group removeKeepingOrder exampleReconciler exclusivityWorld
      tierZoneClaim (Err.PersistentVolumeClaimMatchedWithMultipleNewGroups "ns" "p2" ["g1", "g2"])
      (by decide) (by decide) (by decide)).2.2,
    by decide, by decide⟩


/-! ## Evaluations: loops that return after their first step (C7, C8) -/

/-- C7: evaluation at the failing input. `addMatchedVolumes` is given the two matching claims
`p1` and `p2` and returns without error; the persisted `status.pvcList` records both, yet only
`p1` received the PVC finalizer: the `for` loop over `pvcs` returns in its first iteration. -/
theorem addMatchedVolumes_finalizer_only_on_first (rm : RemoveByIndex) :
    (VolumeGroupReconciler.addMatchedVolumes rm {} twoClaimsWorld
      [dbClaim1, dbClaim2] dbGroup).2.2 = none ∧
    (VolumeGroupReconciler.addMatchedVolumes rm {} twoClaimsWorld
      [dbClaim1, dbClaim2] dbGroup).1.VolumeGroups
      = [{ dbGroup with Status := { PVCList := [dbClaim1, dbClaim2] } }] ∧
    (VolumeGroupReconciler.addMatchedVolumes rm {} twoClaimsWorld
      [dbClaim1, dbClaim2] dbGroup).1.PersistentVolumeClaims
      = [{ dbClaim1 with Finalizers := [pvcVolumeGroupFinalizer] }, dbClaim2] ∧
    Contains dbClaim2.Finalizers pvcVolumeGroupFinalizer = false :=
  ⟨rfl, rfl, rfl, rfl⟩

/-- C8: evaluation at the failing input. `driftedClaim` is recorded in `g1` and `g2` and
matches neither; `removePersistentVolumeClaimFromVolumeGroupObjects` returns without error after
removing it from `g1` only, so `g2` still records a claim its selector does not match. -/
theorem remove_stops_after_first_stale_group :
    (multiGroupReconciler.removePersistentVolumeClaimFromVolumeGroupObjects removeKeepingOrder
      twoStaleGroupsWorld driftedClaim).2.2 = none ∧
    (multiGroupReconciler.removePersistentVolumeClaimFromVolumeGroupObjects removeKeepingOrder
      twoStaleGroupsWorld driftedClaim).1.VolumeGroups
      = [{ staleGroupOne with Status := { PVCList := [] } }, staleGroupTwo] ∧
    (multiGroupReconciler.removePersistentVolumeClaimFromVolumeGroupObjects removeSwappingLast
      twoStaleGroupsWorld driftedClaim).2.2 = none ∧
    (multiGroupReconciler.removePersistentVolumeClaimFromVolumeGroupObjects removeSwappingLast
      twoStaleGroupsWorld driftedClaim).1.VolumeGroups
      = [{ staleGroupOne with Status := { PVCList := [] } }, staleGroupTwo] ∧
    IsPVCPartOfVG driftedClaim staleGroupTwo.Status.PVCList = true ∧
    IsPVCMatchesVG driftedClaim staleGroupTwo = (false, none) ∧
    staleGroupTwo ∈ driverFilteredVGs
      (multiGroupReconciler.removePersistentVolumeClaimFromVolumeGroupObjects removeKeepingOrder
        twoStaleGroupsWorld driftedClaim).1 "csi.example.com" := by
  refine ⟨by decide, by decide, by decide, by decide, by decide, by decide, by decide⟩

/-! ## Theorems: operations that leave the stored groups alone -/

theorem SameGroups.unchanged (w : World) : SameGroups w w := ⟨rfl, rfl⟩

theorem SameGroups.followedBy {w1 w2 w3 : World} (h1 : SameGroups w1 w2) (h2 : SameGroups w2 w3) :
    SameGroups w1 w3 := ⟨h2.1.trans h1.1, h2.2.trans h1.2⟩

theorem ReadOnly.sameGroups {w w' : World} (h : ReadOnly w w') : SameGroups w w' := by
  obtain ⟨f, rfl⟩ := h; exact ⟨rfl, rfl⟩

theorem clientGet_readOnly {α : Type} [Object α] (w : World) (ns name : String) :
    ReadOnly w (clientGet w ns name : World × Except Err α).1 := by
  unfold clientGet
  have hro := nextFault_readOnly w
  generalize nextFault w = r at hro ⊢
  obtain ⟨w1, e⟩ := r
  cases e with
  | some err => exact hro
  | none =>
    simp only
    cases (Object.stored w1 ns name : Option α) <;> exact hro

theorem getNamespacedObject_readOnly {α : Type} [Object α] (w : World) (obj : α) :
    ReadOnly w (getNamespacedObject w obj).1 := by
  unfold getNamespacedObject
  have hro := clientGet_readOnly (α := α) w (Object.GetNamespace obj) (Object.GetName obj)
  generalize (clientGet w (Object.GetNamespace obj) (Object.GetName obj) : World × Except Err α)
    = r at hro ⊢
  obtain ⟨w1, e⟩ := r
  cases e <;> exact hro

theorem recordEvent_sameGroups (w : World) (ev : Event) : SameGroups w (recordEvent w ev) :=
  ⟨rfl, rfl⟩

theorem HandleSuccessMessage_sameGroups (w : World) (vg : VolumeGroup) (m r : String) :
    SameGroups w (HandleSuccessMessage w vg m r).1 := ⟨rfl, rfl⟩

theorem GetPVFromPVC_readOnly (w : World) (pvc : PersistentVolumeClaim) :
    ReadOnly w (GetPVFromPVC w pvc).1 := by
  unfold GetPVFromPVC
  split
  · exact ReadOnly.same w
  · have hro := nextFault_readOnly w
    generalize nextFault w = r at hro ⊢
    obtain ⟨w1, e⟩ := r
    cases e with
    | some err => exact hro
    | none =>
      simp only
      cases w1.PersistentVolumes.find? (fun pv => pv.Name == pvc.Spec.VolumeName) <;> exact hro

theorem getPVCListVolumeIds_readOnly (pvcs : List PersistentVolumeClaim) :
    ∀ (w : World) (acc : List String), ReadOnly w (getPVCListVolumeIds w pvcs acc).1 := by
  induction pvcs with
  | nil => intro w acc; exact ReadOnly.same w
  | cons p ps ih =>
    intro w acc
    unfold getPVCListVolumeIds
    have hro := GetPVFromPVC_readOnly w p
    generalize GetPVFromPVC w p = r at hro ⊢
    obtain ⟨w1, e⟩ := r
    cases e with
    | error err => exact hro
    | ok o =>
      cases o with
      | none => exact hro.andThen (ih w1 acc)
      | some pv => exact hro.andThen (ih w1 _)

theorem getVgId_readOnly (w : World) (vg : VolumeGroup) : ReadOnly w (getVgId w vg).1 := by
  unfold getVgId
  cases vg.Spec.Source.VolumeGroupContentName with
  | none => exact ReadOnly.same w
  | some n =>
    simp only [GetVolumeGroupContent]
    have hro := clientGet_readOnly (α := VolumeGroupContent) w "" n
    generalize (clientGet w "" n : World × Except Err VolumeGroupContent) = r at hro ⊢
    obtain ⟨w1, e⟩ := r
    cases e <;> exact hro

theorem ModifyVolumeGroup_sameGroups (w : World) (vg : VolumeGroup) :
    SameGroups w (ModifyVolumeGroup w vg).1 := by
  unfold ModifyVolumeGroup
  have h1 := getVgId_readOnly w vg
  generalize getVgId w vg = r at h1 ⊢
  obtain ⟨w1, id, e⟩ := r
  cases e with
  | some err => exact h1.sameGroups
  | none =>
    simp only
    have h2 := getPVCListVolumeIds_readOnly vg.Status.PVCList w1 []
    generalize getPVCListVolumeIds w1 vg.Status.PVCList [] = r at h2 ⊢
    obtain ⟨w2, ids, e2⟩ := r
    cases e2 with
    | some err => exact (h1.andThen h2).sameGroups
    | none =>
      simp only
      have h3 := nextFault_readOnly w2
      generalize nextFault w2 = r at h3 ⊢
      obtain ⟨w3, e3⟩ := r
      exact (h1.andThen (h2.andThen h3)).sameGroups.followedBy ⟨rfl, rfl⟩

theorem UpdateObject_pvc_sameGroups (w : World) (pvc : PersistentVolumeClaim) :
    SameGroups w (UpdateObject w pvc).1 := by
  unfold UpdateObject clientUpdate
  have hro := (nextFault_readOnly w).sameGroups
  generalize nextFault w = r at hro ⊢
  obtain ⟨w1, e⟩ := r
  cases e with
  | some err => exact hro
  | none =>
    simp only
    cases (Object.stored w1 (Object.GetNamespace pvc) (Object.GetName pvc) :
        Option PersistentVolumeClaim) with
    | none => exact hro
    | some p => exact hro.followedBy ⟨rfl, rfl⟩

theorem UpdateObject_vgc_sameGroups (w : World) (vgc : VolumeGroupContent) :
    SameGroups w (UpdateObject w vgc).1 := by
  unfold UpdateObject clientUpdate
  have hro := (nextFault_readOnly w).sameGroups
  generalize nextFault w = r at hro ⊢
  obtain ⟨w1, e⟩ := r
  cases e with
  | some err => exact hro
  | none =>
    simp only
    cases (Object.stored w1 (Object.GetNamespace vgc) (Object.GetName vgc) :
        Option VolumeGroupContent) with
    | none => exact hro
    | some p => exact hro.followedBy ⟨rfl, rfl⟩

theorem updateFinalizer_pvc_sameGroups (w : World) (fins : List String)
    (pvc : PersistentVolumeClaim) : SameGroups w (updateFinalizer w fins pvc).1 := by
  unfold updateFinalizer
  have key := RetryOnConflict_invariant
    (fun (s : World × PersistentVolumeClaim) =>
      match finalizerRetryOnConflictFunc s.1 fins s.2 with
      | (w, obj, err) => ((w, obj), err))
    (fun s => SameGroups w s.1)
    (by
      rintro ⟨w0, p0⟩ h
      simp only [finalizerRetryOnConflictFunc]
      have hu := UpdateObject_pvc_sameGroups w0 (Object.SetFinalizers p0 fins)
      generalize UpdateObject w0 (Object.SetFinalizers p0 fins) = r at hu ⊢
      obtain ⟨w1, e⟩ := r
      simp only at hu ⊢
      split
      · have hg := (getNamespacedObject_readOnly w1 (Object.SetFinalizers p0 fins)).sameGroups
        generalize getNamespacedObject w1 (Object.SetFinalizers p0 fins) = r at hg ⊢
        obtain ⟨w2, p2, e2⟩ := r
        cases e2 <;> exact h.followedBy (hu.followedBy hg)
      · exact h.followedBy hu)
    DefaultRetry (w, pvc) (SameGroups.unchanged w)
  generalize RetryOnConflict (fun (s : World × PersistentVolumeClaim) =>
      match finalizerRetryOnConflictFunc s.1 fins s.2 with
      | (w, obj, err) => ((w, obj), err)) DefaultRetry (w, pvc) = r at key ⊢
  obtain ⟨⟨w', p'⟩, e⟩ := r
  exact key

theorem AddFinalizerToPVC_sameGroups (w : World) (pvc : PersistentVolumeClaim) :
    SameGroups w (AddFinalizerToPVC w pvc).1 := by
  unfold AddFinalizerToPVC
  split
  · have h := updateFinalizer_pvc_sameGroups w (pvc.Finalizers ++ [pvcVolumeGroupFinalizer])
      { pvc with Finalizers := pvc.Finalizers ++ [pvcVolumeGroupFinalizer] }
    generalize updateFinalizer w (pvc.Finalizers ++ [pvcVolumeGroupFinalizer])
      { pvc with Finalizers := pvc.Finalizers ++ [pvcVolumeGroupFinalizer] } = r at h ⊢
    obtain ⟨w1, p1, e⟩ := r
    cases e <;> exact h
  · exact SameGroups.unchanged w

theorem AddMatchingPVToMatchingVGC_sameGroups (w : World) (pvc : PersistentVolumeClaim)
    (vg : VolumeGroup) : SameGroups w (AddMatchingPVToMatchingVGC w pvc vg).1 := by
  unfold AddMatchingPVToMatchingVGC
  have h1 := (GetPVFromPVC_readOnly w pvc).sameGroups
  generalize GetPVFromPVC w pvc = r at h1 ⊢
  obtain ⟨w1, e⟩ := r
  cases e with
  | error err => exact h1
  | ok o =>
    cases o with
    | none => exact h1
    | some pv =>
      simp only
      cases vg.Spec.Source.VolumeGroupContentName with
      | none => exact h1
      | some n =>
        simp only [GetVolumeGroupContent]
        have h2 := (clientGet_readOnly (α := VolumeGroupContent) w1 "" n).sameGroups
        generalize (clientGet w1 "" n : World × Except Err VolumeGroupContent) = r at h2 ⊢
        obtain ⟨w2, e2⟩ := r
        cases e2 with
        | error err => exact h1.followedBy h2
        | ok vgc =>
          simp only
          split
          · exact h1.followedBy h2
          · exact (h1.followedBy h2).followedBy (UpdateObject_vgc_sameGroups _ _)

/-! ## Theorems: writes to the status of one group -/

theorem Touches.nothing (P : List PersistentVolumeClaim → Prop) (k : String × String) (w : World) :
    Touches P k w w :=
  ⟨rfl, id, by simp, fun g => ⟨rfl, rfl, rfl, fun _ => rfl, id⟩⟩

theorem Touches.compose {P : List PersistentVolumeClaim → Prop} {k : String × String}
    {w1 w2 w3 : World} (h1 : Touches P k w1 w2) (h2 : Touches P k w2 w3) : Touches P k w1 w3 := by
  obtain ⟨c1, f1, e1, p1⟩ := h1
  obtain ⟨c2, f2, e2, p2⟩ := h2
  refine ⟨c2.trans c1, f2 ∘ f1, by rw [e2, e1, List.map_map], fun g => ?_⟩
  obtain ⟨a1, a2, a3, a4, a5⟩ := p1 g
  obtain ⟨b1, b2, b3, b4, b5⟩ := p2 (f1 g)
  refine ⟨b1.trans a1, b2.trans a2, b3.trans a3, fun hk => ?_, fun hp => b5 (a5 hp)⟩
  have : vgKey (f1 g) ≠ k := by
    simp only [vgKey, a1, a2]; exact hk
  simp only [Function.comp]
  rw [b4 this, a4 hk]

theorem SameGroups.touches {w w' : World} (h : SameGroups w w')
    (P : List PersistentVolumeClaim → Prop) (k : String × String) : Touches P k w w' :=
  ⟨h.2, id, by simp [h.1], fun g => ⟨rfl, rfl, rfl, fun _ => rfl, id⟩⟩

theorem Touches.storedP {P : List PersistentVolumeClaim → Prop} {k : String × String}
    {w w' : World} (h : Touches P k w w') (hs : StoredP P k w) : StoredP P k w' := by
  obtain ⟨_, f, e, p⟩ := h
  intro g hg hk
  rw [e, List.mem_map] at hg
  obtain ⟨g0, hg0, rfl⟩ := hg
  obtain ⟨a1, a2, _, _, a5⟩ := p g0
  apply a5
  apply hs g0 hg0
  simp only [vgKey, a1, a2] at hk
  exact hk

theorem stored_vg_key (w : World) (ns name : String) (g : VolumeGroup)
    (h : (Object.stored w ns name : Option VolumeGroup) = some g) :
    g.Namespace = ns ∧ g.Name = name ∧ g ∈ w.VolumeGroups := by
  have h1 := List.find?_some h
  have h2 := List.mem_of_find?_eq_some h
  simp only [Bool.and_eq_true, beq_iff_eq] at h1
  exact ⟨h1.1, h1.2, h2⟩

theorem UpdateObjectStatus_vg_touches (P : List PersistentVolumeClaim → Prop)
    (w : World) (vg : VolumeGroup) (hP : P vg.Status.PVCList) :
    Touches P (vgKey vg) w (UpdateObjectStatus w vg).1 := by
  unfold UpdateObjectStatus clientStatusUpdate
  have hro := (nextFault_readOnly w).sameGroups.touches P (vgKey vg)
  generalize nextFault w = r at hro ⊢
  obtain ⟨w1, e⟩ := r
  cases e with
  | some err => simp only; split <;> exact hro
  | none =>
    simp only
    cases (Object.stored w1 (Object.GetNamespace vg) (Object.GetName vg) :
        Option VolumeGroup) with
    | none => exact hro
    | some p =>
      simp only
      refine hro.compose ⟨rfl, _, rfl, fun g => ?_⟩
      by_cases hk : (g.Namespace == vg.Namespace && g.Name == vg.Name) = true
      · refine ⟨by simp [hk], by simp [hk], by simp [hk], fun h => ?_, fun _ => by simpa [hk] using hP⟩
        exfalso; apply h
        simp only [Bool.and_eq_true, beq_iff_eq] at hk
        simp [vgKey, hk.1, hk.2]
      · refine ⟨by simp [hk], by simp [hk], by simp [hk], fun _ => by simp [hk], fun h => by simpa [hk] using h⟩

theorem getNamespacedObject_vg_spec (P : List PersistentVolumeClaim → Prop) (w : World)
    (vg : VolumeGroup) (hP : P vg.Status.PVCList) (hs : StoredP P (vgKey vg) w) :
    ReadOnly w (getNamespacedObject w vg).1 ∧
    vgKey (getNamespacedObject w vg).2.1 = vgKey vg ∧
    P (getNamespacedObject w vg).2.1.Status.PVCList := by
  unfold getNamespacedObject clientGet
  have hro := nextFault_readOnly w
  generalize nextFault w = r at hro ⊢
  obtain ⟨w1, e⟩ := r
  cases e with
  | some err => exact ⟨hro, rfl, hP⟩
  | none =>
    simp only
    cases hst : (Object.stored w1 (Object.GetNamespace vg) (Object.GetName vg) :
        Option VolumeGroup) with
    | none => exact ⟨hro, rfl, hP⟩
    | some g =>
      obtain ⟨k1, k2, k3⟩ := stored_vg_key w1 _ _ g hst
      have hk : vgKey g = vgKey vg := by
        simp only [vgKey, k1, k2]; rfl
      refine ⟨hro, hk, ?_⟩
      apply hs g _ hk
      obtain ⟨f, rfl⟩ := hro
      exact k3

theorem updateVolumeGroupStatus_eq (w : World) (vg : VolumeGroup) :
    updateVolumeGroupStatus w vg = UpdateObjectStatus w vg := by
  unfold updateVolumeGroupStatus
  rcases UpdateObjectStatus w vg with ⟨w1, _ | e⟩ <;> rfl

theorem vgRetryOnConflictFunc_touches (P : List PersistentVolumeClaim → Prop) (w : World)
    (vg : VolumeGroup) (hP : P vg.Status.PVCList) (hs : StoredP P (vgKey vg) w) :
    Touches P (vgKey vg) w (vgRetryOnConflictFunc w vg).1 ∧
    vgKey (vgRetryOnConflictFunc w vg).2.1 = vgKey vg ∧
    P (vgRetryOnConflictFunc w vg).2.1.Status.PVCList := by
  unfold vgRetryOnConflictFunc
  rw [updateVolumeGroupStatus_eq]
  have h1 := UpdateObjectStatus_vg_touches P w vg hP
  generalize UpdateObjectStatus w vg = r at h1 ⊢
  obtain ⟨w1, e⟩ := r
  simp only at h1 ⊢
  split
  · obtain ⟨g1, g2, g3⟩ := getNamespacedObject_vg_spec P w1 vg hP (h1.storedP hs)
    generalize getNamespacedObject w1 vg = r at g1 g2 g3 ⊢
    obtain ⟨w2, vg2, e2⟩ := r
    cases e2 <;> exact ⟨h1.compose (g1.sameGroups.touches P _), g2, g3⟩
  · exact ⟨h1, rfl, hP⟩

theorem UpdateVolumeGroupStatusError_touches (P : List PersistentVolumeClaim → Prop) (w : World)
    (vg : VolumeGroup) (message : String) (hP : P vg.Status.PVCList)
    (hs : StoredP P (vgKey vg) w) :
    Touches P (vgKey vg) w (UpdateVolumeGroupStatusError w vg message).1 ∧
    vgKey (UpdateVolumeGroupStatusError w vg message).2.1 = vgKey vg ∧
    P (UpdateVolumeGroupStatusError w vg message).2.1.Status.PVCList := by
  unfold UpdateVolumeGroupStatusError
  have key := RetryOnConflict_invariant
    (fun (s : World × VolumeGroup) =>
      match vgRetryOnConflictFunc s.1
        { s.2 with Status := { s.2.Status with Error := some message } } with
      | (w, vg, err) => ((w, vg), err))
    (fun s => Touches P (vgKey vg) w s.1 ∧ vgKey s.2 = vgKey vg ∧ P s.2.Status.PVCList)
    (by
      rintro ⟨w0, g0⟩ ⟨h1, h2, h3⟩
      simp only at h1 h2 h3 ⊢
      have hk : vgKey { g0 with Status := { g0.Status with Error := some message } } = vgKey vg :=
        h2
      obtain ⟨t1, t2, t3⟩ := vgRetryOnConflictFunc_touches P w0
        { g0 with Status := { g0.Status with Error := some message } } h3
        (by rw [hk]; exact h1.storedP hs)
      rw [hk] at t1 t2
      generalize vgRetryOnConflictFunc w0
        { g0 with Status := { g0.Status with Error := some message } } = r at t1 t2 t3 ⊢
      obtain ⟨w1, g1, e⟩ := r
      exact ⟨h1.compose t1, t2, t3⟩)
    DefaultRetry (w, vg) ⟨Touches.nothing _ _ _, rfl, hP⟩
  generalize RetryOnConflict (fun (s : World × VolumeGroup) =>
      match vgRetryOnConflictFunc s.1
        { s.2 with Status := { s.2.Status with Error := some message } } with
      | (w, vg, err) => ((w, vg), err)) DefaultRetry (w, vg) = r at key ⊢
  obtain ⟨⟨w', g'⟩, e⟩ := r
  exact key

theorem updateVolumeGroupStatusPVCList_touches (P : List PersistentVolumeClaim → Prop)
    (w : World) (vg : VolumeGroup) (pvcList : List PersistentVolumeClaim) (hP : P pvcList)
    (hs : StoredP P (vgKey vg) w) :
    Touches P (vgKey vg) w (updateVolumeGroupStatusPVCList w vg pvcList).1 ∧
    vgKey (updateVolumeGroupStatusPVCList w vg pvcList).2.1 = vgKey vg := by
  unfold updateVolumeGroupStatusPVCList
  have key := RetryOnConflict_invariant
    (fun (s : World × VolumeGroup) =>
      match vgRetryOnConflictFunc s.1
        { s.2 with Status := { s.2.Status with PVCList := pvcList } } with
      | (w, vg, err) => ((w, vg), err))
    (fun s => Touches P (vgKey vg) w s.1 ∧ vgKey s.2 = vgKey vg)
    (by
      rintro ⟨w0, g0⟩ ⟨h1, h2⟩
      simp only at h1 h2 ⊢
      have hk : vgKey { g0 with Status := { g0.Status with PVCList := pvcList } } = vgKey vg :=
        h2
      obtain ⟨t1, t2, _⟩ := vgRetryOnConflictFunc_touches P w0
        { g0 with Status := { g0.Status with PVCList := pvcList } } hP
        (by rw [hk]; exact h1.storedP hs)
      rw [hk] at t1 t2
      generalize vgRetryOnConflictFunc w0
        { g0 with Status := { g0.Status with PVCList := pvcList } } = r at t1 t2 ⊢
      obtain ⟨w1, g1, e⟩ := r
      exact ⟨h1.compose t1, t2⟩)
    DefaultRetry (w, vg) ⟨Touches.nothing _ _ _, rfl⟩
  generalize RetryOnConflict (fun (s : World × VolumeGroup) =>
      match vgRetryOnConflictFunc s.1
        { s.2 with Status := { s.2.Status with PVCList := pvcList } } with
      | (w, vg, err) => ((w, vg), err)) DefaultRetry (w, vg) = r at key ⊢
  obtain ⟨⟨w', g'⟩, e⟩ := r
  exact key

theorem HandleErrorMessage_touches (P : List PersistentVolumeClaim → Prop) (w : World)
    (vg : VolumeGroup) (err : Option Err) (reason : String) (hP : P vg.Status.PVCList)
    (hs : StoredP P (vgKey vg) w) :
    Touches P (vgKey vg) w (HandleErrorMessage w vg err reason).1 := by
  unfold HandleErrorMessage
  cases err with
  | none => exact Touches.nothing _ _ _
  | some e =>
    simp only
    split
    · exact Touches.nothing _ _ _
    · obtain ⟨t1, _, _⟩ := UpdateVolumeGroupStatusError_touches P w vg (GetMessageFromError e) hP hs
      generalize UpdateVolumeGroupStatusError w vg (GetMessageFromError e) = r at t1 ⊢
      obtain ⟨w1, g1, e1⟩ := r
      cases e1 with
      | some u => exact t1
      | none => exact t1.compose ((recordEvent_sameGroups _ _).touches P _)

theorem storedP_true (k : String × String) (w : World) : StoredP (fun _ => True) k w :=
  fun _ _ _ => trivial

theorem AddVolumesToVolumeGroup_sameGroups (rm : RemoveByIndex) (w : World)
    (pvcs : List PersistentVolumeClaim) (vg : VolumeGroup) :
    SameGroups w (AddVolumesToVolumeGroup rm w pvcs vg).1 ∧
    vgKey (AddVolumesToVolumeGroup rm w pvcs vg).2.1 = vgKey vg := by
  unfold AddVolumesToVolumeGroup
  have h := ModifyVolumeGroup_sameGroups w { vg with Status := { vg.Status with
    PVCList := appendMultiplePVCs vg.Status.PVCList pvcs } }
  generalize ModifyVolumeGroup w { vg with Status := { vg.Status with
    PVCList := appendMultiplePVCs vg.Status.PVCList pvcs } } = r at h ⊢
  obtain ⟨w1, e⟩ := r
  cases e <;> exact ⟨h, rfl⟩

theorem AddPVCToVG_touches (rm : RemoveByIndex) (w : World) (pvc : PersistentVolumeClaim)
    (vg : VolumeGroup) :
    Touches (fun _ => True) (vgKey vg) w (AddPVCToVG rm w pvc vg).1 ∧
    vgKey (AddPVCToVG rm w pvc vg).2.1 = vgKey vg := by
  unfold AddPVCToVG
  obtain ⟨t1, t2⟩ := updateVolumeGroupStatusPVCList_touches (fun _ => True) w
    { vg with Status := { vg.Status with PVCList := appendPVC vg.Status.PVCList pvc } }
    (appendPVC vg.Status.PVCList pvc) trivial (storedP_true _ _)
  have hk : vgKey { vg with Status := { vg.Status with
      PVCList := appendPVC vg.Status.PVCList pvc } } = vgKey vg := rfl
  rw [hk] at t1 t2
  generalize updateVolumeGroupStatusPVCList w
    { vg with Status := { vg.Status with PVCList := appendPVC vg.Status.PVCList pvc } }
    (appendPVC vg.Status.PVCList pvc) = r at t1 t2 ⊢
  obtain ⟨w1, g1, e⟩ := r
  cases e <;> exact ⟨t1, t2⟩

theorem AddVolumeToPvcListAndPvList_touches (rm : RemoveByIndex) (w : World)
    (pvc : PersistentVolumeClaim) (vg : VolumeGroup) :
    Touches (fun _ => True) (vgKey vg) w (AddVolumeToPvcListAndPvList rm w pvc vg).1 ∧
    vgKey (AddVolumeToPvcListAndPvList rm w pvc vg).2.2.1 = vgKey vg := by
  unfold AddVolumeToPvcListAndPvList
  obtain ⟨t1, t2⟩ := AddPVCToVG_touches rm w pvc vg
  generalize AddPVCToVG rm w pvc vg = r at t1 t2 ⊢
  obtain ⟨w1, g1, e⟩ := r
  simp only at t1 t2
  cases e with
  | some err => exact ⟨t1, t2⟩
  | none =>
    simp only
    have h2 := (AddMatchingPVToMatchingVGC_sameGroups w1 pvc g1).touches (fun _ => True) (vgKey vg)
    generalize AddMatchingPVToMatchingVGC w1 pvc g1 = r at h2 ⊢
    obtain ⟨w2, e2⟩ := r
    cases e2 with
    | some err => exact ⟨t1.compose h2, t2⟩
    | none =>
      simp only
      have h3 := (AddFinalizerToPVC_sameGroups w2 pvc).touches (fun _ => True) (vgKey vg)
      generalize AddFinalizerToPVC w2 pvc = r at h3 ⊢
      obtain ⟨w3, p3, e3⟩ := r
      cases e3 with
      | some err => exact ⟨t1.compose (h2.compose h3), t2⟩
      | none =>
        exact ⟨t1.compose (h2.compose (h3.compose
          ((HandleSuccessMessage_sameGroups _ _ _ _).touches _ _))), t2⟩

/-! ## Theorems: the add step of the PVC loop (C2) -/

theorem eq_of_vgKey_eq {l : List VolumeGroup} (hn : (l.map vgKey).Nodup) {g g' : VolumeGroup}
    (hg : g ∈ l) (hg' : g' ∈ l) (hk : vgKey g = vgKey g') : g = g' :=
  List.inj_on_of_nodup_map hn hg hg' hk

theorem addToVolumeGroupObjectsLoop_cons_part (rm : RemoveByIndex) (pvc : PersistentVolumeClaim)
    (w : World) (vg : VolumeGroup) (rest : List VolumeGroup)
    (h : IsPVCPartOfVG pvc vg.Status.PVCList = true) :
    addToVolumeGroupObjectsLoop rm pvc w (vg :: rest)
      = addToVolumeGroupObjectsLoop rm pvc w rest := by
  rw [addToVolumeGroupObjectsLoop]
  rw [h]
  rfl

theorem countP_vgKey_le_one (k : String × String) (l : List VolumeGroup)
    (hn : (l.map vgKey).Nodup) : List.countP (fun g => decide (vgKey g = k)) l ≤ 1 := by
  induction l with
  | nil => simp
  | cons g rest ih =>
    rw [List.map_cons, List.nodup_cons] at hn
    by_cases hk : vgKey g = k
    · have h0 : List.countP (fun g => decide (vgKey g = k)) rest = 0 := by
        rw [List.countP_eq_zero]
        intro a ha
        simp only [decide_eq_true_eq]
        intro hak
        apply hn.1
        rw [hk, ← hak]
        exact List.mem_map_of_mem _ ha
      rw [List.countP_cons_of_pos _ _ (by simpa using hk), h0]
    · rw [List.countP_cons_of_neg _ _ (by simpa using hk)]
      exact ih hn.2

theorem addToVolumeGroupObjectsLoop_cons_not_part (rm : RemoveByIndex)
    (pvc : PersistentVolumeClaim) (w : World) (vg : VolumeGroup) (rest : List VolumeGroup)
    (h : IsPVCPartOfVG pvc vg.Status.PVCList = false) :
    addToVolumeGroupObjectsLoop rm pvc w (vg :: rest)
      = (match IsPVCMatchesVG pvc vg with
        | (_, some err) =>
          match HandleErrorMessage w vg (some err) addingPVC with
          | (w, _, err) => (w, pvc, err)
        | (isPVCMatchesVG, none) =>
          if isPVCMatchesVG then
            match AddVolumesToVolumeGroup rm w [pvc] vg with
            | (w, vg, some err) =>
              match HandleErrorMessage w vg (some err) addingPVC with
              | (w, _, err) => (w, pvc, err)
            | (w, vg, none) =>
              match AddVolumeToPvcListAndPvList rm w pvc vg with
              | (w, pvc, vg, err) =>
                match HandleErrorMessage w vg err addingPVC with
                | (w, _, err) => (w, pvc, err)
          else addToVolumeGroupObjectsLoop rm pvc w rest) := by
  rw [addToVolumeGroupObjectsLoop]
  rw [h]
  rfl

theorem addToVolumeGroupObjectsLoop_touches (rm : RemoveByIndex) (pvc : PersistentVolumeClaim)
    (w : World) (hkeys : (w.VolumeGroups.map vgKey).Nodup) :
    ∀ vgs : List VolumeGroup, (∀ vg ∈ vgs, vg ∈ w.VolumeGroups) →
      (∃ k, Touches (fun l => IsPVCPartOfVG pvc l = false) k w
          (addToVolumeGroupObjectsLoop rm pvc w vgs).1) ∨
      (∃ vg ∈ vgs, IsPVCPartOfVG pvc vg.Status.PVCList = false ∧
        (IsPVCMatchesVG pvc vg).1 = true ∧
        Touches (fun _ => True) (vgKey vg) w (addToVolumeGroupObjectsLoop rm pvc w vgs).1) := by
  intro vgs
  induction vgs with
  | nil => intro _; exact Or.inl ⟨("", ""), Touches.nothing _ _ _⟩
  | cons vg rest ih =>
    intro hmem
    have hrest : ∀ g ∈ rest, g ∈ w.VolumeGroups := fun g hg => hmem g (List.mem_cons_of_mem _ hg)
    have hvg : vg ∈ w.VolumeGroups := hmem vg (List.mem_cons_self _ _)
    have step : ∀ w', (∃ k, Touches (fun l => IsPVCPartOfVG pvc l = false) k w w') ∨
        (∃ g ∈ rest, IsPVCPartOfVG pvc g.Status.PVCList = false ∧
          (IsPVCMatchesVG pvc g).1 = true ∧ Touches (fun _ => True) (vgKey g) w w') →
        (∃ k, Touches (fun l => IsPVCPartOfVG pvc l = false) k w w') ∨
        (∃ g ∈ vg :: rest, IsPVCPartOfVG pvc g.Status.PVCList = false ∧
          (IsPVCMatchesVG pvc g).1 = true ∧ Touches (fun _ => True) (vgKey g) w w') := by
      intro w' h
      rcases h with h | ⟨g, hg, h⟩
      · exact Or.inl h
      · exact Or.inr ⟨g, List.mem_cons_of_mem _ hg, h⟩
    by_cases hpart : IsPVCPartOfVG pvc vg.Status.PVCList = true
    · rw [addToVolumeGroupObjectsLoop_cons_part rm pvc w vg rest hpart]
      exact step _ (ih hrest)
    · simp only [Bool.not_eq_true] at hpart
      rw [addToVolumeGroupObjectsLoop_cons_not_part rm pvc w vg rest hpart]
      rcases hm : IsPVCMatchesVG pvc vg with ⟨b, e⟩
      cases e with
      | some err =>
        simp only
        left
        refine ⟨vgKey vg, ?_⟩
        have hs : StoredP (fun l => IsPVCPartOfVG pvc l = false) (vgKey vg) w := by
          intro g hg hk
          have := eq_of_vgKey_eq hkeys hg hvg hk
          subst this; exact hpart
        have := HandleErrorMessage_touches (fun l => IsPVCPartOfVG pvc l = false) w vg
          (some err) addingPVC hpart hs
        generalize HandleErrorMessage w vg (some err) addingPVC = r at this ⊢
        obtain ⟨w1, g1, e1⟩ := r
        exact this
      | none =>
        simp only
        by_cases hb : b = true
        · simp only [hb, if_true]
          right
          refine ⟨vg, List.mem_cons_self _ _, hpart, by rw [hm]; exact hb, ?_⟩
          obtain ⟨a1, a2⟩ := AddVolumesToVolumeGroup_sameGroups rm w [pvc] vg
          generalize AddVolumesToVolumeGroup rm w [pvc] vg = r at a1 a2 ⊢
          obtain ⟨w1, vg1, e1⟩ := r
          simp only at a1 a2
          cases e1 with
          | some err =>
            simp only
            have := HandleErrorMessage_touches (fun _ => True) w1 vg1 (some err) addingPVC
              trivial (storedP_true _ _)
            rw [a2] at this
            generalize HandleErrorMessage w1 vg1 (some err) addingPVC = r at this ⊢
            obtain ⟨w2, g2, e2⟩ := r
            exact (a1.touches _ _).compose this
          | none =>
            simp only
            obtain ⟨b1, b2⟩ := AddVolumeToPvcListAndPvList_touches rm w1 pvc vg1
            rw [a2] at b1 b2
            generalize AddVolumeToPvcListAndPvList rm w1 pvc vg1 = r at b1 b2 ⊢
            obtain ⟨w2, p2, vg2, e2⟩ := r
            simp only at b1 b2 ⊢
            have := HandleErrorMessage_touches (fun _ => True) w2 vg2 e2 addingPVC
              trivial (storedP_true _ _)
            rw [b2] at this
            generalize HandleErrorMessage w2 vg2 e2 addingPVC = r at this ⊢
            obtain ⟨w3, g3, e3⟩ := r
            exact (a1.touches _ _).compose (b1.compose this)
        · simp only [hb, Bool.false_eq_true, if_false]
          exact step _ (ih hrest)

theorem Touches.filtered {P : List PersistentVolumeClaim → Prop} {k : String × String}
    {w w' : World} (h : Touches P k w w') (driver : String) :
    ∃ f : VolumeGroup → VolumeGroup,
      driverFilteredVGs w' driver = (driverFilteredVGs w driver).map f ∧
      ∀ g, (vgKey g ≠ k → f g = g) ∧ (P g.Status.PVCList → P (f g).Status.PVCList) := by
  obtain ⟨hc, f, hf, hp⟩ := h
  refine ⟨f, ?_, fun g => ⟨(hp g).2.2.2.1, (hp g).2.2.2.2⟩⟩
  unfold driverFilteredVGs
  rw [hf, List.filter_map]
  congr 1
  apply List.filter_congr
  intro g _
  simp only [Function.comp, hasMatchingDriver, hc, (hp g).2.2.1]

theorem ReadOnly.filteredEq {w w' : World} (h : ReadOnly w w') (driver : String) :
    driverFilteredVGs w' driver = driverFilteredVGs w driver := by
  obtain ⟨f, rfl⟩ := h; rfl

theorem SameGroups.filteredSame {w w' : World} (h : SameGroups w w') (driver : String) :
    driverFilteredVGs w' driver = driverFilteredVGs w driver := by
  unfold driverFilteredVGs
  rw [h.1]
  apply List.filter_congr
  intro g _
  simp only [hasMatchingDriver, h.2]

theorem recordingGroups_length_le_of_unrecorded (pvc : PersistentVolumeClaim)
    (f : VolumeGroup → VolumeGroup) (l : List VolumeGroup)
    (hf : ∀ g, IsPVCPartOfVG pvc g.Status.PVCList = false →
      IsPVCPartOfVG pvc (f g).Status.PVCList = false) :
    (recordingGroups pvc (l.map f)).length ≤ (recordingGroups pvc l).length := by
  unfold recordingGroups
  rw [← List.countP_eq_length_filter, ← List.countP_eq_length_filter, List.countP_map]
  apply List.countP_mono_left
  intro g _ hg
  simp only [Function.comp] at hg
  by_contra hc
  simp only [Bool.not_eq_true] at hc
  rw [hf g hc] at hg
  exact Bool.false_ne_true hg

theorem recordingGroups_length_le_one (pvc : PersistentVolumeClaim)
    (f : VolumeGroup → VolumeGroup) (k : String × String) (l : List VolumeGroup)
    (hn : (l.map vgKey).Nodup) (hf : ∀ g, vgKey g ≠ k → f g = g)
    (hnone : recordingGroups pvc l = []) :
    (recordingGroups pvc (l.map f)).length ≤ 1 := by
  unfold recordingGroups at hnone ⊢
  rw [← List.countP_eq_length_filter, List.countP_map]
  have h1 : List.countP ((fun vg => IsPVCPartOfVG pvc vg.Status.PVCList) ∘ f) l
      ≤ List.countP (fun g => decide (vgKey g = k)) l := by
    apply List.countP_mono_left
    intro g hg hrec
    simp only [Function.comp] at hrec
    by_contra hk
    simp only [decide_eq_true_eq] at hk
    rw [hf g hk] at hrec
    have : g ∈ l.filter (fun vg => IsPVCPartOfVG pvc vg.Status.PVCList) :=
      List.mem_filter.2 ⟨hg, hrec⟩
    rw [hnone] at this
    simp at this
  have h2 := countP_vgKey_le_one k l hn
  omega

theorem HandlePVCErrorMessage_none (w : World) (pvc : PersistentVolumeClaim) (reason : String) :
    HandlePVCErrorMessage w pvc none reason = (w, none) := rfl

/-- C2: single-group invariant M4 is preserved by the add step of the PVC loop. When
`MultipleVGsToPVC` is not enabled and the stored groups have distinct (namespace, name) keys,
if the claim is recorded in at most one group of the driver-filtered list, then after
`addPersistentVolumeClaimToVolumeGroupObjects`, whether it succeeds or fails and whatever
external calls fail on the way, it is still recorded in at most one group of that list. -/
theorem add_preserves_single_group (rm : RemoveByIndex) (r : PersistentVolumeClaimReconciler)
    (w : World) (pvc : PersistentVolumeClaim)
    (hmode : r.DriverConfig.MultipleVGsToPVC ≠ "true")
    (hkeys : (w.VolumeGroups.map vgKey).Nodup)
    (hM4 : (recordingGroups pvc (driverFilteredVGs w r.DriverConfig.DriverName)).length ≤ 1) :
    (recordingGroups pvc (driverFilteredVGs
      (r.addPersistentVolumeClaimToVolumeGroupObjects rm w pvc).1
      r.DriverConfig.DriverName)).length ≤ 1 := by
  unfold PersistentVolumeClaimReconciler.addPersistentVolumeClaimToVolumeGroupObjects
    PersistentVolumeClaimReconciler.isPVCCanBeAddedToVG
  obtain ⟨hro, hl, _⟩ := GetVGList_eq_driverFilteredVGs w r.DriverConfig.DriverName
  generalize GetVGList w r.DriverConfig.DriverName = res at hro hl ⊢
  obtain ⟨w1, l, e⟩ := res
  simp only at hro hl
  cases e with
  | some err =>
    simp only
    rw [hro.filteredEq]; exact hM4
  | none =>
    have hl' := hl rfl
    subst hl'
    have hm : (r.DriverConfig.MultipleVGsToPVC == "true") = false := by simpa using hmode
    simp only [hm, Bool.false_eq_true, if_false]
    cases hc : IsPVCCanBeAddedToVG pvc (driverFilteredVGs w r.DriverConfig.DriverName) with
    | some err =>
      obtain ⟨h1, _, h3, h4⟩ := HandlePVCErrorMessage_some w1 pvc err addingPVC
      generalize HandlePVCErrorMessage w1 pvc (some err) addingPVC = res at h1 h3 h4 ⊢
      obtain ⟨w2, e2⟩ := res
      simp only at h1 h3 h4
      subst h1
      simp only
      have hsg : SameGroups w w2 := hro.sameGroups.followedBy ⟨h3, h4⟩
      rw [hsg.filteredSame]; exact hM4
    | none =>
      rw [HandlePVCErrorMessage_none]
      simp only
      have hkeys1 : (w1.VolumeGroups.map vgKey).Nodup := by
        obtain ⟨f, rfl⟩ := hro; exact hkeys
      have hmem : ∀ vg ∈ driverFilteredVGs w r.DriverConfig.DriverName, vg ∈ w1.VolumeGroups := by
        intro vg hvg
        obtain ⟨f, rfl⟩ := hro
        exact (List.mem_filter.1 hvg).1
      have hdf : driverFilteredVGs w1 r.DriverConfig.DriverName
          = driverFilteredVGs w r.DriverConfig.DriverName := hro.filteredEq _
      rcases addToVolumeGroupObjectsLoop_touches rm pvc w1 hkeys1
          (driverFilteredVGs w r.DriverConfig.DriverName) hmem with ⟨k, ht⟩ | ⟨vg, hvg, hp, hmt, ht⟩
      · obtain ⟨f, hf1, hf2⟩ := ht.filtered r.DriverConfig.DriverName
        rw [hf1, hdf]
        exact Nat.le_trans
          (recordingGroups_length_le_of_unrecorded pvc f _ (fun g hg => (hf2 g).2 hg)) hM4
      · obtain ⟨f, hf1, hf2⟩ := ht.filtered r.DriverConfig.DriverName
        rw [hf1, hdf]
        have hnone : recordingGroups pvc (driverFilteredVGs w r.DriverConfig.DriverName) = [] := by
          have hiff := IsPVCCanBeAddedToVG_isSome_iff pvc
            (driverFilteredVGs w r.DriverConfig.DriverName)
          rw [hc] at hiff
          simp only [Option.isSome_none, Bool.false_eq_true, false_iff, not_or, not_and] at hiff
          apply List.eq_nil_iff_forall_not_mem.2
          intro g hg
          have hg' := List.mem_filter.1 hg
          exact hiff.1 ⟨g, hg'.1, hg'.2⟩ ⟨vg, hvg, hp, hmt⟩
        have hn : ((driverFilteredVGs w r.DriverConfig.DriverName).map vgKey).Nodup := by
          refine List.Nodup.sublist ?_ hkeys
          exact List.Sublist.map _ (List.filter_sublist _)
        exact recordingGroups_length_le_one pvc f (vgKey vg) _ hn (fun g hg => (hf2 g).1 hg) hnone

/-- C2 witness: `p1` is recorded nowhere in `twoClaimsWorld`; after the add step it is recorded
in exactly one group. -/
theorem add_preserves_single_group_witness :
    exampleReconciler.DriverConfig.MultipleVGsToPVC ≠ "true" ∧
    (twoClaimsWorld.VolumeGroups.map vgKey).Nodup ∧
    (recordingGroups dbClaim1
      (driverFilteredVGs twoClaimsWorld exampleReconciler.DriverConfig.DriverName)).length ≤ 1 ∧
    (recordingGroups dbClaim1 (driverFilteredVGs
      (exampleReconciler.addPersistentVolumeClaimToVolumeGroupObjects removeKeepingOrder
        twoClaimsWorld dbClaim1).1 exampleReconciler.DriverConfig.DriverName)).length ≤ 1 ∧
    (recordingGroups dbClaim1 (driverFilteredVGs
      (exampleReconciler.addPersistentVolumeClaimToVolumeGroupObjects removeKeepingOrder
        twoClaimsWorld dbClaim1).1 exampleReconciler.DriverConfig.DriverName)).length = 1 :=
  ⟨by decide, by decide, by decide,
    add_preserves_single_group removeKeepingOrder exampleReconciler twoClaimsWorld dbClaim1
      (by decide) (by decide) (by decide), by decide⟩

/-! ## Theorems: the group name (C15) -/

theorem String.length_eq_zero_iff_empty (s : String) : (s.length == 0) = true ↔ s = "" := by
  cases s with
  | mk l =>
    cases l with
    | nil => simp [String.length]
    | cons a t =>
      simp [String.length]
      intro h
      exact absurd (congrArg String.data h) (by simp)

theorem append_dash_injective (pre a b : String) (h : pre ++ "-" ++ a = pre ++ "-" ++ b) :
    a = b := by
  have h2 := congrArg String.data h
  simp only [String.data_append, List.append_assoc] at h2
  have h3 := List.append_cancel_left (List.append_cancel_left h2)
  exact String.ext h3

/-- C15: `makeVolumeGroupName pre uid` returns `pre ++ "-" ++ uid` and no error for every
non-empty `uid`; it returns an error exactly when `uid` is empty, and then the name is empty; so
for a fixed prefix two distinct non-empty UIDs give distinct group names. -/
theorem makeVolumeGroupName_spec (pre uid : String) :
    (uid ≠ "" → makeVolumeGroupName pre uid = (pre ++ "-" ++ uid, none)) ∧
    ((makeVolumeGroupName pre uid).2 ≠ none ↔ uid = "") ∧
    ((makeVolumeGroupName pre uid).2 ≠ none → (makeVolumeGroupName pre uid).1 = "") ∧
    (∀ uid2 : String, uid ≠ "" → uid2 ≠ "" → uid ≠ uid2 →
      (makeVolumeGroupName pre uid).1 ≠ (makeVolumeGroupName pre uid2).1) := by
  have key : ∀ u : String, u ≠ "" → makeVolumeGroupName pre u = (pre ++ "-" ++ u, none) := by
    intro u hu
    unfold makeVolumeGroupName
    rw [if_neg]
    rw [String.length_eq_zero_iff_empty]; exact hu
  refine ⟨key uid, ?_, ?_, ?_⟩
  · by_cases hu : uid = ""
    · subst hu; simp [makeVolumeGroupName]
    · rw [key uid hu]; simp [hu]
  · by_cases hu : uid = ""
    · subst hu; intro _; rfl
    · rw [key uid hu]; simp
  · intro uid2 h1 h2 hne
    rw [key uid h1, key uid2 h2]
    exact fun h => hne (append_dash_injective pre uid uid2 h)

/-! ## Theorems: the admission bypass (C19) -/

/-- C19: when `MultipleVGsToPVC` is `"true"`, `isPVCCanBeAddedToVG` of the PVC reconciler and of
the VolumeGroup reconciler both return nil for every claim and every group list, and leave the
world as it was: no event is recorded and, in the VolumeGroup reconciler, no list is fetched. -/
theorem isPVCCanBeAddedToVG_bypassed_when_multiple (pr : PersistentVolumeClaimReconciler)
    (vr : VolumeGroupReconciler) (w : World) (pvc : PersistentVolumeClaim)
    (vgList : List VolumeGroup)
    (hp : pr.DriverConfig.MultipleVGsToPVC = "true")
    (hv : vr.DriverConfig.MultipleVGsToPVC = "true") :
    pr.isPVCCanBeAddedToVG w pvc vgList = (w, none) ∧
    vr.isPVCCanBeAddedToVG w pvc = (w, none) := by
  constructor
  · unfold PersistentVolumeClaimReconciler.isPVCCanBeAddedToVG
    simp [hp]
  · unfold VolumeGroupReconciler.isPVCCanBeAddedToVG
    simp [hv]


theorem isPVCCanBeAddedToVG_bypassed_when_multiple_witness :
    IsPVCCanBeAddedToVG tierZoneClaim [tierGroupWithClaim, tierZoneGroup] ≠ none ∧
    multiGroupReconciler.isPVCCanBeAddedToVG exclusivityWorld tierZoneClaim
        [tierGroupWithClaim, tierZoneGroup] = (exclusivityWorld, none) ∧
    multiGroupVGReconciler.isPVCCanBeAddedToVG exclusivityWorld tierZoneClaim
      = (exclusivityWorld, none) :=
  ⟨by decide,
    isPVCCanBeAddedToVG_bypassed_when_multiple multiGroupReconciler multiGroupVGReconciler
      exclusivityWorld tierZoneClaim [tierGroupWithClaim, tierZoneGroup] rfl rfl⟩

/-! ## Theorems: the driver-filtered group list (C16) -/

theorem nextFault_of_no_faults (w : World) (h : w.faults = []) : nextFault w = (w, none) := by
  unfold nextFault; rw [h]

theorem getProvisionedVGs_of_no_faults (driver : String) (vgs : List VolumeGroup) :
    ∀ (w : World) (acc : List VolumeGroup), w.faults = [] →
      (getProvisionedVGs driver w vgs acc).2.2 = none := by
  induction vgs with
  | nil => intro w acc _; rfl
  | cons vg rest ih =>
    intro w acc h
    have hI : isVGHasMatchingDriver w vg driver
        = (w, hasMatchingDriver w driver vg, none) := by
      unfold isVGHasMatchingDriver getVGClassDriver hasMatchingDriver
      rw [nextFault_of_no_faults w h]
      simp only
      cases hc : w.VolumeGroupClasses.find? (fun c => c.Name == vg.Spec.VolumeGroupClassName) with
      | some c => rfl
      | none => rfl
    rw [getProvisionedVGs, hI]
    simp only
    split
    · exact ih w _ h
    · exact ih w _ h

theorem getProvisionedVGs_error (w : World) (driver : String) (vgs : List VolumeGroup) :
    ∀ (w0 : World) (acc : List VolumeGroup) (err : Err), ReadOnly w w0 →
      (getProvisionedVGs driver w0 vgs acc).2.2 = some err →
      ∃ vg ∈ vgs, ∃ w1, ReadOnly w w1 ∧
        (getVGClassDriver w1 vg.Spec.VolumeGroupClassName).2.2 = some err ∧
        IsNotFound (some err) = false := by
  induction vgs with
  | nil => intro w0 acc err _ h; simp [getProvisionedVGs] at h
  | cons vg rest ih =>
    intro w0 acc err h herr
    rw [getProvisionedVGs] at herr
    have hro : ReadOnly w0 (isVGHasMatchingDriver w0 vg driver).1 :=
      (isVGHasMatchingDriver_spec w0 vg driver).1
    have hstep : ∀ e, (isVGHasMatchingDriver w0 vg driver).2.2 = some e →
        (getVGClassDriver w0 vg.Spec.VolumeGroupClassName).2.2 = some e ∧
          IsNotFound (some e) = false := by
      intro e
      unfold isVGHasMatchingDriver
      rcases hG : getVGClassDriver w0 vg.Spec.VolumeGroupClassName with ⟨w1, d, e1⟩
      cases e1 with
      | none => simp
      | some e2 =>
        simp only
        by_cases hnf : IsNotFound (some e2) = true
        · simp [hnf]
        · simp only [hnf, Bool.false_eq_true, if_false]
          intro he
          simp only [Option.some.injEq] at he
          subst he
          exact ⟨rfl, by simpa using hnf⟩
    generalize isVGHasMatchingDriver w0 vg driver = r at herr hro hstep
    obtain ⟨w1, b, e⟩ := r
    cases e with
    | some e1 =>
      simp only at herr
      simp only [Option.some.injEq] at herr
      subst herr
      obtain ⟨h1, h2⟩ := hstep e1 rfl
      exact ⟨vg, List.mem_cons_self _ _, w0, h, h1, h2⟩
    | none =>
      simp only at herr
      split at herr
      · obtain ⟨g, hg, w2, h1, h2⟩ := ih w1 _ err (h.andThen hro) herr
        exact ⟨g, List.mem_cons_of_mem _ hg, w2, h1, h2⟩
      · obtain ⟨g, hg, w2, h1, h2⟩ := ih w1 _ err (h.andThen hro) herr
        exact ⟨g, List.mem_cons_of_mem _ hg, w2, h1, h2⟩

theorem getProvisionedVGs_cons_error (driver : String) (w : World) (vg : VolumeGroup)
    (rest acc : List VolumeGroup) (err : Err)
    (h : (getVGClassDriver w vg.Spec.VolumeGroupClassName).2.2 = some err)
    (hnf : IsNotFound (some err) = false) :
    getProvisionedVGs driver w (vg :: rest) acc
      = ((getVGClassDriver w vg.Spec.VolumeGroupClassName).1, [], some err) := by
  rw [getProvisionedVGs]
  unfold isVGHasMatchingDriver
  generalize getVGClassDriver w vg.Spec.VolumeGroupClassName = r at h
  obtain ⟨w1, d, e⟩ := r
  simp only at h
  subst h
  simp only [hnf, Bool.false_eq_true, if_false]

theorem getProvisionedVGs_cons_notFound (driver : String) (w : World) (vg : VolumeGroup)
    (rest acc : List VolumeGroup)
    (hnf : IsNotFound (getVGClassDriver w vg.Spec.VolumeGroupClassName).2.2 = true) :
    getProvisionedVGs driver w (vg :: rest) acc
      = getProvisionedVGs driver (getVGClassDriver w vg.Spec.VolumeGroupClassName).1 rest acc := by
  rw [getProvisionedVGs]
  unfold isVGHasMatchingDriver
  generalize getVGClassDriver w vg.Spec.VolumeGroupClassName = r at hnf
  obtain ⟨w1, d, e⟩ := r
  cases e with
  | none => simp [IsNotFound] at hnf
  | some e1 =>
    simp only at hnf
    simp only [hnf, if_true]
    simp

/-- C16: `GetVGList` only reads. When it returns without error its list is `driverFilteredVGs`:
the stored groups, in the store's order, whose class exists and has the configured driver. With
no failure pending it returns without error, so a group whose class is missing is left out
silently. When it fails the list is empty and the error is the one of the `List` call or of a
class lookup that was not NotFound. In the loop a NotFound lookup skips the group and any other
lookup error ends the listing with that error and an empty list. -/
theorem GetVGList_spec (w : World) (driver : String) :
    ReadOnly w (GetVGList w driver).1 ∧
    ((GetVGList w driver).2.2 = none → (GetVGList w driver).2.1 = driverFilteredVGs w driver) ∧
    (w.faults = [] → (GetVGList w driver).2.2 = none) ∧
    (∀ err, (GetVGList w driver).2.2 = some err →
      (GetVGList w driver).2.1 = [] ∧
      ((nextFault w).2 = some err ∨
        ∃ vg ∈ w.VolumeGroups, ∃ w1, ReadOnly w w1 ∧
          (getVGClassDriver w1 vg.Spec.VolumeGroupClassName).2.2 = some err ∧
          IsNotFound (some err) = false)) ∧
    (∀ (w1 : World) (vg : VolumeGroup) (rest acc : List VolumeGroup),
      IsNotFound (getVGClassDriver w1 vg.Spec.VolumeGroupClassName).2.2 = true →
      getProvisionedVGs driver w1 (vg :: rest) acc
        = getProvisionedVGs driver (getVGClassDriver w1 vg.Spec.VolumeGroupClassName).1 rest acc) ∧
    (∀ (w1 : World) (vg : VolumeGroup) (rest acc : List VolumeGroup) (err : Err),
      (getVGClassDriver w1 vg.Spec.VolumeGroupClassName).2.2 = some err →
      IsNotFound (some err) = false →
      getProvisionedVGs driver w1 (vg :: rest) acc
        = ((getVGClassDriver w1 vg.Spec.VolumeGroupClassName).1, [], some err)) := by
  obtain ⟨h0, h1, h2⟩ := GetVGList_eq_driverFilteredVGs w driver
  refine ⟨h0, h1, ?_, ?_, ?_, ?_⟩
  · intro hf
    unfold GetVGList
    rw [nextFault_of_no_faults w hf]
    have := getProvisionedVGs_of_no_faults driver w.VolumeGroups w [] hf
    simp only
    generalize getProvisionedVGs driver w w.VolumeGroups [] = r at this ⊢
    obtain ⟨w1, l, e⟩ := r
    simp only at this
    subst this
    rfl
  · intro err herr
    refine ⟨h2 (by rw [herr]; simp), ?_⟩
    unfold GetVGList at herr
    have hro := nextFault_readOnly w
    generalize nextFault w = r at herr hro ⊢
    obtain ⟨w1, e⟩ := r
    cases e with
    | some e1 => left; simpa using herr
    | none =>
      right
      simp only at herr
      have hw : w1.VolumeGroups = w.VolumeGroups := by obtain ⟨f, rfl⟩ := hro; rfl
      have := getProvisionedVGs_error w driver w1.VolumeGroups w1 [] err hro
      generalize getProvisionedVGs driver w1 w1.VolumeGroups [] = r at herr this
      obtain ⟨w2, l, e2⟩ := r
      cases e2 with
      | none => simp at herr
      | some e3 =>
        simp only [Option.some.injEq] at herr
        subst herr
        rw [hw] at this
        exact this rfl
  · intro w1 vg rest acc hnf
    exact getProvisionedVGs_cons_notFound driver w1 vg rest acc hnf
  · intro w1 vg rest acc err h hnf
    exact getProvisionedVGs_cons_error driver w1 vg rest acc err h hnf

/-! ## Evaluations: the stale finalizer list (C18) and the static-class claim (C11) -/

/-- C18, evaluated where it fails: the reconciler read the group without finalizers, another
writer then added its own finalizer, and the first update is answered with a conflict. The
object fetched after the conflict carries the other writer's finalizer, yet `AddFinalizerToVG`
succeeds with the stored finalizer list being the list computed before the first attempt: the
other writer's finalizer is gone, where the claim asks for both. -/
theorem AddFinalizerToVG_retry_drops_other_finalizer :
    (otherWriterWorld.VolumeGroups.map (fun g => g.Finalizers) = [["other.example.com/hold"]]) ∧
    (AddFinalizerToVG otherWriterWorld staleReadGroup).2.2 = none ∧
    (AddFinalizerToVG otherWriterWorld staleReadGroup).1.VolumeGroups.map (fun g => g.Finalizers)
      = [[VolumeGroupFinalizer]] ∧
    (finalizerRetryOnConflictFunc otherWriterWorld [VolumeGroupFinalizer]
        { staleReadGroup with Finalizers := [VolumeGroupFinalizer] }).2.1.Finalizers
      = ["other.example.com/hold"] ∧
    (AddFinalizerToVG otherWriterWorld staleReadGroup).1.VolumeGroups.map (fun g => g.Finalizers)
      ≠ [["other.example.com/hold", VolumeGroupFinalizer]] := by
  refine ⟨rfl, rfl, rfl, rfl, by decide⟩

/-- C11, evaluated where it fails: a bound claim of the driver whose storage class carries the
`volume_group` parameter, labelled as the group selects. The PVC reconciler refuses it
(`isPVCNeedToBeHandled` is false), but `GetPVCList` lists it, the loop of
`addMatchingVolumesToVG` selects it, ModifyGroup is issued with its volume and the group records
it. -/
theorem addMatchingVolumesToVG_selects_static_class_claim :
    (IsPVCInStaticVG staticClassWorld staticClassClaim).2 = (true, none) ∧
    (exampleReconciler.isPVCNeedToBeHandled staticClassWorld staticClassClaim).2.1 = false ∧
    (GetPVCList staticClassWorld "csi.example.com").2 = ([staticClassClaim], none) ∧
    (addMatchingVolumesToVGLoop exampleVGReconciler dbGroup staticClassWorld
        [staticClassClaim] []).2 = ([staticClassClaim], none) ∧
    (exampleVGReconciler.addMatchingVolumesToVG removeKeepingOrder staticClassWorld dbGroup).2.2
      = none ∧
    (exampleVGReconciler.addMatchingVolumesToVG removeKeepingOrder staticClassWorld
        dbGroup).1.rpcs = [{ call := RPC.ModifyVolumeGroup "handle-1" ["vol-9"] }] ∧
    (exampleVGReconciler.addMatchingVolumesToVG removeKeepingOrder staticClassWorld
        dbGroup).1.VolumeGroups.map (fun g => g.Status.PVCList) = [[staticClassClaim]] := by
  refine ⟨rfl, rfl, rfl, rfl, rfl, rfl, rfl⟩

/-! ## Theorems: what an operation may write -/

theorem Within.noChange (S : Footprint) (p : RPCRecord → Prop) (w : World) : Within S p w w :=
  ⟨rfl, rfl, rfl, rfl, fun _ => rfl, fun _ => rfl, fun _ => rfl, fun _ => rfl,
    [], by simp, by simp⟩

theorem Within.next {S : Footprint} {p : RPCRecord → Prop} {w1 w2 w3 : World}
    (h1 : Within S p w1 w2) (h2 : Within S p w2 w3) : Within S p w1 w3 := by
  obtain ⟨n1, e1, q1⟩ := h1.rpcs
  obtain ⟨n2, e2, q2⟩ := h2.rpcs
  refine ⟨h2.volumes.trans h1.volumes, h2.storageClasses.trans h1.storageClasses,
    h2.classes.trans h1.classes, h2.secrets.trans h1.secrets,
    fun h => (h2.groups h).trans (h1.groups h), fun h => (h2.claims h).trans (h1.claims h),
    fun h => (h2.contents h).trans (h1.contents h), fun h => (h2.events h).trans (h1.events h),
    n1 ++ n2, by rw [e2, e1, List.append_assoc], ?_⟩
  intro rec hrec
  rcases List.mem_append.mp hrec with h | h
  · exact q1 rec h
  · exact q2 rec h

theorem Within.weaken {S : Footprint} {p q : RPCRecord → Prop} {w w' : World}
    (h : Within S p w w') (hpq : ∀ rec, p rec → q rec) : Within S q w w' := by
  obtain ⟨n, e, hn⟩ := h.rpcs
  exact ⟨h.volumes, h.storageClasses, h.classes, h.secrets, h.groups, h.claims, h.contents,
    h.events, n, e, fun rec hrec => hpq rec (hn rec hrec)⟩

theorem Within.rpcs_eq {S : Footprint} {w w' : World} (h : Within S noRPC w w') :
    w'.rpcs = w.rpcs := by
  obtain ⟨n, e, hn⟩ := h.rpcs
  cases n with
  | nil => simpa using e
  | cons a t => exact absurd (hn a (List.mem_cons_self _ _)) (fun h => h)

theorem ReadOnly.within {w w' : World} (h : ReadOnly w w') (S : Footprint)
    (p : RPCRecord → Prop) : Within S p w w' := by
  obtain ⟨f, rfl⟩ := h
  exact ⟨rfl, rfl, rfl, rfl, fun _ => rfl, fun _ => rfl, fun _ => rfl, fun _ => rfl,
    [], by simp, by simp⟩

theorem Within.setGroups (S : Footprint) (p : RPCRecord → Prop) (hS : S.groups = true)
    (w : World) (l : List VolumeGroup) : Within S p w { w with VolumeGroups := l } :=
  ⟨rfl, rfl, rfl, rfl, fun h => (by simp [hS] at h), fun _ => rfl, fun _ => rfl,
    fun _ => rfl, [], by simp, by simp⟩

theorem Within.setClaims (S : Footprint) (p : RPCRecord → Prop) (hS : S.claims = true)
    (w : World) (l : List PersistentVolumeClaim) :
    Within S p w { w with PersistentVolumeClaims := l } :=
  ⟨rfl, rfl, rfl, rfl, fun _ => rfl, fun h => (by simp [hS] at h), fun _ => rfl,
    fun _ => rfl, [], by simp, by simp⟩

theorem Within.setContents (S : Footprint) (p : RPCRecord → Prop) (hS : S.contents = true)
    (w : World) (l : List VolumeGroupContent) :
    Within S p w { w with VolumeGroupContents := l } :=
  ⟨rfl, rfl, rfl, rfl, fun _ => rfl, fun _ => rfl, fun h => (by simp [hS] at h),
    fun _ => rfl, [], by simp, by simp⟩

theorem recordEvent_within (S : Footprint) (p : RPCRecord → Prop) (hS : S.events = true)
    (w : World) (ev : Event) : Within S p w (recordEvent w ev) :=
  ⟨rfl, rfl, rfl, rfl, fun _ => rfl, fun _ => rfl, fun _ => rfl,
    fun h => (by simp [hS] at h), [], by simp [recordEvent], by simp⟩

theorem Within.appendRPC (S : Footprint) (p : RPCRecord → Prop) (w : World) (rec : RPCRecord)
    (h : p rec) : Within S p w { w with rpcs := w.rpcs ++ [rec] } :=
  ⟨rfl, rfl, rfl, rfl, fun _ => rfl, fun _ => rfl, fun _ => rfl, fun _ => rfl,
    [rec], rfl, by simpa using h⟩

/-- The frame as an invariant that ignores the in-memory object. -/
theorem Within.stable_vg (S : Footprint) (p : RPCRecord → Prop) (hS : S.groups = true)
    (w0 : World) : Stable (fun w (_ : VolumeGroup) => Within S p w0 w) where
  faults := fun _ _ f h => h.next (ReadOnly.within ⟨f, rfl⟩ S p)
  write := fun w _ h => h.next (Within.setGroups S p hS w _)
  writeStatus := fun w _ h => h.next (Within.setGroups S p hS w _)
  fetch := fun _ _ _ h _ => h
  setFinalizers := fun _ _ _ h => h

theorem Within.stable_pvc (S : Footprint) (p : RPCRecord → Prop) (hS : S.claims = true)
    (w0 : World) : Stable (fun w (_ : PersistentVolumeClaim) => Within S p w0 w) where
  faults := fun _ _ f h => h.next (ReadOnly.within ⟨f, rfl⟩ S p)
  write := fun w _ h => h.next (Within.setClaims S p hS w _)
  writeStatus := fun w _ h => h.next (Within.setClaims S p hS w _)
  fetch := fun _ _ _ h _ => h
  setFinalizers := fun _ _ _ h => h

theorem Within.stable_vgc (S : Footprint) (p : RPCRecord → Prop) (hS : S.contents = true)
    (w0 : World) : Stable (fun w (_ : VolumeGroupContent) => Within S p w0 w) where
  faults := fun _ _ f h => h.next (ReadOnly.within ⟨f, rfl⟩ S p)
  write := fun w _ h => h.next (Within.setContents S p hS w _)
  writeStatus := fun w _ h => h.next (Within.setContents S p hS w _)
  fetch := fun _ _ _ h _ => h
  setFinalizers := fun _ _ _ h => h

/-! ## Theorems: invariants kept by the generic store operations -/

theorem nextFault_stable {α : Type} [Object α] {J : World → α → Prop} (hJ : Stable J)
    (w : World) (a : α) (h : J w a) : J (nextFault w).1 a := by
  obtain ⟨f, hf⟩ := nextFault_readOnly w
  rw [hf]; exact hJ.faults w a f h

theorem clientUpdate_stable {α : Type} [Object α] {J : World → α → Prop} (hJ : Stable J)
    (w : World) (a : α) (h : J w a) : J (clientUpdate w a).1 a := by
  unfold clientUpdate
  have h1 := nextFault_stable hJ w a h
  generalize nextFault w = r at h1 ⊢
  obtain ⟨w1, e⟩ := r
  cases e with
  | some err => exact h1
  | none =>
    simp only
    split
    · exact hJ.write w1 a h1
    · exact h1

theorem clientStatusUpdate_stable {α : Type} [Object α] {J : World → α → Prop} (hJ : Stable J)
    (w : World) (a : α) (h : J w a) : J (clientStatusUpdate w a).1 a := by
  unfold clientStatusUpdate
  have h1 := nextFault_stable hJ w a h
  generalize nextFault w = r at h1 ⊢
  obtain ⟨w1, e⟩ := r
  cases e with
  | some err => exact h1
  | none =>
    simp only
    split
    · exact hJ.writeStatus w1 a h1
    · exact h1

theorem UpdateObject_stable {α : Type} [Object α] {J : World → α → Prop} (hJ : Stable J)
    (w : World) (a : α) (h : J w a) : J (UpdateObject w a).1 a := by
  unfold UpdateObject
  have h1 := clientUpdate_stable hJ w a h
  generalize clientUpdate w a = r at h1 ⊢
  obtain ⟨w1, e⟩ := r
  cases e <;> exact h1

theorem UpdateObjectStatus_stable {α : Type} [Object α] {J : World → α → Prop} (hJ : Stable J)
    (w : World) (a : α) (h : J w a) : J (UpdateObjectStatus w a).1 a := by
  unfold UpdateObjectStatus
  have h1 := clientStatusUpdate_stable hJ w a h
  generalize clientStatusUpdate w a = r at h1 ⊢
  obtain ⟨w1, e⟩ := r
  cases e with
  | none => exact h1
  | some err => simp only; split <;> exact h1

theorem getNamespacedObject_stable {α : Type} [Object α] {J : World → α → Prop}
    (hJ : Stable J) (w : World) (a : α) (h : J w a) :
    J (getNamespacedObject w a).1 (getNamespacedObject w a).2.1 := by
  unfold getNamespacedObject clientGet
  have h1 := nextFault_stable hJ w a h
  generalize nextFault w = r at h1 ⊢
  obtain ⟨w1, e⟩ := r
  cases e with
  | some err => exact h1
  | none =>
    simp only
    cases hs : (Object.stored w1 (Object.GetNamespace a) (Object.GetName a) : Option α) with
    | none => exact h1
    | some b => exact hJ.fetch w1 a b h1 hs

theorem finalizerRetryOnConflictFunc_stable {α : Type} [Object α] {J : World → α → Prop}
    (hJ : Stable J) (w : World) (fins : List String) (a : α) (h : J w a) :
    J (finalizerRetryOnConflictFunc w fins a).1 (finalizerRetryOnConflictFunc w fins a).2.1 := by
  unfold finalizerRetryOnConflictFunc
  have h1 := UpdateObject_stable hJ w _ (hJ.setFinalizers w a fins h)
  generalize UpdateObject w (Object.SetFinalizers a fins) = r at h1 ⊢
  obtain ⟨w1, e⟩ := r
  simp only at h1 ⊢
  split
  · have h2 := getNamespacedObject_stable hJ w1 _ h1
    generalize getNamespacedObject w1 (Object.SetFinalizers a fins) = r at h2 ⊢
    obtain ⟨w2, b, e2⟩ := r
    cases e2 <;> exact h2
  · exact h1

theorem updateFinalizer_stable {α : Type} [Object α] {J : World → α → Prop}
    (hJ : Stable J) (w : World) (fins : List String) (a : α) (h : J w a) :
    J (updateFinalizer w fins a).1 (updateFinalizer w fins a).2.1 := by
  unfold updateFinalizer
  have key := RetryOnConflict_invariant
    (fun (s : World × α) =>
      match finalizerRetryOnConflictFunc s.1 fins s.2 with
      | (w, obj, err) => ((w, obj), err))
    (fun s => J s.1 s.2)
    (by
      rintro ⟨w0, a0⟩ h0
      have := finalizerRetryOnConflictFunc_stable hJ w0 fins a0 h0
      dsimp only at h0 ⊢
      generalize finalizerRetryOnConflictFunc w0 fins a0 = r at this ⊢
      obtain ⟨w1, a1, e⟩ := r
      exact this)
    DefaultRetry (w, a) h
  generalize RetryOnConflict (fun (s : World × α) =>
      match finalizerRetryOnConflictFunc s.1 fins s.2 with
      | (w, obj, err) => ((w, obj), err)) DefaultRetry (w, a) = r at key ⊢
  obtain ⟨⟨w', a'⟩, e⟩ := r
  exact key


theorem updateVolumeGroupStatus_stable {J : World → VolumeGroup → Prop} (hJ : Stable J)
    (w : World) (vg : VolumeGroup) (h : J w vg) : J (updateVolumeGroupStatus w vg).1 vg := by
  unfold updateVolumeGroupStatus
  have h1 := UpdateObjectStatus_stable hJ w vg h
  generalize UpdateObjectStatus w vg = r at h1 ⊢
  obtain ⟨w1, e⟩ := r
  cases e <;> exact h1

theorem vgRetryOnConflictFunc_stable {J : World → VolumeGroup → Prop} (hJ : Stable J)
    (w : World) (vg : VolumeGroup) (h : J w vg) :
    J (vgRetryOnConflictFunc w vg).1 (vgRetryOnConflictFunc w vg).2.1 := by
  unfold vgRetryOnConflictFunc
  have h1 := updateVolumeGroupStatus_stable hJ w vg h
  generalize updateVolumeGroupStatus w vg = r at h1 ⊢
  obtain ⟨w1, e⟩ := r
  simp only at h1 ⊢
  split
  · have h2 := getNamespacedObject_stable hJ w1 vg h1
    generalize getNamespacedObject w1 vg = r at h2 ⊢
    obtain ⟨w2, b, e2⟩ := r
    cases e2 <;> exact h2
  · exact h1

/-- The retry loop of a status write whose body first edits the in-memory group by `edit`. -/
theorem statusRetry_stable {J : World → VolumeGroup → Prop} (hJ : Stable J)
    (edit : VolumeGroup → VolumeGroup) (hEdit : ∀ w a, J w a → J w (edit a))
    (w : World) (vg : VolumeGroup) (h : J w vg) :
    J (RetryOnConflict (fun (s : World × VolumeGroup) =>
        match vgRetryOnConflictFunc s.1 (edit s.2) with
        | (w, vg, err) => ((w, vg), err)) DefaultRetry (w, vg)).1.1
      (RetryOnConflict (fun (s : World × VolumeGroup) =>
        match vgRetryOnConflictFunc s.1 (edit s.2) with
        | (w, vg, err) => ((w, vg), err)) DefaultRetry (w, vg)).1.2 := by
  exact RetryOnConflict_invariant
    (fun (s : World × VolumeGroup) =>
      match vgRetryOnConflictFunc s.1 (edit s.2) with
      | (w, vg, err) => ((w, vg), err))
    (fun s => J s.1 s.2)
    (by
      rintro ⟨w0, a0⟩ h0
      have := vgRetryOnConflictFunc_stable hJ w0 (edit a0) (hEdit w0 a0 h0)
      dsimp only at h0 ⊢
      generalize vgRetryOnConflictFunc w0 (edit a0) = r at this ⊢
      obtain ⟨w1, a1, e⟩ := r
      exact this)
    DefaultRetry (w, vg) h

theorem UpdateVolumeGroupStatusError_stable {J : World → VolumeGroup → Prop} (hJ : Stable J)
    (hErr : ∀ w a m, J w a → J w { a with Status := { a.Status with Error := some m } })
    (w : World) (vg : VolumeGroup) (message : String) (h : J w vg) :
    J (UpdateVolumeGroupStatusError w vg message).1
      (UpdateVolumeGroupStatusError w vg message).2.1 := by
  unfold UpdateVolumeGroupStatusError
  have key := statusRetry_stable hJ
    (fun a => { a with Status := { a.Status with Error := some message } })
    (fun w a ha => hErr w a message ha) w vg h
  dsimp only at key
  generalize RetryOnConflict (fun (s : World × VolumeGroup) =>
      match vgRetryOnConflictFunc s.1
          { s.2 with Status := { s.2.Status with Error := some message } } with
      | (w, vg, err) => ((w, vg), err)) DefaultRetry (w, vg) = r at key ⊢
  obtain ⟨⟨w', a'⟩, e⟩ := r
  exact key

theorem HandleErrorMessage_stable {J : World → VolumeGroup → Prop} (hJ : Stable J)
    (hErr : ∀ w a m, J w a → J w { a with Status := { a.Status with Error := some m } })
    (hEv : ∀ w a ev, J w a → J (recordEvent w ev) a)
    (w : World) (vg : VolumeGroup) (err : Option Err) (reason : String) (h : J w vg) :
    J (HandleErrorMessage w vg err reason).1 (HandleErrorMessage w vg err reason).2.1 := by
  unfold HandleErrorMessage
  cases err with
  | none => exact h
  | some e =>
    simp only
    split
    · exact h
    · have h1 := UpdateVolumeGroupStatusError_stable hJ hErr w vg (GetMessageFromError e) h
      generalize UpdateVolumeGroupStatusError w vg (GetMessageFromError e) = r at h1 ⊢
      obtain ⟨w1, a1, e1⟩ := r
      cases e1 with
      | some u => exact h1
      | none => exact hEv w1 a1 _ h1

theorem AddFinalizerToVG_stable {J : World → VolumeGroup → Prop} (hJ : Stable J)
    (w : World) (vg : VolumeGroup) (h : J w vg) :
    J (AddFinalizerToVG w vg).1 (AddFinalizerToVG w vg).2.1 := by
  unfold AddFinalizerToVG
  split
  · have h1 := updateFinalizer_stable hJ w (vg.Finalizers ++ [VolumeGroupFinalizer])
      { vg with Finalizers := vg.Finalizers ++ [VolumeGroupFinalizer] }
      (hJ.setFinalizers w vg _ h)
    generalize updateFinalizer w (vg.Finalizers ++ [VolumeGroupFinalizer])
      { vg with Finalizers := vg.Finalizers ++ [VolumeGroupFinalizer] } = r at h1 ⊢
    obtain ⟨w1, a1, e1⟩ := r
    cases e1 <;> exact h1
  · exact h

theorem RemoveFinalizerFromVG_stable {J : World → VolumeGroup → Prop} (hJ : Stable J)
    (w : World) (vg : VolumeGroup) (h : J w vg) :
    J (RemoveFinalizerFromVG w vg).1 (RemoveFinalizerFromVG w vg).2.1 := by
  unfold RemoveFinalizerFromVG
  split
  · have h1 := updateFinalizer_stable hJ w (remove vg.Finalizers VolumeGroupFinalizer)
      { vg with Finalizers := remove vg.Finalizers VolumeGroupFinalizer }
      (hJ.setFinalizers w vg _ h)
    generalize updateFinalizer w (remove vg.Finalizers VolumeGroupFinalizer)
      { vg with Finalizers := remove vg.Finalizers VolumeGroupFinalizer } = r at h1 ⊢
    obtain ⟨w1, a1, e1⟩ := r
    cases e1 <;> exact h1
  · exact h

/-! ## Theorems: operations that only read -/

theorem getStorageClass_readOnly (w : World) (scName : String) :
    ReadOnly w (getStorageClass w scName).1 := by
  unfold getStorageClass
  have hro := nextFault_readOnly w
  generalize nextFault w = r at hro ⊢
  obtain ⟨w1, e⟩ := r
  cases e with
  | some err => exact hro
  | none => simp only; split <;> exact hro

theorem IsPVCHasMatchingDriver_readOnly (w : World) (pvc : PersistentVolumeClaim)
    (driver : String) : ReadOnly w (IsPVCHasMatchingDriver w pvc driver).1 := by
  unfold IsPVCHasMatchingDriver getStorageClassProvisioner
  split
  · exact ReadOnly.same w
  · rename_i scName _
    have h1 := getStorageClass_readOnly w scName
    generalize getStorageClass w scName = r at h1 ⊢
    obtain ⟨w1, e⟩ := r
    cases e <;> exact h1

theorem getPVCList_readOnly (w : World) : ReadOnly w (getPVCList w).1 := by
  unfold getPVCList
  have hro := nextFault_readOnly w
  generalize nextFault w = r at hro ⊢
  obtain ⟨w1, e⟩ := r
  cases e <;> exact hro

theorem getProvisionedPVCList_readOnly (driver : String) (pvcs : List PersistentVolumeClaim) :
    ∀ (w : World) (acc : List PersistentVolumeClaim),
      ReadOnly w (getProvisionedPVCList driver w pvcs acc).1 := by
  induction pvcs with
  | nil => intro w acc; exact ReadOnly.same w
  | cons pvc rest ih =>
    intro w acc
    rw [getProvisionedPVCList]
    have h1 := IsPVCHasMatchingDriver_readOnly w pvc driver
    generalize IsPVCHasMatchingDriver w pvc driver = r at h1 ⊢
    obtain ⟨w1, b, e⟩ := r
    cases e with
    | some err => exact h1
    | none => simp only; split <;> exact h1.andThen (ih w1 _)

theorem GetPVCList_readOnly (w : World) (driver : String) :
    ReadOnly w (GetPVCList w driver).1 := by
  unfold GetPVCList getBoundPVCList
  have h1 := getPVCList_readOnly w
  generalize getPVCList w = r at h1 ⊢
  obtain ⟨w1, l, e⟩ := r
  cases e with
  | some err => exact h1
  | none => exact h1.andThen (getProvisionedPVCList_readOnly driver _ w1 [])

theorem GetVolumeGroupClass_readOnly (w : World) (name : String) :
    ReadOnly w (GetVolumeGroupClass w name).1 := by
  unfold GetVolumeGroupClass
  have hro := nextFault_readOnly w
  generalize nextFault w = r at hro ⊢
  obtain ⟨w1, e⟩ := r
  cases e with
  | some err => exact hro
  | none => simp only; split <;> exact hro

theorem GetSecretDataFromClass_readOnly (w : World) (vgClass : VolumeGroupClass) :
    ReadOnly w (GetSecretDataFromClass w vgClass).1 := by
  unfold GetSecretDataFromClass
  simp only
  split
  · exact ReadOnly.same w
  · have hro := nextFault_readOnly w
    generalize nextFault w = r at hro ⊢
    obtain ⟨w1, e⟩ := r
    cases e with
    | some err => exact hro
    | none => simp only; split <;> exact hro

theorem GetVGList_readOnly (w : World) (driver : String) : ReadOnly w (GetVGList w driver).1 :=
  (GetVGList_eq_driverFilteredVGs w driver).1

theorem isFinalizerShouldBeREmovedFromPVC_readOnly (w : World) (driver : String)
    (pvc : PersistentVolumeClaim) :
    ReadOnly w (isFinalizerShouldBeREmovedFromPVC w driver pvc).1 := by
  unfold isFinalizerShouldBeREmovedFromPVC
  have h1 := GetVGList_readOnly w driver
  generalize GetVGList w driver = r at h1 ⊢
  obtain ⟨w1, l, e⟩ := r
  cases e <;> exact h1

theorem vg_isPVCCanBeAddedToVG_readOnly (r : VolumeGroupReconciler) (w : World)
    (pvc : PersistentVolumeClaim) : ReadOnly w (r.isPVCCanBeAddedToVG w pvc).1 := by
  unfold VolumeGroupReconciler.isPVCCanBeAddedToVG
  split
  · exact ReadOnly.same w
  · have h1 := GetVGList_readOnly w r.DriverConfig.DriverName
    generalize GetVGList w r.DriverConfig.DriverName = x at h1 ⊢
    obtain ⟨w1, l, e⟩ := x
    cases e <;> exact h1

theorem isPVCShouldBeAddedToVg_readOnly (r : VolumeGroupReconciler) (w : World)
    (vg : VolumeGroup) (pvc : PersistentVolumeClaim) :
    ReadOnly w (r.isPVCShouldBeAddedToVg w vg pvc).1 := by
  unfold VolumeGroupReconciler.isPVCShouldBeAddedToVg
  split
  · exact ReadOnly.same w
  · generalize IsPVCMatchesVG pvc vg = m
    obtain ⟨b, e⟩ := m
    cases e with
    | some err => exact ReadOnly.same w
    | none =>
      simp only
      split
      · exact ReadOnly.same w
      · have h1 := vg_isPVCCanBeAddedToVG_readOnly r w pvc
        generalize r.isPVCCanBeAddedToVG w pvc = x at h1 ⊢
        obtain ⟨w1, e⟩ := x
        cases e <;> exact h1

theorem addMatchingVolumesToVGLoop_readOnly (r : VolumeGroupReconciler) (vg : VolumeGroup)
    (pvcs : List PersistentVolumeClaim) :
    ∀ (w : World) (acc : List PersistentVolumeClaim),
      ReadOnly w (addMatchingVolumesToVGLoop r vg w pvcs acc).1 := by
  induction pvcs with
  | nil => intro w acc; exact ReadOnly.same w
  | cons pvc rest ih =>
    intro w acc
    rw [addMatchingVolumesToVGLoop]
    have h1 := isPVCShouldBeAddedToVg_readOnly r w vg pvc
    generalize r.isPVCShouldBeAddedToVg w vg pvc = x at h1 ⊢
    obtain ⟨w1, b, e⟩ := x
    cases e with
    | some err => exact h1
    | none => simp only; split <;> exact h1.andThen (ih w1 _)

theorem removeVolumesFromVGLoop_readOnly (r : VolumeGroupReconciler) (vg : VolumeGroup)
    (pvcs : List PersistentVolumeClaim) :
    ∀ (w : World) (acc : List PersistentVolumeClaim),
      ReadOnly w (removeVolumesFromVGLoop r vg w pvcs acc).1 := by
  induction pvcs with
  | nil => intro w acc; exact ReadOnly.same w
  | cons pvc rest ih =>
    intro w acc
    rw [removeVolumesFromVGLoop]
    unfold GetPersistentVolumeClaim
    have h1 := @clientGet_readOnly PersistentVolumeClaim _ w pvc.Namespace pvc.Name
    generalize (clientGet w pvc.Namespace pvc.Name : World × Except Err PersistentVolumeClaim)
      = x at h1 ⊢
    obtain ⟨w1, e⟩ := x
    cases e with
    | error err => exact h1
    | ok p =>
      simp only
      generalize r.isPVCShouldBeRemovedFromVg vg p = m
      obtain ⟨b, e⟩ := m
      cases e with
      | some err => exact h1
      | none => simp only; split <;> exact h1.andThen (ih w1 _)

/-! ## Theorems: the footprint of the writers -/

theorem Within.toAll {S : Footprint} {p : RPCRecord → Prop} {w w' : World}
    (h : Within S p w w') : Within allStores p w w' :=
  ⟨h.volumes, h.storageClasses, h.classes, h.secrets, fun x => (by simp [allStores] at x),
    fun x => (by simp [allStores] at x), fun x => (by simp [allStores] at x),
    fun x => (by simp [allStores] at x), h.rpcs⟩

theorem HandlePVCErrorMessage_within (S : Footprint) (p : RPCRecord → Prop)
    (he : S.events = true) (w : World) (pvc : PersistentVolumeClaim) (err : Option Err)
    (reason : String) : Within S p w (HandlePVCErrorMessage w pvc err reason).1 := by
  unfold HandlePVCErrorMessage
  cases err with
  | none => exact Within.noChange S p w
  | some e =>
    simp only
    split
    · exact Within.noChange S p w
    · exact recordEvent_within S p he w _

theorem HandleSuccessMessage_within (S : Footprint) (p : RPCRecord → Prop)
    (he : S.events = true) (w : World) (vg : VolumeGroup) (m r : String) :
    Within S p w (HandleSuccessMessage w vg m r).1 :=
  recordEvent_within S p he w _

theorem updateVolumeGroupStatusPVCList_within (S : Footprint) (p : RPCRecord → Prop)
    (hg : S.groups = true) (w : World) (vg : VolumeGroup) (l : List PersistentVolumeClaim) :
    Within S p w (updateVolumeGroupStatusPVCList w vg l).1 := by
  unfold updateVolumeGroupStatusPVCList
  have key := statusRetry_stable (Within.stable_vg S p hg w)
    (fun a => { a with Status := { a.Status with PVCList := l } })
    (fun _ _ ha => ha) w vg (Within.noChange S p w)
  dsimp only at key
  generalize RetryOnConflict (fun (s : World × VolumeGroup) =>
      match vgRetryOnConflictFunc s.1
          { s.2 with Status := { s.2.Status with PVCList := l } } with
      | (w, vg, err) => ((w, vg), err)) DefaultRetry (w, vg) = r at key ⊢
  obtain ⟨⟨w', a'⟩, e⟩ := r
  exact key

theorem HandleErrorMessage_within (S : Footprint) (p : RPCRecord → Prop)
    (hg : S.groups = true) (he : S.events = true) (w : World) (vg : VolumeGroup)
    (err : Option Err) (reason : String) :
    Within S p w (HandleErrorMessage w vg err reason).1 :=
  HandleErrorMessage_stable (Within.stable_vg S p hg w) (fun _ _ _ h => h)
    (fun w1 _ ev h => h.next (recordEvent_within S p he w1 ev)) w vg err reason
    (Within.noChange S p w)

theorem UpdateVolumeGroupStatusError_within (S : Footprint) (p : RPCRecord → Prop)
    (hg : S.groups = true) (w : World) (vg : VolumeGroup) (m : String) :
    Within S p w (UpdateVolumeGroupStatusError w vg m).1 :=
  UpdateVolumeGroupStatusError_stable (Within.stable_vg S p hg w) (fun _ _ _ h => h) w vg m
    (Within.noChange S p w)

theorem AddPVCToVG_within (S : Footprint) (p : RPCRecord → Prop) (hg : S.groups = true)
    (rm : RemoveByIndex) (w : World) (pvc : PersistentVolumeClaim) (vg : VolumeGroup) :
    Within S p w (AddPVCToVG rm w pvc vg).1 := by
  unfold AddPVCToVG
  have h1 := updateVolumeGroupStatusPVCList_within S p hg w
    { vg with Status := { vg.Status with PVCList := appendPVC vg.Status.PVCList pvc } }
    (appendPVC vg.Status.PVCList pvc)
  generalize updateVolumeGroupStatusPVCList w
    { vg with Status := { vg.Status with PVCList := appendPVC vg.Status.PVCList pvc } }
    (appendPVC vg.Status.PVCList pvc) = r at h1 ⊢
  obtain ⟨w1, a, e⟩ := r
  cases e <;> exact h1

theorem RemovePVCFromVG_within (S : Footprint) (p : RPCRecord → Prop) (hg : S.groups = true)
    (rm : RemoveByIndex) (w : World) (pvc : PersistentVolumeClaim) (vg : VolumeGroup) :
    Within S p w (RemovePVCFromVG rm w pvc vg).1 := by
  unfold RemovePVCFromVG
  have h1 := updateVolumeGroupStatusPVCList_within S p hg w
    { vg with Status := { vg.Status with
        PVCList := removeFromPVCList rm pvc vg.Status.PVCList } }
    (removeFromPVCList rm pvc vg.Status.PVCList)
  generalize updateVolumeGroupStatusPVCList w
    { vg with Status := { vg.Status with
        PVCList := removeFromPVCList rm pvc vg.Status.PVCList } }
    (removeFromPVCList rm pvc vg.Status.PVCList) = r at h1 ⊢
  obtain ⟨w1, a, e⟩ := r
  cases e <;> exact h1

theorem AddFinalizerToVG_within (S : Footprint) (p : RPCRecord → Prop) (hg : S.groups = true)
    (w : World) (vg : VolumeGroup) : Within S p w (AddFinalizerToVG w vg).1 :=
  AddFinalizerToVG_stable (Within.stable_vg S p hg w) w vg (Within.noChange S p w)

theorem RemoveFinalizerFromVG_within (S : Footprint) (p : RPCRecord → Prop)
    (hg : S.groups = true) (w : World) (vg : VolumeGroup) :
    Within S p w (RemoveFinalizerFromVG w vg).1 :=
  RemoveFinalizerFromVG_stable (Within.stable_vg S p hg w) w vg (Within.noChange S p w)

theorem UpdateVolumeGroupSourceContent_within (S : Footprint) (p : RPCRecord → Prop)
    (hg : S.groups = true) (w : World) (inst : VolumeGroup) (vgcName : String) :
    Within S p w (UpdateVolumeGroupSourceContent w inst vgcName).1 := by
  unfold UpdateVolumeGroupSourceContent
  have h1 := UpdateObject_stable (Within.stable_vg S p hg w) w
    { inst with Spec := { inst.Spec with
        Source := { inst.Spec.Source with VolumeGroupContentName := some vgcName } } }
    (Within.noChange S p w)
  generalize UpdateObject w
    { inst with Spec := { inst.Spec with
        Source := { inst.Spec.Source with VolumeGroupContentName := some vgcName } } }
    = r at h1 ⊢
  obtain ⟨w1, e⟩ := r
  cases e <;> exact h1

theorem UpdateVolumeGroupStatus_within (S : Footprint) (p : RPCRecord → Prop)
    (hg : S.groups = true) (w : World) (vg : VolumeGroup) (vgc : VolumeGroupContent)
    (t : Option Nat) (ready : Bool) :
    Within S p w (UpdateVolumeGroupStatus w vg vgc t ready).1 := by
  unfold UpdateVolumeGroupStatus
  have key := statusRetry_stable (Within.stable_vg S p hg w)
    (fun a => { a with Status := { a.Status with
        BoundVolumeGroupContentName := some vgc.Name,
        GroupCreationTime := t, Ready := some ready, Error := none } })
    (fun _ _ ha => ha) w vg (Within.noChange S p w)
  dsimp only at key
  generalize RetryOnConflict (fun (s : World × VolumeGroup) =>
      match vgRetryOnConflictFunc s.1
          { s.2 with Status := { s.2.Status with
              BoundVolumeGroupContentName := some vgc.Name,
              GroupCreationTime := t, Ready := some ready, Error := none } } with
      | (w, vg, err) => ((w, vg), err)) DefaultRetry (w, vg) = r at key ⊢
  obtain ⟨⟨w', a'⟩, e⟩ := r
  cases e with
  | some err => exact key
  | none =>
    simp only at key ⊢
    have h2 := updateVolumeGroupStatus_stable (Within.stable_vg S p hg w) w' a' key
    generalize updateVolumeGroupStatus w' a' = x at h2 ⊢
    obtain ⟨w2, e2⟩ := x
    exact h2

/-! ### Contents -/

theorem UpdateObject_vgc_within (S : Footprint) (p : RPCRecord → Prop)
    (ht : S.contents = true) (w : World) (vgc : VolumeGroupContent) :
    Within S p w (UpdateObject w vgc).1 :=
  UpdateObject_stable (Within.stable_vgc S p ht w) w vgc (Within.noChange S p w)

theorem AddMatchingPVToMatchingVGC_within (S : Footprint) (p : RPCRecord → Prop)
    (ht : S.contents = true) (w : World) (pvc : PersistentVolumeClaim) (vg : VolumeGroup) :
    Within S p w (AddMatchingPVToMatchingVGC w pvc vg).1 := by
  unfold AddMatchingPVToMatchingVGC
  have h1 := (GetPVFromPVC_readOnly w pvc).within S p
  generalize GetPVFromPVC w pvc = r at h1 ⊢
  obtain ⟨w1, x⟩ := r
  cases x with
  | error err => exact h1
  | ok o =>
    cases o with
    | none => exact h1
    | some pv =>
      simp only
      split
      · exact h1
      · rename_i vgcName _
        unfold GetVolumeGroupContent
        have h2 := (@clientGet_readOnly VolumeGroupContent _ w1 "" vgcName).within S p
        generalize (clientGet w1 "" vgcName : World × Except Err VolumeGroupContent)
          = r at h2 ⊢
        obtain ⟨w2, x⟩ := r
        cases x with
        | error err => exact h1.next h2
        | ok vgc =>
          simp only
          split
          · exact h1.next h2
          · exact (h1.next h2).next (UpdateObject_vgc_within S p ht w2 _)

theorem RemovePVFromVGC_within (S : Footprint) (p : RPCRecord → Prop)
    (ht : S.contents = true) (w : World) (pv : PersistentVolume) (vgc : VolumeGroupContent) :
    Within S p w (RemovePVFromVGC w pv vgc).1 :=
  UpdateObject_vgc_within S p ht w _

theorem AddFinalizerToVGC_within (S : Footprint) (p : RPCRecord → Prop)
    (ht : S.contents = true) (w : World) (vgc : VolumeGroupContent) :
    Within S p w (AddFinalizerToVGC w vgc).1 := by
  unfold AddFinalizerToVGC
  split
  · have h1 := updateFinalizer_stable (Within.stable_vgc S p ht w) w
      (vgc.Finalizers ++ [volumeGroupContentFinalizer])
      { vgc with Finalizers := vgc.Finalizers ++ [volumeGroupContentFinalizer] }
      (Within.noChange S p w)
    generalize updateFinalizer w (vgc.Finalizers ++ [volumeGroupContentFinalizer])
      { vgc with Finalizers := vgc.Finalizers ++ [volumeGroupContentFinalizer] } = r at h1 ⊢
    obtain ⟨w1, a1, e1⟩ := r
    cases e1 <;> exact h1
  · exact Within.noChange S p w

theorem RemoveFinalizerFromVGC_within (S : Footprint) (p : RPCRecord → Prop)
    (ht : S.contents = true) (w : World) (vgc : VolumeGroupContent) :
    Within S p w (RemoveFinalizerFromVGC w vgc).1 := by
  unfold RemoveFinalizerFromVGC
  split
  · have h1 := updateFinalizer_stable (Within.stable_vgc S p ht w) w
      (remove vgc.Finalizers volumeGroupContentFinalizer)
      { vgc with Finalizers := remove vgc.Finalizers volumeGroupContentFinalizer }
      (Within.noChange S p w)
    generalize updateFinalizer w (remove vgc.Finalizers volumeGroupContentFinalizer)
      { vgc with Finalizers := remove vgc.Finalizers volumeGroupContentFinalizer } = r at h1 ⊢
    obtain ⟨w1, a1, e1⟩ := r
    cases e1 <;> exact h1
  · exact Within.noChange S p w

theorem vgcRetryOnConflictFunc_within (S : Footprint) (p : RPCRecord → Prop)
    (ht : S.contents = true) (w : World) (vgc : VolumeGroupContent) :
    Within S p w (vgcRetryOnConflictFunc w vgc).1 := by
  unfold vgcRetryOnConflictFunc
  have h1 := UpdateObjectStatus_stable (Within.stable_vgc S p ht w) w vgc (Within.noChange S p w)
  generalize UpdateObjectStatus w vgc = r at h1 ⊢
  obtain ⟨w1, e⟩ := r
  simp only at h1 ⊢
  split
  · have h2 := (getNamespacedObject_readOnly w1 vgc).within S p
    generalize getNamespacedObject w1 vgc = r at h2 ⊢
    obtain ⟨w2, b, e2⟩ := r
    cases e2 <;> exact h1.next h2
  · exact h1

/-- The retry loop of a content status write whose body first edits the in-memory content. -/
theorem vgcStatusRetry_within (S : Footprint) (p : RPCRecord → Prop) (ht : S.contents = true)
    (edit : VolumeGroupContent → VolumeGroupContent) (w : World) (vgc : VolumeGroupContent) :
    Within S p w (RetryOnConflict (fun (s : World × VolumeGroupContent) =>
        match vgcRetryOnConflictFunc s.1 (edit s.2) with
        | (w, vgc, err) => ((w, vgc), err)) DefaultRetry (w, vgc)).1.1 := by
  exact RetryOnConflict_invariant
    (fun (s : World × VolumeGroupContent) =>
      match vgcRetryOnConflictFunc s.1 (edit s.2) with
      | (w, vgc, err) => ((w, vgc), err))
    (fun s => Within S p w s.1)
    (by
      rintro ⟨w0, a0⟩ h0
      have := vgcRetryOnConflictFunc_within S p ht w0 (edit a0)
      dsimp only at h0 ⊢
      generalize vgcRetryOnConflictFunc w0 (edit a0) = r at this ⊢
      obtain ⟨w1, a1, e⟩ := r
      exact h0.next this)
    DefaultRetry (w, vgc) (Within.noChange S p w)

theorem UpdateVolumeGroupContentStatus_within (S : Footprint) (p : RPCRecord → Prop)
    (ht : S.contents = true) (w : World) (vgc : VolumeGroupContent) (t : Option Nat)
    (ready : Bool) : Within S p w (UpdateVolumeGroupContentStatus w vgc t ready).1 := by
  unfold UpdateVolumeGroupContentStatus
  have key := vgcStatusRetry_within S p ht
    (fun a => { a with GroupCreationTime := t, Ready := some ready }) w vgc
  dsimp only at key
  generalize RetryOnConflict (fun (s : World × VolumeGroupContent) =>
      match vgcRetryOnConflictFunc s.1
          { s.2 with GroupCreationTime := t, Ready := some ready } with
      | (w, vgc, err) => ((w, vgc), err)) DefaultRetry (w, vgc) = r at key ⊢
  obtain ⟨⟨w', a'⟩, e⟩ := r
  exact key

theorem UpdateVolumeGroupContentStatusError_within (S : Footprint) (p : RPCRecord → Prop)
    (ht : S.contents = true) (w : World) (vgc : VolumeGroupContent) (m : String) :
    Within S p w (UpdateVolumeGroupContentStatusError w vgc m).1 := by
  unfold UpdateVolumeGroupContentStatusError
  have key := vgcStatusRetry_within S p ht (fun a => { a with Error := some m }) w vgc
  dsimp only at key
  generalize RetryOnConflict (fun (s : World × VolumeGroupContent) =>
      match vgcRetryOnConflictFunc s.1 { s.2 with Error := some m } with
      | (w, vgc, err) => ((w, vgc), err)) DefaultRetry (w, vgc) = r at key ⊢
  obtain ⟨⟨w', a'⟩, e⟩ := r
  exact key

theorem HandleVGCErrorMessage_within (S : Footprint) (p : RPCRecord → Prop)
    (ht : S.contents = true) (he : S.events = true) (w : World) (vgc : VolumeGroupContent)
    (err : Option Err) (reason : String) :
    Within S p w (HandleVGCErrorMessage w vgc err reason).1 := by
  unfold HandleVGCErrorMessage
  cases err with
  | none => exact Within.noChange S p w
  | some e =>
    simp only
    split
    · exact Within.noChange S p w
    · have h1 := UpdateVolumeGroupContentStatusError_within S p ht w vgc (GetMessageFromError e)
      generalize UpdateVolumeGroupContentStatusError w vgc (GetMessageFromError e) = r at h1 ⊢
      obtain ⟨w1, a1, e1⟩ := r
      cases e1 with
      | some u => exact h1
      | none => exact h1.next (recordEvent_within S p he w1 _)

theorem UpdateStaticVGC_within (S : Footprint) (p : RPCRecord → Prop)
    (ht : S.contents = true) (w : World) (inst : VolumeGroup) (vgClass : VolumeGroupClass) :
    Within S p w (UpdateStaticVGC w inst vgClass).1 := by
  unfold UpdateStaticVGC
  split
  · exact Within.noChange S p w
  · rename_i vgcName _
    unfold GetVolumeGroupContent
    have h2 := (@clientGet_readOnly VolumeGroupContent _ w "" vgcName).within S p
    generalize (clientGet w "" vgcName : World × Except Err VolumeGroupContent) = r at h2 ⊢
    obtain ⟨w2, x⟩ := r
    cases x with
    | error err => exact h2
    | ok vgc => exact h2.next (UpdateObject_vgc_within S p ht w2 _)

theorem CreateVolumeGroupContent_within (S : Footprint) (p : RPCRecord → Prop)
    (ht : S.contents = true) (w : World) (vgc : VolumeGroupContent) :
    Within S p w (CreateVolumeGroupContent w vgc).1 := by
  unfold CreateVolumeGroupContent
  have h1 := (nextFault_readOnly w).within S p
  generalize nextFault w = r at h1 ⊢
  obtain ⟨w1, e⟩ := r
  cases e with
  | some err => exact h1
  | none =>
    simp only
    split
    · exact h1
    · exact h1.next (Within.setContents S p ht w1 _)

theorem clientDeleteVolumeGroupContent_within (S : Footprint) (p : RPCRecord → Prop)
    (ht : S.contents = true) (w : World) (vgc : VolumeGroupContent) :
    Within S p w (clientDeleteVolumeGroupContent w vgc).1 := by
  unfold clientDeleteVolumeGroupContent
  have h1 := (nextFault_readOnly w).within S p
  generalize nextFault w = r at h1 ⊢
  obtain ⟨w1, e⟩ := r
  cases e with
  | some err => exact h1
  | none =>
    simp only
    split
    · exact h1.next (Within.setContents S p ht w1 _)
    · exact h1

/-! ### Claims -/

theorem AddFinalizerToPVC_within (S : Footprint) (p : RPCRecord → Prop)
    (hc : S.claims = true) (w : World) (pvc : PersistentVolumeClaim) :
    Within S p w (AddFinalizerToPVC w pvc).1 := by
  unfold AddFinalizerToPVC
  split
  · have h1 := updateFinalizer_stable (Within.stable_pvc S p hc w) w
      (pvc.Finalizers ++ [pvcVolumeGroupFinalizer])
      { pvc with Finalizers := pvc.Finalizers ++ [pvcVolumeGroupFinalizer] }
      (Within.noChange S p w)
    generalize updateFinalizer w (pvc.Finalizers ++ [pvcVolumeGroupFinalizer])
      { pvc with Finalizers := pvc.Finalizers ++ [pvcVolumeGroupFinalizer] } = r at h1 ⊢
    obtain ⟨w1, a1, e1⟩ := r
    cases e1 <;> exact h1
  · exact Within.noChange S p w

theorem RemoveFinalizerFromPVC_within (S : Footprint) (p : RPCRecord → Prop)
    (hc : S.claims = true) (w : World) (driver : String) (pvc : PersistentVolumeClaim) :
    Within S p w (RemoveFinalizerFromPVC w driver pvc).1 := by
  unfold RemoveFinalizerFromPVC
  have h1 := (isFinalizerShouldBeREmovedFromPVC_readOnly w driver pvc).within S p
  generalize isFinalizerShouldBeREmovedFromPVC w driver pvc = r at h1 ⊢
  obtain ⟨w1, b, e⟩ := r
  cases e with
  | some err => exact h1
  | none =>
    simp only
    split
    · have h2 := (getNamespacedObject_readOnly w1 pvc).within S p
      generalize getNamespacedObject w1 pvc = r at h2 ⊢
      obtain ⟨w2, q, e2⟩ := r
      cases e2 with
      | some err => exact h1.next h2
      | none =>
        simp only
        have h3 := updateFinalizer_stable (Within.stable_pvc S p hc w2) w2
          (remove q.Finalizers pvcVolumeGroupFinalizer)
          { q with Finalizers := remove q.Finalizers pvcVolumeGroupFinalizer }
          (Within.noChange S p w2)
        generalize updateFinalizer w2 (remove q.Finalizers pvcVolumeGroupFinalizer)
          { q with Finalizers := remove q.Finalizers pvcVolumeGroupFinalizer } = r at h3 ⊢
        obtain ⟨w3, a3, e3⟩ := r
        cases e3 <;> exact (h1.next h2).next h3
    · exact h1

/-! ## Theorems: the footprint of the driver calls and of the membership steps -/

theorem ReadOnly.sameRPCs {w w' : World} (h : ReadOnly w w') : w'.rpcs = w.rpcs := by
  obtain ⟨f, rfl⟩ := h; rfl

theorem ModifyVolumeGroup_rpcs (w : World) (vg : VolumeGroup) :
    (ModifyVolumeGroup w vg).1.rpcs = w.rpcs ∨
    ∃ rec, isModify rec ∧ (ModifyVolumeGroup w vg).1.rpcs = w.rpcs ++ [rec] := by
  unfold ModifyVolumeGroup
  have h1 := (getVgId_readOnly w vg).sameRPCs
  generalize getVgId w vg = r at h1 ⊢
  obtain ⟨w1, id, e⟩ := r
  cases e with
  | some err => exact Or.inl h1
  | none =>
    simp only at h1 ⊢
    have h2 := (getPVCListVolumeIds_readOnly vg.Status.PVCList w1 []).sameRPCs
    generalize getPVCListVolumeIds w1 vg.Status.PVCList [] = r at h2 ⊢
    obtain ⟨w2, ids, e2⟩ := r
    cases e2 with
    | some err => exact Or.inl (h2.trans h1)
    | none =>
      simp only at h2 ⊢
      have h3 := (nextFault_readOnly w2).sameRPCs
      generalize nextFault w2 = r at h3 ⊢
      obtain ⟨w3, e3⟩ := r
      simp only at h3 ⊢
      exact Or.inr ⟨_, ⟨id, ids, rfl⟩, by rw [h3, h2, h1]⟩

theorem ModifyVolumeGroup_within (S : Footprint) (p : RPCRecord → Prop)
    (hp : ∀ rec, isModify rec → p rec) (w : World) (vg : VolumeGroup) :
    Within S p w (ModifyVolumeGroup w vg).1 := by
  have hs := ModifyVolumeGroup_sameGroups w vg
  have hr := ModifyVolumeGroup_rpcs w vg
  unfold ModifyVolumeGroup at hs hr ⊢
  have h1 := getVgId_readOnly w vg
  generalize getVgId w vg = r at h1 hs hr ⊢
  obtain ⟨w1, id, e⟩ := r
  cases e with
  | some err => exact h1.within S p
  | none =>
    simp only at h1 hs hr ⊢
    have h2 := getPVCListVolumeIds_readOnly vg.Status.PVCList w1 []
    generalize getPVCListVolumeIds w1 vg.Status.PVCList [] = r at h2 hs hr ⊢
    obtain ⟨w2, ids, e2⟩ := r
    cases e2 with
    | some err => exact (h1.andThen h2).within S p
    | none =>
      simp only at h2 hs hr ⊢
      have h3 := nextFault_readOnly w2
      generalize nextFault w2 = r at h3 hs hr ⊢
      obtain ⟨w3, e3⟩ := r
      simp only at h3 hs hr ⊢
      exact ((h1.andThen (h2.andThen h3)).within S p).next
        (Within.appendRPC S p w3 _ (hp _ ⟨id, ids, rfl⟩))

theorem AddVolumesToVolumeGroup_within (S : Footprint) (p : RPCRecord → Prop)
    (hp : ∀ rec, isModify rec → p rec) (rm : RemoveByIndex) (w : World)
    (pvcs : List PersistentVolumeClaim) (vg : VolumeGroup) :
    Within S p w (AddVolumesToVolumeGroup rm w pvcs vg).1 := by
  unfold AddVolumesToVolumeGroup
  have h := ModifyVolumeGroup_within S p hp w { vg with Status := { vg.Status with
    PVCList := appendMultiplePVCs vg.Status.PVCList pvcs } }
  generalize ModifyVolumeGroup w { vg with Status := { vg.Status with
    PVCList := appendMultiplePVCs vg.Status.PVCList pvcs } } = r at h ⊢
  obtain ⟨w1, e⟩ := r
  cases e <;> exact h

theorem AddVolumesToVolumeGroup_rpcs (rm : RemoveByIndex) (w : World)
    (pvcs : List PersistentVolumeClaim) (vg : VolumeGroup) :
    (AddVolumesToVolumeGroup rm w pvcs vg).1.rpcs = w.rpcs ∨
    ∃ rec, isModify rec ∧ (AddVolumesToVolumeGroup rm w pvcs vg).1.rpcs = w.rpcs ++ [rec] := by
  unfold AddVolumesToVolumeGroup
  have h := ModifyVolumeGroup_rpcs w { vg with Status := { vg.Status with
    PVCList := appendMultiplePVCs vg.Status.PVCList pvcs } }
  generalize ModifyVolumeGroup w { vg with Status := { vg.Status with
    PVCList := appendMultiplePVCs vg.Status.PVCList pvcs } } = r at h ⊢
  obtain ⟨w1, e⟩ := r
  cases e <;> exact h

theorem RemoveVolumeFromVolumeGroup_within (S : Footprint) (p : RPCRecord → Prop)
    (hp : ∀ rec, isModify rec → p rec) (rm : RemoveByIndex) (w : World)
    (pvcs : List PersistentVolumeClaim) (vg : VolumeGroup) :
    Within S p w (RemoveVolumeFromVolumeGroup rm w pvcs vg).1 := by
  unfold RemoveVolumeFromVolumeGroup
  have h := ModifyVolumeGroup_within S p hp w { vg with Status := { vg.Status with
    PVCList := removeMultiplePVCs rm vg.Status.PVCList pvcs } }
  generalize ModifyVolumeGroup w { vg with Status := { vg.Status with
    PVCList := removeMultiplePVCs rm vg.Status.PVCList pvcs } } = r at h ⊢
  obtain ⟨w1, e⟩ := r
  cases e <;> exact h

theorem AddVolumeToPvcListAndPvList_within (p : RPCRecord → Prop) (rm : RemoveByIndex)
    (w : World) (pvc : PersistentVolumeClaim) (vg : VolumeGroup) :
    Within allStores p w (AddVolumeToPvcListAndPvList rm w pvc vg).1 := by
  unfold AddVolumeToPvcListAndPvList
  have h1 := AddPVCToVG_within allStores p rfl rm w pvc vg
  generalize AddPVCToVG rm w pvc vg = r at h1 ⊢
  obtain ⟨w1, g1, e⟩ := r
  cases e with
  | some err => exact h1
  | none =>
    simp only at h1 ⊢
    have h2 := AddMatchingPVToMatchingVGC_within allStores p rfl w1 pvc g1
    generalize AddMatchingPVToMatchingVGC w1 pvc g1 = r at h2 ⊢
    obtain ⟨w2, e2⟩ := r
    cases e2 with
    | some err => exact h1.next h2
    | none =>
      simp only at h2 ⊢
      have h3 := AddFinalizerToPVC_within allStores p rfl w2 pvc
      generalize AddFinalizerToPVC w2 pvc = r at h3 ⊢
      obtain ⟨w3, p3, e3⟩ := r
      cases e3 with
      | some err => exact h1.next (h2.next h3)
      | none =>
        exact h1.next (h2.next (h3.next (HandleSuccessMessage_within allStores p rfl _ _ _ _)))

theorem RemoveVolumeFromPvcListAndPvList_within (p : RPCRecord → Prop) (rm : RemoveByIndex)
    (w : World) (driver : String) (pvc : PersistentVolumeClaim) (vg : VolumeGroup) :
    Within allStores p w (RemoveVolumeFromPvcListAndPvList rm w driver pvc vg).1 := by
  unfold RemoveVolumeFromPvcListAndPvList
  have h1 := RemovePVCFromVG_within allStores p rfl rm w pvc vg
  generalize RemovePVCFromVG rm w pvc vg = r at h1 ⊢
  obtain ⟨w1, g1, e⟩ := r
  cases e with
  | some err => exact h1
  | none =>
    simp only at h1 ⊢
    have h2 := (GetPVFromPVC_readOnly w1 pvc).within allStores p
    generalize GetPVFromPVC w1 pvc = r at h2 ⊢
    obtain ⟨w2, x⟩ := r
    cases x with
    | error err => exact h1.next h2
    | ok pv =>
      simp only at h2 ⊢
      split
      · exact h1.next h2
      · rename_i vgcName _
        unfold GetVolumeGroupContent
        have h3 := (@clientGet_readOnly VolumeGroupContent _ w2 "" vgcName).within allStores p
        generalize (clientGet w2 "" vgcName : World × Except Err VolumeGroupContent)
          = r at h3 ⊢
        obtain ⟨w3, x⟩ := r
        cases x with
        | error err => exact h1.next (h2.next h3)
        | ok vgc =>
          simp only at h3 ⊢
          cases pv with
          | none =>
            simp only
            have h5 := RemoveFinalizerFromPVC_within allStores p rfl w3 driver pvc
            generalize RemoveFinalizerFromPVC w3 driver pvc = r at h5 ⊢
            obtain ⟨w5, p5, e5⟩ := r
            cases e5 with
            | some err => exact h1.next (h2.next (h3.next h5))
            | none =>
              exact h1.next (h2.next (h3.next (h5.next
                (HandleSuccessMessage_within allStores p rfl _ _ _ _))))
          | some v =>
            simp only
            have h4 := RemovePVFromVGC_within allStores p rfl w3 v vgc
            generalize RemovePVFromVGC w3 v vgc = r at h4 ⊢
            obtain ⟨w4, e4⟩ := r
            cases e4 with
            | some err => exact h1.next (h2.next (h3.next h4))
            | none =>
              simp only at h4 ⊢
              have h5 := RemoveFinalizerFromPVC_within allStores p rfl w4 driver pvc
              generalize RemoveFinalizerFromPVC w4 driver pvc = r at h5 ⊢
              obtain ⟨w5, p5, e5⟩ := r
              cases e5 with
              | some err => exact h1.next (h2.next (h3.next (h4.next h5)))
              | none =>
                exact h1.next (h2.next (h3.next (h4.next (h5.next
                  (HandleSuccessMessage_within allStores p rfl _ _ _ _)))))

theorem addMatchedVolumes_within (p : RPCRecord → Prop) (hp : ∀ rec, isModify rec → p rec)
    (rm : RemoveByIndex) (r : VolumeGroupReconciler) (w : World)
    (pvcs : List PersistentVolumeClaim) (vg : VolumeGroup) :
    Within allStores p w (r.addMatchedVolumes rm w pvcs vg).1 := by
  unfold VolumeGroupReconciler.addMatchedVolumes
  have h1 := AddVolumesToVolumeGroup_within allStores p hp rm w pvcs vg
  generalize AddVolumesToVolumeGroup rm w pvcs vg = x at h1 ⊢
  obtain ⟨w1, g1, e⟩ := x
  cases e with
  | some err => exact h1
  | none =>
    simp only at h1 ⊢
    cases pvcs with
    | nil => exact h1
    | cons pvc rest =>
      rw [addMatchedVolumesLoop]
      have h2 := AddVolumeToPvcListAndPvList_within p rm w1 pvc g1
      generalize AddVolumeToPvcListAndPvList rm w1 pvc g1 = x at h2 ⊢
      obtain ⟨w2, p2, g2, e2⟩ := x
      exact h1.next h2

theorem removeUnMatchedVolumes_within (p : RPCRecord → Prop)
    (hp : ∀ rec, isModify rec → p rec) (rm : RemoveByIndex) (r : VolumeGroupReconciler)
    (w : World) (pvcs : List PersistentVolumeClaim) (vg : VolumeGroup) :
    Within allStores p w (r.removeUnMatchedVolumes rm w pvcs vg).1 := by
  unfold VolumeGroupReconciler.removeUnMatchedVolumes
  have h1 := RemoveVolumeFromVolumeGroup_within allStores p hp rm w pvcs vg
  generalize RemoveVolumeFromVolumeGroup rm w pvcs vg = x at h1 ⊢
  obtain ⟨w1, g1, e⟩ := x
  cases e with
  | some err => exact h1
  | none =>
    simp only at h1 ⊢
    cases pvcs with
    | nil => exact h1
    | cons pvc rest =>
      rw [removeUnMatchedVolumesLoop]
      have h2 := RemoveVolumeFromPvcListAndPvList_within p rm w1 r.DriverConfig.DriverName pvc g1
      generalize RemoveVolumeFromPvcListAndPvList rm w1 r.DriverConfig.DriverName pvc g1
        = x at h2 ⊢
      obtain ⟨w2, p2, e2⟩ := x
      exact h1.next h2

theorem removeVolumesFromVG_within (p : RPCRecord → Prop) (hp : ∀ rec, isModify rec → p rec)
    (rm : RemoveByIndex) (r : VolumeGroupReconciler) (w : World) (vg : VolumeGroup) :
    Within allStores p w (r.removeVolumesFromVG rm w vg).1 := by
  unfold VolumeGroupReconciler.removeVolumesFromVG
  split
  · exact Within.noChange _ _ _
  · have h1 := (removeVolumesFromVGLoop_readOnly r vg vg.Status.PVCList w []).within allStores p
    generalize removeVolumesFromVGLoop r vg w vg.Status.PVCList [] = x at h1 ⊢
    obtain ⟨w1, l, e⟩ := x
    cases e with
    | some err => exact h1
    | none => exact h1.next (removeUnMatchedVolumes_within p hp rm r w1 l vg)

theorem addMatchingVolumesToVG_within (p : RPCRecord → Prop)
    (hp : ∀ rec, isModify rec → p rec) (rm : RemoveByIndex) (r : VolumeGroupReconciler)
    (w : World) (vg : VolumeGroup) :
    Within allStores p w (r.addMatchingVolumesToVG rm w vg).1 := by
  unfold VolumeGroupReconciler.addMatchingVolumesToVG
  have h1 := (GetPVCList_readOnly w r.DriverConfig.DriverName).within allStores p
  generalize GetPVCList w r.DriverConfig.DriverName = x at h1 ⊢
  obtain ⟨w1, l, e⟩ := x
  cases e with
  | some err => exact h1
  | none =>
    simp only at h1 ⊢
    have h2 := (addMatchingVolumesToVGLoop_readOnly r vg l w1 []).within allStores p
    generalize addMatchingVolumesToVGLoop r vg w1 l [] = x at h2 ⊢
    obtain ⟨w2, l2, e2⟩ := x
    cases e2 with
    | some err => exact h1.next h2
    | none => exact h1.next (h2.next (addMatchedVolumes_within p hp rm r w2 l2 vg))

/-! ## Theorems: the PVC loop joins at most one group (C20) -/

theorem addToVolumeGroupObjectsLoop_rpcs (rm : RemoveByIndex) (pvc : PersistentVolumeClaim)
    (w : World) : ∀ vgs : List VolumeGroup,
      (addToVolumeGroupObjectsLoop rm pvc w vgs).1.rpcs = w.rpcs ∨
      ∃ rec, isModify rec ∧
        (addToVolumeGroupObjectsLoop rm pvc w vgs).1.rpcs = w.rpcs ++ [rec] := by
  intro vgs
  induction vgs with
  | nil => exact Or.inl rfl
  | cons vg rest ih =>
    by_cases hpart : IsPVCPartOfVG pvc vg.Status.PVCList = true
    · rw [addToVolumeGroupObjectsLoop_cons_part rm pvc w vg rest hpart]
      exact ih
    · simp only [Bool.not_eq_true] at hpart
      rw [addToVolumeGroupObjectsLoop_cons_not_part rm pvc w vg rest hpart]
      rcases hm : IsPVCMatchesVG pvc vg with ⟨b, e⟩
      cases e with
      | some err =>
        simp only
        have h1 := (HandleErrorMessage_within allStores noRPC rfl rfl w vg (some err)
          addingPVC).rpcs_eq
        generalize HandleErrorMessage w vg (some err) addingPVC = r at h1 ⊢
        obtain ⟨w1, g1, e1⟩ := r
        exact Or.inl h1
      | none =>
        simp only
        by_cases hb : b = true
        · simp only [hb, if_true]
          have a1 := AddVolumesToVolumeGroup_rpcs rm w [pvc] vg
          generalize AddVolumesToVolumeGroup rm w [pvc] vg = r at a1 ⊢
          obtain ⟨w1, vg1, e1⟩ := r
          simp only at a1
          have tail : ∀ w2 : World, w2.rpcs = w1.rpcs →
              (w2.rpcs = w.rpcs ∨ ∃ rec, isModify rec ∧ w2.rpcs = w.rpcs ++ [rec]) := by
            intro w2 h2
            rcases a1 with a1 | ⟨rec, hrec, a1⟩
            · exact Or.inl (h2.trans a1)
            · exact Or.inr ⟨rec, hrec, h2.trans a1⟩
          cases e1 with
          | some err =>
            simp only
            have h2 := (HandleErrorMessage_within allStores noRPC rfl rfl w1 vg1 (some err)
              addingPVC).rpcs_eq
            generalize HandleErrorMessage w1 vg1 (some err) addingPVC = r at h2 ⊢
            obtain ⟨w2, g2, e2⟩ := r
            exact tail w2 h2
          | none =>
            simp only
            have h2 := (AddVolumeToPvcListAndPvList_within noRPC rm w1 pvc vg1).rpcs_eq
            generalize AddVolumeToPvcListAndPvList rm w1 pvc vg1 = r at h2 ⊢
            obtain ⟨w2, p2, vg2, e2⟩ := r
            simp only at h2 ⊢
            have h3 := (HandleErrorMessage_within allStores noRPC rfl rfl w2 vg2 e2
              addingPVC).rpcs_eq
            generalize HandleErrorMessage w2 vg2 e2 addingPVC = r at h3 ⊢
            obtain ⟨w3, g3, e3⟩ := r
            exact tail w3 (h3.trans h2)
        · simp only [hb, Bool.false_eq_true, if_false]
          exact ih

theorem firstNewMatch_cons_skip (pvc : PersistentVolumeClaim) (vg : VolumeGroup)
    (rest : List VolumeGroup)
    (h : (!IsPVCPartOfVG pvc vg.Status.PVCList && (IsPVCMatchesVG pvc vg).1) = false) :
    firstNewMatch pvc (vg :: rest) = firstNewMatch pvc rest := by
  unfold firstNewMatch
  rw [List.find?_cons, h]

theorem firstNewMatch_cons_hit (pvc : PersistentVolumeClaim) (vg : VolumeGroup)
    (rest : List VolumeGroup)
    (h : (!IsPVCPartOfVG pvc vg.Status.PVCList && (IsPVCMatchesVG pvc vg).1) = true) :
    firstNewMatch pvc (vg :: rest) = some vg := by
  unfold firstNewMatch
  rw [List.find?_cons, h]

theorem addToVolumeGroupObjectsLoop_first (rm : RemoveByIndex) (pvc : PersistentVolumeClaim)
    (w : World) (hkeys : (w.VolumeGroups.map vgKey).Nodup) :
    ∀ vgs : List VolumeGroup, (∀ vg ∈ vgs, vg ∈ w.VolumeGroups) →
      (∃ k, Touches (fun l => IsPVCPartOfVG pvc l = false) k w
          (addToVolumeGroupObjectsLoop rm pvc w vgs).1) ∨
      (∃ vg, firstNewMatch pvc vgs = some vg ∧
        Touches (fun _ => True) (vgKey vg) w (addToVolumeGroupObjectsLoop rm pvc w vgs).1) := by
  intro vgs
  induction vgs with
  | nil => intro _; exact Or.inl ⟨("", ""), Touches.nothing _ _ _⟩
  | cons vg rest ih =>
    intro hmem
    have hrest : ∀ g ∈ rest, g ∈ w.VolumeGroups := fun g hg => hmem g (List.mem_cons_of_mem _ hg)
    have hvg : vg ∈ w.VolumeGroups := hmem vg (List.mem_cons_self _ _)
    by_cases hpart : IsPVCPartOfVG pvc vg.Status.PVCList = true
    · rw [addToVolumeGroupObjectsLoop_cons_part rm pvc w vg rest hpart,
        firstNewMatch_cons_skip pvc vg rest (by simp [hpart])]
      exact ih hrest
    · simp only [Bool.not_eq_true] at hpart
      rw [addToVolumeGroupObjectsLoop_cons_not_part rm pvc w vg rest hpart]
      rcases hm : IsPVCMatchesVG pvc vg with ⟨b, e⟩
      cases e with
      | some err =>
        simp only
        left
        refine ⟨vgKey vg, ?_⟩
        have hs : StoredP (fun l => IsPVCPartOfVG pvc l = false) (vgKey vg) w := by
          intro g hg hk
          have := eq_of_vgKey_eq hkeys hg hvg hk
          subst this; exact hpart
        have := HandleErrorMessage_touches (fun l => IsPVCPartOfVG pvc l = false) w vg
          (some err) addingPVC hpart hs
        generalize HandleErrorMessage w vg (some err) addingPVC = r at this ⊢
        obtain ⟨w1, g1, e1⟩ := r
        exact this
      | none =>
        simp only
        by_cases hb : b = true
        · simp only [hb, if_true]
          right
          refine ⟨vg, firstNewMatch_cons_hit pvc vg rest (by simp [hpart, hm, hb]), ?_⟩
          obtain ⟨a1, a2⟩ := AddVolumesToVolumeGroup_sameGroups rm w [pvc] vg
          generalize AddVolumesToVolumeGroup rm w [pvc] vg = r at a1 a2 ⊢
          obtain ⟨w1, vg1, e1⟩ := r
          simp only at a1 a2
          cases e1 with
          | some err =>
            simp only
            have := HandleErrorMessage_touches (fun _ => True) w1 vg1 (some err) addingPVC
              trivial (storedP_true _ _)
            rw [a2] at this
            generalize HandleErrorMessage w1 vg1 (some err) addingPVC = r at this ⊢
            obtain ⟨w2, g2, e2⟩ := r
            exact (a1.touches _ _).compose this
          | none =>
            simp only
            obtain ⟨b1, b2⟩ := AddVolumeToPvcListAndPvList_touches rm w1 pvc vg1
            rw [a2] at b1 b2
            generalize AddVolumeToPvcListAndPvList rm w1 pvc vg1 = r at b1 b2 ⊢
            obtain ⟨w2, p2, vg2, e2⟩ := r
            simp only at b1 b2 ⊢
            have := HandleErrorMessage_touches (fun _ => True) w2 vg2 e2 addingPVC
              trivial (storedP_true _ _)
            rw [b2] at this
            generalize HandleErrorMessage w2 vg2 e2 addingPVC = r at this ⊢
            obtain ⟨w3, g3, e3⟩ := r
            exact (a1.touches _ _).compose (b1.compose this)
        · simp only [hb, Bool.false_eq_true, if_false]
          rw [firstNewMatch_cons_skip pvc vg rest (by simp [hm, hb])]
          exact ih hrest

/-- What a step that leaves the stored groups as they are says about newly recorded claims. -/
theorem no_new_member_of_same_groups (pvc : PersistentVolumeClaim) (o : Option VolumeGroup)
    {w w' : World} (h : w'.VolumeGroups = w.VolumeGroups) :
    ∃ f : VolumeGroup → VolumeGroup, w'.VolumeGroups = w.VolumeGroups.map f ∧
      ∀ g ∈ w.VolumeGroups, vgKey (f g) = vgKey g ∧
        (IsPVCPartOfVG pvc g.Status.PVCList = false →
          IsPVCPartOfVG pvc (f g).Status.PVCList = true → o = some g) :=
  ⟨id, by rw [h, List.map_id], fun g _ => ⟨rfl, fun h1 h2 => by
    simp only [id] at h2; rw [h1] at h2; cases h2⟩⟩

/-- C20: one call of `addPersistentVolumeClaimToVolumeGroupObjects` appends at most one record
to the RPC log, a ModifyGroup; it keeps the stored groups in place, and a stored group that
records the claim afterwards but did not before is the first group, in the order of the
driver-filtered list, that does not record the claim and matches it. This holds in every mode,
also when `MultipleVGsToPVC` is enabled and several groups match. -/
theorem add_joins_at_most_one_group (rm : RemoveByIndex) (r : PersistentVolumeClaimReconciler)
    (w : World) (pvc : PersistentVolumeClaim) (hkeys : (w.VolumeGroups.map vgKey).Nodup) :
    ((r.addPersistentVolumeClaimToVolumeGroupObjects rm w pvc).1.rpcs = w.rpcs ∨
      ∃ rec, isModify rec ∧
        (r.addPersistentVolumeClaimToVolumeGroupObjects rm w pvc).1.rpcs = w.rpcs ++ [rec]) ∧
    ∃ f : VolumeGroup → VolumeGroup,
      (r.addPersistentVolumeClaimToVolumeGroupObjects rm w pvc).1.VolumeGroups
        = w.VolumeGroups.map f ∧
      ∀ g ∈ w.VolumeGroups, vgKey (f g) = vgKey g ∧
        (IsPVCPartOfVG pvc g.Status.PVCList = false →
          IsPVCPartOfVG pvc (f g).Status.PVCList = true →
          firstNewMatch pvc (driverFilteredVGs w r.DriverConfig.DriverName) = some g) := by
  unfold PersistentVolumeClaimReconciler.addPersistentVolumeClaimToVolumeGroupObjects
  obtain ⟨hro, hl, _⟩ := GetVGList_eq_driverFilteredVGs w r.DriverConfig.DriverName
  generalize GetVGList w r.DriverConfig.DriverName = res at hro hl ⊢
  obtain ⟨w1, l, e⟩ := res
  simp only at hro hl
  have hg1 : w1.VolumeGroups = w.VolumeGroups := by obtain ⟨f, rfl⟩ := hro; rfl
  cases e with
  | some err => exact ⟨Or.inl hro.sameRPCs, no_new_member_of_same_groups pvc _ hg1⟩
  | none =>
    have hl' := hl rfl
    subst hl'
    simp only
    have hadm : Within { events := true } noRPC w1 (r.isPVCCanBeAddedToVG w1 pvc
        (driverFilteredVGs w r.DriverConfig.DriverName)).1 := by
      unfold PersistentVolumeClaimReconciler.isPVCCanBeAddedToVG
      split
      · exact Within.noChange _ _ _
      · have := HandlePVCErrorMessage_within { events := true } noRPC rfl w1 pvc
          (IsPVCCanBeAddedToVG pvc (driverFilteredVGs w r.DriverConfig.DriverName)) addingPVC
        generalize HandlePVCErrorMessage w1 pvc
          (IsPVCCanBeAddedToVG pvc (driverFilteredVGs w r.DriverConfig.DriverName)) addingPVC
          = x at this ⊢
        obtain ⟨w2, e2⟩ := x
        cases e2 <;> exact this
    generalize r.isPVCCanBeAddedToVG w1 pvc (driverFilteredVGs w r.DriverConfig.DriverName)
      = x at hadm ⊢
    obtain ⟨w2, e2⟩ := x
    simp only at hadm
    have hr2 : w2.rpcs = w.rpcs := hadm.rpcs_eq.trans hro.sameRPCs
    have hg2 : w2.VolumeGroups = w.VolumeGroups := (hadm.groups rfl).trans hg1
    cases e2 with
    | some err => exact ⟨Or.inl hr2, no_new_member_of_same_groups pvc _ hg2⟩
    | none =>
      simp only
      refine ⟨?_, ?_⟩
      · rw [← hr2]
        exact addToVolumeGroupObjectsLoop_rpcs rm pvc w2 _
      · have hkeys2 : (w2.VolumeGroups.map vgKey).Nodup := by rw [hg2]; exact hkeys
        have hmem : ∀ vg ∈ driverFilteredVGs w r.DriverConfig.DriverName,
            vg ∈ w2.VolumeGroups := by
          intro vg hvg
          rw [hg2]
          exact (List.mem_filter.1 hvg).1
        rcases addToVolumeGroupObjectsLoop_first rm pvc w2 hkeys2
            (driverFilteredVGs w r.DriverConfig.DriverName) hmem with
          ⟨k, _, f, hf, hp⟩ | ⟨vg, hfirst, _, f, hf, hp⟩
        · refine ⟨f, by rw [hf, hg2], fun g _ => ⟨?_, fun h1 h2 => ?_⟩⟩
          · unfold vgKey; rw [(hp g).1, (hp g).2.1]
          · rw [(hp g).2.2.2.2 h1] at h2; cases h2
        · refine ⟨f, by rw [hf, hg2], fun g hg => ⟨?_, fun h1 h2 => ?_⟩⟩
          · unfold vgKey; rw [(hp g).1, (hp g).2.1]
          · rw [hfirst]
            by_cases hk : vgKey g = vgKey vg
            · have hvg : vg ∈ w.VolumeGroups := by
                have := List.mem_of_find?_eq_some hfirst
                exact (List.mem_filter.1 this).1
              rw [eq_of_vgKey_eq hkeys hg hvg hk]
            · rw [(hp g).2.2.2.1 hk, h1] at h2
              cases h2

/-- C20 witness: in multi-group mode both groups of scenario S3 match claim `p2`, the keys are
distinct, and one call records the claim in the first group only. -/
theorem add_joins_at_most_one_group_witness :
    (exclusivityWorld.VolumeGroups.map vgKey).Nodup ∧
    (multiGroupReconciler.addPersistentVolumeClaimToVolumeGroupObjects removeKeepingOrder
        exclusivityWorld tierZoneClaim).1.VolumeGroups.map
          (fun g => g.Status.PVCList.map (fun c => c.Name)) = [["p2"], []] ∧
    ((multiGroupReconciler.addPersistentVolumeClaimToVolumeGroupObjects removeKeepingOrder
          exclusivityWorld tierZoneClaim).1.rpcs = exclusivityWorld.rpcs ∨
      ∃ rec, isModify rec ∧
        (multiGroupReconciler.addPersistentVolumeClaimToVolumeGroupObjects removeKeepingOrder
          exclusivityWorld tierZoneClaim).1.rpcs = exclusivityWorld.rpcs ++ [rec]) :=
  ⟨by decide, rfl,
    (add_joins_at_most_one_group removeKeepingOrder multiGroupReconciler exclusivityWorld
      tierZoneClaim (by decide)).1⟩

/-! ## Theorems: the footprint of the lifecycle steps -/

theorem createVolumeGroup_spec (r : VolumeGroupReconciler) (w : World) (name : String)
    (ps ss : List (String × String)) :
    ∃ w1, ReadOnly w w1 ∧
      (r.createVolumeGroup w name ps ss).1
        = { w1 with rpcs := w1.rpcs ++
            [{ call := RPC.CreateVolumeGroup name,
               error := (r.createVolumeGroup w name ps ss).2.Error }] } := by
  unfold VolumeGroupReconciler.createVolumeGroup
  have h := nextFault_readOnly w
  generalize nextFault w = x at h ⊢
  obtain ⟨w1, e⟩ := x
  exact ⟨w1, h, rfl⟩

theorem deleteVolumeGroup_spec (r : VolumeGroupReconciler) (w : World) (id : String)
    (ss : List (String × String)) :
    ∃ w1, ReadOnly w w1 ∧
      (r.deleteVolumeGroup w id ss).1
        = { w1 with rpcs := w1.rpcs ++
            [{ call := RPC.DeleteVolumeGroup id, error := (r.deleteVolumeGroup w id ss).2 }] } ∧
      (r.deleteVolumeGroup w id ss).2 = (nextFault w).2 := by
  unfold VolumeGroupReconciler.deleteVolumeGroup
  have h := nextFault_readOnly w
  generalize nextFault w = x at h ⊢
  obtain ⟨w1, e⟩ := x
  exact ⟨w1, h, rfl, rfl⟩

theorem deleteVolumeGroup_within (S : Footprint) (p : RPCRecord → Prop)
    (hp : ∀ rec, isDelete rec → p rec) (r : VolumeGroupReconciler) (w : World) (id : String)
    (ss : List (String × String)) : Within S p w (r.deleteVolumeGroup w id ss).1 := by
  obtain ⟨w1, h1, h2, _⟩ := deleteVolumeGroup_spec r w id ss
  rw [h2]
  exact (h1.within S p).next (Within.appendRPC S p w1 _ (hp _ ⟨id, rfl⟩))

theorem updateItems_within (p : RPCRecord → Prop) (r : VolumeGroupReconciler) (w : World)
    (inst : VolumeGroup) (t : Option Nat) (vgcName : String) :
    Within allStores p w (r.updateItems w inst t vgcName).1 := by
  unfold VolumeGroupReconciler.updateItems GetVolumeGroupContent
  have h1 := (@clientGet_readOnly VolumeGroupContent _ w "" vgcName).within allStores p
  generalize (clientGet w "" vgcName : World × Except Err VolumeGroupContent) = x at h1 ⊢
  obtain ⟨w1, xr⟩ := x
  cases xr with
  | error err => exact h1.next (HandleErrorMessage_within allStores p rfl rfl w1 inst _ _)
  | ok vgc =>
    simp only at h1 ⊢
    have h2 := UpdateVolumeGroupSourceContent_within allStores p rfl w1 inst vgcName
    generalize UpdateVolumeGroupSourceContent w1 inst vgcName = x at h2 ⊢
    obtain ⟨w2, i2, e2⟩ := x
    cases e2 with
    | some err =>
      simp only at h2 ⊢
      have h3 := HandleVGCErrorMessage_within allStores p rfl rfl w2 vgc (some err) updateVGC
      generalize HandleVGCErrorMessage w2 vgc (some err) updateVGC = x at h3 ⊢
      obtain ⟨w3, c3, e3⟩ := x
      exact h1.next (h2.next h3)
    | none =>
      simp only at h2 ⊢
      have h3 := UpdateVolumeGroupStatus_within allStores p rfl w2 i2 vgc t true
      generalize UpdateVolumeGroupStatus w2 i2 vgc t true = x at h3 ⊢
      obtain ⟨w3, i3, e3⟩ := x
      cases e3 with
      | some err =>
        exact h1.next (h2.next (h3.next
          (HandleErrorMessage_within allStores p rfl rfl w3 i3 _ _)))
      | none =>
        simp only at h3 ⊢
        have h4 := AddFinalizerToVGC_within allStores p rfl w3 vgc
        generalize AddFinalizerToVGC w3 vgc = x at h4 ⊢
        obtain ⟨w4, c4, e4⟩ := x
        cases e4 with
        | some err =>
          simp only at h4 ⊢
          have h5 := HandleVGCErrorMessage_within allStores p rfl rfl w4 c4 (some err) updateVGC
          generalize HandleVGCErrorMessage w4 c4 (some err) updateVGC = x at h5 ⊢
          obtain ⟨w5, c5, e5⟩ := x
          exact h1.next (h2.next (h3.next (h4.next h5)))
        | none =>
          simp only at h4 ⊢
          have h5 := UpdateVolumeGroupContentStatus_within allStores p rfl w4 c4 t true
          generalize UpdateVolumeGroupContentStatus w4 c4 t true = x at h5 ⊢
          obtain ⟨w5, c5, e5⟩ := x
          cases e5 with
          | some err =>
            simp only at h5 ⊢
            have h6 := HandleVGCErrorMessage_within allStores p rfl rfl w5 c5 (some err)
              updateStatusVGC
            generalize HandleVGCErrorMessage w5 c5 (some err) updateStatusVGC = x at h6 ⊢
            obtain ⟨w6, c6, e6⟩ := x
            exact h1.next (h2.next (h3.next (h4.next (h5.next h6))))
          | none => exact h1.next (h2.next (h3.next (h4.next h5)))

theorem handleStaticProvisionedVG_static (p : RPCRecord → Prop) (r : VolumeGroupReconciler)
    (w : World) (inst : VolumeGroup) (t : Option Nat) (vgClass : VolumeGroupClass)
    (h : inst.Spec.Source.VolumeGroupContentName ≠ none) :
    Within allStores p w (r.handleStaticProvisionedVG w inst t vgClass).1 ∧
    (r.handleStaticProvisionedVG w inst t vgClass).2.2.2 = true := by
  unfold VolumeGroupReconciler.handleStaticProvisionedVG
  cases hc : inst.Spec.Source.VolumeGroupContentName with
  | none => exact absurd hc h
  | some c =>
    simp only
    have h1 := updateItems_within p r w inst t c
    generalize r.updateItems w inst t c = x at h1 ⊢
    obtain ⟨w1, i1, e1⟩ := x
    cases e1 with
    | some err => exact ⟨h1, rfl⟩
    | none =>
      simp only at h1 ⊢
      have h2 := UpdateStaticVGC_within allStores p rfl w1 i1 vgClass
      generalize UpdateStaticVGC w1 i1 vgClass = x at h2 ⊢
      obtain ⟨w2, e2⟩ := x
      cases e2 <;> exact ⟨h1.next h2, rfl⟩

theorem handleStaticProvisionedVG_dynamic (r : VolumeGroupReconciler)
    (w : World) (inst : VolumeGroup) (t : Option Nat) (vgClass : VolumeGroupClass)
    (h : inst.Spec.Source.VolumeGroupContentName = none) :
    r.handleStaticProvisionedVG w inst t vgClass = (w, inst, none, false) := by
  unfold VolumeGroupReconciler.handleStaticProvisionedVG
  rw [h]

theorem RemoveVGCObject_within (S : Footprint) (p : RPCRecord → Prop)
    (ht : S.contents = true) (r : VolumeGroupReconciler) (w : World)
    (vgc : VolumeGroupContent) : Within S p w (r.RemoveVGCObject w vgc).1 := by
  unfold VolumeGroupReconciler.RemoveVGCObject
  have h1 := RemoveFinalizerFromVGC_within S p ht w vgc
  generalize RemoveFinalizerFromVGC w vgc = x at h1 ⊢
  obtain ⟨w1, c1, e1⟩ := x
  cases e1 with
  | some err => exact h1
  | none =>
    simp only at h1 ⊢
    have h2 := clientDeleteVolumeGroupContent_within S p ht w1 c1
    generalize clientDeleteVolumeGroupContent w1 c1 = x at h2 ⊢
    obtain ⟨w2, e2⟩ := x
    cases e2 <;> exact h1.next h2

theorem removeVolumeGroupContent_within (S : Footprint) (p : RPCRecord → Prop)
    (ht : S.contents = true) (hp : ∀ rec, isDelete rec → p rec) (r : VolumeGroupReconciler)
    (w : World) (vgc : VolumeGroupContent) (ss : List (String × String)) :
    Within S p w (r.removeVolumeGroupContent w vgc ss).1 := by
  unfold VolumeGroupReconciler.removeVolumeGroupContent
  have h1 := deleteVolumeGroup_within S p hp r w vgc.VolumeGroupHandle ss
  generalize r.deleteVolumeGroup w vgc.VolumeGroupHandle ss = x at h1 ⊢
  obtain ⟨w1, e1⟩ := x
  cases e1 with
  | some err => exact h1
  | none =>
    simp only at h1 ⊢
    have h2 := RemoveVGCObject_within S p ht r w1 vgc
    generalize r.RemoveVGCObject w1 vgc = x at h2 ⊢
    obtain ⟨w2, e2⟩ := x
    cases e2 <;> exact h1.next h2

theorem removeInstance_within (S : Footprint) (p : RPCRecord → Prop)
    (hg : S.groups = true) (ht : S.contents = true) (hp : ∀ rec, isDelete rec → p rec)
    (r : VolumeGroupReconciler) (w : World) (inst : VolumeGroup)
    (ss : List (String × String)) : Within S p w (r.removeInstance w inst ss).1 := by
  unfold VolumeGroupReconciler.removeInstance
  split
  · exact Within.noChange _ _ _
  · rename_i c _
    unfold GetVolumeGroupContent
    have h1 := (@clientGet_readOnly VolumeGroupContent _ w "" c).within S p
    generalize (clientGet w "" c : World × Except Err VolumeGroupContent) = x at h1 ⊢
    obtain ⟨w1, xr⟩ := x
    cases xr with
    | error err =>
      simp only at h1 ⊢
      split
      · exact h1
      · have h2 := RemoveFinalizerFromVG_within S p hg w1 inst
        generalize RemoveFinalizerFromVG w1 inst = x at h2 ⊢
        obtain ⟨w2, i2, e2⟩ := x
        cases e2 <;> exact h1.next h2
    | ok vgc =>
      simp only at h1 ⊢
      have h2 := removeVolumeGroupContent_within S p ht hp r w1 vgc ss
      generalize r.removeVolumeGroupContent w1 vgc ss = x at h2 ⊢
      obtain ⟨w2, e2⟩ := x
      cases e2 with
      | some err => exact h1.next h2
      | none =>
        simp only at h2 ⊢
        have h3 := RemoveFinalizerFromVG_within S p hg w2 inst
        generalize RemoveFinalizerFromVG w2 inst = x at h3 ⊢
        obtain ⟨w3, i3, e3⟩ := x
        cases e3 <;> exact h1.next (h2.next h3)

theorem Within.mem_drop {S : Footprint} {p : RPCRecord → Prop} {w w' : World}
    (h : Within S p w w') {rec : RPCRecord} (hrec : rec ∈ w'.rpcs.drop w.rpcs.length) :
    p rec := by
  obtain ⟨new, e, hn⟩ := h.rpcs
  rw [e, List.drop_left] at hrec
  exact hn rec hrec

/-! ## Theorems: the invariant of a group reconcile -/

theorem Keyed.identity (k : String × String) (w : World) : Keyed k w w :=
  ⟨id, by simp, fun _ => ⟨rfl, fun _ => rfl⟩⟩

theorem Keyed.thenKeyed {k : String × String} {w1 w2 w3 : World} (h1 : Keyed k w1 w2)
    (h2 : Keyed k w2 w3) : Keyed k w1 w3 := by
  obtain ⟨f, hf, pf⟩ := h1
  obtain ⟨g, hg, pg⟩ := h2
  refine ⟨g ∘ f, by rw [hg, hf, List.map_map], fun x => ⟨?_, fun hx => ?_⟩⟩
  · simp only [Function.comp]; rw [(pg (f x)).1, (pf x).1]
  · simp only [Function.comp]; rw [(pf x).2 hx, (pg x).2 hx]

theorem Keyed.of_eq {k : String × String} {w w' : World}
    (h : w'.VolumeGroups = w.VolumeGroups) : Keyed k w w' :=
  ⟨id, by simp [h], fun _ => ⟨rfl, fun _ => rfl⟩⟩

theorem vg_key_beq (g a : VolumeGroup) :
    (g.Namespace == a.Namespace && g.Name == a.Name) = true ↔ vgKey g = vgKey a := by
  simp [vgKey, Prod.ext_iff]

theorem Tracks.stable (P : VolumeGroup → Prop) (hP : Mixes P) (k : String × String)
    (S : Footprint) (p : RPCRecord → Prop) (hg : S.groups = true) (w0 : World) :
    Stable (Tracks P k S p w0) where
  faults := fun w a f ⟨h1, h2, h3, h4, h5⟩ =>
    ⟨h1.next (ReadOnly.within ⟨f, rfl⟩ S p), h2.thenKeyed (Keyed.of_eq rfl), h3, h4, h5⟩
  write := by
    rintro w a ⟨h1, h2, h3, h4, h5⟩
    refine ⟨h1.next (Within.setGroups S p hg w _), h2.thenKeyed ⟨_, rfl, fun g => ?_⟩, h3, h4, ?_⟩
    · by_cases hc : (g.Namespace == a.Namespace && g.Name == a.Name) = true
      · simp only [hc, if_true]
        refine ⟨((vg_key_beq g a).1 hc).symm, fun hk => ?_⟩
        exact absurd (((vg_key_beq g a).1 hc).trans h3) hk
      · simp only [hc, Bool.false_eq_true, if_false]
        exact ⟨trivial, fun _ => trivial⟩
    · intro g' hg' hk
      have hg'' : g' ∈ List.map _ w.VolumeGroups := hg'
      rw [List.mem_map] at hg''
      obtain ⟨g, hgm, rfl⟩ := hg''
      by_cases hc : (g.Namespace == a.Namespace && g.Name == a.Name) = true
      · simp only [hc, if_true]
        exact hP.status a g h4 (h5 g hgm (((vg_key_beq g a).1 hc).trans h3))
      · simp only [hc, Bool.false_eq_true, if_false] at hk ⊢
        exact h5 g hgm hk
  writeStatus := by
    rintro w a ⟨h1, h2, h3, h4, h5⟩
    refine ⟨h1.next (Within.setGroups S p hg w _), h2.thenKeyed ⟨_, rfl, fun g => ?_⟩, h3, h4, ?_⟩
    · by_cases hc : (g.Namespace == a.Namespace && g.Name == a.Name) = true
      · simp only [hc, if_true]
        refine ⟨rfl, fun hk => ?_⟩
        exact absurd (((vg_key_beq g a).1 hc).trans h3) hk
      · simp only [hc, Bool.false_eq_true, if_false]
        exact ⟨trivial, fun _ => trivial⟩
    · intro g' hg' hk
      have hg'' : g' ∈ List.map _ w.VolumeGroups := hg'
      rw [List.mem_map] at hg''
      obtain ⟨g, hgm, rfl⟩ := hg''
      by_cases hc : (g.Namespace == a.Namespace && g.Name == a.Name) = true
      · simp only [hc, if_true]
        exact hP.status g a (h5 g hgm (((vg_key_beq g a).1 hc).trans h3)) h4
      · simp only [hc, Bool.false_eq_true, if_false] at hk ⊢
        exact h5 g hgm hk
  fetch := by
    rintro w a b ⟨h1, h2, h3, h4, h5⟩ hs
    obtain ⟨k1, k2, k3⟩ := stored_vg_key w _ _ b hs
    have hb : vgKey b = k := by
      rw [← h3]; unfold vgKey; rw [k1, k2]; rfl
    exact ⟨h1, h2, hb, h5 b k3 hb, h5⟩
  setFinalizers := fun w a fins ⟨h1, h2, h3, h4, h5⟩ =>
    ⟨h1, h2, h3, hP.finalizers a fins h4, h5⟩

theorem Tracks.setError {P : VolumeGroup → Prop} (hP : Mixes P) {k : String × String}
    {S : Footprint} {p : RPCRecord → Prop} {w0 : World} (w : World) (a : VolumeGroup)
    (m : String) (h : Tracks P k S p w0 w a) :
    Tracks P k S p w0 w { a with Status := { a.Status with Error := some m } } :=
  ⟨h.1, h.2.1, h.2.2.1, hP.error a m h.2.2.2.1, h.2.2.2.2⟩

theorem Tracks.event {P : VolumeGroup → Prop} {k : String × String}
    {S : Footprint} {p : RPCRecord → Prop} (he : S.events = true) {w0 : World} (w : World)
    (a : VolumeGroup) (ev : Event) (h : Tracks P k S p w0 w a) :
    Tracks P k S p w0 (recordEvent w ev) a :=
  ⟨h.1.next (recordEvent_within S p he w ev), h.2.1.thenKeyed (Keyed.of_eq rfl), h.2.2.1, h.2.2.2.1,
    h.2.2.2.2⟩

theorem Tracks.readOnly {P : VolumeGroup → Prop} {k : String × String}
    {S : Footprint} {p : RPCRecord → Prop} {w0 w w' : World} {a : VolumeGroup}
    (h : Tracks P k S p w0 w a) (hro : ReadOnly w w') : Tracks P k S p w0 w' a := by
  obtain ⟨f, rfl⟩ := hro
  exact ⟨h.1.next (ReadOnly.within ⟨f, rfl⟩ S p), h.2.1.thenKeyed (Keyed.of_eq rfl), h.2.2.1,
    h.2.2.2.1, h.2.2.2.2⟩

theorem clientGet_vg_spec (w : World) (ns name : String) :
    ReadOnly w (clientGet w ns name : World × Except Err VolumeGroup).1 ∧
    ∀ inst, (clientGet w ns name : World × Except Err VolumeGroup).2 = .ok inst →
      inst ∈ w.VolumeGroups ∧ vgKey inst = (ns, name) := by
  unfold clientGet
  have hro := nextFault_readOnly w
  generalize nextFault w = r at hro ⊢
  obtain ⟨w1, e⟩ := r
  cases e with
  | some err => exact ⟨hro, fun _ h => by simp at h⟩
  | none =>
    simp only
    cases hs : (Object.stored w1 ns name : Option VolumeGroup) with
    | none => exact ⟨hro, fun _ h => by simp at h⟩
    | some g =>
      refine ⟨hro, fun inst h => ?_⟩
      simp only [Except.ok.injEq] at h
      subst h
      obtain ⟨k1, k2, k3⟩ := stored_vg_key w1 _ _ g hs
      obtain ⟨f, rfl⟩ := hro
      exact ⟨k3, by unfold vgKey; rw [k1, k2]⟩

/-- The steps of `Reconcile` before `reconcileInstance`: either they end the reconcile, having
written at most the status and events of groups and issued no RPC, or `Reconcile` is
`reconcileInstance` on the stored group in a world that differs in pending failures only. -/
theorem Reconcile_prelude (rm : RemoveByIndex) (r : VolumeGroupReconciler) (w : World)
    (req : String × String) (now : Nat) :
    Within groupStores noRPC w (r.Reconcile rm w req now).1 ∨
    ∃ w1 inst vgClass parameters secret, ReadOnly w w1 ∧ inst ∈ w.VolumeGroups ∧
      vgKey inst = req ∧
      r.Reconcile rm w req now = r.reconcileInstance rm w1 inst vgClass parameters secret now := by
  unfold VolumeGroupReconciler.Reconcile
  obtain ⟨h1, hin⟩ := clientGet_vg_spec w req.1 req.2
  generalize (clientGet w req.1 req.2 : World × Except Err VolumeGroup) = x at h1 hin ⊢
  obtain ⟨w1, xr⟩ := x
  cases xr with
  | error err =>
    left
    simp only at h1 ⊢
    split
    · exact h1.within _ _
    · have h2 := HandleErrorMessage_within groupStores noRPC rfl rfl w1 {} (some err) vgReconcile
      generalize HandleErrorMessage w1 {} (some err) vgReconcile = x at h2 ⊢
      obtain ⟨w2, i2, e2⟩ := x
      exact (h1.within _ _).next h2
  | ok inst =>
    simp only at h1 hin ⊢
    obtain ⟨hmem, hkey⟩ := hin inst rfl
    have h2 := GetVolumeGroupClass_readOnly w1 inst.Spec.VolumeGroupClassName
    generalize GetVolumeGroupClass w1 inst.Spec.VolumeGroupClassName = x at h2 ⊢
    obtain ⟨w2, xr⟩ := x
    cases xr with
    | error err =>
      left
      simp only at h2 ⊢
      have h3 := HandleErrorMessage_within groupStores noRPC rfl rfl w2 inst (some err)
        vgReconcile
      generalize HandleErrorMessage w2 inst (some err) vgReconcile = x at h3 ⊢
      obtain ⟨w3, i3, e3⟩ := x
      exact ((h1.andThen h2).within _ _).next h3
    | ok vgClass =>
      simp only at h2 ⊢
      split
      · exact Or.inl ((h1.andThen h2).within _ _)
      · cases hv : ValidatePrefixedParameters vgClass.Parameters with
        | some err =>
          left
          simp only
          have h3 := UpdateVolumeGroupStatusError_within groupStores noRPC rfl w2 inst err.Error
          generalize UpdateVolumeGroupStatusError w2 inst err.Error = x at h3 ⊢
          obtain ⟨w3, i3, e3⟩ := x
          cases e3 <;> exact ((h1.andThen h2).within _ _).next h3
        | none =>
          simp only
          have h3 := GetSecretDataFromClass_readOnly w2 vgClass
          generalize GetSecretDataFromClass w2 vgClass = x at h3 ⊢
          obtain ⟨w3, xr⟩ := x
          cases xr with
          | error err =>
            left
            simp only at h3 ⊢
            have h4 := HandleErrorMessage_within groupStores noRPC rfl rfl w3 inst (some err)
              vgReconcile
            generalize HandleErrorMessage w3 inst (some err) vgReconcile = x at h4 ⊢
            obtain ⟨w4, i4, e4⟩ := x
            exact ((h1.andThen (h2.andThen h3)).within _ _).next h4
          | ok secret =>
            right
            exact ⟨w3, inst, vgClass, _, secret, h1.andThen (h2.andThen h3), hmem, hkey, rfl⟩

/-! ## Theorems: a bound group is reconciled without RPCs (C12) -/

theorem mixes_bound : Mixes (fun g : VolumeGroup =>
    g.DeletionTimestamp = none ∧ g.Spec.Source.VolumeGroupContentName ≠ none) :=
  ⟨fun _ _ ha _ => ha, fun _ _ ha => ha, fun _ _ ha => ha⟩

/-- C12: when every stored group under the request key has no deletion timestamp and has
`spec.source.volumeGroupContentName` set, `Reconcile` leaves the RPC log as it was: no
CreateGroup, no ModifyGroup and no DeleteGroup is issued, whatever fails on the way. -/
theorem Reconcile_bound_group_issues_no_rpc (rm : RemoveByIndex) (r : VolumeGroupReconciler)
    (w : World) (req : String × String) (now : Nat)
    (h : ∀ g ∈ w.VolumeGroups, vgKey g = req →
      g.DeletionTimestamp = none ∧ g.Spec.Source.VolumeGroupContentName ≠ none) :
    (r.Reconcile rm w req now).1.rpcs = w.rpcs := by
  rcases Reconcile_prelude rm r w req now with hE | ⟨w1, inst, vgClass, ps, secret, hro, hmem,
    hkey, heq⟩
  · exact hE.rpcs_eq
  · rw [heq]
    have hg1 : w1.VolumeGroups = w.VolumeGroups := by obtain ⟨f, rfl⟩ := hro; rfl
    have J0 : Tracks (fun g : VolumeGroup =>
        g.DeletionTimestamp = none ∧ g.Spec.Source.VolumeGroupContentName ≠ none)
        req allStores noRPC w1 w1 inst :=
      ⟨Within.noChange _ _ _, Keyed.identity _ _, hkey, h inst hmem hkey,
        fun g hg hk => h g (hg1 ▸ hg) hk⟩
    have hA := AddFinalizerToVG_stable (Tracks.stable _ mixes_bound req allStores noRPC rfl w1)
      w1 inst J0
    unfold VolumeGroupReconciler.reconcileInstance
    rw [(h inst hmem hkey).1]
    simp only [IsZero, if_true]
    generalize AddFinalizerToVG w1 inst = x at hA ⊢
    obtain ⟨w2, i2, e2⟩ := x
    obtain ⟨hw2, _, _, hP2, _⟩ := hA
    cases e2 with
    | some err =>
      simp only at hw2 ⊢
      have h3 := HandleErrorMessage_within allStores noRPC rfl rfl w2 i2 (some err) createVG
      generalize HandleErrorMessage w2 i2 (some err) createVG = x at h3 ⊢
      obtain ⟨w3, i3, e3⟩ := x
      exact ((hw2.next h3).rpcs_eq).trans hro.sameRPCs
    | none =>
      simp only at hw2 hP2 ⊢
      obtain ⟨h3, hb⟩ := handleStaticProvisionedVG_static noRPC r w2 i2 (some now) vgClass hP2.2
      generalize r.handleStaticProvisionedVG w2 i2 (some now) vgClass = x at h3 hb ⊢
      obtain ⟨w3, i3, e3, b⟩ := x
      simp only at h3 hb
      subst hb
      simp only [if_true]
      exact ((hw2.next h3).rpcs_eq).trans hro.sameRPCs

/-- C12 witness: scenario S6, where the reconcile of the static group succeeds, marks the group
ready and issues no RPC. -/
theorem Reconcile_bound_group_issues_no_rpc_witness :
    (∀ g ∈ staticGroupWorld.VolumeGroups, vgKey g = ("ns", "g3") →
      g.DeletionTimestamp = none ∧ g.Spec.Source.VolumeGroupContentName ≠ none) ∧
    (exampleVGReconciler.Reconcile removeKeepingOrder staticGroupWorld ("ns", "g3") 7).2 = none ∧
    (exampleVGReconciler.Reconcile removeKeepingOrder staticGroupWorld
      ("ns", "g3") 7).1.VolumeGroups.map (fun g => g.Status.Ready) = [some true] ∧
    (exampleVGReconciler.Reconcile removeKeepingOrder staticGroupWorld ("ns", "g3") 7).1.rpcs
      = staticGroupWorld.rpcs :=
  ⟨by decide, rfl, rfl,
    Reconcile_bound_group_issues_no_rpc removeKeepingOrder exampleVGReconciler staticGroupWorld
      ("ns", "g3") 7 (by decide)⟩

/-! ## Theorems: the deletion path -/

theorem stored_vgc_key (w : World) (ns name : String) (c : VolumeGroupContent)
    (h : (Object.stored w ns name : Option VolumeGroupContent) = some c) :
    c.Name = name ∧ c ∈ w.VolumeGroupContents ∧
      w.VolumeGroupContents.find? (fun x => x.Name == name) = some c := by
  have h1 := List.find?_some h
  have h2 := List.mem_of_find?_eq_some h
  simp only [beq_iff_eq] at h1
  exact ⟨h1, h2, h⟩

theorem GetVolumeGroupContent_found (w w1 : World) (name : String) (vgc : VolumeGroupContent)
    (h : GetVolumeGroupContent w name = (w1, .ok vgc)) :
    ReadOnly w w1 ∧ vgc.Name = name ∧ vgc ∈ w.VolumeGroupContents ∧
      w.VolumeGroupContents.find? (fun x => x.Name == name) = some vgc := by
  unfold GetVolumeGroupContent clientGet at h
  have hro := nextFault_readOnly w
  generalize nextFault w = r at hro h
  obtain ⟨w2, e⟩ := r
  cases e with
  | some err => simp at h
  | none =>
    simp only at h
    cases hs : (Object.stored w2 "" name : Option VolumeGroupContent) with
    | none => rw [hs] at h; simp at h
    | some c =>
      rw [hs] at h
      simp only [Prod.mk.injEq, Except.ok.injEq] at h
      obtain ⟨rfl, rfl⟩ := h
      obtain ⟨k1, k2, k3⟩ := stored_vgc_key w2 _ _ c hs
      obtain ⟨f, rfl⟩ := hro
      exact ⟨⟨f, rfl⟩, k1, k2, k3⟩

theorem GetVolumeGroupContent_error (w w1 : World) (name : String) (err : Err)
    (h : GetVolumeGroupContent w name = (w1, .error err)) :
    ReadOnly w w1 := by
  have := @clientGet_readOnly VolumeGroupContent _ w "" name
  unfold GetVolumeGroupContent at h
  rw [h] at this
  exact this

/-- The names of the stored contents, and the name of the in-memory content, as an invariant. -/
theorem names_stable (w0 : World) (n : String) :
    Stable (fun w (a : VolumeGroupContent) =>
      w.VolumeGroupContents.map (fun c => c.Name) = w0.VolumeGroupContents.map (fun c => c.Name)
        ∧ a.Name = n) where
  faults := fun _ _ _ h => h
  write := by
    rintro w a ⟨h1, h2⟩
    refine ⟨?_, h2⟩
    rw [← h1]
    show List.map _ (List.map _ w.VolumeGroupContents) = _
    rw [List.map_map]
    apply List.map_congr_left
    intro c _
    simp only [Function.comp]
    by_cases hc : (c.Name == a.Name) = true
    · simp only [hc, if_true]; exact (beq_iff_eq.1 hc).symm
    · simp only [hc, Bool.false_eq_true, if_false]
  writeStatus := by
    rintro w a ⟨h1, h2⟩
    refine ⟨?_, h2⟩
    rw [← h1]
    show List.map _ (List.map _ w.VolumeGroupContents) = _
    rw [List.map_map]
    apply List.map_congr_left
    intro c _
    simp only [Function.comp]
    by_cases hc : (c.Name == a.Name) = true
    · simp only [hc, if_true]
    · simp only [hc, Bool.false_eq_true, if_false]
  fetch := by
    rintro w a b ⟨h1, h2⟩ hs
    obtain ⟨k1, _, _⟩ := stored_vgc_key w _ _ b hs
    exact ⟨h1, k1.trans h2⟩
  setFinalizers := fun _ _ _ h => h

theorem RemoveFinalizerFromVGC_names (w : World) (vgc : VolumeGroupContent) :
    (RemoveFinalizerFromVGC w vgc).1.VolumeGroupContents.map (fun c => c.Name)
      = w.VolumeGroupContents.map (fun c => c.Name) ∧
    (RemoveFinalizerFromVGC w vgc).2.1.Name = vgc.Name := by
  unfold RemoveFinalizerFromVGC
  split
  · have h1 := updateFinalizer_stable (names_stable w vgc.Name) w
      (remove vgc.Finalizers volumeGroupContentFinalizer)
      { vgc with Finalizers := remove vgc.Finalizers volumeGroupContentFinalizer }
      ⟨rfl, rfl⟩
    generalize updateFinalizer w (remove vgc.Finalizers volumeGroupContentFinalizer)
      { vgc with Finalizers := remove vgc.Finalizers volumeGroupContentFinalizer } = r at h1 ⊢
    obtain ⟨w1, a1, e1⟩ := r
    cases e1 <;> exact h1
  · exact ⟨rfl, rfl⟩

theorem clientDeleteVolumeGroupContent_spec (w : World) (vgc : VolumeGroupContent) :
    ((clientDeleteVolumeGroupContent w vgc).2 ≠ none →
      (clientDeleteVolumeGroupContent w vgc).1.VolumeGroupContents = w.VolumeGroupContents) ∧
    ((clientDeleteVolumeGroupContent w vgc).2 = none →
      ∀ c ∈ (clientDeleteVolumeGroupContent w vgc).1.VolumeGroupContents, c.Name ≠ vgc.Name) := by
  unfold clientDeleteVolumeGroupContent
  have hro := nextFault_readOnly w
  generalize nextFault w = r at hro ⊢
  obtain ⟨w1, e⟩ := r
  obtain ⟨f, rfl⟩ := hro
  cases e with
  | some err => exact ⟨fun _ => rfl, fun h => by simp at h⟩
  | none =>
    simp only
    split
    · refine ⟨fun h => absurd rfl h, fun _ c hc => ?_⟩
      have := (List.mem_filter.1 hc).2
      simpa using this
    · exact ⟨fun _ => rfl, fun h => by simp at h⟩

theorem mem_of_names_eq {l l' : List VolumeGroupContent}
    (h : l'.map (fun c => c.Name) = l.map (fun c => c.Name)) {vgc : VolumeGroupContent}
    (hm : vgc ∈ l) : ∃ c ∈ l', c.Name = vgc.Name := by
  have : vgc.Name ∈ l.map (fun c => c.Name) := List.mem_map_of_mem _ hm
  rw [← h, List.mem_map] at this
  exact this

theorem UpdateObject_vg_ok (w : World) (vg : VolumeGroup) (h : (UpdateObject w vg).2 = none) :
    ∀ g ∈ (UpdateObject w vg).1.VolumeGroups, vgKey g = vgKey vg →
      g.Finalizers = vg.Finalizers := by
  unfold UpdateObject clientUpdate at h ⊢
  generalize nextFault w = r at h ⊢
  obtain ⟨w1, e⟩ := r
  cases e with
  | some err => simp at h
  | none =>
    simp only at h ⊢
    cases hs : (Object.stored w1 (Object.GetNamespace vg) (Object.GetName vg) :
        Option VolumeGroup) with
    | none => rw [hs] at h; simp at h
    | some p =>
      simp only
      intro g hg hk
      have hg' : g ∈ List.map _ w1.VolumeGroups := hg
      rw [List.mem_map] at hg'
      obtain ⟨g0, _, rfl⟩ := hg'
      by_cases hc : (g0.Namespace == vg.Namespace && g0.Name == vg.Name) = true
      · simp only [hc, if_true]
      · simp only [hc, Bool.false_eq_true, if_false] at hk
        exact absurd ((vg_key_beq g0 vg).2 hk) hc

theorem updateFinalizer_vg_ok (w : World) (fins : List String) (vg : VolumeGroup)
    (h : (updateFinalizer w fins vg).2.2 = none) :
    ∀ g ∈ (updateFinalizer w fins vg).1.VolumeGroups, vgKey g = vgKey vg →
      g.Finalizers = fins := by
  unfold updateFinalizer at h ⊢
  have key := RetryOnConflict_ok
    (fun (s : World × VolumeGroup) =>
      match finalizerRetryOnConflictFunc s.1 fins s.2 with
      | (w, obj, err) => ((w, obj), err))
    (fun s => vgKey s.2 = vgKey vg)
    (fun s => ∀ g ∈ s.1.VolumeGroups, vgKey g = vgKey vg → g.Finalizers = fins)
    (by
      rintro ⟨w0, p0⟩ h1
      simp only [finalizerRetryOnConflictFunc]
      rcases UpdateObject w0 (Object.SetFinalizers p0 fins) with ⟨w1, e⟩
      simp only
      split
      · have := getNamespacedObject_stable
          (Tracks.stable (fun _ => True) ⟨fun _ _ _ _ => trivial, fun _ _ _ => trivial,
            fun _ _ _ => trivial⟩ (vgKey vg) allStores noRPC rfl w1) w1
          (Object.SetFinalizers p0 fins)
          ⟨Within.noChange _ _ _, Keyed.identity _ _, h1, trivial, fun _ _ _ => trivial⟩
        generalize getNamespacedObject w1 (Object.SetFinalizers p0 fins) = r at this ⊢
        obtain ⟨w2, p2, e2⟩ := r
        cases e2 <;> exact this.2.2.1
      · exact h1)
    (by
      rintro ⟨w0, p0⟩ h1
      simp only [finalizerRetryOnConflictFunc]
      have hu := UpdateObject_vg_ok w0 (Object.SetFinalizers p0 fins)
      generalize UpdateObject w0 (Object.SetFinalizers p0 fins) = r at hu ⊢
      obtain ⟨w1, e⟩ := r
      simp only at hu ⊢
      split
      · rcases getNamespacedObject w1 (Object.SetFinalizers p0 fins) with ⟨w2, p2, e2⟩
        rename_i hc
        cases e2 with
        | some e2 => intro h; simp at h
        | none =>
          intro h
          simp only at h
          subst h
          simp [IsConflict] at hc
      · intro h
        simp only at h
        subst h
        intro g hg hk
        exact hu rfl g hg (hk.trans h1.symm))
    DefaultRetry (w, vg) (by decide) rfl
  rcases hR : RetryOnConflict (fun (s : World × VolumeGroup) =>
      match finalizerRetryOnConflictFunc s.1 fins s.2 with
      | (w, obj, err) => ((w, obj), err)) DefaultRetry (w, vg) with ⟨⟨w', p'⟩, e⟩
  rw [hR] at key h
  simp only at key h ⊢
  exact key h

theorem RemoveFinalizerFromVG_ok (w : World) (vg : VolumeGroup)
    (hc : Contains vg.Finalizers VolumeGroupFinalizer = true)
    (h : (RemoveFinalizerFromVG w vg).2.2 = none) :
    ∀ g ∈ (RemoveFinalizerFromVG w vg).1.VolumeGroups, vgKey g = vgKey vg →
      g.Finalizers = remove vg.Finalizers VolumeGroupFinalizer := by
  unfold RemoveFinalizerFromVG at h ⊢
  rw [if_pos hc] at h ⊢
  have h1 := updateFinalizer_vg_ok w (remove vg.Finalizers VolumeGroupFinalizer)
    { vg with Finalizers := remove vg.Finalizers VolumeGroupFinalizer }
  generalize updateFinalizer w (remove vg.Finalizers VolumeGroupFinalizer)
    { vg with Finalizers := remove vg.Finalizers VolumeGroupFinalizer } = r at h1 h ⊢
  obtain ⟨w1, a1, e1⟩ := r
  cases e1 with
  | some err => simp at h
  | none => exact h1 rfl

/-! ## Theorems: the order of the deletion steps (C14) -/

theorem removeInstance_found (r : VolumeGroupReconciler) (w w1 : World) (inst : VolumeGroup)
    (secret : List (String × String)) (c : String) (vgc : VolumeGroupContent)
    (hc : inst.Spec.Source.VolumeGroupContentName = some c)
    (hget : GetVolumeGroupContent w c = (w1, .ok vgc)) :
    (r.removeInstance w inst secret).1.rpcs
      = w.rpcs ++ [{ call := RPC.DeleteVolumeGroup vgc.VolumeGroupHandle,
                     error := (nextFault w1).2 }] ∧
    ((nextFault w1).2 ≠ none →
      (r.removeInstance w inst secret).1.VolumeGroupContents = w.VolumeGroupContents ∧
      (r.removeInstance w inst secret).1.VolumeGroups = w.VolumeGroups ∧
      (r.removeInstance w inst secret).2.2 = (nextFault w1).2 ∧
      (r.removeInstance w inst secret).2.1 = inst) ∧
    ((r.removeInstance w inst secret).1.VolumeGroups ≠ w.VolumeGroups →
      (nextFault w1).2 = none ∧
      ∀ x ∈ (r.removeInstance w inst secret).1.VolumeGroupContents, x.Name ≠ vgc.Name) ∧
    ((r.removeInstance w inst secret).1.VolumeGroupContents ≠ w.VolumeGroupContents →
      (nextFault w1).2 = none) ∧
    ((∀ x ∈ (r.removeInstance w inst secret).1.VolumeGroupContents, x.Name ≠ vgc.Name) →
      (nextFault w1).2 = none ∧
      (RemoveFinalizerFromVGC (r.deleteVolumeGroup w1 vgc.VolumeGroupHandle secret).1 vgc).2.2
        = none) ∧
    ((r.removeInstance w inst secret).2.2 = none →
      (nextFault w1).2 = none ∧
      (∀ x ∈ (r.removeInstance w inst secret).1.VolumeGroupContents, x.Name ≠ vgc.Name) ∧
      (Contains inst.Finalizers VolumeGroupFinalizer = true →
        ∀ g ∈ (r.removeInstance w inst secret).1.VolumeGroups, vgKey g = vgKey inst →
          g.Finalizers = remove inst.Finalizers VolumeGroupFinalizer)) := by
  obtain ⟨hro0, _, hmem, _⟩ := GetVolumeGroupContent_found w w1 c vgc hget
  unfold VolumeGroupReconciler.removeInstance
  rw [hc]
  simp only
  rw [hget]
  simp only
  unfold VolumeGroupReconciler.removeVolumeGroupContent
  obtain ⟨w1', hro1, hw2, he⟩ := deleteVolumeGroup_spec r w1 vgc.VolumeGroupHandle secret
  rw [← he]
  generalize r.deleteVolumeGroup w1 vgc.VolumeGroupHandle secret = x at hw2 ⊢
  obtain ⟨w2, e⟩ := x
  simp only at hw2 ⊢
  have hro : ReadOnly w w1' := hro0.andThen hro1
  have g2 : w2.VolumeGroups = w.VolumeGroups := by
    rw [hw2]; obtain ⟨f, rfl⟩ := hro; rfl
  have c2 : w2.VolumeGroupContents = w.VolumeGroupContents := by
    rw [hw2]; obtain ⟨f, rfl⟩ := hro; rfl
  have r2 : w2.rpcs = w.rpcs ++ [⟨RPC.DeleteVolumeGroup vgc.VolumeGroupHandle, e⟩] := by
    rw [hw2]; obtain ⟨f, rfl⟩ := hro; rfl
  have stillThere : ∀ l : List VolumeGroupContent,
      l.map (fun x => x.Name) = w.VolumeGroupContents.map (fun x => x.Name) →
      ¬ ∀ x ∈ l, x.Name ≠ vgc.Name := by
    intro l hl hall
    obtain ⟨x, hx, hn⟩ := mem_of_names_eq hl hmem
    exact hall x hx hn
  cases e with
  | some err =>
    dsimp only
    refine ⟨r2, fun _ => ⟨c2, g2, rfl, rfl⟩, fun h => absurd g2 h, fun h => absurd c2 h,
      fun h => absurd h (stillThere _ (by rw [c2])), fun h => by simp at h⟩
  | none =>
    dsimp only
    unfold VolumeGroupReconciler.RemoveVGCObject
    have n3 := RemoveFinalizerFromVGC_names w2 vgc
    have f3 := RemoveFinalizerFromVGC_within { contents := true } noRPC rfl w2 vgc
    generalize RemoveFinalizerFromVGC w2 vgc = x at n3 f3 ⊢
    obtain ⟨w3, c3, e3⟩ := x
    dsimp only at n3 f3 ⊢
    have g3 : w3.VolumeGroups = w.VolumeGroups := (f3.groups rfl).trans g2
    have r3 : w3.rpcs = w.rpcs ++ [⟨RPC.DeleteVolumeGroup vgc.VolumeGroupHandle, none⟩] := f3.rpcs_eq.trans r2
    have nm3 : w3.VolumeGroupContents.map (fun x => x.Name)
        = w.VolumeGroupContents.map (fun x => x.Name) := by rw [n3.1, c2]
    cases e3 with
    | some err =>
      dsimp only
      refine ⟨r3, fun h => absurd rfl h, fun h => absurd g3 h, fun _ => rfl,
        fun h => absurd h (stillThere _ nm3), fun h => by simp at h⟩
    | none =>
      dsimp only
      have d4 := clientDeleteVolumeGroupContent_spec w3 c3
      have f4 := clientDeleteVolumeGroupContent_within { contents := true } noRPC rfl w3 c3
      generalize clientDeleteVolumeGroupContent w3 c3 = x at d4 f4 ⊢
      obtain ⟨w4, e4⟩ := x
      dsimp only at d4 f4 ⊢
      have g4 : w4.VolumeGroups = w.VolumeGroups := (f4.groups rfl).trans g3
      have r4 : w4.rpcs = w.rpcs ++ [⟨RPC.DeleteVolumeGroup vgc.VolumeGroupHandle, none⟩] := f4.rpcs_eq.trans r3
      cases e4 with
      | some err =>
        dsimp only
        have c4 : w4.VolumeGroupContents = w3.VolumeGroupContents := d4.1 (by simp)
        refine ⟨r4, fun h => absurd rfl h, fun h => absurd g4 h, fun _ => rfl,
          fun h => absurd h (stillThere _ (by rw [c4]; exact nm3)), fun h => by simp at h⟩
      | none =>
        dsimp only
        have gone4 : ∀ x ∈ w4.VolumeGroupContents, x.Name ≠ vgc.Name := by
          intro x hx
          rw [← n3.2]
          exact d4.2 rfl x hx
        have f5 := RemoveFinalizerFromVG_within { groups := true } noRPC rfl w4 inst
        have k5 := RemoveFinalizerFromVG_ok w4 inst
        generalize RemoveFinalizerFromVG w4 inst = x at f5 k5 ⊢
        obtain ⟨w5, i5, e5⟩ := x
        dsimp only at f5 k5 ⊢
        have c5 : w5.VolumeGroupContents = w4.VolumeGroupContents := f5.contents rfl
        have r5 : w5.rpcs = w.rpcs ++ [⟨RPC.DeleteVolumeGroup vgc.VolumeGroupHandle, none⟩] := f5.rpcs_eq.trans r4
        have gone5 : ∀ x ∈ w5.VolumeGroupContents, x.Name ≠ vgc.Name := by
          rw [c5]; exact gone4
        cases e5 with
        | some err =>
          exact ⟨r5, fun h => absurd rfl h, fun _ => ⟨rfl, gone5⟩, fun _ => rfl,
            fun _ => ⟨rfl, rfl⟩, fun h => by simp at h⟩
        | none =>
          exact ⟨r5, fun h => absurd rfl h, fun _ => ⟨rfl, gone5⟩, fun _ => rfl,
            fun _ => ⟨rfl, rfl⟩, fun _ => ⟨rfl, gone5, fun hcon => k5 hcon rfl⟩⟩

/-- C14: in `removeInstance`, when the content named by the group is found, exactly one RPC is
issued, the DeleteGroup for the content's handle, and it comes first. If it fails, contents and
groups are stored as before, the in-memory group is untouched and the error is returned. A
content is written only after DeleteGroup succeeded; the content is gone from the store only if
its finalizer removal succeeded before; the stored groups change (the finalizer of the group is
removed) only after DeleteGroup succeeded and the content was deleted. When `removeInstance`
returns nil, DeleteGroup succeeded, the content is deleted and the stored group has lost the
finalizer. -/
theorem removeInstance_order (r : VolumeGroupReconciler) (w w1 : World) (inst : VolumeGroup)
    (secret : List (String × String)) (c : String) (vgc : VolumeGroupContent)
    (hc : inst.Spec.Source.VolumeGroupContentName = some c)
    (hget : GetVolumeGroupContent w c = (w1, .ok vgc)) :
    (r.removeInstance w inst secret).1.rpcs
      = w.rpcs ++ [{ call := RPC.DeleteVolumeGroup vgc.VolumeGroupHandle,
                     error := (nextFault w1).2 }] ∧
    ((nextFault w1).2 ≠ none →
      (r.removeInstance w inst secret).1.VolumeGroupContents = w.VolumeGroupContents ∧
      (r.removeInstance w inst secret).1.VolumeGroups = w.VolumeGroups ∧
      (r.removeInstance w inst secret).2.2 = (nextFault w1).2 ∧
      (r.removeInstance w inst secret).2.1 = inst) ∧
    ((r.removeInstance w inst secret).1.VolumeGroups ≠ w.VolumeGroups →
      (nextFault w1).2 = none ∧
      ∀ x ∈ (r.removeInstance w inst secret).1.VolumeGroupContents, x.Name ≠ vgc.Name) ∧
    ((r.removeInstance w inst secret).1.VolumeGroupContents ≠ w.VolumeGroupContents →
      (nextFault w1).2 = none) ∧
    ((∀ x ∈ (r.removeInstance w inst secret).1.VolumeGroupContents, x.Name ≠ vgc.Name) →
      (nextFault w1).2 = none ∧
      (RemoveFinalizerFromVGC (r.deleteVolumeGroup w1 vgc.VolumeGroupHandle secret).1 vgc).2.2
        = none) ∧
    ((r.removeInstance w inst secret).2.2 = none →
      (nextFault w1).2 = none ∧
      (∀ x ∈ (r.removeInstance w inst secret).1.VolumeGroupContents, x.Name ≠ vgc.Name) ∧
      (Contains inst.Finalizers VolumeGroupFinalizer = true →
        ∀ g ∈ (r.removeInstance w inst secret).1.VolumeGroups, vgKey g = vgKey inst →
          g.Finalizers = remove inst.Finalizers VolumeGroupFinalizer)) :=
  removeInstance_found r w w1 inst secret c vgc hc hget

/-- C14 witness: scenario S4. With nothing failing the log gets the successful DeleteGroup, the
content is deleted and the group loses its finalizer; when DeleteGroup fails the content and
the group keep their finalizers. -/
theorem removeInstance_order_witness :
    deletedGroup.Spec.Source.VolumeGroupContentName = some "vgc1" ∧
    GetVolumeGroupContent deletedGroupWorld "vgc1" = (deletedGroupWorld, .ok deletedGroupContent) ∧
    (exampleVGReconciler.removeInstance deletedGroupWorld deletedGroup []).1.rpcs
      = deletedGroupWorld.rpcs ++ [{ call := RPC.DeleteVolumeGroup "handle-1",
                                     error := (nextFault deletedGroupWorld).2 }] ∧
    (exampleVGReconciler.removeInstance deletedGroupWorld deletedGroup []).1.VolumeGroupContents
      = [] ∧
    (exampleVGReconciler.removeInstance deletedGroupWorld deletedGroup []).1.VolumeGroups.map
      (fun g => g.Finalizers) = [[]] ∧
    (exampleVGReconciler.removeInstance deleteFailsWorld deletedGroup []).1.VolumeGroupContents
      = [deletedGroupContent] ∧
    (exampleVGReconciler.removeInstance deleteFailsWorld deletedGroup []).1.VolumeGroups
      = [deletedGroup] :=
  ⟨rfl, rfl,
    (removeInstance_order exampleVGReconciler deletedGroupWorld deletedGroupWorld deletedGroup
      [] "vgc1" deletedGroupContent rfl rfl).1, rfl, rfl, rfl, rfl⟩

/-! ## Theorems: deleting a group whose content exists (C13) -/

theorem reconcileInstance_deleting_found (rm : RemoveByIndex) (r : VolumeGroupReconciler)
    (w w1 : World) (inst : VolumeGroup) (vgClass : VolumeGroupClass)
    (ps secret : List (String × String)) (now : Nat) (c : String) (vgc : VolumeGroupContent)
    (hz : IsZero inst.DeletionTimestamp = false)
    (hf : Contains inst.Finalizers VolumeGroupFinalizer = true)
    (hc : inst.Spec.Source.VolumeGroupContentName = some c)
    (hget : GetVolumeGroupContent w c = (w1, .ok vgc)) :
    (r.reconcileInstance rm w inst vgClass ps secret now).1.rpcs
      = w.rpcs ++ [{ call := RPC.DeleteVolumeGroup vgc.VolumeGroupHandle,
                     error := (nextFault w1).2 }] := by
  have h1 := (removeInstance_found r w w1 inst secret c vgc hc hget).1
  unfold VolumeGroupReconciler.reconcileInstance
  rw [hz, hf]
  simp only [Bool.false_eq_true, if_false, if_true]
  generalize r.removeInstance w inst secret = x at h1 ⊢
  obtain ⟨w2, i2, e2⟩ := x
  cases e2 with
  | none => exact h1
  | some err =>
    dsimp only at h1 ⊢
    have h2 := HandleErrorMessage_within groupStores noRPC rfl rfl w2 i2 (some err) deleteVG
    generalize HandleErrorMessage w2 i2 (some err) deleteVG = x at h2 ⊢
    obtain ⟨w3, i3, e3⟩ := x
    exact h2.rpcs_eq.trans h1

theorem removeInstance_missing (r : VolumeGroupReconciler) (w w1 : World) (inst : VolumeGroup)
    (secret : List (String × String)) (c : String) (err : Err)
    (hc : inst.Spec.Source.VolumeGroupContentName = some c)
    (hget : GetVolumeGroupContent w c = (w1, .error err)) :
    Within groupStores noRPC w (r.removeInstance w inst secret).1 := by
  have hro := (GetVolumeGroupContent_error w w1 c err hget).within groupStores noRPC
  unfold VolumeGroupReconciler.removeInstance
  rw [hc]
  dsimp only
  rw [hget]
  dsimp only
  by_cases hnf : IsNotFound (some err) = true
  · simp only [hnf, Bool.not_true, Bool.false_eq_true, if_false]
    have h2 := RemoveFinalizerFromVG_within groupStores noRPC rfl w1 inst
    generalize RemoveFinalizerFromVG w1 inst = x at h2 ⊢
    obtain ⟨w2, i2, e2⟩ := x
    cases e2 <;> exact hro.next h2
  · simp only [hnf, Bool.not_false, if_true]
    exact hro

theorem reconcileInstance_deleting_missing (rm : RemoveByIndex) (r : VolumeGroupReconciler)
    (w w1 : World) (inst : VolumeGroup) (vgClass : VolumeGroupClass)
    (ps secret : List (String × String)) (now : Nat) (c : String) (err : Err)
    (hz : IsZero inst.DeletionTimestamp = false)
    (hf : Contains inst.Finalizers VolumeGroupFinalizer = true)
    (hc : inst.Spec.Source.VolumeGroupContentName = some c)
    (hget : GetVolumeGroupContent w c = (w1, .error err)) :
    Within groupStores noRPC w (r.reconcileInstance rm w inst vgClass ps secret now).1 := by
  have h1 := removeInstance_missing r w w1 inst secret c err hc hget
  unfold VolumeGroupReconciler.reconcileInstance
  rw [hz, hf]
  simp only [Bool.false_eq_true, if_false, if_true]
  generalize r.removeInstance w inst secret = x at h1 ⊢
  obtain ⟨w2, i2, e2⟩ := x
  cases e2 with
  | none => exact h1
  | some e =>
    dsimp only at h1 ⊢
    have h3 := HandleErrorMessage_within groupStores noRPC rfl rfl w2 i2 (some e) deleteVG
    generalize HandleErrorMessage w2 i2 (some e) deleteVG = x at h3 ⊢
    obtain ⟨w3, i3, e3⟩ := x
    exact h1.next h3

/-- C13, the reading that holds: a group with a deletion timestamp, the finalizer and a content
name, static or not. When no content of that name is stored, `Reconcile` issues no RPC and
leaves the contents alone. When the content is stored, the only RPC that `Reconcile` can issue
is DeleteGroup for the handle of that content; and once the content lookup of the deletion
branch succeeds, that DeleteGroup is issued. -/
theorem Reconcile_deleting_issues_DeleteGroup (rm : RemoveByIndex) (r : VolumeGroupReconciler)
    (w : World) (req : String × String) (now : Nat) (c : String)
    (h : ∀ g ∈ w.VolumeGroups, vgKey g = req →
      IsZero g.DeletionTimestamp = false ∧ Contains g.Finalizers VolumeGroupFinalizer = true ∧
        g.Spec.Source.VolumeGroupContentName = some c) :
    ((∀ x ∈ w.VolumeGroupContents, x.Name ≠ c) →
      (r.Reconcile rm w req now).1.rpcs = w.rpcs ∧
      (r.Reconcile rm w req now).1.VolumeGroupContents = w.VolumeGroupContents) ∧
    (∀ vgc, w.VolumeGroupContents.find? (fun x => x.Name == c) = some vgc →
      (r.Reconcile rm w req now).1.rpcs = w.rpcs ∨
      ∃ e, (r.Reconcile rm w req now).1.rpcs
        = w.rpcs ++ [{ call := RPC.DeleteVolumeGroup vgc.VolumeGroupHandle, error := e }]) ∧
    (∀ (w1 w2 : World) (inst : VolumeGroup) (vgClass : VolumeGroupClass)
        (ps secret : List (String × String)) (vgc : VolumeGroupContent),
      IsZero inst.DeletionTimestamp = false →
      Contains inst.Finalizers VolumeGroupFinalizer = true →
      inst.Spec.Source.VolumeGroupContentName = some c →
      GetVolumeGroupContent w1 c = (w2, .ok vgc) →
      (r.reconcileInstance rm w1 inst vgClass ps secret now).1.rpcs
        = w1.rpcs ++ [{ call := RPC.DeleteVolumeGroup vgc.VolumeGroupHandle,
                        error := (nextFault w2).2 }]) := by
  refine ⟨?_, ?_, ?_⟩
  · intro hnone
    rcases Reconcile_prelude rm r w req now with hE | ⟨w1, inst, vgClass, ps, secret, hro, hmem,
      hkey, heq⟩
    · exact ⟨hE.rpcs_eq, hE.contents rfl⟩
    · obtain ⟨hz, hf, hc⟩ := h inst hmem hkey
      rw [heq]
      rcases hg : GetVolumeGroupContent w1 c with ⟨w2, x⟩
      cases x with
      | error err =>
        have := (hro.within groupStores noRPC).next
          (reconcileInstance_deleting_missing rm r w1 w2 inst vgClass ps secret now c err
            hz hf hc hg)
        exact ⟨this.rpcs_eq, this.contents rfl⟩
      | ok vgc =>
        obtain ⟨_, hn, hm, _⟩ := GetVolumeGroupContent_found w1 w2 c vgc hg
        have hm' : vgc ∈ w.VolumeGroupContents := by obtain ⟨f, rfl⟩ := hro; exact hm
        exact absurd hn (hnone vgc hm')
  · intro vgc hfind
    rcases Reconcile_prelude rm r w req now with hE | ⟨w1, inst, vgClass, ps, secret, hro, hmem,
      hkey, heq⟩
    · exact Or.inl hE.rpcs_eq
    · obtain ⟨hz, hf, hc⟩ := h inst hmem hkey
      rw [heq]
      rcases hg : GetVolumeGroupContent w1 c with ⟨w2, x⟩
      cases x with
      | error err =>
        have := (hro.within groupStores noRPC).next
          (reconcileInstance_deleting_missing rm r w1 w2 inst vgClass ps secret now c err
            hz hf hc hg)
        exact Or.inl this.rpcs_eq
      | ok vgc2 =>
        obtain ⟨_, _, _, hf2⟩ := GetVolumeGroupContent_found w1 w2 c vgc2 hg
        have hf3 : w.VolumeGroupContents.find? (fun x => x.Name == c) = some vgc2 := by
          obtain ⟨f, rfl⟩ := hro; exact hf2
        rw [hfind] at hf3
        simp only [Option.some.injEq] at hf3
        subst hf3
        right
        refine ⟨(nextFault w2).2, ?_⟩
        rw [reconcileInstance_deleting_found rm r w1 w2 inst vgClass ps secret now c vgc
          hz hf hc hg, hro.sameRPCs]
  · intro w1 w2 inst vgClass ps secret vgc hz hf hc hg
    exact reconcileInstance_deleting_found rm r w1 w2 inst vgClass ps secret now c vgc hz hf hc hg

/-- C13 witness: scenario S4, the deletion of a dynamic group: the premise holds, the content
is stored, and the reconcile issues exactly the DeleteGroup for its handle. -/
theorem Reconcile_deleting_issues_DeleteGroup_witness :
    (∀ g ∈ deletedGroupWorld.VolumeGroups, vgKey g = ("ns", "g1") →
      IsZero g.DeletionTimestamp = false ∧ Contains g.Finalizers VolumeGroupFinalizer = true ∧
        g.Spec.Source.VolumeGroupContentName = some "vgc1") ∧
    deletedGroupWorld.VolumeGroupContents.find? (fun x => x.Name == "vgc1")
      = some deletedGroupContent ∧
    ((exampleVGReconciler.Reconcile removeKeepingOrder deletedGroupWorld ("ns", "g1") 7).1.rpcs
        = deletedGroupWorld.rpcs ∨
      ∃ e, (exampleVGReconciler.Reconcile removeKeepingOrder deletedGroupWorld
          ("ns", "g1") 7).1.rpcs
        = deletedGroupWorld.rpcs ++
          [{ call := RPC.DeleteVolumeGroup deletedGroupContent.VolumeGroupHandle, error := e }]) ∧
    (exampleVGReconciler.Reconcile removeKeepingOrder deletedGroupWorld ("ns", "g1") 7).1.rpcs
      = [{ call := RPC.DeleteVolumeGroup "handle-1" }] :=
  ⟨by decide, rfl,
    (Reconcile_deleting_issues_DeleteGroup removeKeepingOrder exampleVGReconciler
      deletedGroupWorld ("ns", "g1") 7 "vgc1" (by decide)).2.1 deletedGroupContent rfl, rfl⟩

/-- C13, evaluated where it fails: scenario S6 at deletion. The group is static, bound to the
pre-existing content `vgc-static`; `Reconcile` issues DeleteGroup for the handle of that
content, deletes the content and removes the finalizer of the group. -/
theorem Reconcile_deleted_static_group_counterexample :
    deletedStaticGroup.Spec.Source.VolumeGroupContentName = some "vgc-static" ∧
    deletedStaticGroup.DeletionTimestamp = some 5 ∧
    Contains deletedStaticGroup.Finalizers VolumeGroupFinalizer = true ∧
    (exampleVGReconciler.Reconcile removeKeepingOrder deletedStaticGroupWorld
      ("ns", "g3") 7).2 = none ∧
    (exampleVGReconciler.Reconcile removeKeepingOrder deletedStaticGroupWorld
      ("ns", "g3") 7).1.rpcs = [{ call := RPC.DeleteVolumeGroup "handle-static" }] ∧
    (exampleVGReconciler.Reconcile removeKeepingOrder deletedStaticGroupWorld
      ("ns", "g3") 7).1.VolumeGroupContents = [] ∧
    (exampleVGReconciler.Reconcile removeKeepingOrder deletedStaticGroupWorld
      ("ns", "g3") 7).1.VolumeGroups.map (fun g => g.Finalizers) = [[]] :=
  ⟨rfl, rfl, rfl, rfl, rfl, rfl, rfl⟩

/-! ## Theorems: a failed CreateGroup (C17) -/

theorem createSuccessVolumeGroupEvent_within (S : Footprint) (p : RPCRecord → Prop)
    (he : S.events = true) (r : VolumeGroupReconciler) (w : World) (vg : VolumeGroup) :
    Within S p w (r.createSuccessVolumeGroupEvent w vg).1 := by
  unfold VolumeGroupReconciler.createSuccessVolumeGroupEvent
  exact HandleSuccessMessage_within S p he w vg _ _

theorem isModify_notCreate (rec : RPCRecord) (h : isModify rec) : notCreate rec := by
  obtain ⟨id, ids, h⟩ := h
  intro n hn
  rw [h] at hn
  cases hn

theorem isDelete_notCreate (rec : RPCRecord) (h : isDelete rec) : notCreate rec := by
  obtain ⟨id, h⟩ := h
  intro n hn
  rw [h] at hn
  cases hn

theorem mixes_spec_ready (s0 : VolumeGroupSpec) (r0 : Option Bool) :
    Mixes (fun g : VolumeGroup => g.Spec = s0 ∧ g.Status.Ready = r0) :=
  ⟨fun _ _ ha hb => ⟨ha.1, hb.2⟩, fun _ _ ha => ha, fun _ _ ha => ha⟩

/-- The steps of `Reconcile` after a successful CreateGroup issue no further CreateGroup. -/
theorem reconcileCreated_within (rm : RemoveByIndex) (r : VolumeGroupReconciler)
    (w : World) (inst : VolumeGroup) (vgClass : VolumeGroupClass) (volumeGroupName : String)
    (resp : Response) (t : Option Nat) :
    Within allStores notCreate w
      (r.reconcileCreated rm w inst vgClass volumeGroupName resp t).1 := by
  unfold VolumeGroupReconciler.reconcileCreated
  generalize GenerateVolumeGroupContent volumeGroupName inst vgClass resp
    (GetSecretCred vgClass).1 (GetSecretCred vgClass).2 = vgc
  have h1 := CreateVolumeGroupContent_within allStores notCreate rfl w vgc
  generalize CreateVolumeGroupContent w vgc = x at h1 ⊢
  obtain ⟨w1, e1⟩ := x
  cases e1 with
  | some err =>
    dsimp only at h1 ⊢
    have h2 := HandleErrorMessage_within allStores notCreate rfl rfl w1 inst (some err) createVGC
    generalize HandleErrorMessage w1 inst (some err) createVGC = x at h2 ⊢
    obtain ⟨w2, i2, e2⟩ := x
    exact h1.next h2
  | none =>
    dsimp only at h1 ⊢
    have h2 := updateItems_within notCreate r w1 inst t volumeGroupName
    generalize r.updateItems w1 inst t volumeGroupName = x at h2 ⊢
    obtain ⟨w2, i2, e2⟩ := x
    cases e2 with
    | some err => exact h1.next h2
    | none =>
      dsimp only at h2 ⊢
      have h3 := removeVolumesFromVG_within notCreate isModify_notCreate rm r w2 i2
      generalize r.removeVolumesFromVG rm w2 i2 = x at h3 ⊢
      obtain ⟨w3, i3, e3⟩ := x
      cases e3 with
      | some err =>
        dsimp only at h3 ⊢
        have h4 := HandleErrorMessage_within allStores notCreate rfl rfl w3 i3 (some err)
          removingPVC
        generalize HandleErrorMessage w3 i3 (some err) removingPVC = x at h4 ⊢
        obtain ⟨w4, i4, e4⟩ := x
        exact h1.next (h2.next (h3.next h4))
      | none =>
        dsimp only at h3 ⊢
        have h4 := addMatchingVolumesToVG_within notCreate isModify_notCreate rm r w3 i3
        generalize r.addMatchingVolumesToVG rm w3 i3 = x at h4 ⊢
        obtain ⟨w4, i4, e4⟩ := x
        cases e4 with
        | some err =>
          dsimp only at h4 ⊢
          have h5 := HandleErrorMessage_within allStores notCreate rfl rfl w4 i4 (some err)
            addingPVC
          generalize HandleErrorMessage w4 i4 (some err) addingPVC = x at h5 ⊢
          obtain ⟨w5, i5, e5⟩ := x
          exact h1.next (h2.next (h3.next (h4.next h5)))
        | none =>
          dsimp only at h4 ⊢
          have h5 := createSuccessVolumeGroupEvent_within allStores notCreate rfl r w4 i4
          generalize r.createSuccessVolumeGroupEvent w4 i4 = x at h5 ⊢
          obtain ⟨w5, e5⟩ := x
          dsimp only at h5 ⊢
          have h6 := HandleErrorMessage_within allStores notCreate rfl rfl w5 i4 none vgReconcile
          generalize HandleErrorMessage w5 i4 none vgReconcile = x at h6 ⊢
          obtain ⟨w6, i6, e6⟩ := x
          exact h1.next (h2.next (h3.next (h4.next (h5.next h6))))

theorem mem_drop_append_singleton {α : Type} (l : List α) (a b : α)
    (h : b ∈ (l ++ [a]).drop l.length) : b = a := by
  rw [List.drop_left] at h
  simpa using h

theorem reconcileDynamic_create_failure (rm : RemoveByIndex) (r : VolumeGroupReconciler)
    (w1 w2 : World) (inst : VolumeGroup) (vgClass : VolumeGroupClass)
    (ps secret : List (String × String)) (t : Option Nat) (k : String × String)
    (s0 : VolumeGroupSpec) (r0 : Option Bool)
    (hT : Tracks (fun g : VolumeGroup => g.Spec = s0 ∧ g.Status.Ready = r0) k groupStores noRPC
      w1 w2 inst)
    (name : String) (e : Err)
    (hfail : ({ call := RPC.CreateVolumeGroup name, error := some e } : RPCRecord) ∈
      (r.reconcileDynamic rm w2 inst vgClass ps secret t).1.rpcs.drop w1.rpcs.length) :
    (r.reconcileDynamic rm w2 inst vgClass ps secret t).1.VolumeGroupContents
      = w1.VolumeGroupContents ∧
    (r.reconcileDynamic rm w2 inst vgClass ps secret t).1.rpcs
      = w1.rpcs ++ [{ call := RPC.CreateVolumeGroup name, error := some e }] ∧
    Keyed k w1 (r.reconcileDynamic rm w2 inst vgClass ps secret t).1 ∧
    ∀ g ∈ (r.reconcileDynamic rm w2 inst vgClass ps secret t).1.VolumeGroups, vgKey g = k →
      g.Spec = s0 ∧ g.Status.Ready = r0 := by
  obtain ⟨hw, hk, hkey, hP, hst⟩ := hT
  have r2 : w2.rpcs = w1.rpcs := hw.rpcs_eq
  unfold VolumeGroupReconciler.reconcileDynamic at hfail ⊢
  rcases hn : makeVolumeGroupName VolumeGroupNamePrefix inst.UID with ⟨n, en⟩
  rw [hn] at hfail
  cases en with
  | some err =>
    exfalso
    dsimp only at hfail
    have h2 := HandleErrorMessage_within groupStores noRPC rfl rfl w2 inst (some err) createVG
    generalize HandleErrorMessage w2 inst (some err) createVG = x at h2 hfail
    obtain ⟨w3, i3, e3⟩ := x
    exact (hw.next h2).mem_drop hfail
  | none =>
    dsimp only at hfail ⊢
    obtain ⟨w2', hro, hw3, _⟩ : ∃ w2', ReadOnly w2 w2' ∧
        (r.createVolumeGroup w2 n ps secret).1 = { w2' with rpcs := w2'.rpcs ++
          [⟨RPC.CreateVolumeGroup n, (r.createVolumeGroup w2 n ps secret).2.Error⟩] } ∧ True := by
      obtain ⟨w2', a, b⟩ := createVolumeGroup_spec r w2 n ps secret
      exact ⟨w2', a, b, trivial⟩
    generalize r.createVolumeGroup w2 n ps secret = x at hw3 hfail ⊢
    obtain ⟨w3, resp⟩ := x
    dsimp only at hw3 hfail ⊢
    have g3 : w3.VolumeGroups = w2.VolumeGroups := by
      rw [hw3]; obtain ⟨f, rfl⟩ := hro; rfl
    have c3 : w3.VolumeGroupContents = w2.VolumeGroupContents := by
      rw [hw3]; obtain ⟨f, rfl⟩ := hro; rfl
    have r3 : w3.rpcs = w1.rpcs ++ [⟨RPC.CreateVolumeGroup n, resp.Error⟩] := by
      rw [hw3, ← r2]; obtain ⟨f, rfl⟩ := hro; rfl
    cases hre : resp.Error with
    | none =>
      exfalso
      rw [hre] at hfail r3
      dsimp only at hfail
      have h4 := reconcileCreated_within rm r w3 inst vgClass n resp t
      obtain ⟨more, hm, hall⟩ := h4.rpcs
      rw [hm, r3, List.append_assoc, List.drop_left] at hfail
      rcases List.mem_append.1 hfail with h | h
      · simp at h
      · exact hall _ h name rfl
    | some rpcErr =>
      rw [hre] at hfail r3
      dsimp only at hfail ⊢
      have J3 : Tracks (fun g : VolumeGroup => g.Spec = s0 ∧ g.Status.Ready = r0) k groupStores
          noRPC w3 w3 inst :=
        ⟨Within.noChange _ _ _, Keyed.identity _ _, hkey, hP, fun g hg hk' => hst g (g3 ▸ hg) hk'⟩
      have h4 := HandleErrorMessage_stable
        (Tracks.stable _ (mixes_spec_ready s0 r0) k groupStores noRPC rfl w3)
        (fun w a m h => Tracks.setError (mixes_spec_ready s0 r0) w a m h)
        (fun w a ev h => Tracks.event rfl w a ev h) w3 inst (some rpcErr) createVG J3
      generalize HandleErrorMessage w3 inst (some rpcErr) createVG = x at h4 hfail ⊢
      obtain ⟨w4, i4, e4⟩ := x
      dsimp only at h4 hfail ⊢
      obtain ⟨hw4, hk4, _, _, hst4⟩ := h4
      have r4 : w4.rpcs = w1.rpcs ++ [⟨RPC.CreateVolumeGroup n, some rpcErr⟩] :=
        hw4.rpcs_eq.trans r3
      rw [r4] at hfail
      have := mem_drop_append_singleton _ _ _ hfail
      rw [r4, this]
      refine ⟨?_, rfl, ?_, hst4⟩
      · rw [hw4.contents rfl, c3, hw.contents rfl]
      · exact hk.thenKeyed ((Keyed.of_eq g3).thenKeyed hk4)

theorem reconcileInstance_create_failure (rm : RemoveByIndex) (r : VolumeGroupReconciler)
    (w1 : World) (inst : VolumeGroup) (vgClass : VolumeGroupClass)
    (ps secret : List (String × String)) (now : Nat) (k : String × String)
    (hT : Tracks (fun g : VolumeGroup => g.Spec = inst.Spec ∧ g.Status.Ready = inst.Status.Ready)
      k groupStores noRPC w1 w1 inst)
    (name : String) (e : Err)
    (hfail : ({ call := RPC.CreateVolumeGroup name, error := some e } : RPCRecord) ∈
      (r.reconcileInstance rm w1 inst vgClass ps secret now).1.rpcs.drop w1.rpcs.length) :
    (r.reconcileInstance rm w1 inst vgClass ps secret now).1.VolumeGroupContents
      = w1.VolumeGroupContents ∧
    (r.reconcileInstance rm w1 inst vgClass ps secret now).1.rpcs
      = w1.rpcs ++ [{ call := RPC.CreateVolumeGroup name, error := some e }] ∧
    Keyed k w1 (r.reconcileInstance rm w1 inst vgClass ps secret now).1 ∧
    (∀ g ∈ (r.reconcileInstance rm w1 inst vgClass ps secret now).1.VolumeGroups, vgKey g = k →
      g.Spec = inst.Spec ∧ g.Status.Ready = inst.Status.Ready) ∧
    inst.Spec.Source.VolumeGroupContentName = none := by
  unfold VolumeGroupReconciler.reconcileInstance at hfail ⊢
  by_cases hz : IsZero inst.DeletionTimestamp = true
  · rw [if_pos hz] at hfail ⊢
    have hA := AddFinalizerToVG_stable
      (Tracks.stable _ (mixes_spec_ready inst.Spec inst.Status.Ready) k groupStores noRPC rfl w1)
      w1 inst hT
    generalize AddFinalizerToVG w1 inst = x at hA hfail ⊢
    obtain ⟨w2, i2, e2⟩ := x
    dsimp only at hA
    cases e2 with
    | some err =>
      exfalso
      dsimp only at hfail
      have h3 := HandleErrorMessage_within groupStores noRPC rfl rfl w2 i2 (some err) createVG
      generalize HandleErrorMessage w2 i2 (some err) createVG = x at h3 hfail
      obtain ⟨w3, i3, e3⟩ := x
      exact (hA.1.next h3).mem_drop hfail
    | none =>
      dsimp only at hfail ⊢
      cases hcn : i2.Spec.Source.VolumeGroupContentName with
      | some c =>
        exfalso
        obtain ⟨h3, hb⟩ := handleStaticProvisionedVG_static noRPC r w2 i2 (some now) vgClass
          (by rw [hcn]; simp)
        generalize r.handleStaticProvisionedVG w2 i2 (some now) vgClass = x at h3 hb hfail
        obtain ⟨w3, i3, e3, b⟩ := x
        dsimp only at h3 hb hfail
        subst hb
        simp only [if_true] at hfail
        exact (hA.1.toAll.next h3).mem_drop hfail
      | none =>
        rw [handleStaticProvisionedVG_dynamic r w2 i2 (some now) vgClass hcn] at hfail ⊢
        simp only [Bool.false_eq_true, if_false] at hfail ⊢
        obtain ⟨a, b, c, d⟩ := reconcileDynamic_create_failure rm r w1 w2 i2 vgClass ps secret
          (some now) k inst.Spec inst.Status.Ready hA name e hfail
        refine ⟨a, b, c, d, ?_⟩
        rw [← hA.2.2.2.1.1]
        exact hcn
  · exfalso
    rw [if_neg hz] at hfail
    split at hfail
    · have h1 := removeInstance_within allStores notCreate rfl rfl isDelete_notCreate r w1 inst
        secret
      generalize r.removeInstance w1 inst secret = x at h1 hfail
      obtain ⟨w2, i2, e2⟩ := x
      cases e2 with
      | none => exact h1.mem_drop hfail name rfl
      | some err =>
        dsimp only at h1 hfail
        have h3 := HandleErrorMessage_within allStores notCreate rfl rfl w2 i2 (some err) deleteVG
        generalize HandleErrorMessage w2 i2 (some err) deleteVG = x at h3 hfail
        obtain ⟨w3, i3, e3⟩ := x
        exact (h1.next h3).mem_drop hfail name rfl
    · exact (Within.noChange allStores noRPC w1).mem_drop hfail

/-- C17: when the keys of the stored groups are distinct and the reconcile has logged a
CreateGroup RPC that returned an error, then that record is the only RPC of the reconcile (no
ModifyGroup follows), the stored contents are as before (no content was created), and every
stored group keeps its key, its spec and its `status.ready`; the reconciled group has no
`spec.source.volumeGroupContentName`. -/
theorem Reconcile_create_failure (rm : RemoveByIndex) (r : VolumeGroupReconciler) (w : World)
    (req : String × String) (now : Nat) (hkeys : (w.VolumeGroups.map vgKey).Nodup)
    (name : String) (e : Err)
    (hfail : ({ call := RPC.CreateVolumeGroup name, error := some e } : RPCRecord) ∈
      (r.Reconcile rm w req now).1.rpcs.drop w.rpcs.length) :
    (r.Reconcile rm w req now).1.VolumeGroupContents = w.VolumeGroupContents ∧
    (r.Reconcile rm w req now).1.rpcs
      = w.rpcs ++ [{ call := RPC.CreateVolumeGroup name, error := some e }] ∧
    (∃ f : VolumeGroup → VolumeGroup,
      (r.Reconcile rm w req now).1.VolumeGroups = w.VolumeGroups.map f ∧
      ∀ g ∈ w.VolumeGroups, vgKey (f g) = vgKey g ∧ (f g).Spec = g.Spec ∧
        (f g).Status.Ready = g.Status.Ready ∧ (vgKey g ≠ req → f g = g)) ∧
    ∀ g ∈ (r.Reconcile rm w req now).1.VolumeGroups, vgKey g = req →
      g.Spec.Source.VolumeGroupContentName = none := by
  rcases Reconcile_prelude rm r w req now with hE | ⟨w1, inst, vgClass, ps, secret, hro, hmem,
    hkey, heq⟩
  · exact absurd (hE.mem_drop hfail) (fun h => h)
  · rw [heq] at hfail ⊢
    have hg1 : w1.VolumeGroups = w.VolumeGroups := by obtain ⟨f, rfl⟩ := hro; rfl
    have hc1 : w1.VolumeGroupContents = w.VolumeGroupContents := by
      obtain ⟨f, rfl⟩ := hro; rfl
    have hr1 : w1.rpcs = w.rpcs := hro.sameRPCs
    have J0 : Tracks (fun g : VolumeGroup =>
        g.Spec = inst.Spec ∧ g.Status.Ready = inst.Status.Ready)
        req groupStores noRPC w1 w1 inst := by
      refine ⟨Within.noChange _ _ _, Keyed.identity _ _, hkey, ⟨rfl, rfl⟩, fun g hg hk => ?_⟩
      rw [hg1] at hg
      rw [eq_of_vgKey_eq hkeys hg hmem (hk.trans hkey.symm)]
      exact ⟨rfl, rfl⟩
    rw [← hr1] at hfail
    obtain ⟨a, b, ⟨f, hf, pf⟩, d, hn⟩ := reconcileInstance_create_failure rm r w1 inst vgClass ps
      secret now req J0 name e hfail
    refine ⟨a.trans hc1, by rw [b, hr1], ⟨f, by rw [hf, hg1], fun g hg => ?_⟩, fun g hg hk => ?_⟩
    · refine ⟨(pf g).1, ?_, ?_, (pf g).2⟩
      · by_cases hk : vgKey g = req
        · have hfg : f g ∈ (r.reconcileInstance rm w1 inst vgClass ps secret now).1.VolumeGroups := by
            rw [hf, hg1]; exact List.mem_map_of_mem _ hg
          rw [(d (f g) hfg ((pf g).1.trans hk)).1,
            eq_of_vgKey_eq hkeys hg hmem (hk.trans hkey.symm)]
        · rw [(pf g).2 hk]
      · by_cases hk : vgKey g = req
        · have hfg : f g ∈ (r.reconcileInstance rm w1 inst vgClass ps secret now).1.VolumeGroups := by
            rw [hf, hg1]; exact List.mem_map_of_mem _ hg
          rw [(d (f g) hfg ((pf g).1.trans hk)).2,
            eq_of_vgKey_eq hkeys hg hmem (hk.trans hkey.symm)]
        · rw [(pf g).2 hk]
    · rw [(d g hg hk).1]; exact hn

/-- C17 witness: scenario S5, where CreateGroup is answered with Unavailable: the error is
written to the status of the group, and nothing else happens. -/
theorem Reconcile_create_failure_witness :
    (createFailsWorld.VolumeGroups.map vgKey).Nodup ∧
    (exampleVGReconciler.Reconcile removeKeepingOrder createFailsWorld ("ns", "g1") 7).1.rpcs
      = createFailsWorld.rpcs ++
        [{ call := RPC.CreateVolumeGroup "vg-uid-1",
           error := some (Err.Unavailable "driver unavailable") }] ∧
    (exampleVGReconciler.Reconcile removeKeepingOrder createFailsWorld
      ("ns", "g1") 7).1.VolumeGroups.map (fun g => g.Status.Error)
        = [some "driver unavailable"] :=
  ⟨by decide,
    (Reconcile_create_failure removeKeepingOrder exampleVGReconciler createFailsWorld
      ("ns", "g1") 7 (by decide) "vg-uid-1" (Err.Unavailable "driver unavailable")
      (List.Mem.head _)).2.1, rfl⟩

/-! ## Theorems: entries of `pvcList` stay distinct (C25) -/

theorem appendPVC_of_part (l : List PersistentVolumeClaim) (p : PersistentVolumeClaim)
    (h : IsPVCPartOfVG p l = true) : appendPVC l p = l := by
  unfold appendPVC
  rw [← IsPVCPartOfVG_eq_any, h]
  rfl

theorem appendPVC_of_not_part (l : List PersistentVolumeClaim) (p : PersistentVolumeClaim)
    (h : IsPVCPartOfVG p l = false) : appendPVC l p = l ++ [p] := by
  unfold appendPVC
  rw [← IsPVCPartOfVG_eq_any, h]
  rfl

theorem appendPVC_pairwise (l : List PersistentVolumeClaim) (p : PersistentVolumeClaim)
    (h : l.Pairwise (fun a b => sameClaim a b = false)) :
    (appendPVC l p).Pairwise (fun a b => sameClaim a b = false) := by
  cases hp : IsPVCPartOfVG p l with
  | true => rw [appendPVC_of_part l p hp]; exact h
  | false =>
    rw [appendPVC_of_not_part l p hp, List.pairwise_append]
    refine ⟨h, List.pairwise_singleton _ _, ?_⟩
    intro a ha b hb
    rw [List.mem_singleton] at hb
    subst hb
    rw [IsPVCPartOfVG_eq_any] at hp
    have := List.any_eq_false.1 hp a ha
    rw [sameClaim_comm]
    simpa using this

theorem appendMultiplePVCs_pairwise (ps l : List PersistentVolumeClaim)
    (h : l.Pairwise (fun a b => sameClaim a b = false)) :
    (appendMultiplePVCs l ps).Pairwise (fun a b => sameClaim a b = false) := by
  induction ps generalizing l with
  | nil => exact h
  | cons p ps ih =>
    have : appendMultiplePVCs l (p :: ps) = appendMultiplePVCs (appendPVC l p) ps := rfl
    rw [this]
    exact ih _ (appendPVC_pairwise l p h)

/-- C25: when no two entries of `pvcList` have the same namespace and name, the same holds of
`appendPVC pvcList p` and of `appendMultiplePVCs pvcList ps`, for every claim `p` and every list
`ps`, repeats in `ps` included. `appendPVC` returns the list as it is when `p` is recorded and
appends `p` at the end otherwise, so `p` is always recorded in `appendPVC pvcList p`. -/
theorem appendPVC_keeps_entries_distinct (pvcList ps : List PersistentVolumeClaim)
    (p : PersistentVolumeClaim)
    (h : pvcList.Pairwise (fun a b => sameClaim a b = false)) :
    (appendPVC pvcList p).Pairwise (fun a b => sameClaim a b = false) ∧
    (appendMultiplePVCs pvcList ps).Pairwise (fun a b => sameClaim a b = false) ∧
    (IsPVCPartOfVG p pvcList = true → appendPVC pvcList p = pvcList) ∧
    (IsPVCPartOfVG p pvcList = false → appendPVC pvcList p = pvcList ++ [p]) ∧
    IsPVCPartOfVG p (appendPVC pvcList p) = true := by
  refine ⟨appendPVC_pairwise pvcList p h, appendMultiplePVCs_pairwise ps pvcList h,
    appendPVC_of_part pvcList p, appendPVC_of_not_part pvcList p, ?_⟩
  rw [IsPVCPartOfVG_appendPVC, sameClaim_self, Bool.or_true]

/-- C25 witness: a list with the two distinct claims `a` and `b`; appending `[b, a, b]` changes
nothing, and the entries stay distinct. -/
theorem appendPVC_keeps_entries_distinct_witness :
    [claimA, claimB].Pairwise (fun a b => sameClaim a b = false) ∧
    appendMultiplePVCs [claimA, claimB] [claimB, claimA, claimB] = [claimA, claimB] ∧
    (appendMultiplePVCs [claimA, claimB] [claimB, claimA, claimB]).Pairwise
      (fun a b => sameClaim a b = false) :=
  ⟨by decide, by decide,
    (appendPVC_keeps_entries_distinct [claimA, claimB] [claimB, claimA, claimB] claimA
      (by decide)).2.1⟩

/-! ## Theorems: the driver-filtered claim list (C23) -/

theorem IsPVCHasMatchingDriver_eq (w : World) (pvc : PersistentVolumeClaim) (driver : String)
    (h : (IsPVCHasMatchingDriver w pvc driver).2.2 = none) :
    (IsPVCHasMatchingDriver w pvc driver).2.1 = hasMatchingProvisioner w driver pvc := by
  revert h
  unfold IsPVCHasMatchingDriver getStorageClassProvisioner getStorageClass hasMatchingProvisioner
  cases hn : pvc.Spec.StorageClassName with
  | none => intro h; simp at h
  | some scName =>
    dsimp only
    have hro := nextFault_readOnly w
    rcases hN : nextFault w with ⟨w1, e⟩
    rw [hN] at hro
    obtain ⟨f, rfl⟩ := hro
    cases e with
    | some err => intro h; simp at h
    | none =>
      dsimp only
      cases hc : w.StorageClasses.find? (fun sc => sc.Name == scName) with
      | none => intro h; simp at h
      | some sc => intro _; rfl

theorem hasMatchingProvisioner_readOnly {w w' : World} (h : ReadOnly w w') (driver : String) :
    hasMatchingProvisioner w' driver = hasMatchingProvisioner w driver := by
  obtain ⟨f, rfl⟩ := h; rfl

theorem getProvisionedPVCList_spec (w : World) (driver : String)
    (pvcs : List PersistentVolumeClaim) :
    ∀ (w0 : World) (acc : List PersistentVolumeClaim), ReadOnly w w0 →
      ((getProvisionedPVCList driver w0 pvcs acc).2.2 = none →
        (getProvisionedPVCList driver w0 pvcs acc).2.1
          = acc ++ pvcs.filter (hasMatchingProvisioner w driver)) ∧
      (∀ err, (getProvisionedPVCList driver w0 pvcs acc).2.2 = some err →
        (getProvisionedPVCList driver w0 pvcs acc).2.1 = [] ∧
        ∃ pvc ∈ pvcs, ∃ w1, ReadOnly w w1 ∧
          (IsPVCHasMatchingDriver w1 pvc driver).2.2 = some err) := by
  induction pvcs with
  | nil => intro w0 acc _; simp [getProvisionedPVCList]
  | cons pvc rest ih =>
    intro w0 acc h
    rw [getProvisionedPVCList]
    have hro := IsPVCHasMatchingDriver_readOnly w0 pvc driver
    have hm := IsPVCHasMatchingDriver_eq w0 pvc driver
    have he : ∀ err, (IsPVCHasMatchingDriver w0 pvc driver).2.2 = some err →
        ∃ p ∈ pvc :: rest, ∃ w1, ReadOnly w w1 ∧
          (IsPVCHasMatchingDriver w1 p driver).2.2 = some err :=
      fun err hh => ⟨pvc, List.mem_cons_self _ _, w0, h, hh⟩
    generalize IsPVCHasMatchingDriver w0 pvc driver = r at hro hm he ⊢
    obtain ⟨w1, b, e⟩ := r
    simp only at hro hm he
    cases e with
    | some err =>
      refine ⟨fun hh => by simp at hh, fun err2 hh => ?_⟩
      simp only [Option.some.injEq] at hh
      subst hh
      exact ⟨rfl, he err rfl⟩
    | none =>
      have hb := hm rfl
      rw [hasMatchingProvisioner_readOnly h] at hb
      simp only
      by_cases hbt : b = true
      · simp only [hbt, if_true]
        obtain ⟨i1, i2⟩ := ih w1 (acc ++ [pvc]) (h.andThen hro)
        refine ⟨fun hn => ?_, fun err hh => ?_⟩
        · rw [i1 hn, List.filter_cons]
          rw [hbt] at hb
          simp [← hb]
        · obtain ⟨j1, p, hp, j2⟩ := i2 err hh
          exact ⟨j1, p, List.mem_cons_of_mem _ hp, j2⟩
      · simp only [hbt, Bool.false_eq_true, if_false]
        obtain ⟨i1, i2⟩ := ih w1 acc (h.andThen hro)
        refine ⟨fun hn => ?_, fun err hh => ?_⟩
        · rw [i1 hn, List.filter_cons]
          simp only [Bool.not_eq_true] at hbt
          rw [hbt] at hb
          simp [← hb]
        · obtain ⟨j1, p, hp, j2⟩ := i2 err hh
          exact ⟨j1, p, List.mem_cons_of_mem _ hp, j2⟩

theorem IsPVCHasMatchingDriver_of_no_faults (w : World) (pvc : PersistentVolumeClaim)
    (driver : String) (h : w.faults = []) (scName : String) (sc : StorageClass)
    (hn : pvc.Spec.StorageClassName = some scName)
    (hs : w.StorageClasses.find? (fun sc => sc.Name == scName) = some sc) :
    IsPVCHasMatchingDriver w pvc driver = (w, sc.Provisioner == driver, none) := by
  unfold IsPVCHasMatchingDriver getStorageClassProvisioner getStorageClass
  rw [hn]
  simp only
  rw [nextFault_of_no_faults w h]
  simp only [hs]

theorem getProvisionedPVCList_of_no_faults (driver : String) (w : World) (h : w.faults = [])
    (pvcs : List PersistentVolumeClaim)
    (hsc : ∀ pvc ∈ pvcs, ∃ scName sc, pvc.Spec.StorageClassName = some scName ∧
      w.StorageClasses.find? (fun sc => sc.Name == scName) = some sc) :
    ∀ acc : List PersistentVolumeClaim,
      (getProvisionedPVCList driver w pvcs acc).2.2 = none := by
  induction pvcs with
  | nil => intro acc; rfl
  | cons pvc rest ih =>
    intro acc
    obtain ⟨scName, sc, hn, hs⟩ := hsc pvc (List.mem_cons_self _ _)
    rw [getProvisionedPVCList, IsPVCHasMatchingDriver_of_no_faults w pvc driver h scName sc hn hs]
    simp only
    have ih2 := ih (fun p hp => hsc p (List.mem_cons_of_mem _ hp))
    split
    · exact ih2 _
    · exact ih2 _

theorem getProvisionedPVCList_cons_error (driver : String) (w : World)
    (pvc : PersistentVolumeClaim) (rest acc : List PersistentVolumeClaim) (err : Err)
    (h : (IsPVCHasMatchingDriver w pvc driver).2.2 = some err) :
    getProvisionedPVCList driver w (pvc :: rest) acc
      = ((IsPVCHasMatchingDriver w pvc driver).1, [], some err) := by
  rw [getProvisionedPVCList]
  generalize IsPVCHasMatchingDriver w pvc driver = r at h ⊢
  obtain ⟨w1, b, e⟩ := r
  simp only at h
  subst h
  rfl

/-- C23: `GetPVCList` only reads. When it returns without error its list is
`driverFilteredPVCs`: the stored claims, in the store's order, whose phase is Bound and whose
storage class has the driver as provisioner, so every returned claim has both properties and
every stored claim with both is returned. With no failure pending and the storage class of every
Bound claim stored, it returns without error. When it fails the list is empty, and the error is
the one of the `List` call or of the storage-class lookup of a Bound claim; in the loop such an
error ends the listing with an empty list, whatever was collected before. -/
theorem GetPVCList_spec (w : World) (driver : String) :
    ReadOnly w (GetPVCList w driver).1 ∧
    ((GetPVCList w driver).2.2 = none →
      (GetPVCList w driver).2.1 = driverFilteredPVCs w driver) ∧
    (∀ pvc, pvc ∈ driverFilteredPVCs w driver ↔
      pvc ∈ w.PersistentVolumeClaims ∧ pvc.Status.Phase = ClaimBound ∧
        ∃ scName sc, pvc.Spec.StorageClassName = some scName ∧
          w.StorageClasses.find? (fun sc => sc.Name == scName) = some sc ∧
          sc.Provisioner = driver) ∧
    (w.faults = [] →
      (∀ pvc ∈ w.PersistentVolumeClaims, pvc.Status.Phase = ClaimBound →
        ∃ scName sc, pvc.Spec.StorageClassName = some scName ∧
          w.StorageClasses.find? (fun sc => sc.Name == scName) = some sc) →
      (GetPVCList w driver).2.2 = none) ∧
    (∀ err, (GetPVCList w driver).2.2 = some err →
      (GetPVCList w driver).2.1 = [] ∧
      ((nextFault w).2 = some err ∨
        ∃ pvc ∈ w.PersistentVolumeClaims, pvc.Status.Phase = ClaimBound ∧
          ∃ w1, ReadOnly w w1 ∧ (IsPVCHasMatchingDriver w1 pvc driver).2.2 = some err)) ∧
    (∀ (w1 : World) (pvc : PersistentVolumeClaim) (rest acc : List PersistentVolumeClaim)
        (err : Err),
      (IsPVCHasMatchingDriver w1 pvc driver).2.2 = some err →
      getProvisionedPVCList driver w1 (pvc :: rest) acc
        = ((IsPVCHasMatchingDriver w1 pvc driver).1, [], some err)) := by
  refine ⟨GetPVCList_readOnly w driver, ?_, ?_, ?_, ?_, ?_⟩
  · unfold GetPVCList getPVCList getBoundPVCList
    have hro := nextFault_readOnly w
    rcases hN : nextFault w with ⟨w1, e⟩
    rw [hN] at hro
    cases e with
    | some err => intro h; simp at h
    | none =>
      simp only
      intro hn
      rw [(getProvisionedPVCList_spec w driver _ w1 [] hro).1 hn]
      obtain ⟨f, rfl⟩ := hro
      simp only [List.nil_append, driverFilteredPVCs, List.filter_filter]
      congr 1
      funext pvc
      rw [Bool.and_comm]
  · intro pvc
    unfold driverFilteredPVCs hasMatchingProvisioner
    rw [List.mem_filter]
    simp only [Bool.and_eq_true, beq_iff_eq]
    constructor
    · rintro ⟨hm, hb, hp⟩
      refine ⟨hm, hb, ?_⟩
      cases hn : pvc.Spec.StorageClassName with
      | none => rw [hn] at hp; simp at hp
      | some scName =>
        rw [hn] at hp
        simp only at hp
        cases hs : w.StorageClasses.find? (fun sc => sc.Name == scName) with
        | none => rw [hs] at hp; simp at hp
        | some sc =>
          rw [hs] at hp
          exact ⟨scName, sc, rfl, hs, by simpa using hp⟩
    · rintro ⟨hm, hb, scName, sc, hn, hs, hp⟩
      refine ⟨hm, hb, ?_⟩
      rw [hn]
      simp only [hs]
      simpa using hp
  · intro hf hsc
    unfold GetPVCList getPVCList getBoundPVCList
    rw [nextFault_of_no_faults w hf]
    simp only
    apply getProvisionedPVCList_of_no_faults driver w hf
    intro pvc hp
    rw [List.mem_filter] at hp
    exact hsc pvc hp.1 (by simpa using hp.2)
  · intro err
    unfold GetPVCList getPVCList getBoundPVCList
    have hro := nextFault_readOnly w
    rcases hN : nextFault w with ⟨w1, e⟩
    rw [hN] at hro
    cases e with
    | some e1 =>
      intro h
      simp only [Option.some.injEq] at h
      subst h
      exact ⟨rfl, Or.inl rfl⟩
    | none =>
      simp only
      intro h
      obtain ⟨h1, pvc, hp, w2, h2, h3⟩ :=
        (getProvisionedPVCList_spec w driver _ w1 [] hro).2 err h
      refine ⟨h1, Or.inr ⟨pvc, ?_, ?_, w2, h2, h3⟩⟩
      · obtain ⟨f, rfl⟩ := hro
        exact (List.mem_filter.1 hp).1
      · simpa using (List.mem_filter.1 hp).2
  · intro w1 pvc rest acc err h
    exact getProvisionedPVCList_cons_error driver w1 pvc rest acc err h

theorem GetPVCList_mixedClaimsWorld :
    (GetPVCList mixedClaimsWorld "csi.example.com").2.2 = none ∧
    (GetPVCList mixedClaimsWorld "csi.example.com").2.1.map (fun pvc => pvc.Name)
      = ["p1", "p4"] ∧
    (GetPVCList
      { mixedClaimsWorld with faults := [Fault.none, Fault.none, Fault.unavailable "down"] }
      "csi.example.com").2 = ([], some (Err.Unavailable "down")) :=
  ⟨rfl, rfl, rfl⟩

/-! ## Evaluations: deleting a group that was never bound (C24) -/

/-- C24, evaluated where it fails. The reconcile of scenario S5, in which CreateGroup fails,
leaves the group with the finalizer and without a content name; the user then deletes the
group. `removeInstance` dereferences the missing content name: the reconcile ends in a nil
dereference instead of completing, no RPC is issued and the stored group keeps its finalizer,
so the object can never be removed. -/
theorem removeInstance_unbound_group_dereferences_nil :
    ((exampleVGReconciler.Reconcile removeKeepingOrder createFailsWorld
        ("ns", "g1") 7).1.VolumeGroups.map
      (fun g => { g with DeletionTimestamp := some 9 })) = [deletedUnboundGroup] ∧
    IsZero deletedUnboundGroup.DeletionTimestamp = false ∧
    Contains deletedUnboundGroup.Finalizers VolumeGroupFinalizer = true ∧
    deletedUnboundGroup.Spec.Source.VolumeGroupContentName = none ∧
    exampleVGReconciler.removeInstance deletedUnboundWorld deletedUnboundGroup []
      = (deletedUnboundWorld, deletedUnboundGroup, some Err.NilPointerDereference) ∧
    (exampleVGReconciler.Reconcile removeKeepingOrder deletedUnboundWorld ("ns", "g1") 11).2
      = some Err.NilPointerDereference ∧
    (exampleVGReconciler.Reconcile removeKeepingOrder deletedUnboundWorld ("ns", "g1") 11).1.rpcs
      = [] ∧
    (exampleVGReconciler.Reconcile removeKeepingOrder deletedUnboundWorld
      ("ns", "g1") 11).1.VolumeGroups.map (fun g => g.Finalizers) = [[VolumeGroupFinalizer]] :=
  ⟨rfl, rfl, rfl, rfl, rfl, rfl, rfl, rfl⟩

/-! ## Theorems: a bound group keeps its members (C21) -/

theorem mixes_boundRecording (l : List PersistentVolumeClaim) : Mixes (BoundRecording l) :=
  ⟨fun _ _ ha hb => ⟨ha.1, ha.2.1, hb.2.2⟩, fun _ _ ha => ha, fun _ _ ha => ha⟩

theorem mixes_true : Mixes (fun _ : VolumeGroup => True) :=
  ⟨fun _ _ _ _ => trivial, fun _ _ _ => trivial, fun _ _ _ => trivial⟩

theorem Tracks.keepGroups {P : VolumeGroup → Prop} {k : String × String}
    {S : Footprint} {p : RPCRecord → Prop} {w0 w w' : World} {a : VolumeGroup}
    (h : Tracks P k S p w0 w a) (hw : Within S p w w')
    (hg : w'.VolumeGroups = w.VolumeGroups) : Tracks P k S p w0 w' a :=
  ⟨h.1.next hw, h.2.1.thenKeyed (Keyed.of_eq hg), h.2.2.1, h.2.2.2.1,
    fun g hgm hk => h.2.2.2.2 g (hg ▸ hgm) hk⟩

theorem Tracks.edit {P : VolumeGroup → Prop} {k : String × String}
    {S : Footprint} {p : RPCRecord → Prop} {w0 w : World} {a : VolumeGroup}
    (h : Tracks P k S p w0 w a) (b : VolumeGroup) (hk : vgKey b = vgKey a) (hb : P b) :
    Tracks P k S p w0 w b :=
  ⟨h.1, h.2.1, hk.trans h.2.2.1, hb, h.2.2.2.2⟩

theorem UpdateVolumeGroupSourceContent_stable {J : World → VolumeGroup → Prop} (hJ : Stable J)
    (w : World) (inst : VolumeGroup) (vgcName : String)
    (h : J w { inst with Spec := { inst.Spec with
        Source := { inst.Spec.Source with VolumeGroupContentName := some vgcName } } }) :
    J (UpdateVolumeGroupSourceContent w inst vgcName).1
      (UpdateVolumeGroupSourceContent w inst vgcName).2.1 := by
  unfold UpdateVolumeGroupSourceContent
  have h1 := UpdateObject_stable hJ w _ h
  generalize UpdateObject w
    { inst with Spec := { inst.Spec with
        Source := { inst.Spec.Source with VolumeGroupContentName := some vgcName } } } = x
    at h1 ⊢
  obtain ⟨w1, e1⟩ := x
  cases e1 <;> exact h1

theorem UpdateVolumeGroupStatus_stable {J : World → VolumeGroup → Prop} (hJ : Stable J)
    (vgc : VolumeGroupContent) (t : Option Nat) (ready : Bool)
    (hEdit : ∀ w a, J w a → J w { a with Status := { a.Status with
        BoundVolumeGroupContentName := some vgc.Name,
        GroupCreationTime := t, Ready := some ready, Error := none } })
    (w : World) (vg : VolumeGroup) (h : J w vg) :
    J (UpdateVolumeGroupStatus w vg vgc t ready).1
      (UpdateVolumeGroupStatus w vg vgc t ready).2.1 := by
  unfold UpdateVolumeGroupStatus
  have key := statusRetry_stable hJ
    (fun a => { a with Status := { a.Status with
        BoundVolumeGroupContentName := some vgc.Name,
        GroupCreationTime := t, Ready := some ready, Error := none } })
    hEdit w vg h
  dsimp only at key
  generalize RetryOnConflict (fun (s : World × VolumeGroup) =>
      match vgRetryOnConflictFunc s.1
          { s.2 with Status := { s.2.Status with
              BoundVolumeGroupContentName := some vgc.Name,
              GroupCreationTime := t, Ready := some ready, Error := none } } with
      | (w, vg, err) => ((w, vg), err)) DefaultRetry (w, vg) = r at key ⊢
  obtain ⟨⟨w', a'⟩, e⟩ := r
  cases e with
  | some err => exact key
  | none =>
    simp only at key ⊢
    have h2 := updateVolumeGroupStatus_stable hJ w' a' key
    generalize updateVolumeGroupStatus w' a' = x at h2 ⊢
    obtain ⟨w2, e2⟩ := x
    exact h2

theorem HandleErrorMessage_tracks {P : VolumeGroup → Prop} (hP : Mixes P)
    (k : String × String) (w0 w : World) (a : VolumeGroup) (err : Option Err) (reason : String)
    (h : Tracks P k allStores noRPC w0 w a) :
    Tracks P k allStores noRPC w0 (HandleErrorMessage w a err reason).1
      (HandleErrorMessage w a err reason).2.1 :=
  HandleErrorMessage_stable (Tracks.stable P hP k allStores noRPC rfl w0)
    (fun w a m h => Tracks.setError hP w a m h)
    (fun w a ev h => Tracks.event rfl w a ev h) w a err reason h

theorem updateItems_tracks (l : List PersistentVolumeClaim) (k : String × String)
    (w0 : World) (r : VolumeGroupReconciler) (w : World) (inst : VolumeGroup) (t : Option Nat)
    (vgcName : String) (h : Tracks (BoundRecording l) k allStores noRPC w0 w inst) :
    Tracks (BoundRecording l) k allStores noRPC w0 (r.updateItems w inst t vgcName).1
      (r.updateItems w inst t vgcName).2.1 := by
  have hJ := Tracks.stable _ (mixes_boundRecording l) k allStores noRPC rfl w0
  unfold VolumeGroupReconciler.updateItems GetVolumeGroupContent
  have h1 := @clientGet_readOnly VolumeGroupContent _ w "" vgcName
  generalize (clientGet w "" vgcName : World × Except Err VolumeGroupContent) = x at h1 ⊢
  obtain ⟨w1, xr⟩ := x
  have T1 := h.readOnly h1
  cases xr with
  | error err => exact HandleErrorMessage_tracks (mixes_boundRecording l) k w0 w1 inst _ _ T1
  | ok vgc =>
    dsimp only at T1 ⊢
    have T2 := UpdateVolumeGroupSourceContent_stable hJ w1 inst vgcName
      (T1.edit _ rfl ⟨T1.2.2.2.1.1, by simp, T1.2.2.2.1.2.2⟩)
    generalize UpdateVolumeGroupSourceContent w1 inst vgcName = x at T2 ⊢
    obtain ⟨w2, i2, e2⟩ := x
    dsimp only at T2
    cases e2 with
    | some err =>
      dsimp only
      have h3 := HandleVGCErrorMessage_within contentStores noRPC rfl rfl w2 vgc (some err)
        updateVGC
      generalize HandleVGCErrorMessage w2 vgc (some err) updateVGC = x at h3 ⊢
      obtain ⟨w3, c3, e3⟩ := x
      exact T2.keepGroups h3.toAll (h3.groups rfl)
    | none =>
      dsimp only
      have T3 := UpdateVolumeGroupStatus_stable hJ vgc t true
        (fun w a ha => ha.edit _ rfl ⟨ha.2.2.2.1.1, ha.2.2.2.1.2.1, ha.2.2.2.1.2.2⟩) w2 i2 T2
      generalize UpdateVolumeGroupStatus w2 i2 vgc t true = x at T3 ⊢
      obtain ⟨w3, i3, e3⟩ := x
      dsimp only at T3
      cases e3 with
      | some err => exact HandleErrorMessage_tracks (mixes_boundRecording l) k w0 w3 i3 _ _ T3
      | none =>
        dsimp only
        have h4 := AddFinalizerToVGC_within contentStores noRPC rfl w3 vgc
        generalize AddFinalizerToVGC w3 vgc = x at h4 ⊢
        obtain ⟨w4, c4, e4⟩ := x
        dsimp only at h4
        have T4 := T3.keepGroups h4.toAll (h4.groups rfl)
        cases e4 with
        | some err =>
          dsimp only
          have h5 := HandleVGCErrorMessage_within contentStores noRPC rfl rfl w4 c4 (some err)
            updateVGC
          generalize HandleVGCErrorMessage w4 c4 (some err) updateVGC = x at h5 ⊢
          obtain ⟨w5, c5, e5⟩ := x
          exact T4.keepGroups h5.toAll (h5.groups rfl)
        | none =>
          dsimp only
          have h5 := UpdateVolumeGroupContentStatus_within contentStores noRPC rfl w4 c4 t true
          generalize UpdateVolumeGroupContentStatus w4 c4 t true = x at h5 ⊢
          obtain ⟨w5, c5, e5⟩ := x
          dsimp only at h5
          have T5 := T4.keepGroups h5.toAll (h5.groups rfl)
          cases e5 with
          | some err =>
            dsimp only
            have h6 := HandleVGCErrorMessage_within contentStores noRPC rfl rfl w5 c5 (some err)
              updateStatusVGC
            generalize HandleVGCErrorMessage w5 c5 (some err) updateStatusVGC = x at h6 ⊢
            obtain ⟨w6, c6, e6⟩ := x
            exact T5.keepGroups h6.toAll (h6.groups rfl)
          | none => exact T5

theorem handleStaticProvisionedVG_tracks (l : List PersistentVolumeClaim) (k : String × String)
    (w0 : World) (r : VolumeGroupReconciler) (w : World) (inst : VolumeGroup) (t : Option Nat)
    (vgClass : VolumeGroupClass) (h : Tracks (BoundRecording l) k allStores noRPC w0 w inst) :
    Tracks (BoundRecording l) k allStores noRPC w0
      (r.handleStaticProvisionedVG w inst t vgClass).1
      (r.handleStaticProvisionedVG w inst t vgClass).2.1 ∧
    (r.handleStaticProvisionedVG w inst t vgClass).2.2.2 = true := by
  unfold VolumeGroupReconciler.handleStaticProvisionedVG
  cases hc : inst.Spec.Source.VolumeGroupContentName with
  | none => exact absurd hc h.2.2.2.1.2.1
  | some c =>
    dsimp only
    have T1 := updateItems_tracks l k w0 r w inst t c h
    generalize r.updateItems w inst t c = x at T1 ⊢
    obtain ⟨w1, i1, e1⟩ := x
    cases e1 with
    | some err => exact ⟨T1, rfl⟩
    | none =>
      dsimp only at T1 ⊢
      have h2 := UpdateStaticVGC_within contentStores noRPC rfl w1 i1 vgClass
      generalize UpdateStaticVGC w1 i1 vgClass = x at h2 ⊢
      obtain ⟨w2, e2⟩ := x
      cases e2 <;> exact ⟨T1.keepGroups h2.toAll (h2.groups rfl), rfl⟩

/-- The steps of `Reconcile` before `reconcileInstance`, with what they keep: a failed fetch
touches at most a group stored under the empty key; any other early end keeps `P` on the groups
under the request key and touches no other group; otherwise `Reconcile` is `reconcileInstance`
on the stored group in a world that differs in pending failures only. No RPC is issued. -/
theorem Reconcile_prelude_tracks {P : VolumeGroup → Prop} (hP : Mixes P) (rm : RemoveByIndex)
    (r : VolumeGroupReconciler) (w : World) (req : String × String) (now : Nat)
    (h : ∀ g ∈ w.VolumeGroups, vgKey g = req → P g) :
    (Keyed ("", "") w (r.Reconcile rm w req now).1 ∧ (r.Reconcile rm w req now).1.rpcs = w.rpcs) ∨
    (∃ a, Tracks P req allStores noRPC w (r.Reconcile rm w req now).1 a) ∨
    ∃ w1 inst vgClass parameters secret, ReadOnly w w1 ∧ inst ∈ w.VolumeGroups ∧
      vgKey inst = req ∧
      r.Reconcile rm w req now = r.reconcileInstance rm w1 inst vgClass parameters secret now := by
  unfold VolumeGroupReconciler.Reconcile
  obtain ⟨h1, hin⟩ := clientGet_vg_spec w req.1 req.2
  generalize (clientGet w req.1 req.2 : World × Except Err VolumeGroup) = x at h1 hin ⊢
  obtain ⟨w1, xr⟩ := x
  dsimp only at h1
  have hg1 : w1.VolumeGroups = w.VolumeGroups := by obtain ⟨f, rfl⟩ := h1; rfl
  cases xr with
  | error err =>
    left
    dsimp only
    split
    · exact ⟨Keyed.of_eq hg1, h1.sameRPCs⟩
    · have T0 : Tracks (fun _ : VolumeGroup => True) ("", "") allStores noRPC w1 w1 {} :=
        ⟨Within.noChange _ _ _, Keyed.identity _ _, rfl, trivial, fun _ _ _ => trivial⟩
      have h2 := HandleErrorMessage_tracks mixes_true ("", "") w1 w1 {} (some err) vgReconcile T0
      generalize HandleErrorMessage w1 {} (some err) vgReconcile = x at h2 ⊢
      obtain ⟨w2, i2, e2⟩ := x
      exact ⟨(Keyed.of_eq hg1).thenKeyed h2.2.1, h2.1.rpcs_eq.trans h1.sameRPCs⟩
  | ok inst =>
    dsimp only at hin ⊢
    obtain ⟨hmem, hkey⟩ := hin inst rfl
    have T1 : Tracks P req allStores noRPC w w1 inst :=
      ⟨h1.within _ _, Keyed.of_eq hg1, hkey, h inst hmem hkey, fun g hg hk => h g (hg1 ▸ hg) hk⟩
    have h2 := GetVolumeGroupClass_readOnly w1 inst.Spec.VolumeGroupClassName
    generalize GetVolumeGroupClass w1 inst.Spec.VolumeGroupClassName = x at h2 ⊢
    obtain ⟨w2, xr⟩ := x
    dsimp only at h2
    have T2 := T1.readOnly h2
    cases xr with
    | error err =>
      right; left
      dsimp only
      have h3 := HandleErrorMessage_tracks hP req w w2 inst (some err) vgReconcile T2
      generalize HandleErrorMessage w2 inst (some err) vgReconcile = x at h3 ⊢
      obtain ⟨w3, i3, e3⟩ := x
      exact ⟨i3, h3⟩
    | ok vgClass =>
      dsimp only
      split
      · exact Or.inr (Or.inl ⟨inst, T2⟩)
      · cases hv : ValidatePrefixedParameters vgClass.Parameters with
        | some err =>
          right; left
          dsimp only
          have h3 := UpdateVolumeGroupStatusError_stable
            (Tracks.stable P hP req allStores noRPC rfl w)
            (fun w a m h => Tracks.setError hP w a m h) w2 inst err.Error T2
          generalize UpdateVolumeGroupStatusError w2 inst err.Error = x at h3 ⊢
          obtain ⟨w3, i3, e3⟩ := x
          cases e3 <;> exact ⟨i3, h3⟩
        | none =>
          dsimp only
          have h3 := GetSecretDataFromClass_readOnly w2 vgClass
          generalize GetSecretDataFromClass w2 vgClass = x at h3 ⊢
          obtain ⟨w3, xr⟩ := x
          dsimp only at h3
          cases xr with
          | error err =>
            right; left
            dsimp only
            have h4 := HandleErrorMessage_tracks hP req w w3 inst (some err) vgReconcile
              (T2.readOnly h3)
            generalize HandleErrorMessage w3 inst (some err) vgReconcile = x at h4 ⊢
            obtain ⟨w4, i4, e4⟩ := x
            exact ⟨i4, h4⟩
          | ok secret =>
            right; right
            exact ⟨w3, inst, vgClass, _, secret, h1.andThen (h2.andThen h3), hmem, hkey, rfl⟩

theorem reconcileInstance_bound_tracks (l : List PersistentVolumeClaim) (rm : RemoveByIndex)
    (r : VolumeGroupReconciler) (w0 w1 : World) (inst : VolumeGroup) (vgClass : VolumeGroupClass)
    (ps secret : List (String × String)) (now : Nat) (k : String × String)
    (h : Tracks (BoundRecording l) k allStores noRPC w0 w1 inst) :
    ∃ a, Tracks (BoundRecording l) k allStores noRPC w0
      (r.reconcileInstance rm w1 inst vgClass ps secret now).1 a := by
  have hA := AddFinalizerToVG_stable
    (Tracks.stable _ (mixes_boundRecording l) k allStores noRPC rfl w0) w1 inst h
  unfold VolumeGroupReconciler.reconcileInstance
  rw [h.2.2.2.1.1]
  simp only [IsZero, if_true]
  generalize AddFinalizerToVG w1 inst = x at hA ⊢
  obtain ⟨w2, i2, e2⟩ := x
  dsimp only at hA
  cases e2 with
  | some err =>
    dsimp only
    have h3 := HandleErrorMessage_tracks (mixes_boundRecording l) k w0 w2 i2 (some err) createVG
      hA
    generalize HandleErrorMessage w2 i2 (some err) createVG = x at h3 ⊢
    obtain ⟨w3, i3, e3⟩ := x
    exact ⟨i3, h3⟩
  | none =>
    dsimp only
    obtain ⟨h3, hb⟩ := handleStaticProvisionedVG_tracks l k w0 r w2 i2 (some now) vgClass hA
    generalize r.handleStaticProvisionedVG w2 i2 (some now) vgClass = x at h3 hb ⊢
    obtain ⟨w3, i3, e3, b⟩ := x
    dsimp only at h3 hb
    subst hb
    simp only [if_true]
    exact ⟨i3, h3⟩

/-- C21, as the code has it: when the stored groups have distinct keys and non-empty names, and
the group under the request key has no deletion timestamp and has
`spec.source.volumeGroupContentName` set (which every Ready group has), `Reconcile` issues no
RPC, so no ModifyGroup, and every stored group keeps its key and its `status.pvcList`, whatever
the selector of the group matches and whatever fails on the way. -/
theorem Reconcile_bound_group_keeps_pvcList (rm : RemoveByIndex) (r : VolumeGroupReconciler)
    (w : World) (req : String × String) (now : Nat)
    (hkeys : (w.VolumeGroups.map vgKey).Nodup)
    (hnames : ∀ g ∈ w.VolumeGroups, g.Name ≠ "")
    (h : ∀ g ∈ w.VolumeGroups, vgKey g = req →
      g.DeletionTimestamp = none ∧ g.Spec.Source.VolumeGroupContentName ≠ none) :
    (r.Reconcile rm w req now).1.rpcs = w.rpcs ∧
    ∃ f : VolumeGroup → VolumeGroup,
      (r.Reconcile rm w req now).1.VolumeGroups = w.VolumeGroups.map f ∧
      ∀ g ∈ w.VolumeGroups, vgKey (f g) = vgKey g ∧
        (f g).Status.PVCList = g.Status.PVCList ∧ (vgKey g ≠ req → f g = g) := by
  by_cases hex : ∃ g0 ∈ w.VolumeGroups, vgKey g0 = req
  · obtain ⟨g0, hg0, hk0⟩ := hex
    have hP : ∀ g ∈ w.VolumeGroups, vgKey g = req → BoundRecording g0.Status.PVCList g := by
      intro g hg hk
      rw [eq_of_vgKey_eq hkeys hg hg0 (hk.trans hk0.symm)]
      exact ⟨(h g0 hg0 hk0).1, (h g0 hg0 hk0).2, rfl⟩
    have fromTracks : ∀ (w' : World) (a : VolumeGroup),
        Tracks (BoundRecording g0.Status.PVCList) req allStores noRPC w w' a →
        w'.rpcs = w.rpcs ∧ ∃ f : VolumeGroup → VolumeGroup,
          w'.VolumeGroups = w.VolumeGroups.map f ∧
          ∀ g ∈ w.VolumeGroups, vgKey (f g) = vgKey g ∧
            (f g).Status.PVCList = g.Status.PVCList ∧ (vgKey g ≠ req → f g = g) := by
      rintro w' a ⟨hw, ⟨f, hf, pf⟩, _, _, hst⟩
      refine ⟨hw.rpcs_eq, f, hf, fun g hg => ⟨(pf g).1, ?_, (pf g).2⟩⟩
      by_cases hk : vgKey g = req
      · have hfg : f g ∈ w'.VolumeGroups := by rw [hf]; exact List.mem_map_of_mem _ hg
        rw [(hst (f g) hfg ((pf g).1.trans hk)).2.2,
          eq_of_vgKey_eq hkeys hg hg0 (hk.trans hk0.symm)]
      · rw [(pf g).2 hk]
    rcases Reconcile_prelude_tracks (mixes_boundRecording g0.Status.PVCList) rm r w req now hP
      with ⟨⟨f, hf, pf⟩, hr⟩ | ⟨a, hT⟩ | ⟨w1, inst, vgClass, ps, secret, hro, hmem, hkey, heq⟩
    · refine ⟨hr, f, hf, fun g hg => ?_⟩
      have hne : vgKey g ≠ ("", "") := fun hk => hnames g hg (congrArg Prod.snd hk)
      rw [(pf g).2 hne]
      exact ⟨rfl, rfl, fun _ => rfl⟩
    · exact fromTracks _ a hT
    · rw [heq]
      have hg1 : w1.VolumeGroups = w.VolumeGroups := by obtain ⟨f, rfl⟩ := hro; rfl
      have T1 : Tracks (BoundRecording g0.Status.PVCList) req allStores noRPC w w1 inst :=
        ⟨hro.within _ _, Keyed.of_eq hg1, hkey, hP inst hmem hkey,
          fun g hg hk => hP g (hg1 ▸ hg) hk⟩
      obtain ⟨a, hT⟩ := reconcileInstance_bound_tracks g0.Status.PVCList rm r w w1 inst vgClass
        ps secret now req T1
      exact fromTracks _ a hT
  · have hP : ∀ g ∈ w.VolumeGroups, vgKey g = req → False :=
      fun g hg hk => hex ⟨g, hg, hk⟩
    have hM : Mixes (fun _ : VolumeGroup => False) :=
      ⟨fun _ _ ha _ => ha, fun _ _ ha => ha, fun _ _ ha => ha⟩
    rcases Reconcile_prelude_tracks hM rm r w req now hP
      with ⟨⟨f, hf, pf⟩, hr⟩ | ⟨a, hT⟩ | ⟨w1, inst, vgClass, ps, secret, hro, hmem, hkey, heq⟩
    · refine ⟨hr, f, hf, fun g hg => ?_⟩
      have hne : vgKey g ≠ ("", "") := fun hk => hnames g hg (congrArg Prod.snd hk)
      rw [(pf g).2 hne]
      exact ⟨rfl, rfl, fun _ => rfl⟩
    · exact absurd hT.2.2.2.1 (fun h => h)
    · exact absurd (hP inst hmem hkey) (fun h => h)

/-- C21 witness: the Ready group that records two claims its selector no longer matches. The
reconcile issues no RPC and the group keeps both claims, although `removeVolumesFromVG`, the
step that the reconcile does not reach, would issue ModifyGroup and drop them. -/
theorem Reconcile_bound_group_keeps_pvcList_witness :
    (twoDriftedWorld.VolumeGroups.map vgKey).Nodup ∧
    (∀ g ∈ twoDriftedWorld.VolumeGroups, g.Name ≠ "") ∧
    (∀ g ∈ twoDriftedWorld.VolumeGroups, vgKey g = ("ns", "g1") →
      g.DeletionTimestamp = none ∧ g.Spec.Source.VolumeGroupContentName ≠ none) ∧
    (exampleVGReconciler.Reconcile removeKeepingOrder twoDriftedWorld ("ns", "g1") 7).1.rpcs
      = twoDriftedWorld.rpcs ∧
    (exampleVGReconciler.removeVolumesFromVG removeKeepingOrder twoDriftedWorld
      twoDriftedGroup).1.rpcs = [{ call := RPC.ModifyVolumeGroup "handle-1" [] }] ∧
    (exampleVGReconciler.removeVolumesFromVG removeKeepingOrder twoDriftedWorld
      twoDriftedGroup).1.VolumeGroups.map (fun g => g.Status.PVCList) = [[]] :=
  ⟨by decide, by decide, by decide,
    (Reconcile_bound_group_keeps_pvcList removeKeepingOrder exampleVGReconciler twoDriftedWorld
      ("ns", "g1") 7 (by decide) (by decide) (by decide)).1, rfl, rfl⟩

/-- C21, evaluated where it fails: the group is Ready, its content name was set by an earlier
reconcile, and its `status.pvcList` records claim `p1`, which its selector no longer matches.
`Reconcile` returns nil, issues no ModifyGroup and leaves both claims recorded. -/
theorem Reconcile_ready_group_drift_counterexample :
    twoDriftedGroup.Status.Ready = some true ∧
    twoDriftedGroup.Spec.Source.VolumeGroupContentName = some "vgc1" ∧
    IsPVCPartOfVG driftedClaim twoDriftedGroup.Status.PVCList = true ∧
    IsPVCMatchesVG driftedClaim twoDriftedGroup = (false, none) ∧
    (exampleVGReconciler.Reconcile removeKeepingOrder twoDriftedWorld ("ns", "g1") 7).2 = none ∧
    (exampleVGReconciler.Reconcile removeKeepingOrder twoDriftedWorld ("ns", "g1") 7).1.rpcs
      = [] ∧
    (exampleVGReconciler.Reconcile removeKeepingOrder twoDriftedWorld
      ("ns", "g1") 7).1.VolumeGroups.map (fun g => g.Status.PVCList)
        = [[driftedClaim, driftedClaim2]] :=
  ⟨rfl, rfl, rfl, rfl, rfl, rfl, rfl⟩

/-! ## Evaluations: the removal loop of the VolumeGroup reconciler (C22) -/

/-- C22, evaluated where it fails: `removeUnMatchedVolumes` is given the two relabelled claims of
the group. It returns nil, and the stored `status.pvcList` has lost both claims, but only the
volume of the first claim left the `pvList` of the content and only the first claim lost its
finalizer: the loop over `pvcs` returns at the end of its first iteration. The result is the
same with an order-preserving and with a swap-with-last `removeByIndexFromPVCList`. -/
theorem removeUnMatchedVolumes_cleans_first_claim_only :
    (exampleVGReconciler.removeUnMatchedVolumes removeKeepingOrder twoDriftedWorld
      [driftedClaim, driftedClaim2] twoDriftedGroup).2.2 = none ∧
    (exampleVGReconciler.removeUnMatchedVolumes removeKeepingOrder twoDriftedWorld
      [driftedClaim, driftedClaim2] twoDriftedGroup).1.VolumeGroups.map
        (fun g => g.Status.PVCList) = [[]] ∧
    (exampleVGReconciler.removeUnMatchedVolumes removeKeepingOrder twoDriftedWorld
      [driftedClaim, driftedClaim2] twoDriftedGroup).1.VolumeGroupContents.map
        (fun c => c.PVList.map (fun pv => pv.Name)) = [["pv2"]] ∧
    (exampleVGReconciler.removeUnMatchedVolumes removeKeepingOrder twoDriftedWorld
      [driftedClaim, driftedClaim2] twoDriftedGroup).1.PersistentVolumeClaims.map
        (fun pvc => (pvc.Name, pvc.Finalizers))
      = [("p1", []), ("p2", [pvcVolumeGroupFinalizer])] ∧
    (GetVGList (exampleVGReconciler.removeUnMatchedVolumes removeKeepingOrder twoDriftedWorld
      [driftedClaim, driftedClaim2] twoDriftedGroup).1 "csi.example.com").2.1.map
        (fun g => IsPVCPartOfVG driftedClaim2 g.Status.PVCList) = [false] ∧
    (exampleVGReconciler.removeUnMatchedVolumes removeSwappingLast twoDriftedWorld
      [driftedClaim, driftedClaim2] twoDriftedGroup).2.2 = none ∧
    (exampleVGReconciler.removeUnMatchedVolumes removeSwappingLast twoDriftedWorld
      [driftedClaim, driftedClaim2] twoDriftedGroup).1.VolumeGroupContents.map
        (fun c => c.PVList.map (fun pv => pv.Name)) = [["pv2"]] ∧
    (exampleVGReconciler.removeUnMatchedVolumes removeSwappingLast twoDriftedWorld
      [driftedClaim, driftedClaim2] twoDriftedGroup).1.PersistentVolumeClaims.map
        (fun pvc => (pvc.Name, pvc.Finalizers))
      = [("p1", []), ("p2", [pvcVolumeGroupFinalizer])] :=
  ⟨rfl, rfl, rfl, rfl, rfl, rfl, rfl, rfl⟩

end CSIVolumeGroup
